import Mathlib

/-!
# Verification of the c-rbtree red-black tree implementation

This file gives a shallow embedding of `src/c-rbtree.c` (the intrusive
red-black tree of the c-rbtree library) and proves properties of the
embedded code.

## The memory model

Nodes live in a heap, addressed by natural-number identifiers.  A `CRBNode`
in C has three fields: `__parent_and_flags` (a parent pointer bit-packed
with the `C_RBNODE_RED` color bit and the `C_RBNODE_ROOT` marker bit),
`left`, and `right`.  We model the packed word as its decoded triple: the
pointer part (`Raw`), the red bit, and the root bit.  The pointer part of
`__parent_and_flags` can hold a node pointer, a `CRBTree` back-reference
(on the root node), or NULL, hence `Raw` has three constructors; since
every claim concerns a single tree, the tree handle is modelled as one
distinguished `root` cell in the state.

C functions that can dereference NULL (or that contain loops, which
diverge on a corrupted cyclic heap) return `Option`: `none` models
undefined behavior or divergence, and loops take explicit fuel.
-/

/-- Node identifier: models a `CRBNode *` that is known to be non-NULL.
A nullable pointer is `Option NodeId`. -/
abbrev NodeId := Nat

/-- The pointer part of `__parent_and_flags`: NULL, a node pointer, or the
`CRBTree` back-reference stored in the root node. -/
inductive Raw where
  | null : Raw
  | node (i : NodeId) : Raw
  | tree : Raw
deriving DecidableEq, Repr

/-- Decoded contents of a `CRBNode`: the pointer part and the two flag bits
of `__parent_and_flags`, plus the `left` and `right` child pointers. -/
structure NodeData where
  raw : Raw
  red : Bool
  rootFlag : Bool
  left : Option NodeId
  right : Option NodeId
deriving DecidableEq, Repr

/-- The mutable state: the contents of every node, plus the single tree
handle's `root` field (`t->root`). -/
structure Heap where
  mem : NodeId → NodeData
  root : Option NodeId

/-- Modelled from the spec: `C_RBNODE_INIT(n)` initializes a node so that
its upward link points to the node itself with no flags set and both child
links empty (a self-consistent unlinked state; the header is not part of
the sources given, so this follows §3 "Lifecycle" and the `C_RBNODE_INIT`
usage in `test-api.c`). -/
def c_rbnode_init_data (i : NodeId) : NodeData :=
  { raw := Raw.node i, red := false, rootFlag := false, left := none, right := none }

/-- Modelled from the spec: `c_rbnode_init(n)` resets a node to the
unlinked state (§6 "reinitialize a node to the unlinked state"). -/
def c_rbnode_init (h : Heap) (i : NodeId) : Heap :=
  { h with mem := fun j => if j = i then c_rbnode_init_data i else h.mem j }

/-- Modelled from the spec: `c_rbnode_raw(n)`, the pointer part of
`__parent_and_flags` with the two flag bits masked off (§3 upward link). -/
def c_rbnode_raw (h : Heap) (i : NodeId) : Raw :=
  (h.mem i).raw

/-- Modelled from the spec: `c_rbnode_is_root(n)`, the `C_RBNODE_ROOT`
marker bit (§3: root-marker flag disambiguates the tree back-reference). -/
def c_rbnode_is_root (h : Heap) (i : NodeId) : Bool :=
  (h.mem i).rootFlag

/-- Modelled from the spec: `c_rbnode_is_red(n)`, the `C_RBNODE_RED` bit. -/
def c_rbnode_is_red (h : Heap) (i : NodeId) : Bool :=
  (h.mem i).red

/-- Modelled from the spec: `c_rbnode_is_black(n)`, the negated color bit
(§3: every node is red or black, so black is exactly not-red). -/
def c_rbnode_is_black (h : Heap) (i : NodeId) : Bool :=
  !(h.mem i).red

/-- Modelled from the spec: `c_rbnode_is_linked(n)` is true iff `n` is
non-NULL and its raw upward link does not point back to `n` itself (the
unlinked state of §3; `test-api.c` checks `is_linked` is false exactly on
freshly initialized nodes, and stays true after stale removal). -/
def c_rbnode_is_linked (h : Heap) : Option NodeId → Bool
  | none => false
  | some i => c_rbnode_raw h i ≠ Raw.node i

/-- Interpret a raw upward link as a (possibly NULL) node pointer.  A tree
back-reference is only ever stored together with the root-marker bit, and
`c_rbnode_parent` checks that bit first, so the `Raw.tree` case is
unreachable from consistent states; it is mapped to NULL. -/
def Raw.asNode : Raw → Option NodeId
  | Raw.null => none
  | Raw.node i => some i
  | Raw.tree => none

/-- Modelled from the spec: `c_rbnode_parent(n)` returns NULL on the root
node (whose upward link holds the tree back-reference, §4.4), and the raw
upward link otherwise. -/
def c_rbnode_parent (h : Heap) (i : NodeId) : Option NodeId :=
  if c_rbnode_is_root h i then none else (c_rbnode_raw h i).asNode

/-! ## Store primitives (from `c-rbtree.c`) -/

/-- Update one node's record in the heap. -/
def Heap.upd (h : Heap) (i : NodeId) (d : NodeData) : Heap :=
  { h with mem := fun j => if j = i then d else h.mem j }

/-- `c_rbtree_store(&n->left, v)`: volatile store to a left-child link
(the volatility only matters to concurrent readers, which the memory
model here does not include). -/
def storeLeft (h : Heap) (i : NodeId) (v : Option NodeId) : Heap :=
  h.upd i { h.mem i with left := v }

/-- `c_rbtree_store(&n->right, v)`. -/
def storeRight (h : Heap) (i : NodeId) (v : Option NodeId) : Heap :=
  h.upd i { h.mem i with right := v }

/-- `c_rbtree_store(&t->root, v)`. -/
def storeRoot (h : Heap) (v : Option NodeId) : Heap :=
  { h with root := v }

/-- `c_rbnode_set_parent_and_flags(n, p, flags)`: plain assignment of the
whole `__parent_and_flags` word, i.e. of the decoded triple. -/
def c_rbnode_set_parent_and_flags (h : Heap) (i : NodeId) (p : Raw)
    (red : Bool) (rootFlag : Bool) : Heap :=
  h.upd i { h.mem i with raw := p, red := red, rootFlag := rootFlag }

/-- `c_rbnode_pop_root(n)`: if `n` carries the root marker, strip the tree
back-reference (the parent word keeps only its flags minus `C_RBNODE_ROOT`,
so the raw part becomes NULL) and return the tree; otherwise return NULL.
The returned `Bool` models the returned `CRBTree *` (there is only one
tree). -/
def c_rbnode_pop_root (h : Heap) (i : NodeId) : Heap × Bool :=
  if c_rbnode_is_root h i then
    (c_rbnode_set_parent_and_flags h i Raw.null (c_rbnode_is_red h i) false, true)
  else
    (h, false)

/-- `c_rbnode_push_root(n, t)`: if a tree was captured, store the tree
back-reference (plus the root marker) into `n` when `n` is non-NULL, and
store `n` into `t->root`. -/
def c_rbnode_push_root (h : Heap) (n : Option NodeId) (t : Bool) : Heap :=
  if t then
    let h1 := match n with
      | some i => c_rbnode_set_parent_and_flags h i Raw.tree (c_rbnode_is_red h i) true
      | none => h
    storeRoot h1 n
  else
    h

/-- `c_rbnode_swap_child(old, new)`: redirect the parent of `old` to point
to `new` in whichever child slot currently holds `old`; does nothing when
`old` has no parent. -/
def c_rbnode_swap_child (h : Heap) (old : NodeId) (nw : Option NodeId) : Heap :=
  match c_rbnode_parent h old with
  | none => h
  | some p =>
      if (h.mem p).left = some old then storeLeft h p nw
      else storeRight h p nw

/-! ## Traversal engine (from `c-rbtree.c`)

Loops take fuel; running out of fuel yields `none`, which on a
well-formed heap never happens once the fuel exceeds the tree height. -/

/-- Loop body of `c_rbnode_leftmost`: descend `left` links. -/
def leftmostGo (h : Heap) : Nat → NodeId → Option NodeId
  | 0, _ => none
  | fuel + 1, i =>
      match (h.mem i).left with
      | none => some i
      | some j => leftmostGo h fuel j

/-- `c_rbnode_leftmost(n)`: NULL-safe leftmost descent. -/
def c_rbnode_leftmost (h : Heap) (fuel : Nat) : Option NodeId → Option (Option NodeId)
  | none => some none
  | some i => (leftmostGo h fuel i).map some

/-- Loop body of `c_rbnode_rightmost`: descend `right` links. -/
def rightmostGo (h : Heap) : Nat → NodeId → Option NodeId
  | 0, _ => none
  | fuel + 1, i =>
      match (h.mem i).right with
      | none => some i
      | some j => rightmostGo h fuel j

/-- `c_rbnode_rightmost(n)`: NULL-safe rightmost descent. -/
def c_rbnode_rightmost (h : Heap) (fuel : Nat) : Option NodeId → Option (Option NodeId)
  | none => some none
  | some i => (rightmostGo h fuel i).map some

/-- Loop body of `c_rbnode_leftdeepest`: descend left when possible, else
right, until a leaf is reached. -/
def leftdeepestGo (h : Heap) : Nat → NodeId → Option NodeId
  | 0, _ => none
  | fuel + 1, i =>
      match (h.mem i).left with
      | some j => leftdeepestGo h fuel j
      | none =>
          match (h.mem i).right with
          | some j => leftdeepestGo h fuel j
          | none => some i

/-- `c_rbnode_leftdeepest(n)`: NULL-safe left-deepest descent. -/
def c_rbnode_leftdeepest (h : Heap) (fuel : Nat) : Option NodeId → Option (Option NodeId)
  | none => some none
  | some i => (leftdeepestGo h fuel i).map some

/-- Loop body of `c_rbnode_rightdeepest`. -/
def rightdeepestGo (h : Heap) : Nat → NodeId → Option NodeId
  | 0, _ => none
  | fuel + 1, i =>
      match (h.mem i).right with
      | some j => rightdeepestGo h fuel j
      | none =>
          match (h.mem i).left with
          | some j => rightdeepestGo h fuel j
          | none => some i

/-- `c_rbnode_rightdeepest(n)`: NULL-safe right-deepest descent. -/
def c_rbnode_rightdeepest (h : Heap) (fuel : Nat) : Option NodeId → Option (Option NodeId)
  | none => some none
  | some i => (rightdeepestGo h fuel i).map some

/-- Upward loop of `c_rbnode_next`: `while ((p = parent(n)) && n == p->right) n = p`. -/
def nextUpGo (h : Heap) : Nat → NodeId → Option (Option NodeId)
  | 0, _ => none
  | fuel + 1, i =>
      match c_rbnode_parent h i with
      | none => some none
      | some p =>
          if some i = (h.mem p).right then nextUpGo h fuel p
          else some (some p)

/-- `c_rbnode_next(n)`: in-order successor; NULL on NULL, unlinked nodes,
and the last node. -/
def c_rbnode_next (h : Heap) (fuel : Nat) (n : Option NodeId) : Option (Option NodeId) :=
  if !c_rbnode_is_linked h n then some none
  else
    match n with
    | none => some none
    | some i =>
        match (h.mem i).right with
        | some r => c_rbnode_leftmost h fuel (some r)
        | none => nextUpGo h fuel i

/-- Upward loop of `c_rbnode_prev`. -/
def prevUpGo (h : Heap) : Nat → NodeId → Option (Option NodeId)
  | 0, _ => none
  | fuel + 1, i =>
      match c_rbnode_parent h i with
      | none => some none
      | some p =>
          if some i = (h.mem p).left then prevUpGo h fuel p
          else some (some p)

/-- `c_rbnode_prev(n)`: in-order predecessor; NULL on NULL, unlinked
nodes, and the first node. -/
def c_rbnode_prev (h : Heap) (fuel : Nat) (n : Option NodeId) : Option (Option NodeId) :=
  if !c_rbnode_is_linked h n then some none
  else
    match n with
    | none => some none
    | some i =>
        match (h.mem i).left with
        | some l => c_rbnode_rightmost h fuel (some l)
        | none => prevUpGo h fuel i

/-- `c_rbnode_next_postorder(n)`: next node of a left-to-right post-order
traversal; NULL on NULL, unlinked nodes, and the root. -/
def c_rbnode_next_postorder (h : Heap) (fuel : Nat) (n : Option NodeId) :
    Option (Option NodeId) :=
  if !c_rbnode_is_linked h n then some none
  else
    match n with
    | none => some none
    | some i =>
        match c_rbnode_parent h i with
        | none => some none
        | some p =>
            match (h.mem p).right with
            | some r =>
                if some i = (h.mem p).left then c_rbnode_leftdeepest h fuel (some r)
                else some (some p)
            | none => some (some p)

/-- Upward loop of `c_rbnode_prev_postorder`: climb while no ancestor has
a left child different from the node just climbed from. -/
def prevPostGo (h : Heap) : Nat → NodeId → Option (Option NodeId)
  | 0, _ => none
  | fuel + 1, i =>
      match c_rbnode_parent h i with
      | none => some none
      | some p =>
          match (h.mem p).left with
          | some pl =>
              if pl ≠ i then some (some pl)
              else prevPostGo h fuel p
          | none => prevPostGo h fuel p

/-- `c_rbnode_prev_postorder(n)`: previous node of a left-to-right
post-order traversal; NULL on NULL, unlinked nodes, and the left-deepest
node. -/
def c_rbnode_prev_postorder (h : Heap) (fuel : Nat) (n : Option NodeId) :
    Option (Option NodeId) :=
  if !c_rbnode_is_linked h n then some none
  else
    match n with
    | none => some none
    | some i =>
        match (h.mem i).right with
        | some r => some (some r)
        | none =>
            match (h.mem i).left with
            | some l => some (some l)
            | none => prevPostGo h fuel i

/-- `c_rbtree_first(t)`: leftmost node of the tree. -/
def c_rbtree_first (h : Heap) (fuel : Nat) : Option (Option NodeId) :=
  c_rbnode_leftmost h fuel h.root

/-- `c_rbtree_last(t)`: rightmost node of the tree. -/
def c_rbtree_last (h : Heap) (fuel : Nat) : Option (Option NodeId) :=
  c_rbnode_rightmost h fuel h.root

/-- `c_rbtree_first_postorder(t)`: left-deepest node of the tree. -/
def c_rbtree_first_postorder (h : Heap) (fuel : Nat) : Option (Option NodeId) :=
  c_rbnode_leftdeepest h fuel h.root

/-- `c_rbtree_last_postorder(t)`: the root itself. -/
def c_rbtree_last_postorder (h : Heap) : Option NodeId :=
  h.root

/-! ## Insertion engine (from `c-rbtree.c`) -/

/-- Pass a possibly-NULL node pointer as the parent argument of
`c_rbnode_set_parent_and_flags` (NULL becomes a null raw word). -/
def rawOf : Option NodeId → Raw
  | none => Raw.null
  | some j => Raw.node j

/-- The guarded reparenting idiom `if (x) set_parent_and_flags(x, p, flags & ~RED)`:
reparent the (possibly absent) node `x` under `pnew` and clear its red bit. -/
def reparentBlack (h : Heap) (x : Option NodeId) (pnew : NodeId) : Heap :=
  match x with
  | some xx => c_rbnode_set_parent_and_flags h xx (Raw.node pnew) false
      ((h.mem xx).rootFlag)
  | none => h

/-- The guarded reparenting idiom `if (y) set_parent_and_flags(y, p, flags)`:
reparent the (possibly absent) node `y` under `pnew` keeping its flags. -/
def reparentKeep (h : Heap) (x : Option NodeId) (pnew : NodeId) : Heap :=
  match x with
  | some xx => c_rbnode_set_parent_and_flags h xx (Raw.node pnew) ((h.mem xx).red)
      ((h.mem xx).rootFlag)
  | none => h

/-- Case 4 of the insertion fixup, left orientation: rotate the inner red
grandchild `n` above its red parent `p`. -/
def c_rbtree_paint_case4_left (h : Heap) (n p : NodeId) : Heap :=
  let x := (h.mem n).left
  let h1 := storeRight h p x
  let h2 := storeLeft h1 n (some p)
  let h3 := reparentBlack h2 x p
  c_rbnode_set_parent_and_flags h3 p (Raw.node n) true ((h3.mem p).rootFlag)

/-- Case 5 of the insertion fixup, left orientation: rotate the outer red
child `p5` above the black grandparent `g` and swap their colors; `gg` is
the great-grandparent read before any store. -/
def c_rbtree_paint_case5_left (h : Heap) (p5 g : NodeId) (gg : Option NodeId) : Heap :=
  let x := (h.mem p5).right
  let hp := c_rbnode_pop_root h g
  let h6 := hp.1
  let t := hp.2
  let h7 := storeLeft h6 g x
  let h8 := storeRight h7 p5 (some g)
  let h9 := c_rbnode_swap_child h8 g (some p5)
  let h10 := reparentBlack h9 x g
  let h11 := c_rbnode_set_parent_and_flags h10 p5 (rawOf gg) false
      ((h10.mem p5).rootFlag)
  let h12 := c_rbnode_set_parent_and_flags h11 g (Raw.node p5) true
      ((h11.mem g).rootFlag)
  c_rbnode_push_root h12 (some p5) t

def c_rbtree_paint_rot_left (h : Heap) (n p g : NodeId) (gg : Option NodeId) : Heap :=
  let s0 : Heap × NodeId :=
    if some n = (h.mem p).right then (c_rbtree_paint_case4_left h n p, n)
    else (h, p)
  c_rbtree_paint_case5_left s0.1 s0.2 g gg

/-- Case 4 of the insertion fixup, right orientation (mirror). -/
def c_rbtree_paint_case4_right (h : Heap) (n p : NodeId) : Heap :=
  let x := (h.mem n).right
  let h1 := storeLeft h p ((h.mem n).right)
  let h2 := storeRight h1 n (some p)
  let h3 := reparentBlack h2 x p
  c_rbnode_set_parent_and_flags h3 p (Raw.node n) true ((h3.mem p).rootFlag)

/-- Case 5 of the insertion fixup, right orientation (mirror). -/
def c_rbtree_paint_case5_right (h : Heap) (p5 g : NodeId) (gg : Option NodeId) : Heap :=
  let x := (h.mem p5).left
  let hp := c_rbnode_pop_root h g
  let h6 := hp.1
  let t := hp.2
  let h7 := storeRight h6 g x
  let h8 := storeLeft h7 p5 (some g)
  let h9 := c_rbnode_swap_child h8 g (some p5)
  let h10 := reparentBlack h9 x g
  let h11 := c_rbnode_set_parent_and_flags h10 p5 (rawOf gg) false
      ((h10.mem p5).rootFlag)
  let h12 := c_rbnode_set_parent_and_flags h11 g (Raw.node p5) true
      ((h11.mem g).rootFlag)
  c_rbnode_push_root h12 (some p5) t

def c_rbtree_paint_rot_right (h : Heap) (n p g : NodeId) (gg : Option NodeId) : Heap :=
  let s0 : Heap × NodeId :=
    if some n = (h.mem p).left then (c_rbtree_paint_case4_right h n p, n)
    else (h, p)
  c_rbtree_paint_case5_right s0.1 s0.2 g gg

/-- Case 3 of the insertion fixup (identical in both orientations):
recolor the red parent and red uncle black and the grandparent red, then
recurse on the grandparent. -/
def c_rbtree_paint_case3 (h : Heap) (p u g : NodeId) : Heap :=
  let h1 := c_rbnode_set_parent_and_flags h p (Raw.node g) false
      ((h.mem p).rootFlag)
  let h2 := c_rbnode_set_parent_and_flags h1 u (Raw.node g) false
      ((h1.mem u).rootFlag)
  c_rbnode_set_parent_and_flags h2 g (c_rbnode_raw h2 g) true
      ((h2.mem g).rootFlag)

/-- `c_rbtree_paint_one(n)`: repaint or rotate once; returns the updated
heap together with the next node to repaint (NULL when done), or `none`
when the source would dereference NULL. -/
def c_rbtree_paint_one (h : Heap) (n : NodeId) : Option (Heap × Option NodeId) :=
  match c_rbnode_parent h n with
  | none =>
      /- Case 1: repaint the root black. -/
      some (c_rbnode_set_parent_and_flags h n (c_rbnode_raw h n) false
              (c_rbnode_is_root h n), none)
  | some p =>
      if c_rbnode_is_black h p then
        /- Case 2: parent already black. -/
        some (h, none)
      else
        /- the parent is red, so the source dereferences c_rbnode_parent(p)
           without a check -/
        match c_rbnode_parent h p with
        | none => none
        | some g =>
            if (h.mem g).left = some p then
              match (h.mem g).right with
              | some u =>
                  if c_rbnode_is_red h u then
                    some (c_rbtree_paint_case3 h p u g, some g)
                  else
                    some (c_rbtree_paint_rot_left h n p g (c_rbnode_parent h g), none)
              | none =>
                  some (c_rbtree_paint_rot_left h n p g (c_rbnode_parent h g), none)
            else
              /- mirrored: the parent is the right child of the grandparent -/
              match (h.mem g).left with
              | some u =>
                  if c_rbnode_is_red h u then
                    some (c_rbtree_paint_case3 h p u g, some g)
                  else
                    some (c_rbtree_paint_rot_right h n p g (c_rbnode_parent h g), none)
              | none =>
                  some (c_rbtree_paint_rot_right h n p g (c_rbnode_parent h g), none)

/-- `c_rbtree_paint(n)`: iterate `c_rbtree_paint_one` until no node is
left to repaint. -/
def c_rbtree_paint : Nat → Heap → Option NodeId → Option Heap
  | _, h, none => some h
  | 0, _, some _ => none
  | fuel + 1, h, some i =>
      match c_rbtree_paint_one h i with
      | none => none
      | some (h', n') => c_rbtree_paint fuel h' n'

/-- `c_rbnode_link(p, l, n)`: link `n` at the empty child slot of `p`
selected by `dir` (`false` = left slot, `true` = right slot), then run the
insertion fixup. -/
def c_rbnode_link (h : Heap) (p : NodeId) (dir : Bool) (n : NodeId) (fuel : Nat) :
    Option Heap :=
  let h1 := c_rbnode_set_parent_and_flags h n (Raw.node p) true false
  let h2 := storeLeft h1 n none
  let h3 := storeRight h2 n none
  let h4 := if dir then storeRight h3 p (some n) else storeLeft h3 p (some n)
  c_rbtree_paint fuel h4 (some n)

/-- `c_rbtree_add(t, p, l, n)`: tree-aware insertion; `p = none` means the
slot is the tree's root reference. -/
def c_rbtree_add (h : Heap) (p : Option NodeId) (dir : Bool) (n : NodeId) (fuel : Nat) :
    Option Heap :=
  let h1 := c_rbnode_set_parent_and_flags h n (rawOf p) true false
  let h2 := storeLeft h1 n none
  let h3 := storeRight h2 n none
  let h4 := match p with
    | some pp => if dir then storeRight h3 pp (some n) else storeLeft h3 pp (some n)
    | none => c_rbnode_push_root h3 (some n) true
  c_rbtree_paint fuel h4 (some n)

/-! ## Removal engine (from `c-rbtree.c`) -/

/-- Case 6 of the removal fixup, left orientation (the fall-through tail
of the `n == p->left` branch of `c_rbnode_rebalance_one`): rotate the
black sibling `s` into the position of `p` and repaint; `x` is the far
nephew (or the demoted old sibling after Case 5), known non-NULL. -/
def c_rbnode_rebalance_case6_left (h : Heap) (p x s : NodeId) :
    Option (Heap × Option NodeId) :=
  let hp := c_rbnode_pop_root h p
  let h1 := hp.1
  let t := hp.2
  let g := c_rbnode_parent h1 p
  let y := (h1.mem s).left
  let h2 := storeRight h1 p y
  let h3 := storeLeft h2 s (some p)
  let h4 := c_rbnode_swap_child h3 p (some s)
  let h5 := c_rbnode_set_parent_and_flags h4 x (Raw.node s) false ((h4.mem x).rootFlag)
  let h6 := reparentKeep h5 y p
  let h7 := c_rbnode_set_parent_and_flags h6 s (rawOf g) ((h6.mem p).red)
      ((h6.mem p).rootFlag)
  let h8 := c_rbnode_set_parent_and_flags h7 p (Raw.node s) false ((h7.mem p).rootFlag)
  some (c_rbnode_push_root h8 (some s) t, none)

/-- Case 6 of the removal fixup, right orientation (mirror image). -/
def c_rbnode_rebalance_case6_right (h : Heap) (p x s : NodeId) :
    Option (Heap × Option NodeId) :=
  let hp := c_rbnode_pop_root h p
  let h1 := hp.1
  let t := hp.2
  let g := c_rbnode_parent h1 p
  let y := (h1.mem s).right
  let h2 := storeLeft h1 p y
  let h3 := storeRight h2 s (some p)
  let h4 := c_rbnode_swap_child h3 p (some s)
  let h5 := c_rbnode_set_parent_and_flags h4 x (Raw.node s) false ((h4.mem x).rootFlag)
  let h6 := reparentKeep h5 y p
  let h7 := c_rbnode_set_parent_and_flags h6 s (rawOf g) ((h6.mem p).red)
      ((h6.mem p).rootFlag)
  let h8 := c_rbnode_set_parent_and_flags h7 p (Raw.node s) false ((h7.mem p).rootFlag)
  some (c_rbnode_push_root h8 (some s) t, none)

/-- Case 3 of the removal fixup, left orientation: the red sibling `s0`
of the deficient left slot of `p` is rotated onto the deficient side and
recolored; returns the heap and the new (black) sibling, or `none` when
the source would dereference NULL. -/
def c_rbnode_rebalance_case3_left (h : Heap) (p s0 : NodeId) : Option (Heap × NodeId) :=
  let hp := c_rbnode_pop_root h p
  let h1 := hp.1
  let t := hp.2
  let g := c_rbnode_parent h1 p
  let x := (h1.mem s0).left
  let h2 := storeRight h1 p x
  let h3 := storeLeft h2 s0 (some p)
  let h4 := c_rbnode_swap_child h3 p (some s0)
  match x with
  | none => none
  | some xx =>
      let h5 := c_rbnode_set_parent_and_flags h4 xx (Raw.node p) false
          ((h4.mem xx).rootFlag)
      let h6 := c_rbnode_set_parent_and_flags h5 s0 (rawOf g) false
          ((h5.mem s0).rootFlag)
      let h7 := c_rbnode_set_parent_and_flags h6 p (Raw.node s0) true
          ((h6.mem p).rootFlag)
      some (c_rbnode_push_root h7 (some s0) t, xx)

/-- Case 3 of the removal fixup, right orientation (mirror image). -/
def c_rbnode_rebalance_case3_right (h : Heap) (p s0 : NodeId) : Option (Heap × NodeId) :=
  let hp := c_rbnode_pop_root h p
  let h1 := hp.1
  let t := hp.2
  let g := c_rbnode_parent h1 p
  let x := (h1.mem s0).right
  let h2 := storeLeft h1 p x
  let h3 := storeRight h2 s0 (some p)
  let h4 := c_rbnode_swap_child h3 p (some s0)
  match x with
  | none => none
  | some xx =>
      let h5 := c_rbnode_set_parent_and_flags h4 xx (Raw.node p) false
          ((h4.mem xx).rootFlag)
      let h6 := c_rbnode_set_parent_and_flags h5 s0 (rawOf g) false
          ((h5.mem s0).rootFlag)
      let h7 := c_rbnode_set_parent_and_flags h6 p (Raw.node s0) true
          ((h6.mem p).rootFlag)
      some (c_rbnode_push_root h7 (some s0) t, xx)

/-- Cases 4, 5 and 6 of the removal fixup, left orientation (the tail of
the `n == p->left` branch of `c_rbnode_rebalance_one` once the sibling
`s1` is known black). -/
def c_rbnode_rebalance_tail_left (h1 : Heap) (p s1 : NodeId) :
    Option (Heap × Option NodeId) :=
  let x1 := (h1.mem s1).right
  if x1 = none ∨ c_rbnode_is_black h1 (x1.getD 0) then
    let y1 := (h1.mem s1).left
    if y1 = none ∨ c_rbnode_is_black h1 (y1.getD 0) then
      /- Case 4: black sibling with black children. -/
      let h2 := c_rbnode_set_parent_and_flags h1 s1 (Raw.node p) true
          ((h1.mem s1).rootFlag)
      if c_rbnode_is_black h2 p then some (h2, some p)
      else
        some (c_rbnode_set_parent_and_flags h2 p
          (rawOf (c_rbnode_parent h2 p)) false ((h2.mem p).rootFlag), none)
    else
      /- Case 5: rotate the red near nephew up. -/
      match y1 with
      | none => none
      | some y =>
          let x2 := (h1.mem y).right
          let h2 := storeLeft h1 s1 ((h1.mem y).right)
          let h3 := storeRight h2 y (some s1)
          let h4 := storeRight h3 p (some y)
          let h5 := reparentBlack h4 x2 s1
          /- Case 6 with x := old sibling, s := y. -/
          c_rbnode_rebalance_case6_left h5 p s1 y
  else
    /- Case 6 directly, with x := the red far nephew. -/
    match x1 with
    | none => none
    | some xx => c_rbnode_rebalance_case6_left h1 p xx s1

/-- Cases 4, 5 and 6 of the removal fixup, right orientation (mirror). -/
def c_rbnode_rebalance_tail_right (h1 : Heap) (p s1 : NodeId) :
    Option (Heap × Option NodeId) :=
  let x1 := (h1.mem s1).left
  if x1 = none ∨ c_rbnode_is_black h1 (x1.getD 0) then
    let y1 := (h1.mem s1).right
    if y1 = none ∨ c_rbnode_is_black h1 (y1.getD 0) then
      let h2 := c_rbnode_set_parent_and_flags h1 s1 (Raw.node p) true
          ((h1.mem s1).rootFlag)
      if c_rbnode_is_black h2 p then some (h2, some p)
      else
        some (c_rbnode_set_parent_and_flags h2 p
          (rawOf (c_rbnode_parent h2 p)) false ((h2.mem p).rootFlag), none)
    else
      match y1 with
      | none => none
      | some y =>
          let x2 := (h1.mem y).left
          let h2 := storeRight h1 s1 ((h1.mem y).left)
          let h3 := storeLeft h2 y (some s1)
          let h4 := storeLeft h3 p (some y)
          let h5 := reparentBlack h4 x2 s1
          c_rbnode_rebalance_case6_right h5 p s1 y
  else
    match x1 with
    | none => none
    | some xx => c_rbnode_rebalance_case6_right h1 p xx s1

/-- `c_rbnode_rebalance_one(p, n)`: one step of removal fixup at parent
`p` with deficient child `n` (possibly NULL); returns the updated heap and
the node to recurse on (NULL when done), or `none` when the source would
dereference NULL. -/
def c_rbnode_rebalance_one (h : Heap) (p : NodeId) (n : Option NodeId) :
    Option (Heap × Option NodeId) :=
  if n = (h.mem p).left then
    match (h.mem p).right with
    | none => none
    | some s0 =>
        /- Case 3: a red sibling is first rotated onto our side. -/
        let step1 : Option (Heap × NodeId) :=
          if c_rbnode_is_red h s0 then c_rbnode_rebalance_case3_left h p s0
          else some (h, s0)
        match step1 with
        | none => none
        | some (h1, s1) => c_rbnode_rebalance_tail_left h1 p s1
  else
    match (h.mem p).left with
    | none => none
    | some s0 =>
        let step1 : Option (Heap × NodeId) :=
          if c_rbnode_is_red h s0 then c_rbnode_rebalance_case3_right h p s0
          else some (h, s0)
        match step1 with
        | none => none
        | some (h1, s1) => c_rbnode_rebalance_tail_right h1 p s1
/-- `c_rbnode_rebalance(p)`: iterate `c_rbnode_rebalance_one` upward,
starting at parent `p` with `n = NULL`, while a parent is left. -/
def rebalanceGo : Nat → Heap → NodeId → Option NodeId → Option Heap
  | 0, _, _, _ => none
  | fuel + 1, h, p, n =>
      match c_rbnode_rebalance_one h p n with
      | none => none
      | some (h', n') =>
          match n' with
          | none => some h'
          | some i =>
              match c_rbnode_parent h' i with
              | none => some h'
              | some p' => rebalanceGo fuel h' p' (some i)

/-- `c_rbnode_rebalance(p)` entry point. -/
def c_rbnode_rebalance (fuel : Nat) (h : Heap) (p : NodeId) : Option Heap :=
  rebalanceGo fuel h p none

/-- The splice part of `c_rbnode_unlink(n)` (everything before the final
`if (next) c_rbnode_rebalance(next)`), returning the updated heap and the
computed `next` node for the removal fixup. -/
def c_rbnode_unlink_core (h : Heap) (n : NodeId) (fuel : Nat) :
    Option (Heap × Option NodeId) :=
  match (h.mem n).left with
  | none =>
      /- Case 1: no left child; splice in the right child (possibly NULL). -/
      let hp := c_rbnode_pop_root h n
      let h1 := hp.1
      let t := hp.2
      let h2 := c_rbnode_swap_child h1 n ((h1.mem n).right)
      match (h2.mem n).right with
      | some r =>
          let h3 := c_rbnode_set_parent_and_flags h2 r
              (rawOf (c_rbnode_parent h2 n)) false ((h2.mem r).rootFlag)
          some (c_rbnode_push_root h3 ((h3.mem n).right) t, none)
      | none =>
          let nxt := if c_rbnode_is_black h2 n then c_rbnode_parent h2 n else none
          some (c_rbnode_push_root h2 ((h2.mem n).right) t, nxt)
  | some _ =>
      match (h.mem n).right with
      | none =>
          /- Case 1.1: only a left child; mirrored splice. -/
          let hp := c_rbnode_pop_root h n
          let h1 := hp.1
          let t := hp.2
          let h2 := c_rbnode_swap_child h1 n ((h1.mem n).left)
          match (h2.mem n).left with
          | some l =>
              let h3 := c_rbnode_set_parent_and_flags h2 l
                  (rawOf (c_rbnode_parent h2 n)) false ((h2.mem l).rootFlag)
              some (c_rbnode_push_root h3 ((h3.mem n).left) t, none)
          | none => none
      | some s0 =>
          /- Case 2: two children; partially swap with the successor. -/
          let step : Option (Heap × NodeId × NodeId × Option NodeId) :=
            match (h.mem s0).left with
            | none => some (h, s0, s0, (h.mem s0).right)
            | some _ =>
                match leftmostGo h fuel s0 with
                | none => none
                | some s =>
                    match c_rbnode_parent h s with
                    | none => none
                    | some p =>
                        let gc := (h.mem s).right
                        let h1 := storeLeft h p gc
                        let h2 := storeRight h1 s ((h1.mem n).right)
                        match (h2.mem n).right with
                        | none => none
                        | some nr =>
                            let h3 := c_rbnode_set_parent_and_flags h2 nr
                                (Raw.node s) ((h2.mem nr).red) ((h2.mem nr).rootFlag)
                            some (h3, s, p, gc)
          match step with
          | none => none
          | some (h1, s, p, gc) =>
              let h2 := storeLeft h1 s ((h1.mem n).left)
              match (h2.mem n).left with
              | none => none
              | some nl =>
                  let h3 := c_rbnode_set_parent_and_flags h2 nl (Raw.node s)
                      ((h2.mem nl).red) ((h2.mem nl).rootFlag)
                  let hp := c_rbnode_pop_root h3 n
                  let h4 := hp.1
                  let t := hp.2
                  let h5 := c_rbnode_swap_child h4 n (some s)
                  let step2 : Heap × Option NodeId :=
                    match gc with
                    | some g =>
                        (c_rbnode_set_parent_and_flags h5 g (Raw.node p) false
                          ((h5.mem g).rootFlag), none)
                    | none => (h5, if c_rbnode_is_black h5 s then some p else none)
                  let h6 := step2.1
                  let nxt := step2.2
                  let h7 := if c_rbnode_is_red h6 n then
                      c_rbnode_set_parent_and_flags h6 s
                        (rawOf (c_rbnode_parent h6 n)) true ((h6.mem s).rootFlag)
                    else
                      c_rbnode_set_parent_and_flags h6 s
                        (rawOf (c_rbnode_parent h6 n)) false ((h6.mem s).rootFlag)
                  some (c_rbnode_push_root h7 (some s) t, nxt)

/-- `c_rbnode_unlink(n)`: splice the node out, then run the removal fixup
when a black node was removed from the tree. -/
def c_rbnode_unlink (h : Heap) (n : NodeId) (fuel : Nat) : Option Heap :=
  match c_rbnode_unlink_core h n fuel with
  | none => none
  | some (h', next) =>
      match next with
      | some pp => c_rbnode_rebalance fuel h' pp
      | none => some h'

/-- `c_rbtree_remove(t, n)`: deprecated forwarding alias of
`c_rbnode_unlink`. -/
def c_rbtree_remove (h : Heap) (n : NodeId) (fuel : Nat) : Option Heap :=
  c_rbnode_unlink h n fuel

/-! ## Abstract trees and the representation relation

To state global properties of the pointer structure we extract it into an
inductive colored tree.  `reprTree h t` says the heap `h` stores exactly
the tree `t` (parent words, flag bits and child links all consistent, and
all node identifiers distinct). -/

/-- Inductive colored binary tree carrying the node identifiers; the
`red` field is the color bit of the node. -/
inductive CTree where
  | nil : CTree
  | node (red : Bool) (l : CTree) (i : NodeId) (r : CTree) : CTree
deriving DecidableEq, Repr

/-- Pointer to the root of a subtree (NULL for the empty tree). -/
def CTree.rootId : CTree → Option NodeId
  | CTree.nil => none
  | CTree.node _ _ i _ => some i

/-- All node identifiers of a tree, in preorder. -/
def CTree.ids : CTree → List NodeId
  | CTree.nil => []
  | CTree.node _ l i r => i :: (l.ids ++ r.ids)

/-- Number of nodes. -/
def CTree.size : CTree → Nat
  | CTree.nil => 0
  | CTree.node _ l _ r => l.size + r.size + 1

/-- Height: largest number of nodes on a root-to-absence path. -/
def CTree.height : CTree → Nat
  | CTree.nil => 0
  | CTree.node _ l _ r => max l.height r.height + 1

/-- Color of the root position (an absence counts as black). -/
def CTree.isRedT : CTree → Bool
  | CTree.nil => false
  | CTree.node c _ _ _ => c

/-- Black-height: `some k` if every path from the root to an absence
contains exactly `k` black nodes, `none` if paths disagree. -/
def CTree.blackH : CTree → Option Nat
  | CTree.nil => some 0
  | CTree.node c l _ r =>
      match l.blackH, r.blackH with
      | some a, some b => if a = b then some (a + (if c then 0 else 1)) else none
      | _, _ => none

/-- No red node has a red child. -/
def CTree.noRedRed : CTree → Bool
  | CTree.nil => true
  | CTree.node c l _ r =>
      (!(c && (l.isRedT || r.isRedT))) && l.noRedRed && r.noRedRed

/-- The root position is black. -/
def CTree.rootBlack : CTree → Bool
  | CTree.nil => true
  | CTree.node c _ _ _ => !c

/-- All red-black invariants of §3 that concern the colors: black root, no
red-red edge, and equal black count on every path to an absence. -/
def CTree.isRB (t : CTree) : Prop :=
  t.rootBlack = true ∧ t.noRedRed = true ∧ (t.blackH).isSome

/-- The heap correctly stores tree `t` as the subtree of a node whose
upward word should decode to `up` (raw pointer part `up`, root-marker bit
set iff `up` is the tree back-reference). -/
def reprAt (h : Heap) : CTree → Raw → Bool
  | CTree.nil, _ => true
  | CTree.node c l i r, up =>
      ((h.mem i).raw == up) && ((h.mem i).rootFlag == (up == Raw.tree)) &&
      ((h.mem i).red == c) &&
      ((h.mem i).left == l.rootId) && ((h.mem i).right == r.rootId) &&
      reprAt h l (Raw.node i) && reprAt h r (Raw.node i)

/-- The heap stores exactly the tree `t` (with distinct identifiers), and
the tree handle points at its root. -/
structure reprTree (h : Heap) (t : CTree) : Prop where
  root_eq : h.root = t.rootId
  at_root : reprAt h t Raw.tree = true
  nodup : t.ids.Nodup

/-- One step of a path context: the missing subtree is the `isRight`
child of node `id`, which is colored `red` and whose other child is
`sib`. Contexts list the innermost frame first. -/
structure Frame where
  isRight : Bool
  red : Bool
  id : NodeId
  sib : CTree
deriving DecidableEq, Repr

/-- Rebuild a tree from a context and the subtree in the hole. -/
def plug : List Frame → CTree → CTree
  | [], t => t
  | f :: ctx, t =>
      plug ctx (if f.isRight then CTree.node f.red f.sib f.id t
                else CTree.node f.red t f.id f.sib)

/-! ## Basic facts and easy claims -/

/-- A heap whose nodes are all freshly initialized and whose tree handle is
empty: the state after zero-initializing the tree and `c_rbnode_init` on
every node. -/
def emptyHeap : Heap :=
  { mem := fun i => c_rbnode_init_data i, root := none }

/-- C8: for every tree, `c_rbtree_first_postorder` computes exactly
`c_rbnode_leftdeepest` of the tree's root, and `c_rbtree_last_postorder`
returns the root itself; on an empty tree both are empty. -/
theorem C8_postorder_bounds (h : Heap) (fuel : Nat) :
    c_rbtree_first_postorder h fuel = c_rbnode_leftdeepest h fuel h.root ∧
    c_rbtree_last_postorder h = h.root ∧
    (h.root = none →
      c_rbtree_first_postorder h fuel = some none ∧
      c_rbtree_last_postorder h = none) := by
  refine ⟨rfl, rfl, fun hr => ?_⟩
  rw [c_rbtree_first_postorder, c_rbtree_last_postorder, hr]
  exact ⟨rfl, rfl⟩

/-- Witness for C8 on the empty heap. -/
theorem C8_postorder_bounds_witness :
    c_rbtree_first_postorder emptyHeap 5 = some none ∧
    c_rbtree_last_postorder emptyHeap = none :=
  (C8_postorder_bounds emptyHeap 5).2.2 rfl

/-- C9: every lookup against an empty tree or an absent reference returns
empty, and on a freshly (re)initialized, never-linked node `i`:
`is_linked` is false, the four descent helpers return the node itself,
and the four iterators return empty. -/
theorem C9_empty_and_unlinked (h : Heap) (fuel : Nat) (i : NodeId)
    (hinit : h.mem i = c_rbnode_init_data i) :
    (h.root = none →
      c_rbtree_first h fuel = some none ∧
      c_rbtree_last h fuel = some none ∧
      c_rbtree_first_postorder h fuel = some none ∧
      c_rbtree_last_postorder h = none) ∧
    c_rbnode_leftmost h fuel none = some none ∧
    c_rbnode_rightmost h fuel none = some none ∧
    c_rbnode_leftdeepest h fuel none = some none ∧
    c_rbnode_rightdeepest h fuel none = some none ∧
    c_rbnode_next h fuel none = some none ∧
    c_rbnode_prev h fuel none = some none ∧
    c_rbnode_next_postorder h fuel none = some none ∧
    c_rbnode_prev_postorder h fuel none = some none ∧
    c_rbnode_is_linked h (some i) = false ∧
    c_rbnode_leftmost h (fuel + 1) (some i) = some (some i) ∧
    c_rbnode_rightmost h (fuel + 1) (some i) = some (some i) ∧
    c_rbnode_leftdeepest h (fuel + 1) (some i) = some (some i) ∧
    c_rbnode_rightdeepest h (fuel + 1) (some i) = some (some i) ∧
    c_rbnode_next h fuel (some i) = some none ∧
    c_rbnode_prev h fuel (some i) = some none ∧
    c_rbnode_next_postorder h fuel (some i) = some none ∧
    c_rbnode_prev_postorder h fuel (some i) = some none := by
  have hlink : c_rbnode_is_linked h (some i) = false := by
    simp [c_rbnode_is_linked, c_rbnode_raw, hinit, c_rbnode_init_data]
  refine ⟨fun hr => ?_, rfl, rfl, rfl, rfl, rfl, rfl, rfl, rfl, hlink, ?_, ?_, ?_, ?_,
    ?_, ?_, ?_, ?_⟩
  · rw [c_rbtree_first, c_rbtree_last, c_rbtree_first_postorder,
      c_rbtree_last_postorder, hr]
    exact ⟨rfl, rfl, rfl, rfl⟩
  · simp [c_rbnode_leftmost, leftmostGo, hinit, c_rbnode_init_data]
  · simp [c_rbnode_rightmost, rightmostGo, hinit, c_rbnode_init_data]
  · simp [c_rbnode_leftdeepest, leftdeepestGo, hinit, c_rbnode_init_data]
  · simp [c_rbnode_rightdeepest, rightdeepestGo, hinit, c_rbnode_init_data]
  · rw [c_rbnode_next, hlink]; rfl
  · rw [c_rbnode_prev, hlink]; rfl
  · rw [c_rbnode_next_postorder, hlink]; rfl
  · rw [c_rbnode_prev_postorder, hlink]; rfl

/-- Witness for C9 on the empty heap at node 0. -/
theorem C9_empty_and_unlinked_witness :
    c_rbnode_is_linked emptyHeap (some 0) = false ∧
    c_rbnode_leftmost emptyHeap 3 (some 0) = some (some 0) ∧
    c_rbnode_next emptyHeap 2 (some 0) = some none :=
  ⟨(C9_empty_and_unlinked emptyHeap 2 0 rfl).2.2.2.2.2.2.2.2.2.1,
   (C9_empty_and_unlinked emptyHeap 2 0 rfl).2.2.2.2.2.2.2.2.2.2.1,
   (C9_empty_and_unlinked emptyHeap 2 0 rfl).2.2.2.2.2.2.2.2.2.2.2.2.2.2.1⟩

/-- A well-formed one-node tree: node 1 is the black root and a leaf. -/
def hOneNode : Heap :=
  { mem := fun j => if j = 1 then
      { raw := Raw.tree, red := false, rootFlag := true, left := none, right := none }
    else c_rbnode_init_data j,
    root := some 1 }

/-- C6 fails as stated: unlinking the root of a one-node tree rewrites the
node's upward word (the tree back-reference and the root-marker bit are
cleared by `c_rbnode_pop_root`), so the plain removal does not leave all
three fields untouched when the node is the root. -/
theorem C6_counterexample_root_word_cleared :
    (c_rbnode_unlink hOneNode 1 5).map (fun h => h.mem 1) =
      some { raw := Raw.null, red := false, rootFlag := false,
             left := none, right := none } ∧
    hOneNode.mem 1 =
      { raw := Raw.tree, red := false, rootFlag := true,
        left := none, right := none } ∧
    ({ raw := Raw.null, red := false, rootFlag := false,
       left := none, right := none } : NodeData) ≠
      { raw := Raw.tree, red := false, rootFlag := true,
        left := none, right := none } := by
  refine ⟨rfl, rfl, by decide⟩

/-! ## Toolkit: heap updates and representation lemmas -/

theorem Heap.mem_upd (h : Heap) (i : NodeId) (d : NodeData) (j : NodeId) :
    (h.upd i d).mem j = if j = i then d else h.mem j := rfl

theorem Heap.mem_upd_self (h : Heap) (i : NodeId) (d : NodeData) :
    (h.upd i d).mem i = d := by simp [Heap.mem_upd]

theorem Heap.mem_upd_ne (h : Heap) (i : NodeId) (d : NodeData) {j : NodeId}
    (hne : j ≠ i) : (h.upd i d).mem j = h.mem j := by simp [Heap.mem_upd, hne]

theorem Heap.root_upd (h : Heap) (i : NodeId) (d : NodeData) :
    (h.upd i d).root = h.root := rfl

theorem reprAt_congr {h h' : Heap} (t : CTree) (up : Raw)
    (hmem : ∀ j ∈ t.ids, h'.mem j = h.mem j) :
    reprAt h' t up = reprAt h t up := by
  induction t generalizing up with
  | nil => rfl
  | node c l i r ihl ihr =>
      have hi : h'.mem i = h.mem i := hmem i (by simp [CTree.ids])
      have hl : ∀ j ∈ l.ids, h'.mem j = h.mem j := fun j hj =>
        hmem j (by simp [CTree.ids, hj])
      have hr : ∀ j ∈ r.ids, h'.mem j = h.mem j := fun j hj =>
        hmem j (by simp [CTree.ids, hj])
      simp only [reprAt, hi, ihl (Raw.node i) hl, ihr (Raw.node i) hr]

theorem reprAt_upd {h : Heap} {t : CTree} {up : Raw} {j : NodeId} (d : NodeData)
    (hj : j ∉ t.ids) : reprAt (h.upd j d) t up = reprAt h t up :=
  reprAt_congr t up (fun k hk => Heap.mem_upd_ne h j d (fun he => hj (he ▸ hk)))

theorem reprAt_node_iff {h : Heap} {c : Bool} {l r : CTree} {i : NodeId} {up : Raw} :
    reprAt h (CTree.node c l i r) up = true ↔
      (h.mem i).raw = up ∧ ((h.mem i).rootFlag = (up == Raw.tree)) ∧
      (h.mem i).red = c ∧
      (h.mem i).left = l.rootId ∧ (h.mem i).right = r.rootId ∧
      reprAt h l (Raw.node i) = true ∧ reprAt h r (Raw.node i) = true := by
  simp [reprAt, Bool.and_assoc]

/-! ## Toolkit: contexts and plugging -/

/-- Expected upward word of the node sitting in the hole of a context. -/
def upOf : List Frame → Raw
  | [] => Raw.tree
  | f :: _ => Raw.node f.id

/-- The heap correctly stores the spine of a context: every frame node has
the recorded color, its sibling subtree in the off slot, the hole pointer
in the hole slot, and an upward word pointing at the next frame (or the
tree back-reference at the outermost frame, which the tree handle
matches). `hole` is the child pointer currently sitting in the hole. -/
def reprCtx (h : Heap) : List Frame → Option NodeId → Bool
  | [], hole => h.root == hole
  | f :: ctx, hole =>
      ((h.mem f.id).raw == upOf ctx) &&
      ((h.mem f.id).rootFlag == (upOf ctx == Raw.tree)) &&
      ((h.mem f.id).red == f.red) &&
      ((h.mem f.id).left == (if f.isRight then f.sib.rootId else hole)) &&
      ((h.mem f.id).right == (if f.isRight then hole else f.sib.rootId)) &&
      reprAt h f.sib (Raw.node f.id) &&
      reprCtx h ctx (some f.id)

/-- Identifiers mentioned by a context (frame nodes and their siblings). -/
def ctxIds : List Frame → List NodeId
  | [] => []
  | f :: ctx => f.id :: (f.sib.ids ++ ctxIds ctx)

theorem reprCtx_congr {h h' : Heap} (ctx : List Frame) (hole : Option NodeId)
    (hmem : ∀ j ∈ ctxIds ctx, h'.mem j = h.mem j) (hroot : h'.root = h.root) :
    reprCtx h' ctx hole = reprCtx h ctx hole := by
  induction ctx generalizing hole with
  | nil => simp [reprCtx, hroot]
  | cons f ctx ih =>
      have hf : h'.mem f.id = h.mem f.id := hmem f.id (by simp [ctxIds])
      have hsib : ∀ j ∈ f.sib.ids, h'.mem j = h.mem j := fun j hj =>
        hmem j (by simp [ctxIds, hj])
      have hrest : ∀ j ∈ ctxIds ctx, h'.mem j = h.mem j := fun j hj =>
        hmem j (by simp [ctxIds, hj])
      simp only [reprCtx, hf, reprAt_congr f.sib (Raw.node f.id) hsib, ih (some f.id) hrest]

theorem plug_ids_perm (ctx : List Frame) (t : CTree) :
    (plug ctx t).ids.Perm (t.ids ++ ctxIds ctx) := by
  induction ctx generalizing t with
  | nil => simp [plug, ctxIds]
  | cons f ctx ih =>
      by_cases hd : f.isRight = true
      · have hpl : plug (f :: ctx) t = plug ctx (CTree.node f.red f.sib f.id t) := by
          simp [plug, hd]
        rw [hpl]
        refine (ih _).trans ?_
        rw [← Multiset.coe_eq_coe]
        simp only [CTree.ids, ctxIds, ← Multiset.cons_coe, ← Multiset.coe_add,
          ← Multiset.singleton_add]
        abel
      · have hpl : plug (f :: ctx) t = plug ctx (CTree.node f.red t f.id f.sib) := by
          simp [plug, hd]
        rw [hpl]
        refine (ih _).trans ?_
        rw [← Multiset.coe_eq_coe]
        simp only [CTree.ids, ctxIds, ← Multiset.cons_coe, ← Multiset.coe_add,
          ← Multiset.singleton_add]
        abel

theorem repr_plug_iff (h : Heap) (ctx : List Frame) (sub : CTree) :
    (h.root = (plug ctx sub).rootId ∧ reprAt h (plug ctx sub) Raw.tree = true) ↔
      (reprCtx h ctx sub.rootId = true ∧ reprAt h sub (upOf ctx) = true) := by
  induction ctx generalizing sub with
  | nil =>
      simp [plug, reprCtx, upOf]
  | cons f ctx ih =>
      by_cases hd : f.isRight = true
      · have hpl : plug (f :: ctx) sub = plug ctx (CTree.node f.red f.sib f.id sub) := by
          simp [plug, hd]
        rw [hpl, ih (CTree.node f.red f.sib f.id sub)]
        simp only [reprCtx, upOf, CTree.rootId, hd, if_true, reprAt_node_iff,
          Bool.and_eq_true, beq_iff_eq]
        tauto
      · have hpl : plug (f :: ctx) sub = plug ctx (CTree.node f.red sub f.id f.sib) := by
          simp [plug, hd]
        rw [hpl, ih (CTree.node f.red sub f.id f.sib)]
        simp only [reprCtx, upOf, CTree.rootId, hd, Bool.false_eq_true, if_false,
          reprAt_node_iff, Bool.and_eq_true, beq_iff_eq]
        tauto

/-! ## Toolkit: balance of trees and contexts -/

/-- Balance judgment: `Bal t c n` means `t` is a red-black-balanced tree
with root color `c` (`true` = red, and then both children are
black-rooted) and `n` black nodes on every path to an absence. -/
inductive Bal : CTree → Bool → Nat → Prop where
  | nil : Bal CTree.nil false 0
  | red {l r : CTree} {i : NodeId} {n : Nat} :
      Bal l false n → Bal r false n → Bal (CTree.node true l i r) true n
  | black {l r : CTree} {i : NodeId} {cl cr : Bool} {n : Nat} :
      Bal l cl n → Bal r cr n → Bal (CTree.node false l i r) false (n + 1)

/-- Balance judgment for contexts: `CtxBal c₀ n₀ ctx c n` means plugging
any tree balanced as `(c, n)` into `ctx` yields a tree balanced as
`(c₀, n₀)`. -/
inductive CtxBal (c₀ : Bool) (n₀ : Nat) : List Frame → Bool → Nat → Prop where
  | root : CtxBal c₀ n₀ [] c₀ n₀
  | red {ctx : List Frame} {d : Bool} {i : NodeId} {sib : CTree} {n : Nat} :
      Bal sib false n → CtxBal c₀ n₀ ctx true n →
      CtxBal c₀ n₀ ({ isRight := d, red := true, id := i, sib := sib } :: ctx) false n
  | black {ctx : List Frame} {d : Bool} {i : NodeId} {sib : CTree} {cs c : Bool} {n : Nat} :
      Bal sib cs n → CtxBal c₀ n₀ ctx false (n + 1) →
      CtxBal c₀ n₀ ({ isRight := d, red := false, id := i, sib := sib } :: ctx) c n

theorem Bal.isRedT {t : CTree} {c : Bool} {n : Nat} (hb : Bal t c n) :
    t.isRedT = c := by
  cases hb <;> rfl

theorem bal_plug {c₀ : Bool} {n₀ : Nat} {ctx : List Frame} {c : Bool} {n : Nat}
    {sub : CTree} (hctx : CtxBal c₀ n₀ ctx c n) (hsub : Bal sub c n) :
    Bal (plug ctx sub) c₀ n₀ := by
  induction hctx generalizing sub with
  | root => exact hsub
  | red hsib hctx ih =>
      rename_i ctx d i sib n
      cases d
      · exact ih (Bal.red hsub hsib)
      · exact ih (Bal.red hsib hsub)
  | black hsib hctx ih =>
      rename_i ctx d i sib cs c n
      cases d
      · exact ih (Bal.black hsub hsib)
      · exact ih (Bal.black hsib hsub)

theorem Bal.to_noRedRed {t : CTree} {c : Bool} {n : Nat} (hb : Bal t c n) :
    t.noRedRed = true := by
  induction hb with
  | nil => rfl
  | red hl hr ihl ihr =>
      simp [CTree.noRedRed, ihl, ihr, hl.isRedT, hr.isRedT]
  | black hl hr ihl ihr =>
      simp [CTree.noRedRed, ihl, ihr]

theorem Bal.to_blackH {t : CTree} {c : Bool} {n : Nat} (hb : Bal t c n) :
    t.blackH = some n := by
  induction hb with
  | nil => rfl
  | red hl hr ihl ihr => simp [CTree.blackH, ihl, ihr]
  | black hl hr ihl ihr => simp [CTree.blackH, ihl, ihr]

theorem Bal.to_rootBlack {t : CTree} {n : Nat} (hb : Bal t false n) :
    t.rootBlack = true := by
  cases hb <;> rfl

theorem Bal.to_isRB {t : CTree} {n : Nat} (hb : Bal t false n) : t.isRB :=
  ⟨hb.to_rootBlack, hb.to_noRedRed, by simp [hb.to_blackH]⟩

theorem plug_append (ctx ctx2 : List Frame) (t : CTree) :
    plug (ctx ++ ctx2) t = plug ctx2 (plug ctx t) := by
  induction ctx generalizing t with
  | nil => rfl
  | cons f ctx ih => simp [plug, ih]

/-- Every identifier in a tree sits at the hole of some context. -/
theorem exists_ctx_of_mem_ids {t : CTree} {n : NodeId} (hn : n ∈ t.ids) :
    ∃ ctx c l r, t = plug ctx (CTree.node c l n r) := by
  induction t with
  | nil => simp [CTree.ids] at hn
  | node c l i r ihl ihr =>
      rcases (by simpa [CTree.ids] using hn : n = i ∨ n ∈ l.ids ∨ n ∈ r.ids) with
        h | h | h
      · exact ⟨[], c, l, r, by simp [plug, h]⟩
      · obtain ⟨ctx, c', l', r', rfl⟩ := ihl h
        exact ⟨ctx ++ [{ isRight := false, red := c, id := i, sib := r }], c', l', r',
          by simp [plug_append, plug]⟩
      · obtain ⟨ctx, c', l', r', rfl⟩ := ihr h
        exact ⟨ctx ++ [{ isRight := true, red := c, id := i, sib := l }], c', l', r',
          by simp [plug_append, plug]⟩

/-- Balance decomposes along a context. -/
theorem bal_unplug {c₀ : Bool} {n₀ : Nat} (ctx : List Frame) (sub : CTree)
    (hb : Bal (plug ctx sub) c₀ n₀) :
    ∃ c n, CtxBal c₀ n₀ ctx c n ∧ Bal sub c n := by
  induction ctx generalizing sub with
  | nil => exact ⟨c₀, n₀, CtxBal.root, hb⟩
  | cons f ctx ih =>
      obtain ⟨d, fr, fi, fs⟩ := f
      cases d
      · have hpl : plug ({ isRight := false, red := fr, id := fi, sib := fs } :: ctx) sub
            = plug ctx (CTree.node fr sub fi fs) := by simp [plug]
        rw [hpl] at hb
        obtain ⟨c, n, hctx, hnode⟩ := ih _ hb
        cases hnode with
        | red hl hr => exact ⟨false, _, CtxBal.red hr hctx, hl⟩
        | black hl hr => exact ⟨_, _, CtxBal.black hr hctx, hl⟩
      · have hpl : plug ({ isRight := true, red := fr, id := fi, sib := fs } :: ctx) sub
            = plug ctx (CTree.node fr fs fi sub) := by simp [plug]
        rw [hpl] at hb
        obtain ⟨c, n, hctx, hnode⟩ := ih _ hb
        cases hnode with
        | red hl hr => exact ⟨false, _, CtxBal.red hl hctx, hr⟩
        | black hl hr => exact ⟨_, _, CtxBal.black hl hctx, hr⟩

/-- Plugging a black tree where any color was expected still balances
(turning a node black never breaks the context's requirements), provided
the expected root color of the whole is black. -/
theorem bal_plug_black {n₀ : Nat} {ctx : List Frame} {c : Bool} {n : Nat}
    {sub : CTree} (hctx : CtxBal false n₀ ctx c n) (hsub : Bal sub false n) :
    Bal (plug ctx sub) false n₀ := by
  cases hctx with
  | root => exact hsub
  | red hsib hctx =>
      rename_i ctx d i sib
      cases d
      · simpa [plug] using bal_plug hctx (Bal.red hsub hsib)
      · simpa [plug] using bal_plug hctx (Bal.red hsib hsub)
  | black hsib hctx =>
      rename_i ctx d i sib cs
      cases d
      · simpa [plug] using bal_plug hctx (Bal.black hsub hsib)
      · simpa [plug] using bal_plug hctx (Bal.black hsib hsub)

/-! ## Toolkit: small derived facts -/

theorem reprCtx_nil_iff {h : Heap} {hole : Option NodeId} :
    reprCtx h [] hole = true ↔ h.root = hole := by
  simp [reprCtx]

theorem reprCtx_cons_iff {h : Heap} {f : Frame} {ctx : List Frame}
    {hole : Option NodeId} :
    reprCtx h (f :: ctx) hole = true ↔
      (h.mem f.id).raw = upOf ctx ∧
      ((h.mem f.id).rootFlag = (upOf ctx == Raw.tree)) ∧
      (h.mem f.id).red = f.red ∧
      (h.mem f.id).left = (if f.isRight then f.sib.rootId else hole) ∧
      (h.mem f.id).right = (if f.isRight then hole else f.sib.rootId) ∧
      reprAt h f.sib (Raw.node f.id) = true ∧
      reprCtx h ctx (some f.id) = true := by
  simp [reprCtx, Bool.and_assoc]

theorem parent_eq_of_upOf {h : Heap} {i : NodeId} {ctx : List Frame}
    (hraw : (h.mem i).raw = upOf ctx)
    (hflag : (h.mem i).rootFlag = (upOf ctx == Raw.tree)) :
    c_rbnode_parent h i = ctx.head?.map Frame.id := by
  cases ctx with
  | nil => simp [c_rbnode_parent, c_rbnode_is_root, c_rbnode_raw, hraw, hflag, upOf]
  | cons f ctx =>
      simp [c_rbnode_parent, c_rbnode_is_root, c_rbnode_raw, hraw, hflag, upOf,
        Raw.asNode]

theorem nodup_plug_iff (ctx : List Frame) (t : CTree) :
    (plug ctx t).ids.Nodup ↔ (t.ids ++ ctxIds ctx).Nodup :=
  (plug_ids_perm ctx t).nodup_iff

/-- Permuted trees represent the same stored set; rebuilding `reprTree`
after a rotation needs the new tree's `Nodup`, obtained from the old. -/
theorem nodup_of_perm_ids {t t' : CTree} (hp : t'.ids.Perm t.ids)
    (hn : t.ids.Nodup) : t'.ids.Nodup := hp.nodup_iff.mpr hn

/-! Pointwise effect of each store primitive. -/

theorem storeLeft_mem (h : Heap) (i : NodeId) (v : Option NodeId) (j : NodeId) :
    (storeLeft h i v).mem j =
      if j = i then { h.mem i with left := v } else h.mem j := rfl

theorem storeRight_mem (h : Heap) (i : NodeId) (v : Option NodeId) (j : NodeId) :
    (storeRight h i v).mem j =
      if j = i then { h.mem i with right := v } else h.mem j := rfl

theorem setpf_mem (h : Heap) (i : NodeId) (p : Raw) (rd rf : Bool) (j : NodeId) :
    (c_rbnode_set_parent_and_flags h i p rd rf).mem j =
      if j = i then { h.mem i with raw := p, red := rd, rootFlag := rf }
      else h.mem j := rfl

theorem storeLeft_root (h : Heap) (i : NodeId) (v : Option NodeId) :
    (storeLeft h i v).root = h.root := rfl

theorem storeRight_root (h : Heap) (i : NodeId) (v : Option NodeId) :
    (storeRight h i v).root = h.root := rfl

theorem setpf_root (h : Heap) (i : NodeId) (p : Raw) (rd rf : Bool) :
    (c_rbnode_set_parent_and_flags h i p rd rf).root = h.root := rfl

theorem storeRoot_mem (h : Heap) (v : Option NodeId) (j : NodeId) :
    (storeRoot h v).mem j = h.mem j := rfl

theorem storeRoot_root (h : Heap) (v : Option NodeId) :
    (storeRoot h v).root = v := rfl

/-- Subtrees not touched by a batch of writes keep their representation. -/
theorem reprAt_untouched {h h' : Heap} (t : CTree) (up : Raw) {W : List NodeId}
    (hmem : ∀ j, j ∉ W → h'.mem j = h.mem j)
    (hdis : ∀ j ∈ t.ids, j ∉ W) :
    reprAt h' t up = reprAt h t up :=
  reprAt_congr t up (fun j hj => hmem j (hdis j hj))

/-- Context spines not touched by a batch of writes keep their
representation. -/
theorem reprCtx_untouched {h h' : Heap} (ctx : List Frame) (hole : Option NodeId)
    {W : List NodeId}
    (hmem : ∀ j, j ∉ W → h'.mem j = h.mem j)
    (hdis : ∀ j ∈ ctxIds ctx, j ∉ W)
    (hroot : h'.root = h.root) :
    reprCtx h' ctx hole = reprCtx h ctx hole :=
  reprCtx_congr ctx hole (fun j hj => hmem j (hdis j hj)) hroot

/-- Effect of `c_rbtree_paint_case3` on the heap cells. -/
theorem paint_case3_mem (h : Heap) (p u g j : NodeId)
    (hpu : p ≠ u) (hpg : p ≠ g) (hug : u ≠ g) :
    (c_rbtree_paint_case3 h p u g).mem j =
      if j = g then { h.mem g with red := true }
      else if j = u then { h.mem u with raw := Raw.node g, red := false }
      else if j = p then { h.mem p with raw := Raw.node g, red := false }
      else h.mem j := by
  simp only [c_rbtree_paint_case3, c_rbnode_set_parent_and_flags, c_rbnode_raw,
    Heap.upd]
  by_cases hjg : j = g
  · subst hjg
    simp [hpg.symm, (Ne.symm hug)]
  · by_cases hju : j = u
    · subst hju
      simp [hjg, (Ne.symm hpu)]
    · by_cases hjp : j = p
      · subst hjp
        simp [hjg, hju]
      · simp [hjg, hju, hjp]

theorem paint_case3_root (h : Heap) (p u g : NodeId) :
    (c_rbtree_paint_case3 h p u g).root = h.root := rfl

/-- Reparenting an absent or distinct node leaves a cell unchanged. -/
theorem reparentBlack_mem_notin {h : Heap} {t : CTree} {pnew : NodeId} {j : NodeId}
    (hj : j ∉ t.ids) : (reparentBlack h t.rootId pnew).mem j = h.mem j := by
  cases t with
  | nil => rfl
  | node c l i r =>
      have hji : j ≠ i := fun he => hj (by simp [CTree.ids, he])
      simp [reparentBlack, CTree.rootId, c_rbnode_set_parent_and_flags,
        Heap.mem_upd_ne _ _ _ hji]

theorem reparentKeep_mem_notin {h : Heap} {t : CTree} {pnew : NodeId} {j : NodeId}
    (hj : j ∉ t.ids) : (reparentKeep h t.rootId pnew).mem j = h.mem j := by
  cases t with
  | nil => rfl
  | node c l i r =>
      have hji : j ≠ i := fun he => hj (by simp [CTree.ids, he])
      simp [reparentKeep, CTree.rootId, c_rbnode_set_parent_and_flags,
        Heap.mem_upd_ne _ _ _ hji]

theorem reparentBlack_root {h : Heap} {x : Option NodeId} {pnew : NodeId} :
    (reparentBlack h x pnew).root = h.root := by
  cases x <;> rfl

theorem reparentKeep_root {h : Heap} {x : Option NodeId} {pnew : NodeId} :
    (reparentKeep h x pnew).root = h.root := by
  cases x <;> rfl

/-- A black-rooted, correctly stored subtree stays correctly stored after
the reparent-and-blacken idiom, now hanging under `pnew`. -/
theorem reprAt_reparentBlack {h : Heap} {t : CTree} {pnew : NodeId} {up : Raw}
    (hat : reprAt h t up = true) (hblack : t.isRedT = false)
    (hup : (up == Raw.tree) = false) (hnd : t.ids.Nodup) :
    reprAt (reparentBlack h t.rootId pnew) t (Raw.node pnew) = true := by
  cases t with
  | nil => rfl
  | node c l i r =>
      rw [reprAt_node_iff] at hat
      obtain ⟨h1, h2, h3, h4, h5, h6, h7⟩ := hat
      have hc : c = false := by simpa [CTree.isRedT] using hblack
      subst hc
      have hnds : (i ∉ l.ids ∧ i ∉ r.ids) ∧ (l.ids ++ r.ids).Nodup := by
        simpa [CTree.ids] using hnd
      have hil : i ∉ l.ids := hnds.1.1
      have hir : i ∉ r.ids := hnds.1.2
      rw [reprAt_node_iff]
      simp only [reparentBlack, CTree.rootId]
      refine ⟨by simp [c_rbnode_set_parent_and_flags, Heap.mem_upd_self], ?_,
        by simp [c_rbnode_set_parent_and_flags, Heap.mem_upd_self],
        by simp [c_rbnode_set_parent_and_flags, Heap.mem_upd_self, h4, CTree.rootId],
        by simp [c_rbnode_set_parent_and_flags, Heap.mem_upd_self, h5, CTree.rootId],
        ?_, ?_⟩
      · simp [c_rbnode_set_parent_and_flags, Heap.mem_upd_self, h2, hup]
      · simpa [c_rbnode_set_parent_and_flags, reprAt_upd _ hil] using h6
      · simpa [c_rbnode_set_parent_and_flags, reprAt_upd _ hir] using h7

/-- A correctly stored subtree stays correctly stored after the
reparent-keeping-flags idiom, now hanging under `pnew`. -/
theorem reprAt_reparentKeep {h : Heap} {t : CTree} {pnew : NodeId} {up : Raw}
    (hat : reprAt h t up = true)
    (hup : (up == Raw.tree) = false) (hnd : t.ids.Nodup) :
    reprAt (reparentKeep h t.rootId pnew) t (Raw.node pnew) = true := by
  cases t with
  | nil => rfl
  | node c l i r =>
      rw [reprAt_node_iff] at hat
      obtain ⟨h1, h2, h3, h4, h5, h6, h7⟩ := hat
      have hnds : (i ∉ l.ids ∧ i ∉ r.ids) ∧ (l.ids ++ r.ids).Nodup := by
        simpa [CTree.ids] using hnd
      have hil : i ∉ l.ids := hnds.1.1
      have hir : i ∉ r.ids := hnds.1.2
      rw [reprAt_node_iff]
      simp only [reparentKeep, CTree.rootId]
      refine ⟨by simp [c_rbnode_set_parent_and_flags, Heap.mem_upd_self], ?_,
        by simp [c_rbnode_set_parent_and_flags, Heap.mem_upd_self, h3],
        by simp [c_rbnode_set_parent_and_flags, Heap.mem_upd_self, h4, CTree.rootId],
        by simp [c_rbnode_set_parent_and_flags, Heap.mem_upd_self, h5, CTree.rootId],
        ?_, ?_⟩
      · simp [c_rbnode_set_parent_and_flags, Heap.mem_upd_self, h2, hup]
      · simpa [c_rbnode_set_parent_and_flags, reprAt_upd _ hil] using h6
      · simpa [c_rbnode_set_parent_and_flags, reprAt_upd _ hir] using h7

/-! ## Simulation of the insertion fixup -/

theorem rootId_ne {t : CTree} {j : NodeId} (hj : j ∉ t.ids) : t.rootId ≠ some j := by
  cases t with
  | nil => simp [CTree.rootId]
  | node c l i r =>
      intro he
      have hij : i = j := by simpa [CTree.rootId] using he
      exact hj (by simp [CTree.ids, hij.symm])

/-- Case 5 of the insertion fixup, left orientation: the red `p5` (left
child of the black grandparent `gi`, with a red-rooted left subtree `A`
and black right subtree `B`) is rotated above `gi`, which turns red with
`B` as its new left child; the result is balanced and stored. -/
theorem paint_case5_left_sim (h : Heap) (ctx3 : List Frame) (A B gsib : CTree)
    (p5 gi : NodeId) (k n₀ : Nat) (gg : Option NodeId)
    (hgg : gg = ctx3.head?.map Frame.id)
    (hpflag : (h.mem p5).rootFlag = false)
    (hpleft : (h.mem p5).left = A.rootId) (hpright : (h.mem p5).right = B.rootId)
    (hatA : reprAt h A (Raw.node p5) = true) (hatB : reprAt h B (Raw.node p5) = true)
    (hgraw : (h.mem gi).raw = upOf ctx3)
    (hgflag : (h.mem gi).rootFlag = (upOf ctx3 == Raw.tree))
    (hgred : (h.mem gi).red = false)
    (hgright : (h.mem gi).right = gsib.rootId)
    (hgsib : reprAt h gsib (Raw.node gi) = true)
    (hctxR3 : reprCtx h ctx3 (some gi) = true)
    (hA : Bal A true k) (hB : Bal B false k) (hgsibBal : Bal gsib false k)
    (hctx3 : CtxBal false n₀ ctx3 false (k + 1))
    (hnd : ((p5 :: (A.ids ++ B.ids)) ++
      (gi :: (gsib.ids ++ ctxIds ctx3))).Nodup) :
    ∃ t', reprTree (c_rbtree_paint_case5_left h p5 gi gg) t' ∧
      Bal t' false n₀ ∧
      t'.ids.Perm ((p5 :: (A.ids ++ B.ids)) ++ (gi :: (gsib.ids ++ ctxIds ctx3))) := by
  have hndL := hnd
  simp only [List.nodup_append, List.nodup_cons, List.mem_append,
    List.mem_cons, List.disjoint_left] at hndL
  obtain ⟨⟨hp5_notin, hndA, hndB, hdisAB⟩, ⟨hgi_notin, hndgsib, hndc3, hdis_gs_c⟩,
    hdis_first⟩ := hndL
  push_neg at hp5_notin hgi_notin
  have hp5gi : p5 ≠ gi := fun he => hdis_first (Or.inl rfl) (Or.inl he)
  have hgip5 : gi ≠ p5 := hp5gi.symm
  have hp5B : p5 ∉ B.ids := hp5_notin.2
  have hp5A : p5 ∉ A.ids := hp5_notin.1
  have hgiB : gi ∉ B.ids := fun hm => hdis_first (Or.inr (Or.inr hm)) (Or.inl rfl)
  have hgiA : gi ∉ A.ids := fun hm => hdis_first (Or.inr (Or.inl hm)) (Or.inl rfl)
  refine ⟨plug ctx3 (CTree.node false A p5 (CTree.node true B gi gsib)), ?_,
    bal_plug hctx3 (Bal.black hA (Bal.red hB hgsibBal)), ?_⟩
  · cases ctx3 with
    | nil =>
        subst hgg
        simp only [List.head?_nil, Option.map_none']
        have hup : upOf ([] : List Frame) = Raw.tree := rfl
        rw [hup] at hgraw hgflag
        have hisroot : c_rbnode_is_root h gi = true := by
          simp [c_rbnode_is_root, hgflag]
        have hnotroot8 : ∀ hh : Heap, (hh.mem gi).rootFlag = false →
            (hh.mem gi).raw = Raw.null → c_rbnode_swap_child hh gi (some p5) = hh := by
          intro hh h1 h2
          simp [c_rbnode_swap_child, c_rbnode_parent, c_rbnode_is_root,
            c_rbnode_raw, h1, h2, Raw.asNode]
        have hfe : c_rbtree_paint_case5_left h p5 gi none =
            storeRoot
              (c_rbnode_set_parent_and_flags
                (c_rbnode_set_parent_and_flags
                  (c_rbnode_set_parent_and_flags
                    (reparentBlack
                      (storeRight
                        (storeLeft
                          (c_rbnode_set_parent_and_flags h gi Raw.null false false)
                          gi B.rootId)
                        p5 (some gi))
                      B.rootId gi)
                    p5 Raw.null false false)
                  gi (Raw.node p5) true false)
                p5 Raw.tree false true)
              (some p5) := by
          simp [c_rbtree_paint_case5_left, c_rbnode_pop_root, c_rbnode_push_root,
            c_rbnode_is_red, c_rbnode_is_root, c_rbnode_swap_child, c_rbnode_parent,
            c_rbnode_raw, Raw.asNode, hgflag, hgred, hpright, rawOf,
            reparentBlack_mem_notin hp5B, reparentBlack_mem_notin hgiB,
            storeLeft_mem, storeRight_mem, setpf_mem, storeRoot_mem,
            hp5gi, hgip5, hpflag]
        rw [hfe]
        set E := storeRoot
              (c_rbnode_set_parent_and_flags
                (c_rbnode_set_parent_and_flags
                  (c_rbnode_set_parent_and_flags
                    (reparentBlack
                      (storeRight
                        (storeLeft
                          (c_rbnode_set_parent_and_flags h gi Raw.null false false)
                          gi B.rootId)
                        p5 (some gi))
                      B.rootId gi)
                    p5 Raw.null false false)
                  gi (Raw.node p5) true false)
                p5 Raw.tree false true)
              (some p5) with hEdef
        have hW : ∀ j, j ≠ p5 → j ≠ gi → j ∉ B.ids → E.mem j = h.mem j := by
          intro j hj1 hj2 hjB
          rw [hEdef]
          simp [storeRoot_mem, setpf_mem, storeLeft_mem, storeRight_mem,
            reparentBlack_mem_notin hjB, hj1, hj2]
        refine ⟨?_, ?_, ?_⟩
        · rw [hEdef]
          simp [plug, storeRoot_root, CTree.rootId]
        · show reprAt _ (CTree.node false A p5 (CTree.node true B gi gsib))
            Raw.tree = true
          rw [reprAt_node_iff]
          have hm_p5 : E.mem p5 = ⟨Raw.tree, false, true, A.rootId, some gi⟩ := by
            rw [hEdef]
            simp [storeRoot_mem, setpf_mem, storeLeft_mem, storeRight_mem,
              reparentBlack_mem_notin hp5B, hp5gi, hgip5, hpleft]
          have hm_gi : E.mem gi = ⟨Raw.node p5, true, false, B.rootId, gsib.rootId⟩ := by
            rw [hEdef]
            simp [storeRoot_mem, setpf_mem, storeLeft_mem, storeRight_mem,
              reparentBlack_mem_notin hgiB, hp5gi, hgip5, hgright]
          have hArepr : reprAt E A (Raw.node p5) = true := by
            rw [reprAt_congr A (Raw.node p5) (fun j hj => hW j
              (fun he => hp5A (he ▸ hj)) (fun he => hgiA (he ▸ hj))
              (fun hm => hdisAB hj hm))]
            exact hatA
          have hBrepr : reprAt E B (Raw.node gi) = true := by
            have hstage : reprAt (reparentBlack h B.rootId gi) B (Raw.node gi) = true :=
              reprAt_reparentBlack hatB (hB.isRedT) (by simp) hndB
            have hmemB : ∀ j ∈ B.ids,
                E.mem j = (reparentBlack h B.rootId gi).mem j := by
              intro j hj
              have hjp5 : j ≠ p5 := fun he => hp5B (he ▸ hj)
              have hjgi : j ≠ gi := fun he => hgiB (he ▸ hj)
              rw [hEdef]
              cases B with
              | nil => simp [CTree.ids] at hj
              | node bc bl bb br =>
                  by_cases hjb : j = bb
                  · subst hjb
                    simp [reparentBlack, CTree.rootId, storeRoot_mem, setpf_mem,
                      storeLeft_mem, storeRight_mem, hjp5, hjgi]
                  · simp [reparentBlack, CTree.rootId, storeRoot_mem, setpf_mem,
                      storeLeft_mem, storeRight_mem, hjp5, hjgi, hjb]
            rw [reprAt_congr B (Raw.node gi) hmemB]
            exact hstage
          have hgsrepr : reprAt E gsib (Raw.node gi) = true := by
            rw [reprAt_congr gsib (Raw.node gi) (fun j hj => hW j
              (fun he => hdis_first (Or.inl rfl) (Or.inr (Or.inl (he ▸ hj))))
              (fun he => hgi_notin.1 (he ▸ hj))
              (fun hm => hdis_first (Or.inr (Or.inr hm)) (Or.inr (Or.inl hj))))]
            exact hgsib
          refine ⟨by simp [hm_p5], by simp [hm_p5], by simp [hm_p5],
            by simp [hm_p5], by simp [hm_p5, CTree.rootId], hArepr, ?_⟩
          rw [reprAt_node_iff]
          exact ⟨by simp [hm_gi], by simp [hm_gi], by simp [hm_gi],
            by simp [hm_gi], by simp [hm_gi], hBrepr, hgsrepr⟩
        · refine (List.Perm.nodup_iff ((plug_ids_perm _ _).trans ?_)).mpr hnd
          rw [← Multiset.coe_eq_coe]
          simp only [CTree.ids, ctxIds, ← Multiset.cons_coe, ← Multiset.coe_add,
            ← Multiset.singleton_add]
          abel
    | cons f3 ctx4 =>
        subst hgg
        simp only [List.head?_cons, Option.map_some']
        rw [reprCtx_cons_iff] at hctxR3
        obtain ⟨hf3raw, hf3flag, hf3red, hf3left, hf3right, hf3sib, hctxR4⟩ := hctxR3
        have hf3mem : f3.id ∈ ctxIds (f3 :: ctx4) := by simp [ctxIds]
        have hf3gi : f3.id ≠ gi := fun he => hgi_notin.2 (he ▸ hf3mem)
        have hf3p5 : f3.id ≠ p5 := fun he =>
          hdis_first (Or.inl rfl) (Or.inr (Or.inr (he ▸ hf3mem)))
        have hgif3 : gi ≠ f3.id := hf3gi.symm
        have hp5f3 : p5 ≠ f3.id := hf3p5.symm
        have hf3B : f3.id ∉ B.ids := fun hm =>
          hdis_first (Or.inr (Or.inr hm)) (Or.inr (Or.inr hf3mem))
        have hgisib : gi ∉ f3.sib.ids := fun hm =>
          hgi_notin.2 (by simp [ctxIds, hm])
        have hndctx := hndc3
        simp only [ctxIds, List.nodup_cons] at hndctx
        have hisroot : c_rbnode_is_root h gi = false := by
          simp [c_rbnode_is_root, hgflag, upOf]
        have hup3 : upOf (f3 :: ctx4) = Raw.node f3.id := rfl
        rw [hup3] at hgraw hgflag
        have hbf : (Raw.node f3.id == Raw.tree) = false := rfl
        cases hf3d : f3.isRight with
        | false =>
            rw [hf3d] at hf3left hf3right
            simp only [Bool.false_eq_true, if_false] at hf3left hf3right
            have hfe : c_rbtree_paint_case5_left h p5 gi (some f3.id) =
                c_rbnode_set_parent_and_flags
                  (c_rbnode_set_parent_and_flags
                    (reparentBlack
                      (storeLeft
                        (storeRight (storeLeft h gi B.rootId) p5 (some gi))
                        f3.id (some p5))
                      B.rootId gi)
                    p5 (Raw.node f3.id) false false)
                  gi (Raw.node p5) true false := by
              simp [c_rbtree_paint_case5_left, c_rbnode_pop_root, c_rbnode_push_root,
                c_rbnode_is_red, c_rbnode_is_root, c_rbnode_swap_child, c_rbnode_parent,
                c_rbnode_raw, Raw.asNode, hgflag, hgraw, hgred, hpright, rawOf,
                reparentBlack_mem_notin hp5B, reparentBlack_mem_notin hgiB,
                storeLeft_mem, storeRight_mem, setpf_mem, storeRoot_mem,
                hp5gi, hgip5, hpflag, hf3gi, hgif3, hf3p5, hp5f3, hf3left, upOf, hbf]
            rw [hfe]
            set E := c_rbnode_set_parent_and_flags
                  (c_rbnode_set_parent_and_flags
                    (reparentBlack
                      (storeLeft
                        (storeRight (storeLeft h gi B.rootId) p5 (some gi))
                        f3.id (some p5))
                      B.rootId gi)
                    p5 (Raw.node f3.id) false false)
                  gi (Raw.node p5) true false with hEdef
            have hW : ∀ j, j ≠ p5 → j ≠ gi → j ∉ B.ids → j ≠ f3.id →
                E.mem j = h.mem j := by
              intro j hj1 hj2 hjB hj3
              rw [hEdef]
              simp [storeRoot_mem, setpf_mem, storeLeft_mem, storeRight_mem,
                reparentBlack_mem_notin hjB, hj1, hj2, hj3]
            have hm_p5 : E.mem p5 = ⟨Raw.node f3.id, false, false, A.rootId, some gi⟩ := by
              rw [hEdef]
              simp [storeRoot_mem, setpf_mem, storeLeft_mem, storeRight_mem,
                reparentBlack_mem_notin hp5B, hp5gi, hgip5, hp5f3, hpleft]
            have hm_gi : E.mem gi = ⟨Raw.node p5, true, false, B.rootId, gsib.rootId⟩ := by
              rw [hEdef]
              simp [storeRoot_mem, setpf_mem, storeLeft_mem, storeRight_mem,
                reparentBlack_mem_notin hgiB, hp5gi, hgip5, hgif3, hgright]
            have hm_f3 : E.mem f3.id =
                ⟨upOf ctx4, f3.red, (upOf ctx4 == Raw.tree), some p5, f3.sib.rootId⟩ := by
              rw [hEdef]
              simp only [setpf_mem, if_neg hf3gi, if_neg hf3p5]
              rw [reparentBlack_mem_notin hf3B]
              simp only [storeLeft_mem, storeRight_mem, if_pos rfl, if_neg hf3p5,
                if_neg hf3gi, if_true, eq_self_iff_true]
              cases hd : (h.mem f3.id) with
              | mk raw red rootFlag left right =>
                  simp only [NodeData.mk.injEq]
                  rw [hd] at hf3raw hf3flag hf3red hf3right
                  exact ⟨hf3raw, hf3red, hf3flag, trivial, hf3right⟩
            have hArepr : reprAt E A (Raw.node p5) = true := by
              rw [reprAt_congr A (Raw.node p5) (fun j hj => hW j
                (fun he => hp5A (he ▸ hj)) (fun he => hgiA (he ▸ hj))
                (fun hm => hdisAB hj hm)
                (fun he => hdis_first (Or.inr (Or.inl hj))
                  (Or.inr (Or.inr (he ▸ hf3mem)))))]
              exact hatA
            have hBrepr : reprAt E B (Raw.node gi) = true := by
              have hstage : reprAt (reparentBlack h B.rootId gi) B (Raw.node gi) = true :=
                reprAt_reparentBlack hatB (hB.isRedT) (by simp) hndB
              have hmemB : ∀ j ∈ B.ids,
                  E.mem j = (reparentBlack h B.rootId gi).mem j := by
                intro j hj
                have hjp5 : j ≠ p5 := fun he => hp5B (he ▸ hj)
                have hjgi : j ≠ gi := fun he => hgiB (he ▸ hj)
                have hjf3 : j ≠ f3.id := fun he => hf3B (he ▸ hj)
                rw [hEdef]
                cases B with
                | nil => simp [CTree.ids] at hj
                | node bc bl bb br =>
                    by_cases hjb : j = bb
                    · subst hjb
                      simp [reparentBlack, CTree.rootId, storeRoot_mem, setpf_mem,
                        storeLeft_mem, storeRight_mem, hjp5, hjgi, hjf3]
                    · simp [reparentBlack, CTree.rootId, storeRoot_mem, setpf_mem,
                        storeLeft_mem, storeRight_mem, hjp5, hjgi, hjf3, hjb]
              rw [reprAt_congr B (Raw.node gi) hmemB]
              exact hstage
            have hgsrepr : reprAt E gsib (Raw.node gi) = true := by
              rw [reprAt_congr gsib (Raw.node gi) (fun j hj => hW j
                (fun he => hdis_first (Or.inl rfl) (Or.inr (Or.inl (he ▸ hj))))
                (fun he => hgi_notin.1 (he ▸ hj))
                (fun hm => hdis_first (Or.inr (Or.inr hm)) (Or.inr (Or.inl hj)))
                (fun he => hdis_gs_c hj (he ▸ hf3mem)))]
              exact hgsib
            have hsibrepr : reprAt E f3.sib (Raw.node f3.id) = true := by
              rw [reprAt_congr f3.sib (Raw.node f3.id) (fun j hj => hW j
                (fun he => hdis_first (Or.inl rfl)
                  (Or.inr (Or.inr (by simp [ctxIds, he ▸ hj]))))
                (fun he => hgisib (he ▸ hj))
                (fun hm => hdis_first (Or.inr (Or.inr hm))
                  (Or.inr (Or.inr (by simp [ctxIds, hj]))))
                (fun he => hndctx.1 (List.mem_append.mpr (Or.inl (he ▸ hj)))))]
              exact hf3sib
            have hctxrepr : reprCtx E ctx4 (some f3.id) = true := by
              rw [reprCtx_congr ctx4 (some f3.id) (fun j hj => by
                have hjc3 : j ∈ ctxIds (f3 :: ctx4) := by simp [ctxIds, hj]
                exact hW j
                  (fun he => hdis_first (Or.inl rfl) (Or.inr (Or.inr (he ▸ hjc3))))
                  (fun he => hgi_notin.2 (he ▸ hjc3))
                  (fun hm => hdis_first (Or.inr (Or.inr hm)) (Or.inr (Or.inr hjc3)))
                  (fun he => hndctx.1 (List.mem_append.mpr (Or.inr (he ▸ hj)))))
                (by rw [hEdef];
                    simp [setpf_root, storeLeft_root, storeRight_root, reparentBlack_root])]
              exact hctxR4
            have hpair := (repr_plug_iff E (f3 :: ctx4)
              (CTree.node false A p5 (CTree.node true B gi gsib))).mpr ⟨?_, ?_⟩
            · refine ⟨hpair.1, hpair.2, ?_⟩
              refine (List.Perm.nodup_iff ((plug_ids_perm _ _).trans ?_)).mpr hnd
              rw [← Multiset.coe_eq_coe]
              simp only [CTree.ids, ctxIds, ← Multiset.cons_coe, ← Multiset.coe_add,
                ← Multiset.singleton_add]
              abel
            · rw [reprCtx_cons_iff]
              refine ⟨by simp [hm_f3], by simp [hm_f3], by simp [hm_f3],
                ?_, ?_, hsibrepr, hctxrepr⟩
              · rw [hf3d]
                simp [hm_f3, CTree.rootId]
              · rw [hf3d]
                simp [hm_f3, CTree.rootId]
            · rw [reprAt_node_iff, hup3]
              refine ⟨by simp [hm_p5], by simp [hm_p5], by simp [hm_p5],
                by simp [hm_p5], by simp [hm_p5, CTree.rootId], hArepr, ?_⟩
              rw [reprAt_node_iff]
              exact ⟨by simp [hm_gi], by simp [hm_gi], by simp [hm_gi],
                by simp [hm_gi], by simp [hm_gi], hBrepr, hgsrepr⟩
        | true =>
            rw [hf3d] at hf3left hf3right
            simp only [if_true] at hf3left hf3right
            have hneq : f3.sib.rootId ≠ some gi := rootId_ne hgisib
            have hfe : c_rbtree_paint_case5_left h p5 gi (some f3.id) =
                c_rbnode_set_parent_and_flags
                  (c_rbnode_set_parent_and_flags
                    (reparentBlack
                      (storeRight
                        (storeRight (storeLeft h gi B.rootId) p5 (some gi))
                        f3.id (some p5))
                      B.rootId gi)
                    p5 (Raw.node f3.id) false false)
                  gi (Raw.node p5) true false := by
              simp [c_rbtree_paint_case5_left, c_rbnode_pop_root, c_rbnode_push_root,
                c_rbnode_is_red, c_rbnode_is_root, c_rbnode_swap_child, c_rbnode_parent,
                c_rbnode_raw, Raw.asNode, hgflag, hgraw, hgred, hpright, rawOf,
                reparentBlack_mem_notin hp5B, reparentBlack_mem_notin hgiB,
                storeLeft_mem, storeRight_mem, setpf_mem, storeRoot_mem,
                hp5gi, hgip5, hpflag, hf3gi, hgif3, hf3p5, hp5f3, hf3left, hneq, upOf, hbf]
            rw [hfe]
            set E := c_rbnode_set_parent_and_flags
                  (c_rbnode_set_parent_and_flags
                    (reparentBlack
                      (storeRight
                        (storeRight (storeLeft h gi B.rootId) p5 (some gi))
                        f3.id (some p5))
                      B.rootId gi)
                    p5 (Raw.node f3.id) false false)
                  gi (Raw.node p5) true false with hEdef
            have hW : ∀ j, j ≠ p5 → j ≠ gi → j ∉ B.ids → j ≠ f3.id →
                E.mem j = h.mem j := by
              intro j hj1 hj2 hjB hj3
              rw [hEdef]
              simp [storeRoot_mem, setpf_mem, storeLeft_mem, storeRight_mem,
                reparentBlack_mem_notin hjB, hj1, hj2, hj3]
            have hm_p5 : E.mem p5 = ⟨Raw.node f3.id, false, false, A.rootId, some gi⟩ := by
              rw [hEdef]
              simp [storeRoot_mem, setpf_mem, storeLeft_mem, storeRight_mem,
                reparentBlack_mem_notin hp5B, hp5gi, hgip5, hp5f3, hpleft]
            have hm_gi : E.mem gi = ⟨Raw.node p5, true, false, B.rootId, gsib.rootId⟩ := by
              rw [hEdef]
              simp [storeRoot_mem, setpf_mem, storeLeft_mem, storeRight_mem,
                reparentBlack_mem_notin hgiB, hp5gi, hgip5, hgif3, hgright]
            have hm_f3 : E.mem f3.id =
                ⟨upOf ctx4, f3.red, (upOf ctx4 == Raw.tree), f3.sib.rootId, some p5⟩ := by
              rw [hEdef]
              simp only [setpf_mem, if_neg hf3gi, if_neg hf3p5]
              rw [reparentBlack_mem_notin hf3B]
              simp only [storeLeft_mem, storeRight_mem, if_pos rfl, if_neg hf3p5,
                if_neg hf3gi, if_true, eq_self_iff_true]
              cases hd : (h.mem f3.id) with
              | mk raw red rootFlag left right =>
                  simp only [NodeData.mk.injEq]
                  rw [hd] at hf3raw hf3flag hf3red hf3left
                  exact ⟨hf3raw, hf3red, hf3flag, hf3left, trivial⟩
            have hArepr : reprAt E A (Raw.node p5) = true := by
              rw [reprAt_congr A (Raw.node p5) (fun j hj => hW j
                (fun he => hp5A (he ▸ hj)) (fun he => hgiA (he ▸ hj))
                (fun hm => hdisAB hj hm)
                (fun he => hdis_first (Or.inr (Or.inl hj))
                  (Or.inr (Or.inr (he ▸ hf3mem)))))]
              exact hatA
            have hBrepr : reprAt E B (Raw.node gi) = true := by
              have hstage : reprAt (reparentBlack h B.rootId gi) B (Raw.node gi) = true :=
                reprAt_reparentBlack hatB (hB.isRedT) (by simp) hndB
              have hmemB : ∀ j ∈ B.ids,
                  E.mem j = (reparentBlack h B.rootId gi).mem j := by
                intro j hj
                have hjp5 : j ≠ p5 := fun he => hp5B (he ▸ hj)
                have hjgi : j ≠ gi := fun he => hgiB (he ▸ hj)
                have hjf3 : j ≠ f3.id := fun he => hf3B (he ▸ hj)
                rw [hEdef]
                cases B with
                | nil => simp [CTree.ids] at hj
                | node bc bl bb br =>
                    by_cases hjb : j = bb
                    · subst hjb
                      simp [reparentBlack, CTree.rootId, storeRoot_mem, setpf_mem,
                        storeLeft_mem, storeRight_mem, hjp5, hjgi, hjf3]
                    · simp [reparentBlack, CTree.rootId, storeRoot_mem, setpf_mem,
                        storeLeft_mem, storeRight_mem, hjp5, hjgi, hjf3, hjb]
              rw [reprAt_congr B (Raw.node gi) hmemB]
              exact hstage
            have hgsrepr : reprAt E gsib (Raw.node gi) = true := by
              rw [reprAt_congr gsib (Raw.node gi) (fun j hj => hW j
                (fun he => hdis_first (Or.inl rfl) (Or.inr (Or.inl (he ▸ hj))))
                (fun he => hgi_notin.1 (he ▸ hj))
                (fun hm => hdis_first (Or.inr (Or.inr hm)) (Or.inr (Or.inl hj)))
                (fun he => hdis_gs_c hj (he ▸ hf3mem)))]
              exact hgsib
            have hsibrepr : reprAt E f3.sib (Raw.node f3.id) = true := by
              rw [reprAt_congr f3.sib (Raw.node f3.id) (fun j hj => hW j
                (fun he => hdis_first (Or.inl rfl)
                  (Or.inr (Or.inr (by simp [ctxIds, he ▸ hj]))))
                (fun he => hgisib (he ▸ hj))
                (fun hm => hdis_first (Or.inr (Or.inr hm))
                  (Or.inr (Or.inr (by simp [ctxIds, hj]))))
                (fun he => hndctx.1 (List.mem_append.mpr (Or.inl (he ▸ hj)))))]
              exact hf3sib
            have hctxrepr : reprCtx E ctx4 (some f3.id) = true := by
              rw [reprCtx_congr ctx4 (some f3.id) (fun j hj => by
                have hjc3 : j ∈ ctxIds (f3 :: ctx4) := by simp [ctxIds, hj]
                exact hW j
                  (fun he => hdis_first (Or.inl rfl) (Or.inr (Or.inr (he ▸ hjc3))))
                  (fun he => hgi_notin.2 (he ▸ hjc3))
                  (fun hm => hdis_first (Or.inr (Or.inr hm)) (Or.inr (Or.inr hjc3)))
                  (fun he => hndctx.1 (List.mem_append.mpr (Or.inr (he ▸ hj)))))
                (by rw [hEdef];
                    simp [setpf_root, storeLeft_root, storeRight_root, reparentBlack_root])]
              exact hctxR4
            have hpair := (repr_plug_iff E (f3 :: ctx4)
              (CTree.node false A p5 (CTree.node true B gi gsib))).mpr ⟨?_, ?_⟩
            · refine ⟨hpair.1, hpair.2, ?_⟩
              refine (List.Perm.nodup_iff ((plug_ids_perm _ _).trans ?_)).mpr hnd
              rw [← Multiset.coe_eq_coe]
              simp only [CTree.ids, ctxIds, ← Multiset.cons_coe, ← Multiset.coe_add,
                ← Multiset.singleton_add]
              abel
            · rw [reprCtx_cons_iff]
              refine ⟨by simp [hm_f3], by simp [hm_f3], by simp [hm_f3],
                ?_, ?_, hsibrepr, hctxrepr⟩
              · rw [hf3d]
                simp [hm_f3, CTree.rootId]
              · rw [hf3d]
                simp [hm_f3, CTree.rootId]
            · rw [reprAt_node_iff, hup3]
              refine ⟨by simp [hm_p5], by simp [hm_p5], by simp [hm_p5],
                by simp [hm_p5], by simp [hm_p5, CTree.rootId], hArepr, ?_⟩
              rw [reprAt_node_iff]
              exact ⟨by simp [hm_gi], by simp [hm_gi], by simp [hm_gi],
                by simp [hm_gi], by simp [hm_gi], hBrepr, hgsrepr⟩

  · refine (plug_ids_perm _ _).trans ?_
    rw [← Multiset.coe_eq_coe]
    simp only [CTree.ids, ctxIds, ← Multiset.cons_coe, ← Multiset.coe_add,
      ← Multiset.singleton_add]
    abel


/-- Case 5 of the insertion fixup, right orientation (mirror): the red
`p5` (right child of the black grandparent `gi`, with a red-rooted right
subtree `A` and black left subtree `B`) is rotated above `gi`, which turns
red with `B` as its new right child; the result is balanced and stored. -/
theorem paint_case5_right_sim (h : Heap) (ctx3 : List Frame) (A B gsib : CTree)
    (p5 gi : NodeId) (k n₀ : Nat) (gg : Option NodeId)
    (hgg : gg = ctx3.head?.map Frame.id)
    (hpflag : (h.mem p5).rootFlag = false)
    (hpleft : (h.mem p5).left = B.rootId) (hpright : (h.mem p5).right = A.rootId)
    (hatA : reprAt h A (Raw.node p5) = true) (hatB : reprAt h B (Raw.node p5) = true)
    (hgraw : (h.mem gi).raw = upOf ctx3)
    (hgflag : (h.mem gi).rootFlag = (upOf ctx3 == Raw.tree))
    (hgred : (h.mem gi).red = false)
    (hgleft : (h.mem gi).left = gsib.rootId)
    (hgsib : reprAt h gsib (Raw.node gi) = true)
    (hctxR3 : reprCtx h ctx3 (some gi) = true)
    (hA : Bal A true k) (hB : Bal B false k) (hgsibBal : Bal gsib false k)
    (hctx3 : CtxBal false n₀ ctx3 false (k + 1))
    (hnd : ((p5 :: (A.ids ++ B.ids)) ++
      (gi :: (gsib.ids ++ ctxIds ctx3))).Nodup) :
    ∃ t', reprTree (c_rbtree_paint_case5_right h p5 gi gg) t' ∧
      Bal t' false n₀ ∧
      t'.ids.Perm ((p5 :: (A.ids ++ B.ids)) ++ (gi :: (gsib.ids ++ ctxIds ctx3))) := by
  have hndL := hnd
  simp only [List.nodup_append, List.nodup_cons, List.mem_append,
    List.mem_cons, List.disjoint_left] at hndL
  obtain ⟨⟨hp5_notin, hndA, hndB, hdisAB⟩, ⟨hgi_notin, hndgsib, hndc3, hdis_gs_c⟩,
    hdis_first⟩ := hndL
  push_neg at hp5_notin hgi_notin
  have hp5gi : p5 ≠ gi := fun he => hdis_first (Or.inl rfl) (Or.inl he)
  have hgip5 : gi ≠ p5 := hp5gi.symm
  have hp5B : p5 ∉ B.ids := hp5_notin.2
  have hp5A : p5 ∉ A.ids := hp5_notin.1
  have hgiB : gi ∉ B.ids := fun hm => hdis_first (Or.inr (Or.inr hm)) (Or.inl rfl)
  have hgiA : gi ∉ A.ids := fun hm => hdis_first (Or.inr (Or.inl hm)) (Or.inl rfl)
  refine ⟨plug ctx3 (CTree.node false (CTree.node true gsib gi B) p5 A), ?_,
    bal_plug hctx3 (Bal.black (Bal.red hgsibBal hB) hA), ?_⟩
  · cases ctx3 with
    | nil =>
        subst hgg
        simp only [List.head?_nil, Option.map_none']
        have hup : upOf ([] : List Frame) = Raw.tree := rfl
        rw [hup] at hgraw hgflag
        have hisroot : c_rbnode_is_root h gi = true := by
          simp [c_rbnode_is_root, hgflag]
        have hnotroot8 : ∀ hh : Heap, (hh.mem gi).rootFlag = false →
            (hh.mem gi).raw = Raw.null → c_rbnode_swap_child hh gi (some p5) = hh := by
          intro hh h1 h2
          simp [c_rbnode_swap_child, c_rbnode_parent, c_rbnode_is_root,
            c_rbnode_raw, h1, h2, Raw.asNode]
        have hfe : c_rbtree_paint_case5_right h p5 gi none =
            storeRoot
              (c_rbnode_set_parent_and_flags
                (c_rbnode_set_parent_and_flags
                  (c_rbnode_set_parent_and_flags
                    (reparentBlack
                      (storeLeft
                        (storeRight
                          (c_rbnode_set_parent_and_flags h gi Raw.null false false)
                          gi B.rootId)
                        p5 (some gi))
                      B.rootId gi)
                    p5 Raw.null false false)
                  gi (Raw.node p5) true false)
                p5 Raw.tree false true)
              (some p5) := by
          simp [c_rbtree_paint_case5_right, c_rbnode_pop_root, c_rbnode_push_root,
            c_rbnode_is_red, c_rbnode_is_root, c_rbnode_swap_child, c_rbnode_parent,
            c_rbnode_raw, Raw.asNode, hgflag, hgred, hpleft, rawOf,
            reparentBlack_mem_notin hp5B, reparentBlack_mem_notin hgiB,
            storeLeft_mem, storeRight_mem, setpf_mem, storeRoot_mem,
            hp5gi, hgip5, hpflag]
        rw [hfe]
        set E := storeRoot
              (c_rbnode_set_parent_and_flags
                (c_rbnode_set_parent_and_flags
                  (c_rbnode_set_parent_and_flags
                    (reparentBlack
                      (storeLeft
                        (storeRight
                          (c_rbnode_set_parent_and_flags h gi Raw.null false false)
                          gi B.rootId)
                        p5 (some gi))
                      B.rootId gi)
                    p5 Raw.null false false)
                  gi (Raw.node p5) true false)
                p5 Raw.tree false true)
              (some p5) with hEdef
        have hW : ∀ j, j ≠ p5 → j ≠ gi → j ∉ B.ids → E.mem j = h.mem j := by
          intro j hj1 hj2 hjB
          rw [hEdef]
          simp [storeRoot_mem, setpf_mem, storeLeft_mem, storeRight_mem,
            reparentBlack_mem_notin hjB, hj1, hj2]
        refine ⟨?_, ?_, ?_⟩
        · rw [hEdef]
          simp [plug, storeRoot_root, CTree.rootId]
        · show reprAt _ (CTree.node false (CTree.node true gsib gi B) p5 A)
            Raw.tree = true
          rw [reprAt_node_iff]
          have hm_p5 : E.mem p5 = ⟨Raw.tree, false, true, some gi, A.rootId⟩ := by
            rw [hEdef]
            simp [storeRoot_mem, setpf_mem, storeLeft_mem, storeRight_mem,
              reparentBlack_mem_notin hp5B, hp5gi, hgip5, hpright]
          have hm_gi : E.mem gi = ⟨Raw.node p5, true, false, gsib.rootId, B.rootId⟩ := by
            rw [hEdef]
            simp [storeRoot_mem, setpf_mem, storeLeft_mem, storeRight_mem,
              reparentBlack_mem_notin hgiB, hp5gi, hgip5, hgleft]
          have hArepr : reprAt E A (Raw.node p5) = true := by
            rw [reprAt_congr A (Raw.node p5) (fun j hj => hW j
              (fun he => hp5A (he ▸ hj)) (fun he => hgiA (he ▸ hj))
              (fun hm => hdisAB hj hm))]
            exact hatA
          have hBrepr : reprAt E B (Raw.node gi) = true := by
            have hstage : reprAt (reparentBlack h B.rootId gi) B (Raw.node gi) = true :=
              reprAt_reparentBlack hatB (hB.isRedT) (by simp) hndB
            have hmemB : ∀ j ∈ B.ids,
                E.mem j = (reparentBlack h B.rootId gi).mem j := by
              intro j hj
              have hjp5 : j ≠ p5 := fun he => hp5B (he ▸ hj)
              have hjgi : j ≠ gi := fun he => hgiB (he ▸ hj)
              rw [hEdef]
              cases B with
              | nil => simp [CTree.ids] at hj
              | node bc bl bb br =>
                  by_cases hjb : j = bb
                  · subst hjb
                    simp [reparentBlack, CTree.rootId, storeRoot_mem, setpf_mem,
                      storeLeft_mem, storeRight_mem, hjp5, hjgi]
                  · simp [reparentBlack, CTree.rootId, storeRoot_mem, setpf_mem,
                      storeLeft_mem, storeRight_mem, hjp5, hjgi, hjb]
            rw [reprAt_congr B (Raw.node gi) hmemB]
            exact hstage
          have hgsrepr : reprAt E gsib (Raw.node gi) = true := by
            rw [reprAt_congr gsib (Raw.node gi) (fun j hj => hW j
              (fun he => hdis_first (Or.inl rfl) (Or.inr (Or.inl (he ▸ hj))))
              (fun he => hgi_notin.1 (he ▸ hj))
              (fun hm => hdis_first (Or.inr (Or.inr hm)) (Or.inr (Or.inl hj))))]
            exact hgsib
          refine ⟨by simp [hm_p5], by simp [hm_p5], by simp [hm_p5],
            by simp [hm_p5, CTree.rootId], by simp [hm_p5], ?_, hArepr⟩
          rw [reprAt_node_iff]
          exact ⟨by simp [hm_gi], by simp [hm_gi], by simp [hm_gi],
            by simp [hm_gi], by simp [hm_gi], hgsrepr, hBrepr⟩
        · refine (List.Perm.nodup_iff ((plug_ids_perm _ _).trans ?_)).mpr hnd
          rw [← Multiset.coe_eq_coe]
          simp only [CTree.ids, ctxIds, ← Multiset.cons_coe, ← Multiset.coe_add,
            ← Multiset.singleton_add]
          abel
    | cons f3 ctx4 =>
        subst hgg
        simp only [List.head?_cons, Option.map_some']
        rw [reprCtx_cons_iff] at hctxR3
        obtain ⟨hf3raw, hf3flag, hf3red, hf3left, hf3right, hf3sib, hctxR4⟩ := hctxR3
        have hf3mem : f3.id ∈ ctxIds (f3 :: ctx4) := by simp [ctxIds]
        have hf3gi : f3.id ≠ gi := fun he => hgi_notin.2 (he ▸ hf3mem)
        have hf3p5 : f3.id ≠ p5 := fun he =>
          hdis_first (Or.inl rfl) (Or.inr (Or.inr (he ▸ hf3mem)))
        have hgif3 : gi ≠ f3.id := hf3gi.symm
        have hp5f3 : p5 ≠ f3.id := hf3p5.symm
        have hf3B : f3.id ∉ B.ids := fun hm =>
          hdis_first (Or.inr (Or.inr hm)) (Or.inr (Or.inr hf3mem))
        have hgisib : gi ∉ f3.sib.ids := fun hm =>
          hgi_notin.2 (by simp [ctxIds, hm])
        have hndctx := hndc3
        simp only [ctxIds, List.nodup_cons] at hndctx
        have hisroot : c_rbnode_is_root h gi = false := by
          simp [c_rbnode_is_root, hgflag, upOf]
        have hup3 : upOf (f3 :: ctx4) = Raw.node f3.id := rfl
        rw [hup3] at hgraw hgflag
        have hbf : (Raw.node f3.id == Raw.tree) = false := rfl
        cases hf3d : f3.isRight with
        | false =>
            rw [hf3d] at hf3left hf3right
            simp only [Bool.false_eq_true, if_false] at hf3left hf3right
            have hfe : c_rbtree_paint_case5_right h p5 gi (some f3.id) =
                c_rbnode_set_parent_and_flags
                  (c_rbnode_set_parent_and_flags
                    (reparentBlack
                      (storeLeft
                        (storeLeft (storeRight h gi B.rootId) p5 (some gi))
                        f3.id (some p5))
                      B.rootId gi)
                    p5 (Raw.node f3.id) false false)
                  gi (Raw.node p5) true false := by
              simp [c_rbtree_paint_case5_right, c_rbnode_pop_root, c_rbnode_push_root,
                c_rbnode_is_red, c_rbnode_is_root, c_rbnode_swap_child, c_rbnode_parent,
                c_rbnode_raw, Raw.asNode, hgflag, hgraw, hgred, hpleft, rawOf,
                reparentBlack_mem_notin hp5B, reparentBlack_mem_notin hgiB,
                storeLeft_mem, storeRight_mem, setpf_mem, storeRoot_mem,
                hp5gi, hgip5, hpflag, hf3gi, hgif3, hf3p5, hp5f3, hf3left, upOf, hbf]
            rw [hfe]
            set E := c_rbnode_set_parent_and_flags
                  (c_rbnode_set_parent_and_flags
                    (reparentBlack
                      (storeLeft
                        (storeLeft (storeRight h gi B.rootId) p5 (some gi))
                        f3.id (some p5))
                      B.rootId gi)
                    p5 (Raw.node f3.id) false false)
                  gi (Raw.node p5) true false with hEdef
            have hW : ∀ j, j ≠ p5 → j ≠ gi → j ∉ B.ids → j ≠ f3.id →
                E.mem j = h.mem j := by
              intro j hj1 hj2 hjB hj3
              rw [hEdef]
              simp [storeRoot_mem, setpf_mem, storeLeft_mem, storeRight_mem,
                reparentBlack_mem_notin hjB, hj1, hj2, hj3]
            have hm_p5 : E.mem p5 = ⟨Raw.node f3.id, false, false, some gi, A.rootId⟩ := by
              rw [hEdef]
              simp [storeRoot_mem, setpf_mem, storeLeft_mem, storeRight_mem,
                reparentBlack_mem_notin hp5B, hp5gi, hgip5, hp5f3, hpright]
            have hm_gi : E.mem gi = ⟨Raw.node p5, true, false, gsib.rootId, B.rootId⟩ := by
              rw [hEdef]
              simp [storeRoot_mem, setpf_mem, storeLeft_mem, storeRight_mem,
                reparentBlack_mem_notin hgiB, hp5gi, hgip5, hgif3, hgleft]
            have hm_f3 : E.mem f3.id =
                ⟨upOf ctx4, f3.red, (upOf ctx4 == Raw.tree), some p5, f3.sib.rootId⟩ := by
              rw [hEdef]
              simp only [setpf_mem, if_neg hf3gi, if_neg hf3p5]
              rw [reparentBlack_mem_notin hf3B]
              simp only [storeLeft_mem, storeRight_mem, if_pos rfl, if_neg hf3p5,
                if_neg hf3gi, if_true, eq_self_iff_true]
              cases hd : (h.mem f3.id) with
              | mk raw red rootFlag left right =>
                  simp only [NodeData.mk.injEq]
                  rw [hd] at hf3raw hf3flag hf3red hf3right
                  exact ⟨hf3raw, hf3red, hf3flag, trivial, hf3right⟩
            have hArepr : reprAt E A (Raw.node p5) = true := by
              rw [reprAt_congr A (Raw.node p5) (fun j hj => hW j
                (fun he => hp5A (he ▸ hj)) (fun he => hgiA (he ▸ hj))
                (fun hm => hdisAB hj hm)
                (fun he => hdis_first (Or.inr (Or.inl hj))
                  (Or.inr (Or.inr (he ▸ hf3mem)))))]
              exact hatA
            have hBrepr : reprAt E B (Raw.node gi) = true := by
              have hstage : reprAt (reparentBlack h B.rootId gi) B (Raw.node gi) = true :=
                reprAt_reparentBlack hatB (hB.isRedT) (by simp) hndB
              have hmemB : ∀ j ∈ B.ids,
                  E.mem j = (reparentBlack h B.rootId gi).mem j := by
                intro j hj
                have hjp5 : j ≠ p5 := fun he => hp5B (he ▸ hj)
                have hjgi : j ≠ gi := fun he => hgiB (he ▸ hj)
                have hjf3 : j ≠ f3.id := fun he => hf3B (he ▸ hj)
                rw [hEdef]
                cases B with
                | nil => simp [CTree.ids] at hj
                | node bc bl bb br =>
                    by_cases hjb : j = bb
                    · subst hjb
                      simp [reparentBlack, CTree.rootId, storeRoot_mem, setpf_mem,
                        storeLeft_mem, storeRight_mem, hjp5, hjgi, hjf3]
                    · simp [reparentBlack, CTree.rootId, storeRoot_mem, setpf_mem,
                        storeLeft_mem, storeRight_mem, hjp5, hjgi, hjf3, hjb]
              rw [reprAt_congr B (Raw.node gi) hmemB]
              exact hstage
            have hgsrepr : reprAt E gsib (Raw.node gi) = true := by
              rw [reprAt_congr gsib (Raw.node gi) (fun j hj => hW j
                (fun he => hdis_first (Or.inl rfl) (Or.inr (Or.inl (he ▸ hj))))
                (fun he => hgi_notin.1 (he ▸ hj))
                (fun hm => hdis_first (Or.inr (Or.inr hm)) (Or.inr (Or.inl hj)))
                (fun he => hdis_gs_c hj (he ▸ hf3mem)))]
              exact hgsib
            have hsibrepr : reprAt E f3.sib (Raw.node f3.id) = true := by
              rw [reprAt_congr f3.sib (Raw.node f3.id) (fun j hj => hW j
                (fun he => hdis_first (Or.inl rfl)
                  (Or.inr (Or.inr (by simp [ctxIds, he ▸ hj]))))
                (fun he => hgisib (he ▸ hj))
                (fun hm => hdis_first (Or.inr (Or.inr hm))
                  (Or.inr (Or.inr (by simp [ctxIds, hj]))))
                (fun he => hndctx.1 (List.mem_append.mpr (Or.inl (he ▸ hj)))))]
              exact hf3sib
            have hctxrepr : reprCtx E ctx4 (some f3.id) = true := by
              rw [reprCtx_congr ctx4 (some f3.id) (fun j hj => by
                have hjc3 : j ∈ ctxIds (f3 :: ctx4) := by simp [ctxIds, hj]
                exact hW j
                  (fun he => hdis_first (Or.inl rfl) (Or.inr (Or.inr (he ▸ hjc3))))
                  (fun he => hgi_notin.2 (he ▸ hjc3))
                  (fun hm => hdis_first (Or.inr (Or.inr hm)) (Or.inr (Or.inr hjc3)))
                  (fun he => hndctx.1 (List.mem_append.mpr (Or.inr (he ▸ hj)))))
                (by rw [hEdef];
                    simp [setpf_root, storeLeft_root, storeRight_root, reparentBlack_root])]
              exact hctxR4
            have hpair := (repr_plug_iff E (f3 :: ctx4)
              (CTree.node false (CTree.node true gsib gi B) p5 A)).mpr ⟨?_, ?_⟩
            · refine ⟨hpair.1, hpair.2, ?_⟩
              refine (List.Perm.nodup_iff ((plug_ids_perm _ _).trans ?_)).mpr hnd
              rw [← Multiset.coe_eq_coe]
              simp only [CTree.ids, ctxIds, ← Multiset.cons_coe, ← Multiset.coe_add,
                ← Multiset.singleton_add]
              abel
            · rw [reprCtx_cons_iff]
              refine ⟨by simp [hm_f3], by simp [hm_f3], by simp [hm_f3],
                ?_, ?_, hsibrepr, hctxrepr⟩
              · rw [hf3d]
                simp [hm_f3, CTree.rootId]
              · rw [hf3d]
                simp [hm_f3, CTree.rootId]
            · rw [reprAt_node_iff, hup3]
              refine ⟨by simp [hm_p5], by simp [hm_p5], by simp [hm_p5],
                by simp [hm_p5, CTree.rootId], by simp [hm_p5], ?_, hArepr⟩
              rw [reprAt_node_iff]
              exact ⟨by simp [hm_gi], by simp [hm_gi], by simp [hm_gi],
                by simp [hm_gi], by simp [hm_gi], hgsrepr, hBrepr⟩
        | true =>
            rw [hf3d] at hf3left hf3right
            simp only [if_true] at hf3left hf3right
            have hneq : f3.sib.rootId ≠ some gi := rootId_ne hgisib
            have hfe : c_rbtree_paint_case5_right h p5 gi (some f3.id) =
                c_rbnode_set_parent_and_flags
                  (c_rbnode_set_parent_and_flags
                    (reparentBlack
                      (storeRight
                        (storeLeft (storeRight h gi B.rootId) p5 (some gi))
                        f3.id (some p5))
                      B.rootId gi)
                    p5 (Raw.node f3.id) false false)
                  gi (Raw.node p5) true false := by
              simp [c_rbtree_paint_case5_right, c_rbnode_pop_root, c_rbnode_push_root,
                c_rbnode_is_red, c_rbnode_is_root, c_rbnode_swap_child, c_rbnode_parent,
                c_rbnode_raw, Raw.asNode, hgflag, hgraw, hgred, hpleft, rawOf,
                reparentBlack_mem_notin hp5B, reparentBlack_mem_notin hgiB,
                storeLeft_mem, storeRight_mem, setpf_mem, storeRoot_mem,
                hp5gi, hgip5, hpflag, hf3gi, hgif3, hf3p5, hp5f3, hf3left, hneq, upOf, hbf]
            rw [hfe]
            set E := c_rbnode_set_parent_and_flags
                  (c_rbnode_set_parent_and_flags
                    (reparentBlack
                      (storeRight
                        (storeLeft (storeRight h gi B.rootId) p5 (some gi))
                        f3.id (some p5))
                      B.rootId gi)
                    p5 (Raw.node f3.id) false false)
                  gi (Raw.node p5) true false with hEdef
            have hW : ∀ j, j ≠ p5 → j ≠ gi → j ∉ B.ids → j ≠ f3.id →
                E.mem j = h.mem j := by
              intro j hj1 hj2 hjB hj3
              rw [hEdef]
              simp [storeRoot_mem, setpf_mem, storeLeft_mem, storeRight_mem,
                reparentBlack_mem_notin hjB, hj1, hj2, hj3]
            have hm_p5 : E.mem p5 = ⟨Raw.node f3.id, false, false, some gi, A.rootId⟩ := by
              rw [hEdef]
              simp [storeRoot_mem, setpf_mem, storeLeft_mem, storeRight_mem,
                reparentBlack_mem_notin hp5B, hp5gi, hgip5, hp5f3, hpright]
            have hm_gi : E.mem gi = ⟨Raw.node p5, true, false, gsib.rootId, B.rootId⟩ := by
              rw [hEdef]
              simp [storeRoot_mem, setpf_mem, storeLeft_mem, storeRight_mem,
                reparentBlack_mem_notin hgiB, hp5gi, hgip5, hgif3, hgleft]
            have hm_f3 : E.mem f3.id =
                ⟨upOf ctx4, f3.red, (upOf ctx4 == Raw.tree), f3.sib.rootId, some p5⟩ := by
              rw [hEdef]
              simp only [setpf_mem, if_neg hf3gi, if_neg hf3p5]
              rw [reparentBlack_mem_notin hf3B]
              simp only [storeLeft_mem, storeRight_mem, if_pos rfl, if_neg hf3p5,
                if_neg hf3gi, if_true, eq_self_iff_true]
              cases hd : (h.mem f3.id) with
              | mk raw red rootFlag left right =>
                  simp only [NodeData.mk.injEq]
                  rw [hd] at hf3raw hf3flag hf3red hf3left
                  exact ⟨hf3raw, hf3red, hf3flag, hf3left, trivial⟩
            have hArepr : reprAt E A (Raw.node p5) = true := by
              rw [reprAt_congr A (Raw.node p5) (fun j hj => hW j
                (fun he => hp5A (he ▸ hj)) (fun he => hgiA (he ▸ hj))
                (fun hm => hdisAB hj hm)
                (fun he => hdis_first (Or.inr (Or.inl hj))
                  (Or.inr (Or.inr (he ▸ hf3mem)))))]
              exact hatA
            have hBrepr : reprAt E B (Raw.node gi) = true := by
              have hstage : reprAt (reparentBlack h B.rootId gi) B (Raw.node gi) = true :=
                reprAt_reparentBlack hatB (hB.isRedT) (by simp) hndB
              have hmemB : ∀ j ∈ B.ids,
                  E.mem j = (reparentBlack h B.rootId gi).mem j := by
                intro j hj
                have hjp5 : j ≠ p5 := fun he => hp5B (he ▸ hj)
                have hjgi : j ≠ gi := fun he => hgiB (he ▸ hj)
                have hjf3 : j ≠ f3.id := fun he => hf3B (he ▸ hj)
                rw [hEdef]
                cases B with
                | nil => simp [CTree.ids] at hj
                | node bc bl bb br =>
                    by_cases hjb : j = bb
                    · subst hjb
                      simp [reparentBlack, CTree.rootId, storeRoot_mem, setpf_mem,
                        storeLeft_mem, storeRight_mem, hjp5, hjgi, hjf3]
                    · simp [reparentBlack, CTree.rootId, storeRoot_mem, setpf_mem,
                        storeLeft_mem, storeRight_mem, hjp5, hjgi, hjf3, hjb]
              rw [reprAt_congr B (Raw.node gi) hmemB]
              exact hstage
            have hgsrepr : reprAt E gsib (Raw.node gi) = true := by
              rw [reprAt_congr gsib (Raw.node gi) (fun j hj => hW j
                (fun he => hdis_first (Or.inl rfl) (Or.inr (Or.inl (he ▸ hj))))
                (fun he => hgi_notin.1 (he ▸ hj))
                (fun hm => hdis_first (Or.inr (Or.inr hm)) (Or.inr (Or.inl hj)))
                (fun he => hdis_gs_c hj (he ▸ hf3mem)))]
              exact hgsib
            have hsibrepr : reprAt E f3.sib (Raw.node f3.id) = true := by
              rw [reprAt_congr f3.sib (Raw.node f3.id) (fun j hj => hW j
                (fun he => hdis_first (Or.inl rfl)
                  (Or.inr (Or.inr (by simp [ctxIds, he ▸ hj]))))
                (fun he => hgisib (he ▸ hj))
                (fun hm => hdis_first (Or.inr (Or.inr hm))
                  (Or.inr (Or.inr (by simp [ctxIds, hj]))))
                (fun he => hndctx.1 (List.mem_append.mpr (Or.inl (he ▸ hj)))))]
              exact hf3sib
            have hctxrepr : reprCtx E ctx4 (some f3.id) = true := by
              rw [reprCtx_congr ctx4 (some f3.id) (fun j hj => by
                have hjc3 : j ∈ ctxIds (f3 :: ctx4) := by simp [ctxIds, hj]
                exact hW j
                  (fun he => hdis_first (Or.inl rfl) (Or.inr (Or.inr (he ▸ hjc3))))
                  (fun he => hgi_notin.2 (he ▸ hjc3))
                  (fun hm => hdis_first (Or.inr (Or.inr hm)) (Or.inr (Or.inr hjc3)))
                  (fun he => hndctx.1 (List.mem_append.mpr (Or.inr (he ▸ hj)))))
                (by rw [hEdef];
                    simp [setpf_root, storeLeft_root, storeRight_root, reparentBlack_root])]
              exact hctxR4
            have hpair := (repr_plug_iff E (f3 :: ctx4)
              (CTree.node false (CTree.node true gsib gi B) p5 A)).mpr ⟨?_, ?_⟩
            · refine ⟨hpair.1, hpair.2, ?_⟩
              refine (List.Perm.nodup_iff ((plug_ids_perm _ _).trans ?_)).mpr hnd
              rw [← Multiset.coe_eq_coe]
              simp only [CTree.ids, ctxIds, ← Multiset.cons_coe, ← Multiset.coe_add,
                ← Multiset.singleton_add]
              abel
            · rw [reprCtx_cons_iff]
              refine ⟨by simp [hm_f3], by simp [hm_f3], by simp [hm_f3],
                ?_, ?_, hsibrepr, hctxrepr⟩
              · rw [hf3d]
                simp [hm_f3, CTree.rootId]
              · rw [hf3d]
                simp [hm_f3, CTree.rootId]
            · rw [reprAt_node_iff, hup3]
              refine ⟨by simp [hm_p5], by simp [hm_p5], by simp [hm_p5],
                by simp [hm_p5, CTree.rootId], by simp [hm_p5], ?_, hArepr⟩
              rw [reprAt_node_iff]
              exact ⟨by simp [hm_gi], by simp [hm_gi], by simp [hm_gi],
                by simp [hm_gi], by simp [hm_gi], hgsrepr, hBrepr⟩

  · refine (plug_ids_perm _ _).trans ?_
    rw [← Multiset.coe_eq_coe]
    simp only [CTree.ids, ctxIds, ← Multiset.cons_coe, ← Multiset.coe_add,
      ← Multiset.singleton_add]
    abel


/-- Rotation arm of the insertion fixup, left orientation: under a red
parent `fi` that is the left child of the black grandparent `gi` with a
black (or absent) uncle, the rotation pair restores the invariant at the
original black height and ends the loop. -/
theorem paint_rot_left_sim (h : Heap) (ctx3 : List Frame) (l r fsib gsib : CTree)
    (n fi gi : NodeId) (fd : Bool) (k n₀ : Nat) (gg : Option NodeId)
    (hgg : gg = ctx3.head?.map Frame.id)
    (hraw : (h.mem n).raw = Raw.node fi)
    (hflag : (h.mem n).rootFlag = false)
    (hred : (h.mem n).red = true)
    (hnleft : (h.mem n).left = l.rootId)
    (hnright : (h.mem n).right = r.rootId)
    (hatl : reprAt h l (Raw.node n) = true)
    (hatr : reprAt h r (Raw.node n) = true)
    (hfflag : (h.mem fi).rootFlag = false)
    (hfleft : (h.mem fi).left = (if fd then fsib.rootId else some n))
    (hfright : (h.mem fi).right = (if fd then some n else fsib.rootId))
    (hfsib : reprAt h fsib (Raw.node fi) = true)
    (hgraw : (h.mem gi).raw = upOf ctx3)
    (hgflag : (h.mem gi).rootFlag = (upOf ctx3 == Raw.tree))
    (hgred : (h.mem gi).red = false)
    (hgright : (h.mem gi).right = gsib.rootId)
    (hgsib : reprAt h gsib (Raw.node gi) = true)
    (hctxR3 : reprCtx h ctx3 (some gi) = true)
    (hl : Bal l false k) (hr : Bal r false k) (hfsibBal : Bal fsib false k)
    (hgsB : Bal gsib false k)
    (hctx3 : CtxBal false n₀ ctx3 false (k + 1))
    (hnd : ((n :: (l.ids ++ r.ids)) ++ (fi :: fsib.ids) ++
      (gi :: (gsib.ids ++ ctxIds ctx3))).Nodup) :
    ∃ t', reprTree (c_rbtree_paint_rot_left h n fi gi gg) t' ∧
      Bal t' false n₀ ∧
      t'.ids.Perm ((n :: (l.ids ++ r.ids)) ++ (fi :: fsib.ids) ++
        (gi :: (gsib.ids ++ ctxIds ctx3))) := by
  have hndF := hnd
  simp only [List.cons_append, List.append_assoc, List.nodup_cons, List.nodup_append,
    List.mem_cons, List.mem_append, List.disjoint_left] at hndF
  obtain ⟨hn_no, hndl, ⟨hndr, ⟨hfi_no, hndfsib,
    ⟨hgi_no, hndgsib, hndc3, hdis_gs_c⟩, hdis_fs⟩, hdis_r⟩, hdis_l⟩ := hndF
  push_neg at hn_no hfi_no hgi_no
  cases fd with
  | false =>
      simp only [Bool.false_eq_true, if_false] at hfleft hfright
      have hne : some n ≠ fsib.rootId := Ne.symm (rootId_ne hn_no.2.2.2.1)
      have hrot : c_rbtree_paint_rot_left h n fi gi gg =
          c_rbtree_paint_case5_left h fi gi gg := by
        simp [c_rbtree_paint_rot_left, hfright, hne]
      have hpm : ((fi :: ((CTree.node true l n r).ids ++ fsib.ids)) ++
          (gi :: (gsib.ids ++ ctxIds ctx3))).Perm
          ((n :: (l.ids ++ r.ids)) ++ (fi :: fsib.ids) ++
            (gi :: (gsib.ids ++ ctxIds ctx3))) := by
        rw [← Multiset.coe_eq_coe]
        simp only [CTree.ids, List.cons_append, List.append_assoc,
          ← Multiset.cons_coe, ← Multiset.coe_add, ← Multiset.singleton_add]
        abel
      obtain ⟨t', hrt, hbal, hperm⟩ := paint_case5_left_sim h ctx3
        (CTree.node true l n r) fsib gsib fi gi k n₀ gg hgg hfflag
        (by simpa [CTree.rootId] using hfleft) hfright
        (by rw [reprAt_node_iff]
            exact ⟨hraw, by rw [hflag]; rfl, hred, hnleft, hnright, hatl, hatr⟩)
        hfsib hgraw hgflag hgred hgright hgsib hctxR3
        (Bal.red hl hr) hfsibBal hgsB hctx3
        ((List.Perm.nodup_iff hpm).mpr hnd)
      exact ⟨t', by rw [hrot]; exact hrt, hbal, hperm.trans hpm⟩
  | true =>
      simp only [if_true] at hfleft hfright
      have hfi_n : fi ≠ n := Ne.symm hn_no.2.2.1
      have hn_fi : n ≠ fi := hn_no.2.2.1
      have hfi_l : fi ∉ l.ids := fun hm => hdis_l hm (Or.inr (Or.inl rfl))
      have hn_l : n ∉ l.ids := hn_no.1
      have hgi_fi : gi ≠ fi := Ne.symm hfi_no.2.1
      have hgi_n : gi ≠ n := Ne.symm hn_no.2.2.2.2.1
      have hgi_l : gi ∉ l.ids := fun hm =>
        hdis_l hm (Or.inr (Or.inr (Or.inr (Or.inl rfl))))
      have hrot : c_rbtree_paint_rot_left h n fi gi gg =
          c_rbtree_paint_case5_left (c_rbtree_paint_case4_left h n fi) n gi gg := by
        simp [c_rbtree_paint_rot_left, hfright]
      set h4 := c_rbtree_paint_case4_left h n fi with hh4
      have hW4 : ∀ j, j ≠ fi → j ≠ n → j ∉ l.ids → h4.mem j = h.mem j := by
        intro j h1 h2 h3
        rw [hh4]
        simp [c_rbtree_paint_case4_left, hnleft, reparentBlack_mem_notin h3,
          setpf_mem, storeLeft_mem, storeRight_mem, h1, h2]
      have hm4_fi : h4.mem fi = ⟨Raw.node n, true, false, fsib.rootId, l.rootId⟩ := by
        rw [hh4]
        simp [c_rbtree_paint_case4_left, hnleft, reparentBlack_mem_notin hfi_l,
          setpf_mem, storeLeft_mem, storeRight_mem, hfi_n, hfleft, hfflag]
      have hm4_n : h4.mem n = ⟨Raw.node fi, true, false, some fi, r.rootId⟩ := by
        rw [hh4]
        simp [c_rbtree_paint_case4_left, hnleft, reparentBlack_mem_notin hn_l,
          setpf_mem, storeLeft_mem, storeRight_mem, hn_fi, hraw, hred, hflag, hnright]
      have hroot4 : h4.root = h.root := by
        rw [hh4]
        simp [c_rbtree_paint_case4_left, setpf_root, storeLeft_root,
          storeRight_root, reparentBlack_root]
      have hfsib4 : reprAt h4 fsib (Raw.node fi) = true := by
        rw [reprAt_congr fsib (Raw.node fi) (fun j hj => hW4 j
          (fun he => hfi_no.1 (he ▸ hj))
          (fun he => hn_no.2.2.2.1 (he ▸ hj))
          (fun hm => hdis_l hm (Or.inr (Or.inr (Or.inl hj)))))]
        exact hfsib
      have hl2 : reprAt (storeLeft (storeRight h fi l.rootId) n (some fi)) l
          (Raw.node n) = true := by
        have hmem2 : ∀ j ∈ l.ids,
            (storeLeft (storeRight h fi l.rootId) n (some fi)).mem j = h.mem j := by
          intro j hj
          have h1 : j ≠ n := fun he => hn_l (he ▸ hj)
          have h2 : j ≠ fi := fun he => hfi_l (he ▸ hj)
          simp [storeLeft_mem, storeRight_mem, h1, h2]
        rw [reprAt_congr l (Raw.node n) hmem2]
        exact hatl
      have hl3 : reprAt (reparentBlack (storeLeft (storeRight h fi l.rootId) n
          (some fi)) l.rootId fi) l (Raw.node fi) = true :=
        reprAt_reparentBlack hl2 hl.isRedT (by simp) hndl
      have hl4 : reprAt h4 l (Raw.node fi) = true := by
        have hmem4 : ∀ j ∈ l.ids, h4.mem j =
            (reparentBlack (storeLeft (storeRight h fi l.rootId) n (some fi))
              l.rootId fi).mem j := by
          intro j hj
          have h2 : j ≠ fi := fun he => hfi_l (he ▸ hj)
          rw [hh4]
          simp only [c_rbtree_paint_case4_left, hnleft, setpf_mem, if_neg h2]
        rw [reprAt_congr l (Raw.node fi) hmem4]
        exact hl3
      have hatr4 : reprAt h4 r (Raw.node n) = true := by
        rw [reprAt_congr r (Raw.node n) (fun j hj => hW4 j
          (fun he => hdis_r hj (Or.inl he))
          (fun he => hn_no.2.1 (he ▸ hj))
          (fun hm => hdis_l hm (Or.inl hj)))]
        exact hatr
      have hgieq : h4.mem gi = h.mem gi := hW4 gi hgi_fi hgi_n hgi_l
      have hgsib4 : reprAt h4 gsib (Raw.node gi) = true := by
        rw [reprAt_congr gsib (Raw.node gi) (fun j hj => hW4 j
          (fun he => hfi_no.2.2.1 (he ▸ hj))
          (fun he => hn_no.2.2.2.2.2.1 (he ▸ hj))
          (fun hm => hdis_l hm (Or.inr (Or.inr (Or.inr (Or.inr (Or.inl hj)))))))]
        exact hgsib
      have hctxR34 : reprCtx h4 ctx3 (some gi) = true := by
        rw [reprCtx_congr ctx3 (some gi) (fun j hj => hW4 j
          (fun he => hfi_no.2.2.2 (he ▸ hj))
          (fun he => hn_no.2.2.2.2.2.2 (he ▸ hj))
          (fun hm => hdis_l hm (Or.inr (Or.inr (Or.inr (Or.inr (Or.inr hj)))))))
          hroot4]
        exact hctxR3
      have hpm : ((n :: ((CTree.node true fsib fi l).ids ++ r.ids)) ++
          (gi :: (gsib.ids ++ ctxIds ctx3))).Perm
          ((n :: (l.ids ++ r.ids)) ++ (fi :: fsib.ids) ++
            (gi :: (gsib.ids ++ ctxIds ctx3))) := by
        rw [← Multiset.coe_eq_coe]
        simp only [CTree.ids, List.cons_append, List.append_assoc,
          ← Multiset.cons_coe, ← Multiset.coe_add, ← Multiset.singleton_add]
        abel
      obtain ⟨t', hrt, hbal, hperm⟩ := paint_case5_left_sim h4 ctx3
        (CTree.node true fsib fi l) r gsib n gi k n₀ gg hgg
        (by simp [hm4_n]) (by simp [hm4_n, CTree.rootId]) (by simp [hm4_n])
        (by rw [reprAt_node_iff]
            exact ⟨by simp [hm4_fi], by simp [hm4_fi], by simp [hm4_fi],
              by simp [hm4_fi], by simp [hm4_fi], hfsib4, hl4⟩)
        hatr4
        (by rw [hgieq]; exact hgraw) (by rw [hgieq]; exact hgflag)
        (by rw [hgieq]; exact hgred) (by rw [hgieq]; exact hgright)
        hgsib4 hctxR34
        (Bal.red hfsibBal hl) hr hgsB hctx3
        ((List.Perm.nodup_iff hpm).mpr hnd)
      exact ⟨t', by rw [hrot]; exact hrt, hbal, hperm.trans hpm⟩

/-- Rotation arm of the insertion fixup, right orientation (mirror): under
a red parent `fi` that is the right child of the black grandparent `gi`
with a black (or absent) uncle, the rotation pair restores the invariant
at the original black height and ends the loop. -/
theorem paint_rot_right_sim (h : Heap) (ctx3 : List Frame) (l r fsib gsib : CTree)
    (n fi gi : NodeId) (fd : Bool) (k n₀ : Nat) (gg : Option NodeId)
    (hgg : gg = ctx3.head?.map Frame.id)
    (hraw : (h.mem n).raw = Raw.node fi)
    (hflag : (h.mem n).rootFlag = false)
    (hred : (h.mem n).red = true)
    (hnleft : (h.mem n).left = l.rootId)
    (hnright : (h.mem n).right = r.rootId)
    (hatl : reprAt h l (Raw.node n) = true)
    (hatr : reprAt h r (Raw.node n) = true)
    (hfflag : (h.mem fi).rootFlag = false)
    (hfleft : (h.mem fi).left = (if fd then fsib.rootId else some n))
    (hfright : (h.mem fi).right = (if fd then some n else fsib.rootId))
    (hfsib : reprAt h fsib (Raw.node fi) = true)
    (hgraw : (h.mem gi).raw = upOf ctx3)
    (hgflag : (h.mem gi).rootFlag = (upOf ctx3 == Raw.tree))
    (hgred : (h.mem gi).red = false)
    (hgleft : (h.mem gi).left = gsib.rootId)
    (hgsib : reprAt h gsib (Raw.node gi) = true)
    (hctxR3 : reprCtx h ctx3 (some gi) = true)
    (hl : Bal l false k) (hr : Bal r false k) (hfsibBal : Bal fsib false k)
    (hgsB : Bal gsib false k)
    (hctx3 : CtxBal false n₀ ctx3 false (k + 1))
    (hnd : ((n :: (l.ids ++ r.ids)) ++ (fi :: fsib.ids) ++
      (gi :: (gsib.ids ++ ctxIds ctx3))).Nodup) :
    ∃ t', reprTree (c_rbtree_paint_rot_right h n fi gi gg) t' ∧
      Bal t' false n₀ ∧
      t'.ids.Perm ((n :: (l.ids ++ r.ids)) ++ (fi :: fsib.ids) ++
        (gi :: (gsib.ids ++ ctxIds ctx3))) := by
  have hndF := hnd
  simp only [List.cons_append, List.append_assoc, List.nodup_cons, List.nodup_append,
    List.mem_cons, List.mem_append, List.disjoint_left] at hndF
  obtain ⟨hn_no, hndl, ⟨hndr, ⟨hfi_no, hndfsib,
    ⟨hgi_no, hndgsib, hndc3, hdis_gs_c⟩, hdis_fs⟩, hdis_r⟩, hdis_l⟩ := hndF
  push_neg at hn_no hfi_no hgi_no
  cases fd with
  | true =>
      simp only [if_true] at hfleft hfright
      have hne : some n ≠ fsib.rootId := Ne.symm (rootId_ne hn_no.2.2.2.1)
      have hrot : c_rbtree_paint_rot_right h n fi gi gg =
          c_rbtree_paint_case5_right h fi gi gg := by
        simp [c_rbtree_paint_rot_right, hfleft, hne]
      have hpm : ((fi :: ((CTree.node true l n r).ids ++ fsib.ids)) ++
          (gi :: (gsib.ids ++ ctxIds ctx3))).Perm
          ((n :: (l.ids ++ r.ids)) ++ (fi :: fsib.ids) ++
            (gi :: (gsib.ids ++ ctxIds ctx3))) := by
        rw [← Multiset.coe_eq_coe]
        simp only [CTree.ids, List.cons_append, List.append_assoc,
          ← Multiset.cons_coe, ← Multiset.coe_add, ← Multiset.singleton_add]
        abel
      obtain ⟨t', hrt, hbal, hperm⟩ := paint_case5_right_sim h ctx3
        (CTree.node true l n r) fsib gsib fi gi k n₀ gg hgg hfflag
        hfleft (by simpa [CTree.rootId] using hfright)
        (by rw [reprAt_node_iff]
            exact ⟨hraw, by rw [hflag]; rfl, hred, hnleft, hnright, hatl, hatr⟩)
        hfsib hgraw hgflag hgred hgleft hgsib hctxR3
        (Bal.red hl hr) hfsibBal hgsB hctx3
        ((List.Perm.nodup_iff hpm).mpr hnd)
      exact ⟨t', by rw [hrot]; exact hrt, hbal, hperm.trans hpm⟩
  | false =>
      simp only [Bool.false_eq_true, if_false] at hfleft hfright
      have hfi_n : fi ≠ n := Ne.symm hn_no.2.2.1
      have hn_fi : n ≠ fi := hn_no.2.2.1
      have hfi_r : fi ∉ r.ids := fun hm => hdis_r hm (Or.inl rfl)
      have hn_r : n ∉ r.ids := hn_no.2.1
      have hgi_fi : gi ≠ fi := Ne.symm hfi_no.2.1
      have hgi_n : gi ≠ n := Ne.symm hn_no.2.2.2.2.1
      have hgi_r : gi ∉ r.ids := fun hm =>
        hdis_r hm (Or.inr (Or.inr (Or.inl rfl)))
      have hrot : c_rbtree_paint_rot_right h n fi gi gg =
          c_rbtree_paint_case5_right (c_rbtree_paint_case4_right h n fi) n gi gg := by
        simp [c_rbtree_paint_rot_right, hfleft]
      set h4 := c_rbtree_paint_case4_right h n fi with hh4
      have hW4 : ∀ j, j ≠ fi → j ≠ n → j ∉ r.ids → h4.mem j = h.mem j := by
        intro j h1 h2 h3
        rw [hh4]
        simp [c_rbtree_paint_case4_right, hnright, reparentBlack_mem_notin h3,
          setpf_mem, storeLeft_mem, storeRight_mem, h1, h2]
      have hm4_fi : h4.mem fi = ⟨Raw.node n, true, false, r.rootId, fsib.rootId⟩ := by
        rw [hh4]
        simp [c_rbtree_paint_case4_right, hnright, reparentBlack_mem_notin hfi_r,
          setpf_mem, storeLeft_mem, storeRight_mem, hfi_n, hfright, hfflag]
      have hm4_n : h4.mem n = ⟨Raw.node fi, true, false, l.rootId, some fi⟩ := by
        rw [hh4]
        simp [c_rbtree_paint_case4_right, hnright, reparentBlack_mem_notin hn_r,
          setpf_mem, storeLeft_mem, storeRight_mem, hn_fi, hraw, hred, hflag, hnleft]
      have hroot4 : h4.root = h.root := by
        rw [hh4]
        simp [c_rbtree_paint_case4_right, setpf_root, storeLeft_root,
          storeRight_root, reparentBlack_root]
      have hfsib4 : reprAt h4 fsib (Raw.node fi) = true := by
        rw [reprAt_congr fsib (Raw.node fi) (fun j hj => hW4 j
          (fun he => hfi_no.1 (he ▸ hj))
          (fun he => hn_no.2.2.2.1 (he ▸ hj))
          (fun hm => hdis_r hm (Or.inr (Or.inl hj))))]
        exact hfsib
      have hr2 : reprAt (storeRight (storeLeft h fi r.rootId) n (some fi)) r
          (Raw.node n) = true := by
        have hmem2 : ∀ j ∈ r.ids,
            (storeRight (storeLeft h fi r.rootId) n (some fi)).mem j = h.mem j := by
          intro j hj
          have h1 : j ≠ n := fun he => hn_r (he ▸ hj)
          have h2 : j ≠ fi := fun he => hfi_r (he ▸ hj)
          simp [storeLeft_mem, storeRight_mem, h1, h2]
        rw [reprAt_congr r (Raw.node n) hmem2]
        exact hatr
      have hr3 : reprAt (reparentBlack (storeRight (storeLeft h fi r.rootId) n
          (some fi)) r.rootId fi) r (Raw.node fi) = true :=
        reprAt_reparentBlack hr2 hr.isRedT (by simp) hndr
      have hr4 : reprAt h4 r (Raw.node fi) = true := by
        have hmem4 : ∀ j ∈ r.ids, h4.mem j =
            (reparentBlack (storeRight (storeLeft h fi r.rootId) n (some fi))
              r.rootId fi).mem j := by
          intro j hj
          have h2 : j ≠ fi := fun he => hfi_r (he ▸ hj)
          rw [hh4]
          simp only [c_rbtree_paint_case4_right, hnright, setpf_mem, if_neg h2]
        rw [reprAt_congr r (Raw.node fi) hmem4]
        exact hr3
      have hatl4 : reprAt h4 l (Raw.node n) = true := by
        rw [reprAt_congr l (Raw.node n) (fun j hj => hW4 j
          (fun he => hdis_l hj (Or.inr (Or.inl he)))
          (fun he => hn_no.1 (he ▸ hj))
          (fun hm => hdis_l hj (Or.inl hm)))]
        exact hatl
      have hgieq : h4.mem gi = h.mem gi := hW4 gi hgi_fi hgi_n hgi_r
      have hgsib4 : reprAt h4 gsib (Raw.node gi) = true := by
        rw [reprAt_congr gsib (Raw.node gi) (fun j hj => hW4 j
          (fun he => hfi_no.2.2.1 (he ▸ hj))
          (fun he => hn_no.2.2.2.2.2.1 (he ▸ hj))
          (fun hm => hdis_r hm (Or.inr (Or.inr (Or.inr (Or.inl hj))))))]
        exact hgsib
      have hctxR34 : reprCtx h4 ctx3 (some gi) = true := by
        rw [reprCtx_congr ctx3 (some gi) (fun j hj => hW4 j
          (fun he => hfi_no.2.2.2 (he ▸ hj))
          (fun he => hn_no.2.2.2.2.2.2 (he ▸ hj))
          (fun hm => hdis_r hm (Or.inr (Or.inr (Or.inr (Or.inr hj))))))
          hroot4]
        exact hctxR3
      have hpm : ((n :: ((CTree.node true r fi fsib).ids ++ l.ids)) ++
          (gi :: (gsib.ids ++ ctxIds ctx3))).Perm
          ((n :: (l.ids ++ r.ids)) ++ (fi :: fsib.ids) ++
            (gi :: (gsib.ids ++ ctxIds ctx3))) := by
        rw [← Multiset.coe_eq_coe]
        simp only [CTree.ids, List.cons_append, List.append_assoc,
          ← Multiset.cons_coe, ← Multiset.coe_add, ← Multiset.singleton_add]
        abel
      obtain ⟨t', hrt, hbal, hperm⟩ := paint_case5_right_sim h4 ctx3
        (CTree.node true r fi fsib) l gsib n gi k n₀ gg hgg
        (by simp [hm4_n]) (by simp [hm4_n]) (by simp [hm4_n, CTree.rootId])
        (by rw [reprAt_node_iff]
            exact ⟨by simp [hm4_fi], by simp [hm4_fi], by simp [hm4_fi],
              by simp [hm4_fi], by simp [hm4_fi], hr4, hfsib4⟩)
        hatl4
        (by rw [hgieq]; exact hgraw) (by rw [hgieq]; exact hgflag)
        (by rw [hgieq]; exact hgred) (by rw [hgieq]; exact hgleft)
        hgsib4 hctxR34
        (Bal.red hr hfsibBal) hl hgsB hctx3
        ((List.Perm.nodup_iff hpm).mpr hnd)
      exact ⟨t', by rw [hrot]; exact hrt, hbal, hperm.trans hpm⟩

/-- Loop invariant step for `c_rbtree_paint_one`: from a heap storing a
tree with a red node `n` (children balanced black with height `k`) in a
context expecting a black subtree of height `k`, one fixup step either
terminates with a fully balanced stored tree over the same identifiers, or
recolors and hands back the grandparent with the same invariant two frames
higher. -/
theorem paint_one_sim (h : Heap) (ctx : List Frame) (l r : CTree) (n : NodeId)
    (k n₀ : Nat)
    (hrep : reprTree h (plug ctx (CTree.node true l n r)))
    (hb : Bal (CTree.node true l n r) true k)
    (hctx : CtxBal false n₀ ctx false k) :
    (∃ h' t' m, c_rbtree_paint_one h n = some (h', none) ∧ reprTree h' t' ∧
        Bal t' false m ∧ t'.ids.Perm (plug ctx (CTree.node true l n r)).ids) ∨
    (∃ h' g ctx' l' r', c_rbtree_paint_one h n = some (h', some g) ∧
        reprTree h' (plug ctx' (CTree.node true l' g r')) ∧
        Bal (CTree.node true l' g r') true (k + 1) ∧
        CtxBal false n₀ ctx' false (k + 1) ∧
        ctx'.length + 2 = ctx.length ∧
        (plug ctx' (CTree.node true l' g r')).ids.Perm
          (plug ctx (CTree.node true l n r)).ids) := by
  obtain ⟨hroot, hatp, hnd⟩ := hrep
  obtain ⟨hctxR, hat⟩ := (repr_plug_iff h ctx _).mp ⟨hroot, hatp⟩
  rw [reprAt_node_iff] at hat
  obtain ⟨hraw, hflag, hred, hleft, hright, hatl, hatr⟩ := hat
  have hpar := parent_eq_of_upOf hraw hflag
  obtain ⟨hl, hr⟩ : Bal l false k ∧ Bal r false k := by
    cases hb with
    | red hbl hbr => exact ⟨hbl, hbr⟩
  cases ctx with
  | nil =>
      /- Case 1: n is the root; repaint black. -/
      left
      have hndn : n ∉ l.ids ∧ n ∉ r.ids := by
        have h2 := (nodup_plug_iff [] _).mp hnd
        simp only [ctxIds, List.append_nil, CTree.ids, List.nodup_cons] at h2
        exact ⟨fun hc => h2.1 (List.mem_append.mpr (Or.inl hc)),
               fun hc => h2.1 (List.mem_append.mpr (Or.inr hc))⟩
      refine ⟨c_rbnode_set_parent_and_flags h n (c_rbnode_raw h n) false
          (c_rbnode_is_root h n), CTree.node false l n r, k + 1, ?_, ?_,
        Bal.black hl hr, by simp [CTree.ids, plug]⟩
      · simp only [c_rbtree_paint_one, hpar, List.head?_nil, Option.map_none']
      · constructor
        · simpa [c_rbnode_set_parent_and_flags, plug] using
            (by simpa [plug] using hroot : h.root = some n)
        · rw [reprAt_node_iff]
          have hups : upOf ([] : List Frame) = Raw.tree := rfl
          rw [hups] at hraw hflag
          refine ⟨?_, ?_, ?_, ?_, ?_, ?_, ?_⟩
          · simp [c_rbnode_set_parent_and_flags, Heap.mem_upd_self, c_rbnode_raw, hraw]
          · simp [c_rbnode_set_parent_and_flags, Heap.mem_upd_self, c_rbnode_is_root, hflag]
          · simp [c_rbnode_set_parent_and_flags, Heap.mem_upd_self]
          · simpa [c_rbnode_set_parent_and_flags, Heap.mem_upd_self] using hleft
          · simpa [c_rbnode_set_parent_and_flags, Heap.mem_upd_self] using hright
          · simpa [c_rbnode_set_parent_and_flags, reprAt_upd _ hndn.1] using hatl
          · simpa [c_rbnode_set_parent_and_flags, reprAt_upd _ hndn.2] using hatr
        · simpa [plug, c_rbnode_set_parent_and_flags] using hnd
  | cons f ctx2 =>
      obtain ⟨fd, fc, fi, fsib⟩ := f
      rw [reprCtx_cons_iff] at hctxR
      obtain ⟨hfraw, hfflag, hfred, hfleft, hfright, hfsib, hctxR2⟩ := hctxR
      simp only at hfraw hfflag hfred hfleft hfright hfsib hctxR2
      cases fc with
      | false =>
        /- Case 2: parent black; nothing to do. -/
        left
        have hfblack : c_rbnode_is_black h fi = true := by
          simp [c_rbnode_is_black, hfred]
        refine ⟨h, _, n₀, ?_, ⟨hroot, hatp, hnd⟩, ?_, List.Perm.refl _⟩
        · simp only [c_rbtree_paint_one, hpar, List.head?_cons, Option.map_some']
          rw [if_pos hfblack]
        · cases hctx with
          | black hsib hctx2 =>
              cases fd with
              | false =>
                  have hpl : plug ((⟨false, false, fi, fsib⟩ : Frame) :: ctx2)
                      (CTree.node true l n r) =
                      plug ctx2 (CTree.node false (CTree.node true l n r) fi fsib) := by
                    simp [plug]
                  rw [hpl]
                  exact bal_plug hctx2 (Bal.black (Bal.red hl hr) hsib)
              | true =>
                  have hpl : plug ((⟨true, false, fi, fsib⟩ : Frame) :: ctx2)
                      (CTree.node true l n r) =
                      plug ctx2 (CTree.node false fsib fi (CTree.node true l n r)) := by
                    simp [plug]
                  rw [hpl]
                  exact bal_plug hctx2 (Bal.black hsib (Bal.red hl hr))
      | true =>
        /- red parent: the grandparent exists -/
        cases hctx with
        | red hfsibBal hctx2 =>
        cases ctx2 with
        | nil => cases hctx2
        | cons f2 ctx3 =>
        obtain ⟨gd, gc, gi, gsib⟩ := f2
        cases gc with
        | true => cases hctx2
        | false =>
        cases hctx2 with
        | black hgsibBal hctx3 =>
        rename_i cs
        rw [reprCtx_cons_iff] at hctxR2
        obtain ⟨hgraw, hgflag, hgred, hgleft, hgright, hgsib, hctxR3⟩ := hctxR2
        simp only at hgraw hgflag hgred hgleft hgright hgsib hctxR3
        have hparfi : c_rbnode_parent h fi = some gi := by
          simpa using parent_eq_of_upOf hfraw hfflag
        have hnotblack : c_rbnode_is_black h fi = false := by
          simp [c_rbnode_is_black, hfred]
        have hndL := (nodup_plug_iff _ _).mp hnd
        simp only [CTree.ids, ctxIds] at hndL
        rw [List.cons_append] at hndL
        simp only [List.nodup_append, List.nodup_cons, List.mem_append,
          List.mem_cons, List.disjoint_left] at hndL
        obtain ⟨hn_notin, ⟨hndl, hndr, hdis_lr⟩,
          ⟨hfi_notin, hndfsib, ⟨hgi_notin, hndgsib, hndc3, hdis_gs_c⟩, hdis_fs⟩,
          hdis_sub⟩ := hndL
        push_neg at hn_notin hfi_notin hgi_notin
        cases gd with
        | false =>
            /- the parent is the left child of the grandparent -/
            rw [if_neg (by simp)] at hgleft
            rw [if_neg (by simp)] at hgright
            cases hgs : gsib with
            | nil =>
                /- no uncle: rotate -/
                subst hgs
                left
                have hgsB : Bal CTree.nil false k := by
                  cases hgsibBal with
                  | nil => exact Bal.nil
                have heval : c_rbtree_paint_one h n =
                    some (c_rbtree_paint_rot_left h n fi gi
                      (c_rbnode_parent h gi), none) := by
                  simp [c_rbtree_paint_one, hpar, hnotblack, hparfi, hgleft,
                    hgright, CTree.rootId]
                have hpargi := parent_eq_of_upOf hgraw hgflag
                have hpm2 : ((n :: (l.ids ++ r.ids)) ++ (fi :: fsib.ids) ++
                    (gi :: (CTree.nil.ids ++ ctxIds ctx3))).Perm
                    (plug ((⟨fd, true, fi, fsib⟩ : Frame) ::
                      (⟨false, false, gi, CTree.nil⟩ : Frame) :: ctx3)
                      (CTree.node true l n r)).ids := by
                  refine List.Perm.trans ?_ (plug_ids_perm _ _).symm
                  rw [← Multiset.coe_eq_coe]
                  simp only [CTree.ids, ctxIds, List.cons_append, List.append_assoc,
                    ← Multiset.cons_coe, ← Multiset.coe_add, ← Multiset.singleton_add]
                  try abel
                obtain ⟨t', hrt, hbal, hperm⟩ := paint_rot_left_sim h ctx3 l r fsib
                  CTree.nil n fi gi fd k n₀ (c_rbnode_parent h gi) hpargi
                  hraw hflag hred hleft hright hatl hatr hfflag hfleft hfright
                  hfsib hgraw hgflag hgred hgright hgsib hctxR3 hl hr hfsibBal
                  hgsB hctx3 ((List.Perm.nodup_iff hpm2).mpr hnd)
                exact ⟨_, t', n₀, heval, hrt, hbal, hperm.trans hpm2⟩
            | node uc ul uu ur =>
                subst hgs
                cases uc with
                | true =>
                    /- Case 3, red uncle, left orientation -/
                    right
                    rw [reprAt_node_iff] at hgsib
                    obtain ⟨huraw, huflag, hured, huleft, huright, hatul, hatur⟩ := hgsib
                    obtain ⟨hul, hur⟩ : Bal ul false k ∧ Bal ur false k := by
                      cases hgsibBal with
                      | red h1 h2 => exact ⟨h1, h2⟩
                    have huu_mem : uu ∈ (CTree.node true ul uu ur).ids := by
                      simp [CTree.ids]
                    have hfi_uu : fi ≠ uu := fun he => hfi_notin.2.2.1 (he ▸ huu_mem)
                    have hfi_gi : fi ≠ gi := hfi_notin.2.1
                    have huu_gi : uu ≠ gi := fun he => hgi_notin.1 (he ▸ huu_mem)
                    have hured' : c_rbnode_is_red h uu = true := by
                      simp [c_rbnode_is_red, hured]
                    have heval : c_rbtree_paint_one h n =
                        some (c_rbtree_paint_case3 h fi uu gi, some gi) := by
                      simp [c_rbtree_paint_one, hpar, hnotblack, hparfi, hgleft,
                        hgright, hured', CTree.rootId]
                    have hmemW : ∀ j, j ∉ ([fi, uu, gi] : List NodeId) →
                        (c_rbtree_paint_case3 h fi uu gi).mem j = h.mem j := by
                      intro j hj
                      simp only [List.mem_cons, List.not_mem_nil, or_false, not_or] at hj
                      rw [paint_case3_mem h fi uu gi j hfi_uu hfi_gi huu_gi]
                      simp [hj.1, hj.2.1, hj.2.2]
                    have hmemfi : (c_rbtree_paint_case3 h fi uu gi).mem fi =
                        { h.mem fi with raw := Raw.node gi, red := false } := by
                      rw [paint_case3_mem h fi uu gi fi hfi_uu hfi_gi huu_gi]
                      simp [hfi_gi, hfi_uu]
                    have hmemuu : (c_rbtree_paint_case3 h fi uu gi).mem uu =
                        { h.mem uu with raw := Raw.node gi, red := false } := by
                      rw [paint_case3_mem h fi uu gi uu hfi_uu hfi_gi huu_gi]
                      simp [huu_gi]
                    have hmemgi : (c_rbtree_paint_case3 h fi uu gi).mem gi =
                        { h.mem gi with red := true } := by
                      rw [paint_case3_mem h fi uu gi gi hfi_uu hfi_gi huu_gi]
                      simp
                    have hup2 : upOf ((⟨false, false, gi, CTree.node true ul uu ur⟩ :
                        Frame) :: ctx3) = Raw.node gi := rfl
                    rw [hup2] at hfraw hfflag
                    have hsubAt : reprAt h (CTree.node true l n r) (Raw.node fi) = true := by
                      rw [reprAt_node_iff]
                      exact ⟨by simpa using hraw, by simpa using hflag, hred, hleft,
                        hright, hatl, hatr⟩
                    have hatsub' : ∀ up, reprAt (c_rbtree_paint_case3 h fi uu gi)
                        (CTree.node true l n r) up = reprAt h (CTree.node true l n r) up := by
                      intro up
                      refine reprAt_untouched _ up hmemW ?_
                      intro j hj
                      simp only [CTree.ids, List.mem_cons, List.mem_append] at hj
                      simp only [List.mem_cons, List.not_mem_nil, or_false, not_or]
                      rcases hj with rfl | hj
                      · exact ⟨hn_notin.2.1, fun he => (he ▸ hn_notin.2.2.2.2.1) huu_mem,
                          hn_notin.2.2.2.1⟩
                      · have h9 := hdis_sub hj
                        push_neg at h9
                        exact ⟨h9.1, fun he => (he ▸ h9.2.2.2.1) huu_mem, h9.2.2.1⟩
                    have hatfsib' : reprAt (c_rbtree_paint_case3 h fi uu gi) fsib
                        (Raw.node fi) = true := by
                      rw [reprAt_untouched fsib (Raw.node fi) hmemW ?_]
                      · exact hfsib
                      · intro j hj
                        have h2 := hdis_fs hj
                        push_neg at h2
                        simp only [List.mem_cons, List.not_mem_nil, or_false, not_or]
                        exact ⟨fun he => hfi_notin.1 (he ▸ hj),
                          fun he => (he ▸ h2.2.1) huu_mem, h2.1⟩
                    have hatul' : reprAt (c_rbtree_paint_case3 h fi uu gi) ul
                        (Raw.node uu) = true := by
                      rw [reprAt_untouched ul (Raw.node uu) hmemW ?_]
                      · exact hatul
                      · intro j hj
                        have hjg : j ∈ (CTree.node true ul uu ur).ids := by
                          simp [CTree.ids, hj]
                        have hnduu : (uu ∉ ul.ids ∧ uu ∉ ur.ids) ∧
                            (ul.ids ++ ur.ids).Nodup := by
                          simpa [CTree.ids] using hndgsib
                        simp only [List.mem_cons, List.not_mem_nil, or_false, not_or]
                        exact ⟨fun he => hfi_notin.2.2.1 (he ▸ hjg),
                          fun he => hnduu.1.1 (he ▸ hj),
                          fun he => hgi_notin.1 (he ▸ hjg)⟩
                    have hatur' : reprAt (c_rbtree_paint_case3 h fi uu gi) ur
                        (Raw.node uu) = true := by
                      rw [reprAt_untouched ur (Raw.node uu) hmemW ?_]
                      · exact hatur
                      · intro j hj
                        have hjg : j ∈ (CTree.node true ul uu ur).ids := by
                          simp [CTree.ids, hj]
                        have hnduu : (uu ∉ ul.ids ∧ uu ∉ ur.ids) ∧
                            (ul.ids ++ ur.ids).Nodup := by
                          simpa [CTree.ids] using hndgsib
                        simp only [List.mem_cons, List.not_mem_nil, or_false, not_or]
                        exact ⟨fun he => hfi_notin.2.2.1 (he ▸ hjg),
                          fun he => hnduu.1.2 (he ▸ hj),
                          fun he => hgi_notin.1 (he ▸ hjg)⟩
                    have hctxR3' : reprCtx (c_rbtree_paint_case3 h fi uu gi) ctx3
                        (some gi) = true := by
                      rw [reprCtx_untouched ctx3 (some gi) hmemW ?_ rfl]
                      · exact hctxR3
                      · intro j hj
                        simp only [List.mem_cons, List.not_mem_nil, or_false, not_or]
                        exact ⟨fun he => hfi_notin.2.2.2 (he ▸ hj),
                          fun he => hdis_gs_c huu_mem (he ▸ hj),
                          fun he => hgi_notin.2 (he ▸ hj)⟩
                    have huAt : reprAt (c_rbtree_paint_case3 h fi uu gi)
                        (CTree.node false ul uu ur) (Raw.node gi) = true := by
                      rw [reprAt_node_iff]
                      rw [hmemuu]
                      exact ⟨rfl, by simpa using huflag, rfl, huleft, huright,
                        hatul', hatur'⟩
                    cases fd with
                    | false =>
                        refine ⟨c_rbtree_paint_case3 h fi uu gi, gi, ctx3,
                          CTree.node false (CTree.node true l n r) fi fsib,
                          CTree.node false ul uu ur, heval, ?_, ?_, hctx3, rfl, ?_⟩
                        · have hperm : (plug ctx3 (CTree.node true
                              (CTree.node false (CTree.node true l n r) fi fsib) gi
                              (CTree.node false ul uu ur))).ids.Perm
                              (plug ((⟨false, true, fi, fsib⟩ : Frame) ::
                                (⟨false, false, gi, CTree.node true ul uu ur⟩ : Frame) ::
                                ctx3) (CTree.node true l n r)).ids := by
                            refine ((plug_ids_perm _ _).trans ?_).trans
                              (plug_ids_perm _ _).symm
                            rw [← Multiset.coe_eq_coe]
                            simp only [CTree.ids, ctxIds, ← Multiset.cons_coe,
                              ← Multiset.coe_add, ← Multiset.singleton_add]
                            abel
                          refine ⟨?_, ?_, ?_⟩
                          · refine ((repr_plug_iff _ ctx3 _).mpr ⟨hctxR3', ?_⟩).1
                            rw [reprAt_node_iff, hmemgi]
                            refine ⟨by simpa using hgraw, by simpa using hgflag, rfl,
                              by simpa using hgleft, by simpa using hgright, ?_, huAt⟩
                            rw [reprAt_node_iff, hmemfi]
                            exact ⟨rfl, by simpa using hfflag, rfl, by simpa using hfleft,
                              by simpa using hfright,
                              (hatsub' (Raw.node fi)).trans hsubAt, hatfsib'⟩
                          · refine ((repr_plug_iff _ ctx3 _).mpr ⟨hctxR3', ?_⟩).2
                            rw [reprAt_node_iff, hmemgi]
                            refine ⟨by simpa using hgraw, by simpa using hgflag, rfl,
                              by simpa using hgleft, by simpa using hgright, ?_, huAt⟩
                            rw [reprAt_node_iff, hmemfi]
                            exact ⟨rfl, by simpa using hfflag, rfl, by simpa using hfleft,
                              by simpa using hfright,
                              (hatsub' (Raw.node fi)).trans hsubAt, hatfsib'⟩
                          · exact nodup_of_perm_ids hperm hnd
                        · exact Bal.red (Bal.black (Bal.red hl hr) hfsibBal)
                            (Bal.black hul hur)
                        · refine ((plug_ids_perm _ _).trans ?_).trans
                            (plug_ids_perm _ _).symm
                          rw [← Multiset.coe_eq_coe]
                          simp only [CTree.ids, ctxIds, ← Multiset.cons_coe,
                            ← Multiset.coe_add, ← Multiset.singleton_add]
                          abel
                    | true =>
                        refine ⟨c_rbtree_paint_case3 h fi uu gi, gi, ctx3,
                          CTree.node false fsib fi (CTree.node true l n r),
                          CTree.node false ul uu ur, heval, ?_, ?_, hctx3, rfl, ?_⟩
                        · refine ⟨?_, ?_, ?_⟩
                          · refine ((repr_plug_iff _ ctx3 _).mpr ⟨hctxR3', ?_⟩).1
                            rw [reprAt_node_iff, hmemgi]
                            refine ⟨by simpa using hgraw, by simpa using hgflag, rfl,
                              by simpa using hgleft, by simpa using hgright, ?_, huAt⟩
                            rw [reprAt_node_iff, hmemfi]
                            exact ⟨rfl, by simpa using hfflag, rfl, by simpa using hfleft,
                              by simpa using hfright, hatfsib',
                              (hatsub' (Raw.node fi)).trans hsubAt⟩
                          · refine ((repr_plug_iff _ ctx3 _).mpr ⟨hctxR3', ?_⟩).2
                            rw [reprAt_node_iff, hmemgi]
                            refine ⟨by simpa using hgraw, by simpa using hgflag, rfl,
                              by simpa using hgleft, by simpa using hgright, ?_, huAt⟩
                            rw [reprAt_node_iff, hmemfi]
                            exact ⟨rfl, by simpa using hfflag, rfl, by simpa using hfleft,
                              by simpa using hfright, hatfsib',
                              (hatsub' (Raw.node fi)).trans hsubAt⟩
                          · refine nodup_of_perm_ids ?_ hnd
                            refine ((plug_ids_perm _ _).trans ?_).trans
                              (plug_ids_perm _ _).symm
                            rw [← Multiset.coe_eq_coe]
                            simp only [CTree.ids, ctxIds, ← Multiset.cons_coe,
                              ← Multiset.coe_add, ← Multiset.singleton_add]
                            abel
                        · exact Bal.red (Bal.black hfsibBal (Bal.red hl hr))
                            (Bal.black hul hur)
                        · refine ((plug_ids_perm _ _).trans ?_).trans
                            (plug_ids_perm _ _).symm
                          rw [← Multiset.coe_eq_coe]
                          simp only [CTree.ids, ctxIds, ← Multiset.cons_coe,
                            ← Multiset.coe_add, ← Multiset.singleton_add]
                          abel
                | false =>
                    /- black uncle: rotate -/
                    left
                    have hured : (h.mem uu).red = false := by
                      rw [reprAt_node_iff] at hgsib
                      exact hgsib.2.2.1
                    have hured' : c_rbnode_is_red h uu = false := by
                      simp [c_rbnode_is_red, hured]
                    have hgsB : Bal (CTree.node false ul uu ur) false k := by
                      cases hgsibBal with
                      | black h1 h2 => exact Bal.black h1 h2
                    have heval : c_rbtree_paint_one h n =
                        some (c_rbtree_paint_rot_left h n fi gi
                          (c_rbnode_parent h gi), none) := by
                      simp [c_rbtree_paint_one, hpar, hnotblack, hparfi, hgleft,
                        hgright, CTree.rootId, hured']
                    have hpargi := parent_eq_of_upOf hgraw hgflag
                    have hpm2 : ((n :: (l.ids ++ r.ids)) ++ (fi :: fsib.ids) ++
                        (gi :: ((CTree.node false ul uu ur).ids ++
                          ctxIds ctx3))).Perm
                        (plug ((⟨fd, true, fi, fsib⟩ : Frame) ::
                          (⟨false, false, gi, CTree.node false ul uu ur⟩ : Frame) ::
                          ctx3) (CTree.node true l n r)).ids := by
                      refine List.Perm.trans ?_ (plug_ids_perm _ _).symm
                      rw [← Multiset.coe_eq_coe]
                      simp only [CTree.ids, ctxIds, List.cons_append,
                        List.append_assoc, ← Multiset.cons_coe, ← Multiset.coe_add,
                        ← Multiset.singleton_add]
                      try abel
                    obtain ⟨t', hrt, hbal, hperm⟩ := paint_rot_left_sim h ctx3 l r
                      fsib (CTree.node false ul uu ur) n fi gi fd k n₀
                      (c_rbnode_parent h gi) hpargi
                      hraw hflag hred hleft hright hatl hatr hfflag hfleft hfright
                      hfsib hgraw hgflag hgred hgright hgsib hctxR3 hl hr hfsibBal
                      hgsB hctx3 ((List.Perm.nodup_iff hpm2).mpr hnd)
                    exact ⟨_, t', n₀, heval, hrt, hbal, hperm.trans hpm2⟩
        | true =>
            /- mirrored -/
            rw [if_pos rfl] at hgleft
            rw [if_pos rfl] at hgright
            cases hgs : gsib with
            | nil =>
                subst hgs
                left
                have hgsB : Bal CTree.nil false k := by
                  cases hgsibBal with
                  | nil => exact Bal.nil
                have heval : c_rbtree_paint_one h n =
                    some (c_rbtree_paint_rot_right h n fi gi
                      (c_rbnode_parent h gi), none) := by
                  simp [c_rbtree_paint_one, hpar, hnotblack, hparfi, hgleft,
                    hgright, CTree.rootId]
                have hpargi := parent_eq_of_upOf hgraw hgflag
                have hpm2 : ((n :: (l.ids ++ r.ids)) ++ (fi :: fsib.ids) ++
                    (gi :: (CTree.nil.ids ++ ctxIds ctx3))).Perm
                    (plug ((⟨fd, true, fi, fsib⟩ : Frame) ::
                      (⟨true, false, gi, CTree.nil⟩ : Frame) :: ctx3)
                      (CTree.node true l n r)).ids := by
                  refine List.Perm.trans ?_ (plug_ids_perm _ _).symm
                  rw [← Multiset.coe_eq_coe]
                  simp only [CTree.ids, ctxIds, List.cons_append, List.append_assoc,
                    ← Multiset.cons_coe, ← Multiset.coe_add, ← Multiset.singleton_add]
                  try abel
                obtain ⟨t', hrt, hbal, hperm⟩ := paint_rot_right_sim h ctx3 l r fsib
                  CTree.nil n fi gi fd k n₀ (c_rbnode_parent h gi) hpargi
                  hraw hflag hred hleft hright hatl hatr hfflag hfleft hfright
                  hfsib hgraw hgflag hgred hgleft hgsib hctxR3 hl hr hfsibBal
                  hgsB hctx3 ((List.Perm.nodup_iff hpm2).mpr hnd)
                exact ⟨_, t', n₀, heval, hrt, hbal, hperm.trans hpm2⟩
            | node uc ul uu ur =>
                subst hgs
                cases uc with
                | true =>
                    /- Case 3, red uncle, right orientation (mirror) -/
                    right
                    rw [reprAt_node_iff] at hgsib
                    obtain ⟨huraw, huflag, hured, huleft, huright, hatul, hatur⟩ := hgsib
                    obtain ⟨hul, hur⟩ : Bal ul false k ∧ Bal ur false k := by
                      cases hgsibBal with
                      | red h1 h2 => exact ⟨h1, h2⟩
                    have huu_mem : uu ∈ (CTree.node true ul uu ur).ids := by
                      simp [CTree.ids]
                    have hfi_uu : fi ≠ uu := fun he => hfi_notin.2.2.1 (he ▸ huu_mem)
                    have hfi_gi : fi ≠ gi := hfi_notin.2.1
                    have huu_gi : uu ≠ gi := fun he => hgi_notin.1 (he ▸ huu_mem)
                    have hured' : c_rbnode_is_red h uu = true := by
                      simp [c_rbnode_is_red, hured]
                    have huu_fi : uu ≠ fi := hfi_uu.symm
                    have heval : c_rbtree_paint_one h n =
                        some (c_rbtree_paint_case3 h fi uu gi, some gi) := by
                      simp [c_rbtree_paint_one, hpar, hnotblack, hparfi, hgleft,
                        hgright, hured', huu_fi, CTree.rootId]
                    have hmemW : ∀ j, j ∉ ([fi, uu, gi] : List NodeId) →
                        (c_rbtree_paint_case3 h fi uu gi).mem j = h.mem j := by
                      intro j hj
                      simp only [List.mem_cons, List.not_mem_nil, or_false, not_or] at hj
                      rw [paint_case3_mem h fi uu gi j hfi_uu hfi_gi huu_gi]
                      simp [hj.1, hj.2.1, hj.2.2]
                    have hmemfi : (c_rbtree_paint_case3 h fi uu gi).mem fi =
                        { h.mem fi with raw := Raw.node gi, red := false } := by
                      rw [paint_case3_mem h fi uu gi fi hfi_uu hfi_gi huu_gi]
                      simp [hfi_gi, hfi_uu]
                    have hmemuu : (c_rbtree_paint_case3 h fi uu gi).mem uu =
                        { h.mem uu with raw := Raw.node gi, red := false } := by
                      rw [paint_case3_mem h fi uu gi uu hfi_uu hfi_gi huu_gi]
                      simp [huu_gi]
                    have hmemgi : (c_rbtree_paint_case3 h fi uu gi).mem gi =
                        { h.mem gi with red := true } := by
                      rw [paint_case3_mem h fi uu gi gi hfi_uu hfi_gi huu_gi]
                      simp
                    have hup2 : upOf ((⟨true, false, gi, CTree.node true ul uu ur⟩ :
                        Frame) :: ctx3) = Raw.node gi := rfl
                    rw [hup2] at hfraw hfflag
                    have hsubAt : reprAt h (CTree.node true l n r) (Raw.node fi) = true := by
                      rw [reprAt_node_iff]
                      exact ⟨by simpa using hraw, by simpa using hflag, hred, hleft,
                        hright, hatl, hatr⟩
                    have hatsub' : ∀ up, reprAt (c_rbtree_paint_case3 h fi uu gi)
                        (CTree.node true l n r) up = reprAt h (CTree.node true l n r) up := by
                      intro up
                      refine reprAt_untouched _ up hmemW ?_
                      intro j hj
                      simp only [CTree.ids, List.mem_cons, List.mem_append] at hj
                      simp only [List.mem_cons, List.not_mem_nil, or_false, not_or]
                      rcases hj with rfl | hj
                      · exact ⟨hn_notin.2.1, fun he => (he ▸ hn_notin.2.2.2.2.1) huu_mem,
                          hn_notin.2.2.2.1⟩
                      · have h9 := hdis_sub hj
                        push_neg at h9
                        exact ⟨h9.1, fun he => (he ▸ h9.2.2.2.1) huu_mem, h9.2.2.1⟩
                    have hatfsib' : reprAt (c_rbtree_paint_case3 h fi uu gi) fsib
                        (Raw.node fi) = true := by
                      rw [reprAt_untouched fsib (Raw.node fi) hmemW ?_]
                      · exact hfsib
                      · intro j hj
                        have h2 := hdis_fs hj
                        push_neg at h2
                        simp only [List.mem_cons, List.not_mem_nil, or_false, not_or]
                        exact ⟨fun he => hfi_notin.1 (he ▸ hj),
                          fun he => (he ▸ h2.2.1) huu_mem, h2.1⟩
                    have hatul' : reprAt (c_rbtree_paint_case3 h fi uu gi) ul
                        (Raw.node uu) = true := by
                      rw [reprAt_untouched ul (Raw.node uu) hmemW ?_]
                      · exact hatul
                      · intro j hj
                        have hjg : j ∈ (CTree.node true ul uu ur).ids := by
                          simp [CTree.ids, hj]
                        have hnduu : (uu ∉ ul.ids ∧ uu ∉ ur.ids) ∧
                            (ul.ids ++ ur.ids).Nodup := by
                          simpa [CTree.ids] using hndgsib
                        simp only [List.mem_cons, List.not_mem_nil, or_false, not_or]
                        exact ⟨fun he => hfi_notin.2.2.1 (he ▸ hjg),
                          fun he => hnduu.1.1 (he ▸ hj),
                          fun he => hgi_notin.1 (he ▸ hjg)⟩
                    have hatur' : reprAt (c_rbtree_paint_case3 h fi uu gi) ur
                        (Raw.node uu) = true := by
                      rw [reprAt_untouched ur (Raw.node uu) hmemW ?_]
                      · exact hatur
                      · intro j hj
                        have hjg : j ∈ (CTree.node true ul uu ur).ids := by
                          simp [CTree.ids, hj]
                        have hnduu : (uu ∉ ul.ids ∧ uu ∉ ur.ids) ∧
                            (ul.ids ++ ur.ids).Nodup := by
                          simpa [CTree.ids] using hndgsib
                        simp only [List.mem_cons, List.not_mem_nil, or_false, not_or]
                        exact ⟨fun he => hfi_notin.2.2.1 (he ▸ hjg),
                          fun he => hnduu.1.2 (he ▸ hj),
                          fun he => hgi_notin.1 (he ▸ hjg)⟩
                    have hctxR3' : reprCtx (c_rbtree_paint_case3 h fi uu gi) ctx3
                        (some gi) = true := by
                      rw [reprCtx_untouched ctx3 (some gi) hmemW ?_ rfl]
                      · exact hctxR3
                      · intro j hj
                        simp only [List.mem_cons, List.not_mem_nil, or_false, not_or]
                        exact ⟨fun he => hfi_notin.2.2.2 (he ▸ hj),
                          fun he => hdis_gs_c huu_mem (he ▸ hj),
                          fun he => hgi_notin.2 (he ▸ hj)⟩
                    have huAt : reprAt (c_rbtree_paint_case3 h fi uu gi)
                        (CTree.node false ul uu ur) (Raw.node gi) = true := by
                      rw [reprAt_node_iff]
                      rw [hmemuu]
                      exact ⟨rfl, by simpa using huflag, rfl, huleft, huright,
                        hatul', hatur'⟩
                    cases fd with
                    | false =>
                        refine ⟨c_rbtree_paint_case3 h fi uu gi, gi, ctx3,
                          CTree.node false ul uu ur,
                          CTree.node false (CTree.node true l n r) fi fsib,
                          heval, ?_, ?_, hctx3, rfl, ?_⟩
                        · have hperm : (plug ctx3 (CTree.node true
                              (CTree.node false ul uu ur) gi
                              (CTree.node false (CTree.node true l n r) fi fsib))).ids.Perm
                              (plug ((⟨false, true, fi, fsib⟩ : Frame) ::
                                (⟨true, false, gi, CTree.node true ul uu ur⟩ : Frame) ::
                                ctx3) (CTree.node true l n r)).ids := by
                            refine ((plug_ids_perm _ _).trans ?_).trans
                              (plug_ids_perm _ _).symm
                            rw [← Multiset.coe_eq_coe]
                            simp only [CTree.ids, ctxIds, ← Multiset.cons_coe,
                              ← Multiset.coe_add, ← Multiset.singleton_add]
                            abel
                          refine ⟨?_, ?_, ?_⟩
                          · refine ((repr_plug_iff _ ctx3 _).mpr ⟨hctxR3', ?_⟩).1
                            rw [reprAt_node_iff, hmemgi]
                            refine ⟨by simpa using hgraw, by simpa using hgflag, rfl,
                              by simpa using hgleft, by simpa using hgright, huAt, ?_⟩
                            rw [reprAt_node_iff, hmemfi]
                            exact ⟨rfl, by simpa using hfflag, rfl, by simpa using hfleft,
                              by simpa using hfright,
                              (hatsub' (Raw.node fi)).trans hsubAt, hatfsib'⟩
                          · refine ((repr_plug_iff _ ctx3 _).mpr ⟨hctxR3', ?_⟩).2
                            rw [reprAt_node_iff, hmemgi]
                            refine ⟨by simpa using hgraw, by simpa using hgflag, rfl,
                              by simpa using hgleft, by simpa using hgright, huAt, ?_⟩
                            rw [reprAt_node_iff, hmemfi]
                            exact ⟨rfl, by simpa using hfflag, rfl, by simpa using hfleft,
                              by simpa using hfright,
                              (hatsub' (Raw.node fi)).trans hsubAt, hatfsib'⟩
                          · exact nodup_of_perm_ids hperm hnd
                        · exact Bal.red (Bal.black hul hur)
                            (Bal.black (Bal.red hl hr) hfsibBal)
                        · refine ((plug_ids_perm _ _).trans ?_).trans
                            (plug_ids_perm _ _).symm
                          rw [← Multiset.coe_eq_coe]
                          simp only [CTree.ids, ctxIds, ← Multiset.cons_coe,
                            ← Multiset.coe_add, ← Multiset.singleton_add]
                          abel
                    | true =>
                        refine ⟨c_rbtree_paint_case3 h fi uu gi, gi, ctx3,
                          CTree.node false ul uu ur,
                          CTree.node false fsib fi (CTree.node true l n r),
                          heval, ?_, ?_, hctx3, rfl, ?_⟩
                        · refine ⟨?_, ?_, ?_⟩
                          · refine ((repr_plug_iff _ ctx3 _).mpr ⟨hctxR3', ?_⟩).1
                            rw [reprAt_node_iff, hmemgi]
                            refine ⟨by simpa using hgraw, by simpa using hgflag, rfl,
                              by simpa using hgleft, by simpa using hgright, huAt, ?_⟩
                            rw [reprAt_node_iff, hmemfi]
                            exact ⟨rfl, by simpa using hfflag, rfl, by simpa using hfleft,
                              by simpa using hfright, hatfsib',
                              (hatsub' (Raw.node fi)).trans hsubAt⟩
                          · refine ((repr_plug_iff _ ctx3 _).mpr ⟨hctxR3', ?_⟩).2
                            rw [reprAt_node_iff, hmemgi]
                            refine ⟨by simpa using hgraw, by simpa using hgflag, rfl,
                              by simpa using hgleft, by simpa using hgright, huAt, ?_⟩
                            rw [reprAt_node_iff, hmemfi]
                            exact ⟨rfl, by simpa using hfflag, rfl, by simpa using hfleft,
                              by simpa using hfright, hatfsib',
                              (hatsub' (Raw.node fi)).trans hsubAt⟩
                          · refine nodup_of_perm_ids ?_ hnd
                            refine ((plug_ids_perm _ _).trans ?_).trans
                              (plug_ids_perm _ _).symm
                            rw [← Multiset.coe_eq_coe]
                            simp only [CTree.ids, ctxIds, ← Multiset.cons_coe,
                              ← Multiset.coe_add, ← Multiset.singleton_add]
                            abel
                        · exact Bal.red (Bal.black hul hur)
                            (Bal.black hfsibBal (Bal.red hl hr))
                        · refine ((plug_ids_perm _ _).trans ?_).trans
                            (plug_ids_perm _ _).symm
                          rw [← Multiset.coe_eq_coe]
                          simp only [CTree.ids, ctxIds, ← Multiset.cons_coe,
                            ← Multiset.coe_add, ← Multiset.singleton_add]
                          abel
                | false =>
                    /- black uncle: rotate (mirror) -/
                    left
                    have hured : (h.mem uu).red = false := by
                      rw [reprAt_node_iff] at hgsib
                      exact hgsib.2.2.1
                    have hured' : c_rbnode_is_red h uu = false := by
                      simp [c_rbnode_is_red, hured]
                    have huu_mem2 : uu ∈ (CTree.node false ul uu ur).ids := by
                      simp [CTree.ids]
                    have huu_fi : uu ≠ fi := fun he =>
                      hfi_notin.2.2.1 (he ▸ huu_mem2)
                    have hgsB : Bal (CTree.node false ul uu ur) false k := by
                      cases hgsibBal with
                      | black h1 h2 => exact Bal.black h1 h2
                    have heval : c_rbtree_paint_one h n =
                        some (c_rbtree_paint_rot_right h n fi gi
                          (c_rbnode_parent h gi), none) := by
                      simp [c_rbtree_paint_one, hpar, hnotblack, hparfi, hgleft,
                        hgright, CTree.rootId, hured', huu_fi]
                    have hpargi := parent_eq_of_upOf hgraw hgflag
                    have hpm2 : ((n :: (l.ids ++ r.ids)) ++ (fi :: fsib.ids) ++
                        (gi :: ((CTree.node false ul uu ur).ids ++
                          ctxIds ctx3))).Perm
                        (plug ((⟨fd, true, fi, fsib⟩ : Frame) ::
                          (⟨true, false, gi, CTree.node false ul uu ur⟩ : Frame) ::
                          ctx3) (CTree.node true l n r)).ids := by
                      refine List.Perm.trans ?_ (plug_ids_perm _ _).symm
                      rw [← Multiset.coe_eq_coe]
                      simp only [CTree.ids, ctxIds, List.cons_append,
                        List.append_assoc, ← Multiset.cons_coe, ← Multiset.coe_add,
                        ← Multiset.singleton_add]
                      try abel
                    obtain ⟨t', hrt, hbal, hperm⟩ := paint_rot_right_sim h ctx3 l r
                      fsib (CTree.node false ul uu ur) n fi gi fd k n₀
                      (c_rbnode_parent h gi) hpargi
                      hraw hflag hred hleft hright hatl hatr hfflag hfleft hfright
                      hfsib hgraw hgflag hgred hgleft hgsib hctxR3 hl hr hfsibBal
                      hgsB hctx3 ((List.Perm.nodup_iff hpm2).mpr hnd)
                    exact ⟨_, t', n₀, heval, hrt, hbal, hperm.trans hpm2⟩

/-- The insertion fixup loop terminates once the fuel exceeds the length
of the context (the depth of the repainted node), and leaves a stored,
fully balanced tree over the same identifiers. -/
theorem paint_sim (fuel : Nat) (h : Heap) (ctx : List Frame) (l r : CTree)
    (n : NodeId) (k n₀ : Nat)
    (hrep : reprTree h (plug ctx (CTree.node true l n r)))
    (hb : Bal (CTree.node true l n r) true k)
    (hctx : CtxBal false n₀ ctx false k)
    (hfuel : ctx.length < fuel) :
    ∃ h' t' m, c_rbtree_paint fuel h (some n) = some h' ∧ reprTree h' t' ∧
      Bal t' false m ∧ t'.ids.Perm (plug ctx (CTree.node true l n r)).ids := by
  induction fuel generalizing h ctx l r n k with
  | zero => exact absurd hfuel (Nat.not_lt_zero _)
  | succ fuel ih =>
      rcases paint_one_sim h ctx l r n k n₀ hrep hb hctx with
        ⟨h', t', m, heq, hrt, hbal, hperm⟩ |
        ⟨h', g, ctx', l', r', heq, hrt, hbal, hctx', hlen, hperm⟩
      · exact ⟨h', t', m, by simp [c_rbtree_paint, heq], hrt, hbal, hperm⟩
      · have hfuel' : ctx'.length < fuel := by omega
        obtain ⟨h2, t2, m2, heq2, hrt2, hbal2, hperm2⟩ :=
          ih h' ctx' l' r' g (k + 1) hrt hbal hctx' hfuel'
        exact ⟨h2, t2, m2, by simp [c_rbtree_paint, heq, heq2], hrt2, hbal2,
          hperm2.trans hperm⟩

/-- `c_rbtree_add` at a genuinely empty slot (described by the context
`ctx` of the stored tree): the node is linked red at that slot and the
fixup restores a stored, balanced tree whose identifiers are the old ones
plus `n`. -/
theorem c_rbtree_add_sim (h : Heap) (ctx : List Frame) (n : NodeId)
    (p : Option NodeId) (dir : Bool) (fuel n₀ : Nat)
    (hrep : reprTree h (plug ctx CTree.nil))
    (hbal : Bal (plug ctx CTree.nil) false n₀)
    (hp : p = ctx.head?.map Frame.id)
    (hdir : ∀ f ctx2, ctx = f :: ctx2 → dir = f.isRight)
    (hn : n ∉ (plug ctx CTree.nil).ids)
    (hfuel : ctx.length < fuel) :
    ∃ h' t', c_rbtree_add h p dir n fuel = some h' ∧ reprTree h' t' ∧
      (∃ m, Bal t' false m) ∧ t'.ids.Perm (n :: (plug ctx CTree.nil).ids) := by
  obtain ⟨hroot, hatp, hnd⟩ := hrep
  obtain ⟨hctxR, hatnil⟩ := (repr_plug_iff h ctx CTree.nil).mp ⟨hroot, hatp⟩
  obtain ⟨c, kk, hctxB, hnil⟩ := bal_unplug ctx CTree.nil hbal
  cases hnil
  have hn2 : n ∉ ctxIds ctx := fun hm =>
    hn ((plug_ids_perm ctx CTree.nil).mem_iff.mpr (by simp [CTree.ids, hm]))
  subst hp
  cases ctx with
  | nil =>
      simp only [List.head?_nil, Option.map_none']
      set h4 := c_rbnode_push_root
        (storeRight (storeLeft
          (c_rbnode_set_parent_and_flags h n Raw.null true false) n none) n none)
        (some n) true with hh4
      have heval : c_rbtree_add h none dir n fuel =
          c_rbtree_paint fuel h4 (some n) := by
        simp [c_rbtree_add, hh4, rawOf]
      have hm4_n : h4.mem n = ⟨Raw.tree, true, true, none, none⟩ := by
        rw [hh4]
        simp [c_rbnode_push_root, c_rbnode_is_red, storeRoot_mem, setpf_mem,
          storeLeft_mem, storeRight_mem]
      have hrep4 : reprTree h4 (plug [] (CTree.node true CTree.nil n CTree.nil)) := by
        refine ⟨?_, ?_, by simp [plug, CTree.ids]⟩
        · rw [hh4]
          simp [plug, c_rbnode_push_root, storeRoot_root, CTree.rootId]
        · show reprAt h4 (CTree.node true CTree.nil n CTree.nil) Raw.tree = true
          rw [reprAt_node_iff]
          exact ⟨by simp [hm4_n], by simp [hm4_n], by simp [hm4_n],
            by simp [hm4_n, CTree.rootId], by simp [hm4_n, CTree.rootId],
            rfl, rfl⟩
      obtain ⟨h', t', m, heqp, hrt, hbal', hperm⟩ := paint_sim fuel h4 []
        CTree.nil CTree.nil n 0 n₀ hrep4 (Bal.red Bal.nil Bal.nil) hctxB
        (by simpa using hfuel)
      refine ⟨h', t', by rw [heval]; exact heqp, hrt, ⟨m, hbal'⟩, ?_⟩
      exact hperm.trans (by simp [plug, CTree.ids])
  | cons f ctx2 =>
      simp only [List.head?_cons, Option.map_some']
      have hd := hdir f ctx2 rfl
      subst hd
      rw [reprCtx_cons_iff] at hctxR
      obtain ⟨hfraw, hfflag, hfred, hfleft, hfright, hfsib, hctxR2⟩ := hctxR
      have hnf : n ≠ f.id := fun he => hn2 (by simp [ctxIds, he])
      have hfn : f.id ≠ n := hnf.symm
      have hndctx : (ctxIds (f :: ctx2)).Nodup := by
        have := (nodup_plug_iff (f :: ctx2) CTree.nil).mp hnd
        simpa [CTree.ids] using this
      simp only [ctxIds, List.nodup_cons] at hndctx
      set h4 := (if f.isRight then
          storeRight (storeRight (storeLeft
            (c_rbnode_set_parent_and_flags h n (Raw.node f.id) true false)
            n none) n none) f.id (some n)
        else
          storeLeft (storeRight (storeLeft
            (c_rbnode_set_parent_and_flags h n (Raw.node f.id) true false)
            n none) n none) f.id (some n)) with hh4
      have heval : c_rbtree_add h (some f.id) f.isRight n fuel =
          c_rbtree_paint fuel h4 (some n) := by
        rw [hh4]
        cases hfd : f.isRight with
        | true => simp [c_rbtree_add, rawOf, hfd]
        | false => simp [c_rbtree_add, rawOf, hfd]
      have hm4_n : h4.mem n = ⟨Raw.node f.id, true, false, none, none⟩ := by
        rw [hh4]
        cases f.isRight <;>
          simp [storeRight_mem, storeLeft_mem, setpf_mem, hnf]
      have hW : ∀ j, j ≠ n → j ≠ f.id → h4.mem j = h.mem j := by
        intro j h1 h2
        rw [hh4]
        cases f.isRight <;>
          simp [storeRight_mem, storeLeft_mem, setpf_mem, h1, h2]
      have hroot4 : h4.root = h.root := by
        rw [hh4]
        cases f.isRight <;>
          simp [storeRight_root, storeLeft_root, setpf_root]
      have hm4_f : h4.mem f.id =
          (if f.isRight then
            { h.mem f.id with right := some n }
          else
            { h.mem f.id with left := some n }) := by
        rw [hh4]
        cases f.isRight <;>
          simp [storeRight_mem, storeLeft_mem, setpf_mem, hfn]
      have hsib4 : reprAt h4 f.sib (Raw.node f.id) = true := by
        rw [reprAt_congr f.sib (Raw.node f.id) (fun j hj => hW j
          (fun he => hn2 (by simp [ctxIds, he ▸ hj]))
          (fun he => hndctx.1 (List.mem_append.mpr (Or.inl (he ▸ hj)))))]
        exact hfsib
      have hctx4 : reprCtx h4 ctx2 (some f.id) = true := by
        rw [reprCtx_congr ctx2 (some f.id) (fun j hj => hW j
          (fun he => hn2 (by simp [ctxIds, he ▸ hj]))
          (fun he => hndctx.1 (List.mem_append.mpr (Or.inr (he ▸ hj)))))
          hroot4]
        exact hctxR2
      have hrep4 : reprTree h4 (plug (f :: ctx2)
          (CTree.node true CTree.nil n CTree.nil)) := by
        have hpair := (repr_plug_iff h4 (f :: ctx2)
          (CTree.node true CTree.nil n CTree.nil)).mpr ⟨?_, ?_⟩
        · refine ⟨hpair.1, hpair.2, ?_⟩
          rw [nodup_plug_iff]
          have hndc : (ctxIds (f :: ctx2)).Nodup := by
            have h0 := (nodup_plug_iff (f :: ctx2) CTree.nil).mp hnd
            simpa [CTree.ids] using h0
          simpa [CTree.ids] using List.nodup_cons.mpr ⟨hn2, hndc⟩
        · rw [reprCtx_cons_iff]
          refine ⟨by simp [hm4_f]; cases f.isRight <;> simp [hfraw],
            ?_, ?_, ?_, ?_, hsib4, hctx4⟩
          · cases hfd : f.isRight with
            | true =>
                rw [hfd] at hm4_f
                simp only [if_true] at hm4_f
                simpa [hm4_f] using hfflag
            | false =>
                rw [hfd] at hm4_f
                simp only [Bool.false_eq_true, if_false] at hm4_f
                simpa [hm4_f] using hfflag
          · cases hfd : f.isRight with
            | true =>
                rw [hfd] at hm4_f
                simp only [if_true] at hm4_f
                simpa [hm4_f] using hfred
            | false =>
                rw [hfd] at hm4_f
                simp only [Bool.false_eq_true, if_false] at hm4_f
                simpa [hm4_f] using hfred
          · cases hfd : f.isRight with
            | true =>
                rw [hfd] at hm4_f hfleft
                simp only [if_true] at hm4_f hfleft
                simp [hm4_f, hfleft]
            | false =>
                rw [hfd] at hm4_f
                simp only [Bool.false_eq_true, if_false] at hm4_f
                simp [hm4_f, CTree.rootId]
          · cases hfd : f.isRight with
            | true =>
                rw [hfd] at hm4_f
                simp only [if_true] at hm4_f
                simp [hm4_f, CTree.rootId]
            | false =>
                rw [hfd] at hm4_f hfright
                simp only [Bool.false_eq_true, if_false] at hm4_f hfright
                simp [hm4_f, hfright]
        · rw [reprAt_node_iff]
          exact ⟨by simp [hm4_n, upOf], by simp [hm4_n, upOf], by simp [hm4_n],
            by simp [hm4_n, CTree.rootId], by simp [hm4_n, CTree.rootId],
            rfl, rfl⟩
      obtain ⟨h', t', m, heqp, hrt, hbal', hperm⟩ := paint_sim fuel h4 (f :: ctx2)
        CTree.nil CTree.nil n 0 n₀ hrep4 (Bal.red Bal.nil Bal.nil) hctxB hfuel
      refine ⟨h', t', by rw [heval]; exact heqp, hrt, ⟨m, hbal'⟩, ?_⟩
      refine hperm.trans ?_
      refine ((plug_ids_perm _ _).trans ?_).trans
        (List.Perm.cons n (plug_ids_perm _ _).symm)
      rw [← Multiset.coe_eq_coe]
      simp only [CTree.ids, ctxIds, List.cons_append, List.append_assoc,
        List.nil_append, List.append_nil, ← Multiset.cons_coe, ← Multiset.coe_add,
        ← Multiset.singleton_add]
      try abel

/-- C7: the insertion fixup terminates: from any intermediate fixup state
(a red node `n` with balanced black subtrees at depth `ctx.length`, inside
a context that balances with a black subtree there), running the paint
loop with fuel equal to the number of nodes on the path from `n` to the
root (each Case 3 iteration moves the repainted node two levels up; every
other case ends the loop at once) returns a stored tree satisfying the
red-black invariants over the same node set. -/
theorem C7_paint_terminates (h : Heap) (ctx : List Frame) (l r : CTree)
    (n : NodeId) (k n₀ : Nat)
    (hrep : reprTree h (plug ctx (CTree.node true l n r)))
    (hb : Bal (CTree.node true l n r) true k)
    (hctx : CtxBal false n₀ ctx false k) :
    ∃ h' t', c_rbtree_paint (ctx.length + 1) h (some n) = some h' ∧
      reprTree h' t' ∧ t'.isRB ∧
      t'.ids.Perm (plug ctx (CTree.node true l n r)).ids := by
  obtain ⟨h', t', m, heq, hrt, hbal, hperm⟩ :=
    paint_sim (ctx.length + 1) h ctx l r n k n₀ hrep hb hctx (Nat.lt_succ_self _)
  exact ⟨h', t', heq, hrt, hbal.to_isRB, hperm⟩

/-- Heap with the single node `0` stored as a red root, the intermediate
state right after linking the first node into an empty tree. -/
def hRedRoot : Heap :=
  { mem := fun j => if j = 0 then ⟨Raw.tree, true, true, none, none⟩
      else ⟨Raw.null, false, false, none, none⟩,
    root := some 0 }

theorem C7_paint_terminates_witness :
    ∃ h' t', c_rbtree_paint (List.length ([] : List Frame) + 1) hRedRoot
        (some 0) = some h' ∧
      reprTree h' t' ∧ t'.isRB ∧
      t'.ids.Perm (plug [] (CTree.node true CTree.nil 0 CTree.nil)).ids :=
  C7_paint_terminates hRedRoot [] CTree.nil CTree.nil 0 0 0
    ⟨rfl, by decide, by decide⟩ (Bal.red Bal.nil Bal.nil) CtxBal.root

/-- Case 6 of the removal fixup, left orientation: the black-effective
sibling `s` of the deficient left slot of `p` is rotated above `p`; `s`
inherits the color of `p`, while `p` and the far nephew `x` turn black,
restoring the missing black level and ending the loop. -/
theorem rebalance_case6_left_sim (h : Heap) (ctx2 : List Frame)
    (sub Y XL XR : CTree) (p s x : NodeId) (cp : Bool)
    (hpraw : (h.mem p).raw = upOf ctx2)
    (hpflag : (h.mem p).rootFlag = (upOf ctx2 == Raw.tree))
    (hpred : (h.mem p).red = cp)
    (hpleft : (h.mem p).left = sub.rootId)
    (hpright : (h.mem p).right = some s)
    (hsleft : (h.mem s).left = Y.rootId)
    (hsright : (h.mem s).right = some x)
    (hxflag : (h.mem x).rootFlag = false)
    (hxleft : (h.mem x).left = XL.rootId)
    (hxright : (h.mem x).right = XR.rootId)
    (hatsub : reprAt h sub (Raw.node p) = true)
    (hatY : reprAt h Y (Raw.node s) = true)
    (hatXL : reprAt h XL (Raw.node x) = true)
    (hatXR : reprAt h XR (Raw.node x) = true)
    (hctxR : reprCtx h ctx2 (some p) = true)
    (hnd : (p :: s :: x :: (sub.ids ++ Y.ids ++ XL.ids ++ XR.ids ++
      ctxIds ctx2)).Nodup) :
    ∃ E, c_rbnode_rebalance_case6_left h p x s = some (E, none) ∧
      reprTree E (plug ctx2 (CTree.node cp (CTree.node false sub p Y) s
        (CTree.node false XL x XR))) ∧
      (plug ctx2 (CTree.node cp (CTree.node false sub p Y) s
        (CTree.node false XL x XR))).ids.Perm
        (p :: s :: x :: (sub.ids ++ Y.ids ++ XL.ids ++ XR.ids ++ ctxIds ctx2)) := by
  have hndF := hnd
  simp only [List.nodup_cons, List.mem_cons, List.mem_append, List.nodup_append,
    List.disjoint_left] at hndF
  obtain ⟨hp_no, hs_no, hx_no,
    ⟨⟨⟨hndsub, hndY, hdis_sY⟩, hndXL, hdis_sYXL⟩, hndXR, hdis_XR⟩,
    hndc2, hdis_c2⟩ := hndF
  push_neg at hp_no hs_no hx_no
  obtain ⟨hps, hpx, ⟨⟨⟨hpsub, hpY⟩, hpXL⟩, hpXR⟩, hpc⟩ := hp_no
  obtain ⟨hsx, ⟨⟨⟨hssub, hsY⟩, hsXL⟩, hsXR⟩, hsc⟩ := hs_no
  obtain ⟨⟨⟨⟨hxsub, hxY⟩, hxXL⟩, hxXR⟩, hxc⟩ := hx_no
  have hsp : s ≠ p := hps.symm
  have hxp : x ≠ p := hpx.symm
  have hxs : x ≠ s := hsx.symm
  cases ctx2 with
  | nil =>
      have hup : upOf ([] : List Frame) = Raw.tree := rfl
      rw [hup] at hpraw hpflag
      have hfe : c_rbnode_rebalance_case6_left h p x s =
          some (storeRoot
            (c_rbnode_set_parent_and_flags
              (c_rbnode_set_parent_and_flags
                (c_rbnode_set_parent_and_flags
                  (reparentKeep
                    (c_rbnode_set_parent_and_flags
                      (storeLeft
                        (storeRight
                          (c_rbnode_set_parent_and_flags h p Raw.null cp false)
                          p Y.rootId)
                        s (some p))
                      x (Raw.node s) false false)
                    Y.rootId p)
                  s Raw.null cp false)
                p (Raw.node s) false false)
              s Raw.tree cp true)
            (some s), none) := by
        simp [c_rbnode_rebalance_case6_left, c_rbnode_pop_root, c_rbnode_push_root,
          c_rbnode_is_red, c_rbnode_is_root, c_rbnode_swap_child, c_rbnode_parent,
          c_rbnode_raw, Raw.asNode, hpraw, hpflag, hpred, hsleft, rawOf,
          reparentKeep_mem_notin hpY, reparentKeep_mem_notin hsY,
          storeLeft_mem, storeRight_mem, setpf_mem, storeRoot_mem,
          hps, hsp, hpx, hxp, hsx, hxs, hxflag]
      rw [hfe]
      set E := storeRoot
            (c_rbnode_set_parent_and_flags
              (c_rbnode_set_parent_and_flags
                (c_rbnode_set_parent_and_flags
                  (reparentKeep
                    (c_rbnode_set_parent_and_flags
                      (storeLeft
                        (storeRight
                          (c_rbnode_set_parent_and_flags h p Raw.null cp false)
                          p Y.rootId)
                        s (some p))
                      x (Raw.node s) false false)
                    Y.rootId p)
                  s Raw.null cp false)
                p (Raw.node s) false false)
              s Raw.tree cp true)
            (some s) with hEdef
      have hW : ∀ j, j ≠ p → j ≠ s → j ≠ x → j ∉ Y.ids → E.mem j = h.mem j := by
        intro j h1 h2 h3 h4
        rw [hEdef]
        simp [storeRoot_mem, setpf_mem, storeLeft_mem, storeRight_mem,
          reparentKeep_mem_notin h4, h1, h2, h3]
      have hm_s : E.mem s = ⟨Raw.tree, cp, true, some p, some x⟩ := by
        rw [hEdef]
        simp [storeRoot_mem, setpf_mem, storeLeft_mem, storeRight_mem,
          reparentKeep_mem_notin hsY, hsp, hsx, hsright]
      have hm_p : E.mem p = ⟨Raw.node s, false, false, sub.rootId, Y.rootId⟩ := by
        rw [hEdef]
        simp [storeRoot_mem, setpf_mem, storeLeft_mem, storeRight_mem,
          reparentKeep_mem_notin hpY, hps, hpx, hpleft]
      have hm_x : E.mem x = ⟨Raw.node s, false, false, XL.rootId, XR.rootId⟩ := by
        rw [hEdef]
        simp [storeRoot_mem, setpf_mem, storeLeft_mem, storeRight_mem,
          reparentKeep_mem_notin hxY, hxp, hxs, hxleft, hxright]
      have hsubrepr : reprAt E sub (Raw.node p) = true := by
        rw [reprAt_congr sub (Raw.node p) (fun j hj => hW j
          (fun he => hpsub (he ▸ hj)) (fun he => hssub (he ▸ hj))
          (fun he => hxsub (he ▸ hj)) (hdis_sY hj))]
        exact hatsub
      have hstageY : reprAt (reparentKeep h Y.rootId p) Y (Raw.node p) = true :=
        reprAt_reparentKeep hatY (by simp) hndY
      have hYrepr : reprAt E Y (Raw.node p) = true := by
        have hmemY : ∀ j ∈ Y.ids,
            E.mem j = (reparentKeep h Y.rootId p).mem j := by
          intro j hj
          have hjp : j ≠ p := fun he => hpY (he ▸ hj)
          have hjs : j ≠ s := fun he => hsY (he ▸ hj)
          have hjx : j ≠ x := fun he => hxY (he ▸ hj)
          rw [hEdef]
          cases Y with
          | nil => simp [CTree.ids] at hj
          | node yc yl yy yr =>
              by_cases hjy : j = yy
              · subst hjy
                simp [reparentKeep, CTree.rootId, storeRoot_mem, setpf_mem,
                  storeLeft_mem, storeRight_mem, hjp, hjs, hjx]
              · simp [reparentKeep, CTree.rootId, storeRoot_mem, setpf_mem,
                  storeLeft_mem, storeRight_mem, hjp, hjs, hjx, hjy]
        rw [reprAt_congr Y (Raw.node p) hmemY]
        exact hstageY
      have hXLrepr : reprAt E XL (Raw.node x) = true := by
        rw [reprAt_congr XL (Raw.node x) (fun j hj => hW j
          (fun he => hpXL (he ▸ hj)) (fun he => hsXL (he ▸ hj))
          (fun he => hxXL (he ▸ hj))
          (fun hm => hdis_sYXL (Or.inr hm) hj))]
        exact hatXL
      have hXRrepr : reprAt E XR (Raw.node x) = true := by
        rw [reprAt_congr XR (Raw.node x) (fun j hj => hW j
          (fun he => hpXR (he ▸ hj)) (fun he => hsXR (he ▸ hj))
          (fun he => hxXR (he ▸ hj))
          (fun hm => hdis_XR (Or.inl (Or.inr hm)) hj))]
        exact hatXR
      refine ⟨E, rfl, ⟨?_, ?_, ?_⟩, ?_⟩
      · rw [hEdef]
        simp [plug, storeRoot_root, CTree.rootId]
      · show reprAt E (CTree.node cp (CTree.node false sub p Y) s
            (CTree.node false XL x XR)) Raw.tree = true
        rw [reprAt_node_iff]
        refine ⟨by simp [hm_s], by simp [hm_s], by simp [hm_s],
          by simp [hm_s, CTree.rootId], by simp [hm_s, CTree.rootId], ?_, ?_⟩
        · rw [reprAt_node_iff]
          exact ⟨by simp [hm_p], by simp [hm_p], by simp [hm_p],
            by simp [hm_p], by simp [hm_p], hsubrepr, hYrepr⟩
        · rw [reprAt_node_iff]
          exact ⟨by simp [hm_x], by simp [hm_x], by simp [hm_x],
            by simp [hm_x], by simp [hm_x], hXLrepr, hXRrepr⟩
      · refine (List.Perm.nodup_iff ((plug_ids_perm _ _).trans ?_)).mpr hnd
        rw [← Multiset.coe_eq_coe]
        simp only [CTree.ids, ctxIds, List.cons_append, List.append_assoc,
          ← Multiset.cons_coe, ← Multiset.coe_add, ← Multiset.singleton_add]
        try abel
      · refine (plug_ids_perm _ _).trans ?_
        rw [← Multiset.coe_eq_coe]
        simp only [CTree.ids, ctxIds, List.cons_append, List.append_assoc,
          ← Multiset.cons_coe, ← Multiset.coe_add, ← Multiset.singleton_add]
        try abel
  | cons f3 ctx3 =>
      rw [reprCtx_cons_iff] at hctxR
      obtain ⟨hf3raw, hf3flag, hf3red, hf3left, hf3right, hf3sib, hctxR3⟩ := hctxR
      have hf3mem : f3.id ∈ ctxIds (f3 :: ctx3) := by simp [ctxIds]
      have hf3p : f3.id ≠ p := fun he => hpc (he ▸ hf3mem)
      have hf3s : f3.id ≠ s := fun he => hsc (he ▸ hf3mem)
      have hf3x : f3.id ≠ x := fun he => hxc (he ▸ hf3mem)
      have hpf3 : p ≠ f3.id := hf3p.symm
      have hsf3 : s ≠ f3.id := hf3s.symm
      have hxf3 : x ≠ f3.id := hf3x.symm
      have hf3Y : f3.id ∉ Y.ids := fun hm =>
        hdis_c2 (Or.inl (Or.inl (Or.inr hm))) hf3mem
      have hpsib : p ∉ f3.sib.ids := fun hm => hpc (by simp [ctxIds, hm])
      have hndctx := hndc2
      simp only [ctxIds, List.nodup_cons] at hndctx
      have hup3 : upOf (f3 :: ctx3) = Raw.node f3.id := rfl
      rw [hup3] at hpraw hpflag
      have hbf : (Raw.node f3.id == Raw.tree) = false := rfl
      cases hf3d : f3.isRight with
      | false =>
          rw [hf3d] at hf3left hf3right
          simp only [Bool.false_eq_true, if_false] at hf3left hf3right
          have hfe : c_rbnode_rebalance_case6_left h p x s =
              some (c_rbnode_set_parent_and_flags
                (c_rbnode_set_parent_and_flags
                  (reparentKeep
                    (c_rbnode_set_parent_and_flags
                      (storeLeft
                        (storeLeft
                          (storeRight h p Y.rootId)
                          s (some p))
                        f3.id (some s))
                      x (Raw.node s) false false)
                    Y.rootId p)
                  s (Raw.node f3.id) cp false)
                p (Raw.node s) false false, none) := by
            simp [c_rbnode_rebalance_case6_left, c_rbnode_pop_root,
              c_rbnode_push_root, c_rbnode_is_red, c_rbnode_is_root,
              c_rbnode_swap_child, c_rbnode_parent, c_rbnode_raw, Raw.asNode,
              hpraw, hpflag, hpred, hsleft, rawOf,
              reparentKeep_mem_notin hpY, reparentKeep_mem_notin hsY,
              storeLeft_mem, storeRight_mem, setpf_mem, storeRoot_mem,
              hps, hsp, hpx, hxp, hsx, hxs, hxflag, hf3p, hpf3, hf3s, hsf3,
              hf3x, hxf3, hf3left, upOf, hbf]
          rw [hfe]
          set E := c_rbnode_set_parent_and_flags
                (c_rbnode_set_parent_and_flags
                  (reparentKeep
                    (c_rbnode_set_parent_and_flags
                      (storeLeft
                        (storeLeft
                          (storeRight h p Y.rootId)
                          s (some p))
                        f3.id (some s))
                      x (Raw.node s) false false)
                    Y.rootId p)
                  s (Raw.node f3.id) cp false)
                p (Raw.node s) false false with hEdef
          have hW : ∀ j, j ≠ p → j ≠ s → j ≠ x → j ∉ Y.ids → j ≠ f3.id →
              E.mem j = h.mem j := by
            intro j h1 h2 h3 h4 h5
            rw [hEdef]
            simp [storeRoot_mem, setpf_mem, storeLeft_mem, storeRight_mem,
              reparentKeep_mem_notin h4, h1, h2, h3, h5]
          have hm_s : E.mem s = ⟨Raw.node f3.id, cp, false, some p, some x⟩ := by
            rw [hEdef]
            simp [storeRoot_mem, setpf_mem, storeLeft_mem, storeRight_mem,
              reparentKeep_mem_notin hsY, hsp, hsx, hsf3, hsright]
          have hm_p : E.mem p = ⟨Raw.node s, false, false, sub.rootId, Y.rootId⟩ := by
            rw [hEdef]
            simp [storeRoot_mem, setpf_mem, storeLeft_mem, storeRight_mem,
              reparentKeep_mem_notin hpY, hps, hpx, hpf3, hpleft]
          have hm_x : E.mem x = ⟨Raw.node s, false, false, XL.rootId, XR.rootId⟩ := by
            rw [hEdef]
            simp [storeRoot_mem, setpf_mem, storeLeft_mem, storeRight_mem,
              reparentKeep_mem_notin hxY, hxp, hxs, hxf3, hxleft, hxright]
          have hm_f3 : E.mem f3.id =
              ⟨upOf ctx3, f3.red, (upOf ctx3 == Raw.tree), some s, f3.sib.rootId⟩ := by
            rw [hEdef]
            simp only [setpf_mem, if_neg hf3p, if_neg hf3s, if_neg hf3x]
            rw [reparentKeep_mem_notin hf3Y]
            simp only [setpf_mem, if_neg hf3x, storeLeft_mem, storeRight_mem,
              if_pos rfl, if_neg hf3s, if_neg hf3p, if_true, eq_self_iff_true]
            cases hd : (h.mem f3.id) with
            | mk raw red rootFlag left right =>
                simp only [NodeData.mk.injEq]
                rw [hd] at hf3raw hf3flag hf3red hf3right
                exact ⟨hf3raw, hf3red, hf3flag, trivial, hf3right⟩
          have hsubrepr : reprAt E sub (Raw.node p) = true := by
            rw [reprAt_congr sub (Raw.node p) (fun j hj => hW j
              (fun he => hpsub (he ▸ hj)) (fun he => hssub (he ▸ hj))
              (fun he => hxsub (he ▸ hj)) (hdis_sY hj)
              (fun he => hdis_c2 (Or.inl (Or.inl (Or.inl hj))) (he ▸ hf3mem)))]
            exact hatsub
          have hstageY : reprAt (reparentKeep h Y.rootId p) Y (Raw.node p) = true :=
            reprAt_reparentKeep hatY (by simp) hndY
          have hYrepr : reprAt E Y (Raw.node p) = true := by
            have hmemY : ∀ j ∈ Y.ids,
                E.mem j = (reparentKeep h Y.rootId p).mem j := by
              intro j hj
              have hjp : j ≠ p := fun he => hpY (he ▸ hj)
              have hjs : j ≠ s := fun he => hsY (he ▸ hj)
              have hjx : j ≠ x := fun he => hxY (he ▸ hj)
              have hjf3 : j ≠ f3.id := fun he => hf3Y (he ▸ hj)
              rw [hEdef]
              cases Y with
              | nil => simp [CTree.ids] at hj
              | node yc yl yy yr =>
                  by_cases hjy : j = yy
                  · subst hjy
                    simp [reparentKeep, CTree.rootId, storeRoot_mem, setpf_mem,
                      storeLeft_mem, storeRight_mem, hjp, hjs, hjx, hjf3]
                  · simp [reparentKeep, CTree.rootId, storeRoot_mem, setpf_mem,
                      storeLeft_mem, storeRight_mem, hjp, hjs, hjx, hjf3, hjy]
            rw [reprAt_congr Y (Raw.node p) hmemY]
            exact hstageY
          have hXLrepr : reprAt E XL (Raw.node x) = true := by
            rw [reprAt_congr XL (Raw.node x) (fun j hj => hW j
              (fun he => hpXL (he ▸ hj)) (fun he => hsXL (he ▸ hj))
              (fun he => hxXL (he ▸ hj))
              (fun hm => hdis_sYXL (Or.inr hm) hj)
              (fun he => hdis_c2 (Or.inl (Or.inr hj)) (he ▸ hf3mem)))]
            exact hatXL
          have hXRrepr : reprAt E XR (Raw.node x) = true := by
            rw [reprAt_congr XR (Raw.node x) (fun j hj => hW j
              (fun he => hpXR (he ▸ hj)) (fun he => hsXR (he ▸ hj))
              (fun he => hxXR (he ▸ hj))
              (fun hm => hdis_XR (Or.inl (Or.inr hm)) hj)
              (fun he => hdis_c2 (Or.inr hj) (he ▸ hf3mem)))]
            exact hatXR
          have hsibrepr : reprAt E f3.sib (Raw.node f3.id) = true := by
            rw [reprAt_congr f3.sib (Raw.node f3.id) (fun j hj => hW j
              (fun he => hpc (by simp [ctxIds, he ▸ hj]))
              (fun he => hsc (by simp [ctxIds, he ▸ hj]))
              (fun he => hxc (by simp [ctxIds, he ▸ hj]))
              (fun hm => hdis_c2 (Or.inl (Or.inl (Or.inr hm)))
                (by simp [ctxIds, hj]))
              (fun he => hndctx.1 (List.mem_append.mpr (Or.inl (he ▸ hj)))))]
            exact hf3sib
          have hctxrepr : reprCtx E ctx3 (some f3.id) = true := by
            rw [reprCtx_congr ctx3 (some f3.id) (fun j hj => by
              have hjc : j ∈ ctxIds (f3 :: ctx3) := by simp [ctxIds, hj]
              exact hW j
                (fun he => hpc (he ▸ hjc))
                (fun he => hsc (he ▸ hjc))
                (fun he => hxc (he ▸ hjc))
                (fun hm => hdis_c2 (Or.inl (Or.inl (Or.inr hm))) hjc)
                (fun he => hndctx.1 (List.mem_append.mpr (Or.inr (he ▸ hj)))))
              (by rw [hEdef];
                  simp [setpf_root, storeLeft_root, storeRight_root,
                    reparentKeep_root])]
            exact hctxR3
          have hpair := (repr_plug_iff E (f3 :: ctx3)
            (CTree.node cp (CTree.node false sub p Y) s
              (CTree.node false XL x XR))).mpr ⟨?_, ?_⟩
          · refine ⟨E, rfl, ⟨hpair.1, hpair.2, ?_⟩, ?_⟩
            · refine (List.Perm.nodup_iff ((plug_ids_perm _ _).trans ?_)).mpr hnd
              rw [← Multiset.coe_eq_coe]
              simp only [CTree.ids, ctxIds, List.cons_append, List.append_assoc,
                ← Multiset.cons_coe, ← Multiset.coe_add, ← Multiset.singleton_add]
              try abel
            · refine (plug_ids_perm _ _).trans ?_
              rw [← Multiset.coe_eq_coe]
              simp only [CTree.ids, ctxIds, List.cons_append, List.append_assoc,
                ← Multiset.cons_coe, ← Multiset.coe_add, ← Multiset.singleton_add]
              try abel
          · rw [reprCtx_cons_iff]
            refine ⟨by simp [hm_f3], by simp [hm_f3], by simp [hm_f3],
              ?_, ?_, hsibrepr, hctxrepr⟩
            · rw [hf3d]
              simp [hm_f3, CTree.rootId]
            · rw [hf3d]
              simp [hm_f3, CTree.rootId]
          · rw [reprAt_node_iff, hup3]
            refine ⟨by simp [hm_s], by simp [hm_s], by simp [hm_s],
              by simp [hm_s, CTree.rootId], by simp [hm_s, CTree.rootId], ?_, ?_⟩
            · rw [reprAt_node_iff]
              exact ⟨by simp [hm_p], by simp [hm_p], by simp [hm_p],
                by simp [hm_p], by simp [hm_p], hsubrepr, hYrepr⟩
            · rw [reprAt_node_iff]
              exact ⟨by simp [hm_x], by simp [hm_x], by simp [hm_x],
                by simp [hm_x], by simp [hm_x], hXLrepr, hXRrepr⟩
      | true =>
          rw [hf3d] at hf3left hf3right
          simp only [if_true] at hf3left hf3right
          have hneq : f3.sib.rootId ≠ some p := rootId_ne hpsib
          have hfe : c_rbnode_rebalance_case6_left h p x s =
              some (c_rbnode_set_parent_and_flags
                (c_rbnode_set_parent_and_flags
                  (reparentKeep
                    (c_rbnode_set_parent_and_flags
                      (storeRight
                        (storeLeft
                          (storeRight h p Y.rootId)
                          s (some p))
                        f3.id (some s))
                      x (Raw.node s) false false)
                    Y.rootId p)
                  s (Raw.node f3.id) cp false)
                p (Raw.node s) false false, none) := by
            simp [c_rbnode_rebalance_case6_left, c_rbnode_pop_root,
              c_rbnode_push_root, c_rbnode_is_red, c_rbnode_is_root,
              c_rbnode_swap_child, c_rbnode_parent, c_rbnode_raw, Raw.asNode,
              hpraw, hpflag, hpred, hsleft, rawOf,
              reparentKeep_mem_notin hpY, reparentKeep_mem_notin hsY,
              storeLeft_mem, storeRight_mem, setpf_mem, storeRoot_mem,
              hps, hsp, hpx, hxp, hsx, hxs, hxflag, hf3p, hpf3, hf3s, hsf3,
              hf3x, hxf3, hf3left, hneq, upOf, hbf]
          rw [hfe]
          set E := c_rbnode_set_parent_and_flags
                (c_rbnode_set_parent_and_flags
                  (reparentKeep
                    (c_rbnode_set_parent_and_flags
                      (storeRight
                        (storeLeft
                          (storeRight h p Y.rootId)
                          s (some p))
                        f3.id (some s))
                      x (Raw.node s) false false)
                    Y.rootId p)
                  s (Raw.node f3.id) cp false)
                p (Raw.node s) false false with hEdef
          have hW : ∀ j, j ≠ p → j ≠ s → j ≠ x → j ∉ Y.ids → j ≠ f3.id →
              E.mem j = h.mem j := by
            intro j h1 h2 h3 h4 h5
            rw [hEdef]
            simp [storeRoot_mem, setpf_mem, storeLeft_mem, storeRight_mem,
              reparentKeep_mem_notin h4, h1, h2, h3, h5]
          have hm_s : E.mem s = ⟨Raw.node f3.id, cp, false, some p, some x⟩ := by
            rw [hEdef]
            simp [storeRoot_mem, setpf_mem, storeLeft_mem, storeRight_mem,
              reparentKeep_mem_notin hsY, hsp, hsx, hsf3, hsright]
          have hm_p : E.mem p = ⟨Raw.node s, false, false, sub.rootId, Y.rootId⟩ := by
            rw [hEdef]
            simp [storeRoot_mem, setpf_mem, storeLeft_mem, storeRight_mem,
              reparentKeep_mem_notin hpY, hps, hpx, hpf3, hpleft]
          have hm_x : E.mem x = ⟨Raw.node s, false, false, XL.rootId, XR.rootId⟩ := by
            rw [hEdef]
            simp [storeRoot_mem, setpf_mem, storeLeft_mem, storeRight_mem,
              reparentKeep_mem_notin hxY, hxp, hxs, hxf3, hxleft, hxright]
          have hm_f3 : E.mem f3.id =
              ⟨upOf ctx3, f3.red, (upOf ctx3 == Raw.tree), f3.sib.rootId, some s⟩ := by
            rw [hEdef]
            simp only [setpf_mem, if_neg hf3p, if_neg hf3s, if_neg hf3x]
            rw [reparentKeep_mem_notin hf3Y]
            simp only [setpf_mem, if_neg hf3x, storeLeft_mem, storeRight_mem,
              if_pos rfl, if_neg hf3s, if_neg hf3p, if_true, eq_self_iff_true]
            cases hd : (h.mem f3.id) with
            | mk raw red rootFlag left right =>
                simp only [NodeData.mk.injEq]
                rw [hd] at hf3raw hf3flag hf3red hf3left
                exact ⟨hf3raw, hf3red, hf3flag, hf3left, trivial⟩
          have hsubrepr : reprAt E sub (Raw.node p) = true := by
            rw [reprAt_congr sub (Raw.node p) (fun j hj => hW j
              (fun he => hpsub (he ▸ hj)) (fun he => hssub (he ▸ hj))
              (fun he => hxsub (he ▸ hj)) (hdis_sY hj)
              (fun he => hdis_c2 (Or.inl (Or.inl (Or.inl hj))) (he ▸ hf3mem)))]
            exact hatsub
          have hstageY : reprAt (reparentKeep h Y.rootId p) Y (Raw.node p) = true :=
            reprAt_reparentKeep hatY (by simp) hndY
          have hYrepr : reprAt E Y (Raw.node p) = true := by
            have hmemY : ∀ j ∈ Y.ids,
                E.mem j = (reparentKeep h Y.rootId p).mem j := by
              intro j hj
              have hjp : j ≠ p := fun he => hpY (he ▸ hj)
              have hjs : j ≠ s := fun he => hsY (he ▸ hj)
              have hjx : j ≠ x := fun he => hxY (he ▸ hj)
              have hjf3 : j ≠ f3.id := fun he => hf3Y (he ▸ hj)
              rw [hEdef]
              cases Y with
              | nil => simp [CTree.ids] at hj
              | node yc yl yy yr =>
                  by_cases hjy : j = yy
                  · subst hjy
                    simp [reparentKeep, CTree.rootId, storeRoot_mem, setpf_mem,
                      storeLeft_mem, storeRight_mem, hjp, hjs, hjx, hjf3]
                  · simp [reparentKeep, CTree.rootId, storeRoot_mem, setpf_mem,
                      storeLeft_mem, storeRight_mem, hjp, hjs, hjx, hjf3, hjy]
            rw [reprAt_congr Y (Raw.node p) hmemY]
            exact hstageY
          have hXLrepr : reprAt E XL (Raw.node x) = true := by
            rw [reprAt_congr XL (Raw.node x) (fun j hj => hW j
              (fun he => hpXL (he ▸ hj)) (fun he => hsXL (he ▸ hj))
              (fun he => hxXL (he ▸ hj))
              (fun hm => hdis_sYXL (Or.inr hm) hj)
              (fun he => hdis_c2 (Or.inl (Or.inr hj)) (he ▸ hf3mem)))]
            exact hatXL
          have hXRrepr : reprAt E XR (Raw.node x) = true := by
            rw [reprAt_congr XR (Raw.node x) (fun j hj => hW j
              (fun he => hpXR (he ▸ hj)) (fun he => hsXR (he ▸ hj))
              (fun he => hxXR (he ▸ hj))
              (fun hm => hdis_XR (Or.inl (Or.inr hm)) hj)
              (fun he => hdis_c2 (Or.inr hj) (he ▸ hf3mem)))]
            exact hatXR
          have hsibrepr : reprAt E f3.sib (Raw.node f3.id) = true := by
            rw [reprAt_congr f3.sib (Raw.node f3.id) (fun j hj => hW j
              (fun he => hpc (by simp [ctxIds, he ▸ hj]))
              (fun he => hsc (by simp [ctxIds, he ▸ hj]))
              (fun he => hxc (by simp [ctxIds, he ▸ hj]))
              (fun hm => hdis_c2 (Or.inl (Or.inl (Or.inr hm)))
                (by simp [ctxIds, hj]))
              (fun he => hndctx.1 (List.mem_append.mpr (Or.inl (he ▸ hj)))))]
            exact hf3sib
          have hctxrepr : reprCtx E ctx3 (some f3.id) = true := by
            rw [reprCtx_congr ctx3 (some f3.id) (fun j hj => by
              have hjc : j ∈ ctxIds (f3 :: ctx3) := by simp [ctxIds, hj]
              exact hW j
                (fun he => hpc (he ▸ hjc))
                (fun he => hsc (he ▸ hjc))
                (fun he => hxc (he ▸ hjc))
                (fun hm => hdis_c2 (Or.inl (Or.inl (Or.inr hm))) hjc)
                (fun he => hndctx.1 (List.mem_append.mpr (Or.inr (he ▸ hj)))))
              (by rw [hEdef];
                  simp [setpf_root, storeLeft_root, storeRight_root,
                    reparentKeep_root])]
            exact hctxR3
          have hpair := (repr_plug_iff E (f3 :: ctx3)
            (CTree.node cp (CTree.node false sub p Y) s
              (CTree.node false XL x XR))).mpr ⟨?_, ?_⟩
          · refine ⟨E, rfl, ⟨hpair.1, hpair.2, ?_⟩, ?_⟩
            · refine (List.Perm.nodup_iff ((plug_ids_perm _ _).trans ?_)).mpr hnd
              rw [← Multiset.coe_eq_coe]
              simp only [CTree.ids, ctxIds, List.cons_append, List.append_assoc,
                ← Multiset.cons_coe, ← Multiset.coe_add, ← Multiset.singleton_add]
              try abel
            · refine (plug_ids_perm _ _).trans ?_
              rw [← Multiset.coe_eq_coe]
              simp only [CTree.ids, ctxIds, List.cons_append, List.append_assoc,
                ← Multiset.cons_coe, ← Multiset.coe_add, ← Multiset.singleton_add]
              try abel
          · rw [reprCtx_cons_iff]
            refine ⟨by simp [hm_f3], by simp [hm_f3], by simp [hm_f3],
              ?_, ?_, hsibrepr, hctxrepr⟩
            · rw [hf3d]
              simp [hm_f3, CTree.rootId]
            · rw [hf3d]
              simp [hm_f3, CTree.rootId]
          · rw [reprAt_node_iff, hup3]
            refine ⟨by simp [hm_s], by simp [hm_s], by simp [hm_s],
              by simp [hm_s, CTree.rootId], by simp [hm_s, CTree.rootId], ?_, ?_⟩
            · rw [reprAt_node_iff]
              exact ⟨by simp [hm_p], by simp [hm_p], by simp [hm_p],
                by simp [hm_p], by simp [hm_p], hsubrepr, hYrepr⟩
            · rw [reprAt_node_iff]
              exact ⟨by simp [hm_x], by simp [hm_x], by simp [hm_x],
                by simp [hm_x], by simp [hm_x], hXLrepr, hXRrepr⟩


/-- Case 6 of the removal fixup, right orientation (mirror): the
black-effective sibling `s` of the deficient right slot of `p` is rotated
above `p`; `s` inherits the color of `p`, while `p` and the far nephew `x`
turn black, restoring the missing black level and ending the loop. -/
theorem rebalance_case6_right_sim (h : Heap) (ctx2 : List Frame)
    (sub Y XL XR : CTree) (p s x : NodeId) (cp : Bool)
    (hpraw : (h.mem p).raw = upOf ctx2)
    (hpflag : (h.mem p).rootFlag = (upOf ctx2 == Raw.tree))
    (hpred : (h.mem p).red = cp)
    (hpleft : (h.mem p).left = some s)
    (hpright : (h.mem p).right = sub.rootId)
    (hsleft : (h.mem s).left = some x)
    (hsright : (h.mem s).right = Y.rootId)
    (hxflag : (h.mem x).rootFlag = false)
    (hxleft : (h.mem x).left = XL.rootId)
    (hxright : (h.mem x).right = XR.rootId)
    (hatsub : reprAt h sub (Raw.node p) = true)
    (hatY : reprAt h Y (Raw.node s) = true)
    (hatXL : reprAt h XL (Raw.node x) = true)
    (hatXR : reprAt h XR (Raw.node x) = true)
    (hctxR : reprCtx h ctx2 (some p) = true)
    (hnd : (p :: s :: x :: (sub.ids ++ Y.ids ++ XL.ids ++ XR.ids ++
      ctxIds ctx2)).Nodup) :
    ∃ E, c_rbnode_rebalance_case6_right h p x s = some (E, none) ∧
      reprTree E (plug ctx2 (CTree.node cp (CTree.node false XL x XR) s
        (CTree.node false Y p sub))) ∧
      (plug ctx2 (CTree.node cp (CTree.node false XL x XR) s
        (CTree.node false Y p sub))).ids.Perm
        (p :: s :: x :: (sub.ids ++ Y.ids ++ XL.ids ++ XR.ids ++ ctxIds ctx2)) := by
  have hndF := hnd
  simp only [List.nodup_cons, List.mem_cons, List.mem_append, List.nodup_append,
    List.disjoint_left] at hndF
  obtain ⟨hp_no, hs_no, hx_no,
    ⟨⟨⟨hndsub, hndY, hdis_sY⟩, hndXL, hdis_sYXL⟩, hndXR, hdis_XR⟩,
    hndc2, hdis_c2⟩ := hndF
  push_neg at hp_no hs_no hx_no
  obtain ⟨hps, hpx, ⟨⟨⟨hpsub, hpY⟩, hpXL⟩, hpXR⟩, hpc⟩ := hp_no
  obtain ⟨hsx, ⟨⟨⟨hssub, hsY⟩, hsXL⟩, hsXR⟩, hsc⟩ := hs_no
  obtain ⟨⟨⟨⟨hxsub, hxY⟩, hxXL⟩, hxXR⟩, hxc⟩ := hx_no
  have hsp : s ≠ p := hps.symm
  have hxp : x ≠ p := hpx.symm
  have hxs : x ≠ s := hsx.symm
  cases ctx2 with
  | nil =>
      have hup : upOf ([] : List Frame) = Raw.tree := rfl
      rw [hup] at hpraw hpflag
      have hfe : c_rbnode_rebalance_case6_right h p x s =
          some (storeRoot
            (c_rbnode_set_parent_and_flags
              (c_rbnode_set_parent_and_flags
                (c_rbnode_set_parent_and_flags
                  (reparentKeep
                    (c_rbnode_set_parent_and_flags
                      (storeRight
                        (storeLeft
                          (c_rbnode_set_parent_and_flags h p Raw.null cp false)
                          p Y.rootId)
                        s (some p))
                      x (Raw.node s) false false)
                    Y.rootId p)
                  s Raw.null cp false)
                p (Raw.node s) false false)
              s Raw.tree cp true)
            (some s), none) := by
        simp [c_rbnode_rebalance_case6_right, c_rbnode_pop_root, c_rbnode_push_root,
          c_rbnode_is_red, c_rbnode_is_root, c_rbnode_swap_child, c_rbnode_parent,
          c_rbnode_raw, Raw.asNode, hpraw, hpflag, hpred, hsright, rawOf,
          reparentKeep_mem_notin hpY, reparentKeep_mem_notin hsY,
          storeLeft_mem, storeRight_mem, setpf_mem, storeRoot_mem,
          hps, hsp, hpx, hxp, hsx, hxs, hxflag]
      rw [hfe]
      set E := storeRoot
            (c_rbnode_set_parent_and_flags
              (c_rbnode_set_parent_and_flags
                (c_rbnode_set_parent_and_flags
                  (reparentKeep
                    (c_rbnode_set_parent_and_flags
                      (storeRight
                        (storeLeft
                          (c_rbnode_set_parent_and_flags h p Raw.null cp false)
                          p Y.rootId)
                        s (some p))
                      x (Raw.node s) false false)
                    Y.rootId p)
                  s Raw.null cp false)
                p (Raw.node s) false false)
              s Raw.tree cp true)
            (some s) with hEdef
      have hW : ∀ j, j ≠ p → j ≠ s → j ≠ x → j ∉ Y.ids → E.mem j = h.mem j := by
        intro j h1 h2 h3 h4
        rw [hEdef]
        simp [storeRoot_mem, setpf_mem, storeLeft_mem, storeRight_mem,
          reparentKeep_mem_notin h4, h1, h2, h3]
      have hm_s : E.mem s = ⟨Raw.tree, cp, true, some x, some p⟩ := by
        rw [hEdef]
        simp [storeRoot_mem, setpf_mem, storeLeft_mem, storeRight_mem,
          reparentKeep_mem_notin hsY, hsp, hsx, hsleft]
      have hm_p : E.mem p = ⟨Raw.node s, false, false, Y.rootId, sub.rootId⟩ := by
        rw [hEdef]
        simp [storeRoot_mem, setpf_mem, storeLeft_mem, storeRight_mem,
          reparentKeep_mem_notin hpY, hps, hpx, hpright]
      have hm_x : E.mem x = ⟨Raw.node s, false, false, XL.rootId, XR.rootId⟩ := by
        rw [hEdef]
        simp [storeRoot_mem, setpf_mem, storeLeft_mem, storeRight_mem,
          reparentKeep_mem_notin hxY, hxp, hxs, hxleft, hxright]
      have hsubrepr : reprAt E sub (Raw.node p) = true := by
        rw [reprAt_congr sub (Raw.node p) (fun j hj => hW j
          (fun he => hpsub (he ▸ hj)) (fun he => hssub (he ▸ hj))
          (fun he => hxsub (he ▸ hj)) (hdis_sY hj))]
        exact hatsub
      have hstageY : reprAt (reparentKeep h Y.rootId p) Y (Raw.node p) = true :=
        reprAt_reparentKeep hatY (by simp) hndY
      have hYrepr : reprAt E Y (Raw.node p) = true := by
        have hmemY : ∀ j ∈ Y.ids,
            E.mem j = (reparentKeep h Y.rootId p).mem j := by
          intro j hj
          have hjp : j ≠ p := fun he => hpY (he ▸ hj)
          have hjs : j ≠ s := fun he => hsY (he ▸ hj)
          have hjx : j ≠ x := fun he => hxY (he ▸ hj)
          rw [hEdef]
          cases Y with
          | nil => simp [CTree.ids] at hj
          | node yc yl yy yr =>
              by_cases hjy : j = yy
              · subst hjy
                simp [reparentKeep, CTree.rootId, storeRoot_mem, setpf_mem,
                  storeLeft_mem, storeRight_mem, hjp, hjs, hjx]
              · simp [reparentKeep, CTree.rootId, storeRoot_mem, setpf_mem,
                  storeLeft_mem, storeRight_mem, hjp, hjs, hjx, hjy]
        rw [reprAt_congr Y (Raw.node p) hmemY]
        exact hstageY
      have hXLrepr : reprAt E XL (Raw.node x) = true := by
        rw [reprAt_congr XL (Raw.node x) (fun j hj => hW j
          (fun he => hpXL (he ▸ hj)) (fun he => hsXL (he ▸ hj))
          (fun he => hxXL (he ▸ hj))
          (fun hm => hdis_sYXL (Or.inr hm) hj))]
        exact hatXL
      have hXRrepr : reprAt E XR (Raw.node x) = true := by
        rw [reprAt_congr XR (Raw.node x) (fun j hj => hW j
          (fun he => hpXR (he ▸ hj)) (fun he => hsXR (he ▸ hj))
          (fun he => hxXR (he ▸ hj))
          (fun hm => hdis_XR (Or.inl (Or.inr hm)) hj))]
        exact hatXR
      refine ⟨E, rfl, ⟨?_, ?_, ?_⟩, ?_⟩
      · rw [hEdef]
        simp [plug, storeRoot_root, CTree.rootId]
      · show reprAt E (CTree.node cp (CTree.node false XL x XR) s
            (CTree.node false Y p sub)) Raw.tree = true
        rw [reprAt_node_iff]
        refine ⟨by simp [hm_s], by simp [hm_s], by simp [hm_s],
          by simp [hm_s, CTree.rootId], by simp [hm_s, CTree.rootId], ?_, ?_⟩
        · rw [reprAt_node_iff]
          exact ⟨by simp [hm_x], by simp [hm_x], by simp [hm_x],
            by simp [hm_x], by simp [hm_x], hXLrepr, hXRrepr⟩
        · rw [reprAt_node_iff]
          exact ⟨by simp [hm_p], by simp [hm_p], by simp [hm_p],
            by simp [hm_p], by simp [hm_p], hYrepr, hsubrepr⟩
      · refine (List.Perm.nodup_iff ((plug_ids_perm _ _).trans ?_)).mpr hnd
        rw [← Multiset.coe_eq_coe]
        simp only [CTree.ids, ctxIds, List.cons_append, List.append_assoc,
          ← Multiset.cons_coe, ← Multiset.coe_add, ← Multiset.singleton_add]
        try abel
      · refine (plug_ids_perm _ _).trans ?_
        rw [← Multiset.coe_eq_coe]
        simp only [CTree.ids, ctxIds, List.cons_append, List.append_assoc,
          ← Multiset.cons_coe, ← Multiset.coe_add, ← Multiset.singleton_add]
        try abel
  | cons f3 ctx3 =>
      rw [reprCtx_cons_iff] at hctxR
      obtain ⟨hf3raw, hf3flag, hf3red, hf3left, hf3right, hf3sib, hctxR3⟩ := hctxR
      have hf3mem : f3.id ∈ ctxIds (f3 :: ctx3) := by simp [ctxIds]
      have hf3p : f3.id ≠ p := fun he => hpc (he ▸ hf3mem)
      have hf3s : f3.id ≠ s := fun he => hsc (he ▸ hf3mem)
      have hf3x : f3.id ≠ x := fun he => hxc (he ▸ hf3mem)
      have hpf3 : p ≠ f3.id := hf3p.symm
      have hsf3 : s ≠ f3.id := hf3s.symm
      have hxf3 : x ≠ f3.id := hf3x.symm
      have hf3Y : f3.id ∉ Y.ids := fun hm =>
        hdis_c2 (Or.inl (Or.inl (Or.inr hm))) hf3mem
      have hpsib : p ∉ f3.sib.ids := fun hm => hpc (by simp [ctxIds, hm])
      have hndctx := hndc2
      simp only [ctxIds, List.nodup_cons] at hndctx
      have hup3 : upOf (f3 :: ctx3) = Raw.node f3.id := rfl
      rw [hup3] at hpraw hpflag
      have hbf : (Raw.node f3.id == Raw.tree) = false := rfl
      cases hf3d : f3.isRight with
      | false =>
          rw [hf3d] at hf3left hf3right
          simp only [Bool.false_eq_true, if_false] at hf3left hf3right
          have hfe : c_rbnode_rebalance_case6_right h p x s =
              some (c_rbnode_set_parent_and_flags
                (c_rbnode_set_parent_and_flags
                  (reparentKeep
                    (c_rbnode_set_parent_and_flags
                      (storeLeft
                        (storeRight
                          (storeLeft h p Y.rootId)
                          s (some p))
                        f3.id (some s))
                      x (Raw.node s) false false)
                    Y.rootId p)
                  s (Raw.node f3.id) cp false)
                p (Raw.node s) false false, none) := by
            simp [c_rbnode_rebalance_case6_right, c_rbnode_pop_root,
              c_rbnode_push_root, c_rbnode_is_red, c_rbnode_is_root,
              c_rbnode_swap_child, c_rbnode_parent, c_rbnode_raw, Raw.asNode,
              hpraw, hpflag, hpred, hsright, rawOf,
              reparentKeep_mem_notin hpY, reparentKeep_mem_notin hsY,
              storeLeft_mem, storeRight_mem, setpf_mem, storeRoot_mem,
              hps, hsp, hpx, hxp, hsx, hxs, hxflag, hf3p, hpf3, hf3s, hsf3,
              hf3x, hxf3, hf3left, upOf, hbf]
          rw [hfe]
          set E := c_rbnode_set_parent_and_flags
                (c_rbnode_set_parent_and_flags
                  (reparentKeep
                    (c_rbnode_set_parent_and_flags
                      (storeLeft
                        (storeRight
                          (storeLeft h p Y.rootId)
                          s (some p))
                        f3.id (some s))
                      x (Raw.node s) false false)
                    Y.rootId p)
                  s (Raw.node f3.id) cp false)
                p (Raw.node s) false false with hEdef
          have hW : ∀ j, j ≠ p → j ≠ s → j ≠ x → j ∉ Y.ids → j ≠ f3.id →
              E.mem j = h.mem j := by
            intro j h1 h2 h3 h4 h5
            rw [hEdef]
            simp [storeRoot_mem, setpf_mem, storeLeft_mem, storeRight_mem,
              reparentKeep_mem_notin h4, h1, h2, h3, h5]
          have hm_s : E.mem s = ⟨Raw.node f3.id, cp, false, some x, some p⟩ := by
            rw [hEdef]
            simp [storeRoot_mem, setpf_mem, storeLeft_mem, storeRight_mem,
              reparentKeep_mem_notin hsY, hsp, hsx, hsf3, hsleft]
          have hm_p : E.mem p = ⟨Raw.node s, false, false, Y.rootId, sub.rootId⟩ := by
            rw [hEdef]
            simp [storeRoot_mem, setpf_mem, storeLeft_mem, storeRight_mem,
              reparentKeep_mem_notin hpY, hps, hpx, hpf3, hpright]
          have hm_x : E.mem x = ⟨Raw.node s, false, false, XL.rootId, XR.rootId⟩ := by
            rw [hEdef]
            simp [storeRoot_mem, setpf_mem, storeLeft_mem, storeRight_mem,
              reparentKeep_mem_notin hxY, hxp, hxs, hxf3, hxleft, hxright]
          have hm_f3 : E.mem f3.id =
              ⟨upOf ctx3, f3.red, (upOf ctx3 == Raw.tree), some s, f3.sib.rootId⟩ := by
            rw [hEdef]
            simp only [setpf_mem, if_neg hf3p, if_neg hf3s, if_neg hf3x]
            rw [reparentKeep_mem_notin hf3Y]
            simp only [setpf_mem, if_neg hf3x, storeLeft_mem, storeRight_mem,
              if_pos rfl, if_neg hf3s, if_neg hf3p, if_true, eq_self_iff_true]
            cases hd : (h.mem f3.id) with
            | mk raw red rootFlag left right =>
                simp only [NodeData.mk.injEq]
                rw [hd] at hf3raw hf3flag hf3red hf3right
                exact ⟨hf3raw, hf3red, hf3flag, trivial, hf3right⟩
          have hsubrepr : reprAt E sub (Raw.node p) = true := by
            rw [reprAt_congr sub (Raw.node p) (fun j hj => hW j
              (fun he => hpsub (he ▸ hj)) (fun he => hssub (he ▸ hj))
              (fun he => hxsub (he ▸ hj)) (hdis_sY hj)
              (fun he => hdis_c2 (Or.inl (Or.inl (Or.inl hj))) (he ▸ hf3mem)))]
            exact hatsub
          have hstageY : reprAt (reparentKeep h Y.rootId p) Y (Raw.node p) = true :=
            reprAt_reparentKeep hatY (by simp) hndY
          have hYrepr : reprAt E Y (Raw.node p) = true := by
            have hmemY : ∀ j ∈ Y.ids,
                E.mem j = (reparentKeep h Y.rootId p).mem j := by
              intro j hj
              have hjp : j ≠ p := fun he => hpY (he ▸ hj)
              have hjs : j ≠ s := fun he => hsY (he ▸ hj)
              have hjx : j ≠ x := fun he => hxY (he ▸ hj)
              have hjf3 : j ≠ f3.id := fun he => hf3Y (he ▸ hj)
              rw [hEdef]
              cases Y with
              | nil => simp [CTree.ids] at hj
              | node yc yl yy yr =>
                  by_cases hjy : j = yy
                  · subst hjy
                    simp [reparentKeep, CTree.rootId, storeRoot_mem, setpf_mem,
                      storeLeft_mem, storeRight_mem, hjp, hjs, hjx, hjf3]
                  · simp [reparentKeep, CTree.rootId, storeRoot_mem, setpf_mem,
                      storeLeft_mem, storeRight_mem, hjp, hjs, hjx, hjf3, hjy]
            rw [reprAt_congr Y (Raw.node p) hmemY]
            exact hstageY
          have hXLrepr : reprAt E XL (Raw.node x) = true := by
            rw [reprAt_congr XL (Raw.node x) (fun j hj => hW j
              (fun he => hpXL (he ▸ hj)) (fun he => hsXL (he ▸ hj))
              (fun he => hxXL (he ▸ hj))
              (fun hm => hdis_sYXL (Or.inr hm) hj)
              (fun he => hdis_c2 (Or.inl (Or.inr hj)) (he ▸ hf3mem)))]
            exact hatXL
          have hXRrepr : reprAt E XR (Raw.node x) = true := by
            rw [reprAt_congr XR (Raw.node x) (fun j hj => hW j
              (fun he => hpXR (he ▸ hj)) (fun he => hsXR (he ▸ hj))
              (fun he => hxXR (he ▸ hj))
              (fun hm => hdis_XR (Or.inl (Or.inr hm)) hj)
              (fun he => hdis_c2 (Or.inr hj) (he ▸ hf3mem)))]
            exact hatXR
          have hsibrepr : reprAt E f3.sib (Raw.node f3.id) = true := by
            rw [reprAt_congr f3.sib (Raw.node f3.id) (fun j hj => hW j
              (fun he => hpc (by simp [ctxIds, he ▸ hj]))
              (fun he => hsc (by simp [ctxIds, he ▸ hj]))
              (fun he => hxc (by simp [ctxIds, he ▸ hj]))
              (fun hm => hdis_c2 (Or.inl (Or.inl (Or.inr hm)))
                (by simp [ctxIds, hj]))
              (fun he => hndctx.1 (List.mem_append.mpr (Or.inl (he ▸ hj)))))]
            exact hf3sib
          have hctxrepr : reprCtx E ctx3 (some f3.id) = true := by
            rw [reprCtx_congr ctx3 (some f3.id) (fun j hj => by
              have hjc : j ∈ ctxIds (f3 :: ctx3) := by simp [ctxIds, hj]
              exact hW j
                (fun he => hpc (he ▸ hjc))
                (fun he => hsc (he ▸ hjc))
                (fun he => hxc (he ▸ hjc))
                (fun hm => hdis_c2 (Or.inl (Or.inl (Or.inr hm))) hjc)
                (fun he => hndctx.1 (List.mem_append.mpr (Or.inr (he ▸ hj)))))
              (by rw [hEdef];
                  simp [setpf_root, storeLeft_root, storeRight_root,
                    reparentKeep_root])]
            exact hctxR3
          have hpair := (repr_plug_iff E (f3 :: ctx3)
            (CTree.node cp (CTree.node false XL x XR) s
              (CTree.node false Y p sub))).mpr ⟨?_, ?_⟩
          · refine ⟨E, rfl, ⟨hpair.1, hpair.2, ?_⟩, ?_⟩
            · refine (List.Perm.nodup_iff ((plug_ids_perm _ _).trans ?_)).mpr hnd
              rw [← Multiset.coe_eq_coe]
              simp only [CTree.ids, ctxIds, List.cons_append, List.append_assoc,
                ← Multiset.cons_coe, ← Multiset.coe_add, ← Multiset.singleton_add]
              try abel
            · refine (plug_ids_perm _ _).trans ?_
              rw [← Multiset.coe_eq_coe]
              simp only [CTree.ids, ctxIds, List.cons_append, List.append_assoc,
                ← Multiset.cons_coe, ← Multiset.coe_add, ← Multiset.singleton_add]
              try abel
          · rw [reprCtx_cons_iff]
            refine ⟨by simp [hm_f3], by simp [hm_f3], by simp [hm_f3],
              ?_, ?_, hsibrepr, hctxrepr⟩
            · rw [hf3d]
              simp [hm_f3, CTree.rootId]
            · rw [hf3d]
              simp [hm_f3, CTree.rootId]
          · rw [reprAt_node_iff, hup3]
            refine ⟨by simp [hm_s], by simp [hm_s], by simp [hm_s],
              by simp [hm_s, CTree.rootId], by simp [hm_s, CTree.rootId], ?_, ?_⟩
            · rw [reprAt_node_iff]
              exact ⟨by simp [hm_x], by simp [hm_x], by simp [hm_x],
                by simp [hm_x], by simp [hm_x], hXLrepr, hXRrepr⟩
            · rw [reprAt_node_iff]
              exact ⟨by simp [hm_p], by simp [hm_p], by simp [hm_p],
                by simp [hm_p], by simp [hm_p], hYrepr, hsubrepr⟩
      | true =>
          rw [hf3d] at hf3left hf3right
          simp only [if_true] at hf3left hf3right
          have hneq : f3.sib.rootId ≠ some p := rootId_ne hpsib
          have hfe : c_rbnode_rebalance_case6_right h p x s =
              some (c_rbnode_set_parent_and_flags
                (c_rbnode_set_parent_and_flags
                  (reparentKeep
                    (c_rbnode_set_parent_and_flags
                      (storeRight
                        (storeRight
                          (storeLeft h p Y.rootId)
                          s (some p))
                        f3.id (some s))
                      x (Raw.node s) false false)
                    Y.rootId p)
                  s (Raw.node f3.id) cp false)
                p (Raw.node s) false false, none) := by
            simp [c_rbnode_rebalance_case6_right, c_rbnode_pop_root,
              c_rbnode_push_root, c_rbnode_is_red, c_rbnode_is_root,
              c_rbnode_swap_child, c_rbnode_parent, c_rbnode_raw, Raw.asNode,
              hpraw, hpflag, hpred, hsright, rawOf,
              reparentKeep_mem_notin hpY, reparentKeep_mem_notin hsY,
              storeLeft_mem, storeRight_mem, setpf_mem, storeRoot_mem,
              hps, hsp, hpx, hxp, hsx, hxs, hxflag, hf3p, hpf3, hf3s, hsf3,
              hf3x, hxf3, hf3left, hneq, upOf, hbf]
          rw [hfe]
          set E := c_rbnode_set_parent_and_flags
                (c_rbnode_set_parent_and_flags
                  (reparentKeep
                    (c_rbnode_set_parent_and_flags
                      (storeRight
                        (storeRight
                          (storeLeft h p Y.rootId)
                          s (some p))
                        f3.id (some s))
                      x (Raw.node s) false false)
                    Y.rootId p)
                  s (Raw.node f3.id) cp false)
                p (Raw.node s) false false with hEdef
          have hW : ∀ j, j ≠ p → j ≠ s → j ≠ x → j ∉ Y.ids → j ≠ f3.id →
              E.mem j = h.mem j := by
            intro j h1 h2 h3 h4 h5
            rw [hEdef]
            simp [storeRoot_mem, setpf_mem, storeLeft_mem, storeRight_mem,
              reparentKeep_mem_notin h4, h1, h2, h3, h5]
          have hm_s : E.mem s = ⟨Raw.node f3.id, cp, false, some x, some p⟩ := by
            rw [hEdef]
            simp [storeRoot_mem, setpf_mem, storeLeft_mem, storeRight_mem,
              reparentKeep_mem_notin hsY, hsp, hsx, hsf3, hsleft]
          have hm_p : E.mem p = ⟨Raw.node s, false, false, Y.rootId, sub.rootId⟩ := by
            rw [hEdef]
            simp [storeRoot_mem, setpf_mem, storeLeft_mem, storeRight_mem,
              reparentKeep_mem_notin hpY, hps, hpx, hpf3, hpright]
          have hm_x : E.mem x = ⟨Raw.node s, false, false, XL.rootId, XR.rootId⟩ := by
            rw [hEdef]
            simp [storeRoot_mem, setpf_mem, storeLeft_mem, storeRight_mem,
              reparentKeep_mem_notin hxY, hxp, hxs, hxf3, hxleft, hxright]
          have hm_f3 : E.mem f3.id =
              ⟨upOf ctx3, f3.red, (upOf ctx3 == Raw.tree), f3.sib.rootId, some s⟩ := by
            rw [hEdef]
            simp only [setpf_mem, if_neg hf3p, if_neg hf3s, if_neg hf3x]
            rw [reparentKeep_mem_notin hf3Y]
            simp only [setpf_mem, if_neg hf3x, storeLeft_mem, storeRight_mem,
              if_pos rfl, if_neg hf3s, if_neg hf3p, if_true, eq_self_iff_true]
            cases hd : (h.mem f3.id) with
            | mk raw red rootFlag left right =>
                simp only [NodeData.mk.injEq]
                rw [hd] at hf3raw hf3flag hf3red hf3left
                exact ⟨hf3raw, hf3red, hf3flag, hf3left, trivial⟩
          have hsubrepr : reprAt E sub (Raw.node p) = true := by
            rw [reprAt_congr sub (Raw.node p) (fun j hj => hW j
              (fun he => hpsub (he ▸ hj)) (fun he => hssub (he ▸ hj))
              (fun he => hxsub (he ▸ hj)) (hdis_sY hj)
              (fun he => hdis_c2 (Or.inl (Or.inl (Or.inl hj))) (he ▸ hf3mem)))]
            exact hatsub
          have hstageY : reprAt (reparentKeep h Y.rootId p) Y (Raw.node p) = true :=
            reprAt_reparentKeep hatY (by simp) hndY
          have hYrepr : reprAt E Y (Raw.node p) = true := by
            have hmemY : ∀ j ∈ Y.ids,
                E.mem j = (reparentKeep h Y.rootId p).mem j := by
              intro j hj
              have hjp : j ≠ p := fun he => hpY (he ▸ hj)
              have hjs : j ≠ s := fun he => hsY (he ▸ hj)
              have hjx : j ≠ x := fun he => hxY (he ▸ hj)
              have hjf3 : j ≠ f3.id := fun he => hf3Y (he ▸ hj)
              rw [hEdef]
              cases Y with
              | nil => simp [CTree.ids] at hj
              | node yc yl yy yr =>
                  by_cases hjy : j = yy
                  · subst hjy
                    simp [reparentKeep, CTree.rootId, storeRoot_mem, setpf_mem,
                      storeLeft_mem, storeRight_mem, hjp, hjs, hjx, hjf3]
                  · simp [reparentKeep, CTree.rootId, storeRoot_mem, setpf_mem,
                      storeLeft_mem, storeRight_mem, hjp, hjs, hjx, hjf3, hjy]
            rw [reprAt_congr Y (Raw.node p) hmemY]
            exact hstageY
          have hXLrepr : reprAt E XL (Raw.node x) = true := by
            rw [reprAt_congr XL (Raw.node x) (fun j hj => hW j
              (fun he => hpXL (he ▸ hj)) (fun he => hsXL (he ▸ hj))
              (fun he => hxXL (he ▸ hj))
              (fun hm => hdis_sYXL (Or.inr hm) hj)
              (fun he => hdis_c2 (Or.inl (Or.inr hj)) (he ▸ hf3mem)))]
            exact hatXL
          have hXRrepr : reprAt E XR (Raw.node x) = true := by
            rw [reprAt_congr XR (Raw.node x) (fun j hj => hW j
              (fun he => hpXR (he ▸ hj)) (fun he => hsXR (he ▸ hj))
              (fun he => hxXR (he ▸ hj))
              (fun hm => hdis_XR (Or.inl (Or.inr hm)) hj)
              (fun he => hdis_c2 (Or.inr hj) (he ▸ hf3mem)))]
            exact hatXR
          have hsibrepr : reprAt E f3.sib (Raw.node f3.id) = true := by
            rw [reprAt_congr f3.sib (Raw.node f3.id) (fun j hj => hW j
              (fun he => hpc (by simp [ctxIds, he ▸ hj]))
              (fun he => hsc (by simp [ctxIds, he ▸ hj]))
              (fun he => hxc (by simp [ctxIds, he ▸ hj]))
              (fun hm => hdis_c2 (Or.inl (Or.inl (Or.inr hm)))
                (by simp [ctxIds, hj]))
              (fun he => hndctx.1 (List.mem_append.mpr (Or.inl (he ▸ hj)))))]
            exact hf3sib
          have hctxrepr : reprCtx E ctx3 (some f3.id) = true := by
            rw [reprCtx_congr ctx3 (some f3.id) (fun j hj => by
              have hjc : j ∈ ctxIds (f3 :: ctx3) := by simp [ctxIds, hj]
              exact hW j
                (fun he => hpc (he ▸ hjc))
                (fun he => hsc (he ▸ hjc))
                (fun he => hxc (he ▸ hjc))
                (fun hm => hdis_c2 (Or.inl (Or.inl (Or.inr hm))) hjc)
                (fun he => hndctx.1 (List.mem_append.mpr (Or.inr (he ▸ hj)))))
              (by rw [hEdef];
                  simp [setpf_root, storeLeft_root, storeRight_root,
                    reparentKeep_root])]
            exact hctxR3
          have hpair := (repr_plug_iff E (f3 :: ctx3)
            (CTree.node cp (CTree.node false XL x XR) s
              (CTree.node false Y p sub))).mpr ⟨?_, ?_⟩
          · refine ⟨E, rfl, ⟨hpair.1, hpair.2, ?_⟩, ?_⟩
            · refine (List.Perm.nodup_iff ((plug_ids_perm _ _).trans ?_)).mpr hnd
              rw [← Multiset.coe_eq_coe]
              simp only [CTree.ids, ctxIds, List.cons_append, List.append_assoc,
                ← Multiset.cons_coe, ← Multiset.coe_add, ← Multiset.singleton_add]
              try abel
            · refine (plug_ids_perm _ _).trans ?_
              rw [← Multiset.coe_eq_coe]
              simp only [CTree.ids, ctxIds, List.cons_append, List.append_assoc,
                ← Multiset.cons_coe, ← Multiset.coe_add, ← Multiset.singleton_add]
              try abel
          · rw [reprCtx_cons_iff]
            refine ⟨by simp [hm_f3], by simp [hm_f3], by simp [hm_f3],
              ?_, ?_, hsibrepr, hctxrepr⟩
            · rw [hf3d]
              simp [hm_f3, CTree.rootId]
            · rw [hf3d]
              simp [hm_f3, CTree.rootId]
          · rw [reprAt_node_iff, hup3]
            refine ⟨by simp [hm_s], by simp [hm_s], by simp [hm_s],
              by simp [hm_s, CTree.rootId], by simp [hm_s, CTree.rootId], ?_, ?_⟩
            · rw [reprAt_node_iff]
              exact ⟨by simp [hm_x], by simp [hm_x], by simp [hm_x],
                by simp [hm_x], by simp [hm_x], hXLrepr, hXRrepr⟩
            · rw [reprAt_node_iff]
              exact ⟨by simp [hm_p], by simp [hm_p], by simp [hm_p],
                by simp [hm_p], by simp [hm_p], hYrepr, hsubrepr⟩


/-- Case 4 of the removal fixup, left orientation: with a black sibling
whose children are both black-effective, the sibling is recolored red;
a red parent absorbs the deficiency by turning black (done), a black
parent hands the deficiency one level up. -/
theorem rebalance_case4_left_sim (h : Heap) (ctx2 : List Frame)
    (sub SL SR : CTree) (p s1 : NodeId) (cp : Bool)
    (hpraw : (h.mem p).raw = upOf ctx2)
    (hpflag : (h.mem p).rootFlag = (upOf ctx2 == Raw.tree))
    (hpred : (h.mem p).red = cp)
    (hpleft : (h.mem p).left = sub.rootId)
    (hpright : (h.mem p).right = some s1)
    (hsraw : (h.mem s1).raw = Raw.node p)
    (hsflag : (h.mem s1).rootFlag = false)
    (hsleft : (h.mem s1).left = SL.rootId)
    (hsright : (h.mem s1).right = SR.rootId)
    (hatsub : reprAt h sub (Raw.node p) = true)
    (hatSL : reprAt h SL (Raw.node s1) = true)
    (hatSR : reprAt h SR (Raw.node s1) = true)
    (hctxR : reprCtx h ctx2 (some p) = true)
    (hfar : (h.mem s1).right = none ∨
      c_rbnode_is_black h (((h.mem s1).right).getD 0) = true)
    (hnear : (h.mem s1).left = none ∨
      c_rbnode_is_black h (((h.mem s1).left).getD 0) = true)
    (hredctx : cp = true → ctx2 ≠ [])
    (hnd : (p :: s1 :: (sub.ids ++ SL.ids ++ SR.ids ++ ctxIds ctx2)).Nodup) :
    ∃ E, c_rbnode_rebalance_tail_left h p s1 =
        some (E, if cp then none else some p) ∧
      reprTree E (plug ctx2 (CTree.node false sub p
        (CTree.node true SL s1 SR))) ∧
      (plug ctx2 (CTree.node false sub p (CTree.node true SL s1 SR))).ids.Perm
        (p :: s1 :: (sub.ids ++ SL.ids ++ SR.ids ++ ctxIds ctx2)) := by
  have hndF := hnd
  simp only [List.nodup_cons, List.mem_cons, List.mem_append, List.nodup_append,
    List.disjoint_left] at hndF
  obtain ⟨hp_no, hs_no, ⟨⟨hndsub, hndSL, hdis1⟩, hndSR, hdis2⟩,
    hndc2, hdis3⟩ := hndF
  push_neg at hp_no hs_no
  obtain ⟨hps, ⟨⟨hpsub, hpSL⟩, hpSR⟩, hpc⟩ := hp_no
  obtain ⟨⟨⟨hssub, hsSL⟩, hsSR⟩, hsc⟩ := hs_no
  have hsp : s1 ≠ p := hps.symm
  have hperm : (plug ctx2 (CTree.node false sub p
      (CTree.node true SL s1 SR))).ids.Perm
      (p :: s1 :: (sub.ids ++ SL.ids ++ SR.ids ++ ctxIds ctx2)) := by
    refine (plug_ids_perm _ _).trans ?_
    rw [← Multiset.coe_eq_coe]
    simp only [CTree.ids, ctxIds, List.cons_append, List.append_assoc,
      ← Multiset.cons_coe, ← Multiset.coe_add, ← Multiset.singleton_add]
    try abel
  cases hcp : cp with
  | false =>
      set E := c_rbnode_set_parent_and_flags h s1 (Raw.node p) true false
        with hEdef
      have heval : c_rbnode_rebalance_tail_left h p s1 = some (E, some p) := by
        rw [hEdef]
        simp only [c_rbnode_rebalance_tail_left]
        rw [if_pos hfar, if_pos hnear, hsflag]
        have hpblack : c_rbnode_is_black
            (c_rbnode_set_parent_and_flags h s1 (Raw.node p) true false) p
              = true := by
          simp [c_rbnode_is_black, setpf_mem, hps, hpred, hcp]
        rw [if_pos hpblack]
      have hW : ∀ j, j ≠ s1 → E.mem j = h.mem j := by
        intro j h1
        rw [hEdef]
        simp [setpf_mem, h1]
      have hm_s : E.mem s1 = ⟨Raw.node p, true, false, SL.rootId, SR.rootId⟩ := by
        rw [hEdef]
        simp [setpf_mem, hsleft, hsright]
      have hsubrepr : reprAt E sub (Raw.node p) = true := by
        rw [reprAt_congr sub (Raw.node p) (fun j hj => hW j
          (fun he => hssub (he ▸ hj)))]
        exact hatsub
      have hSLrepr : reprAt E SL (Raw.node s1) = true := by
        rw [reprAt_congr SL (Raw.node s1) (fun j hj => hW j
          (fun he => hsSL (he ▸ hj)))]
        exact hatSL
      have hSRrepr : reprAt E SR (Raw.node s1) = true := by
        rw [reprAt_congr SR (Raw.node s1) (fun j hj => hW j
          (fun he => hsSR (he ▸ hj)))]
        exact hatSR
      have hctx4 : reprCtx E ctx2 (some p) = true := by
        rw [reprCtx_congr ctx2 (some p) (fun j hj => hW j
          (fun he => hsc (he ▸ hj))) (by rw [hEdef]; rfl)]
        exact hctxR
      have hpmem : E.mem p = h.mem p := hW p hps
      have hpair := (repr_plug_iff E ctx2 (CTree.node false sub p
        (CTree.node true SL s1 SR))).mpr ⟨by simpa [CTree.rootId] using hctx4, ?_⟩
      · exact ⟨E, heval, ⟨hpair.1, hpair.2,
          (List.Perm.nodup_iff hperm).mpr hnd⟩, hperm⟩
      · rw [reprAt_node_iff]
        refine ⟨by rw [hpmem]; exact hpraw, by rw [hpmem]; exact hpflag,
          by rw [hpmem, hpred, hcp], by rw [hpmem]; exact hpleft,
          by rw [hpmem, hpright]; simp [CTree.rootId], hsubrepr, ?_⟩
        rw [reprAt_node_iff]
        exact ⟨by simp [hm_s], by simp [hm_s], by simp [hm_s],
          by simp [hm_s], by simp [hm_s], hSLrepr, hSRrepr⟩
  | true =>
      obtain ⟨f, ctx3, hctxe⟩ : ∃ f ctx3, ctx2 = f :: ctx3 := by
        cases ctx2 with
        | nil => exact absurd rfl (hredctx hcp)
        | cons f ctx3 => exact ⟨f, ctx3, rfl⟩
      subst hctxe
      have hup : upOf (f :: ctx3) = Raw.node f.id := rfl
      rw [hup] at hpraw hpflag
      have hpf : p ≠ f.id := fun he => hpc (he ▸ (by simp [ctxIds] :
        f.id ∈ ctxIds (f :: ctx3)))
      have hsf : s1 ≠ f.id := fun he => hsc (he ▸ (by simp [ctxIds] :
        f.id ∈ ctxIds (f :: ctx3)))
      set E := c_rbnode_set_parent_and_flags
        (c_rbnode_set_parent_and_flags h s1 (Raw.node p) true false)
        p (Raw.node f.id) false false with hEdef
      have heval : c_rbnode_rebalance_tail_left h p s1 = some (E, none) := by
        rw [hEdef]
        simp only [c_rbnode_rebalance_tail_left]
        rw [if_pos hfar, if_pos hnear, hsflag]
        have hpred2 : c_rbnode_is_black
            (c_rbnode_set_parent_and_flags h s1 (Raw.node p) true false) p
              = false := by
          simp [c_rbnode_is_black, setpf_mem, hps, hpred, hcp]
        rw [if_neg (by simp [hpred2])]
        have hbf : (Raw.node f.id == Raw.tree) = false := rfl
        simp [c_rbnode_parent, c_rbnode_raw, c_rbnode_is_root, setpf_mem,
          hps, hpraw, hpflag, Raw.asNode, rawOf, hbf]
      have hW : ∀ j, j ≠ s1 → j ≠ p → E.mem j = h.mem j := by
        intro j h1 h2
        rw [hEdef]
        simp [setpf_mem, h1, h2]
      have hm_s : E.mem s1 = ⟨Raw.node p, true, false, SL.rootId, SR.rootId⟩ := by
        rw [hEdef]
        simp [setpf_mem, hsp, hsleft, hsright]
      have hm_p : E.mem p = ⟨Raw.node f.id, false, false, sub.rootId, some s1⟩ := by
        rw [hEdef]
        simp [setpf_mem, hps, hpleft, hpright]
      have hsubrepr : reprAt E sub (Raw.node p) = true := by
        rw [reprAt_congr sub (Raw.node p) (fun j hj => hW j
          (fun he => hssub (he ▸ hj)) (fun he => hpsub (he ▸ hj)))]
        exact hatsub
      have hSLrepr : reprAt E SL (Raw.node s1) = true := by
        rw [reprAt_congr SL (Raw.node s1) (fun j hj => hW j
          (fun he => hsSL (he ▸ hj)) (fun he => hpSL (he ▸ hj)))]
        exact hatSL
      have hSRrepr : reprAt E SR (Raw.node s1) = true := by
        rw [reprAt_congr SR (Raw.node s1) (fun j hj => hW j
          (fun he => hsSR (he ▸ hj)) (fun he => hpSR (he ▸ hj)))]
        exact hatSR
      have hctx4 : reprCtx E (f :: ctx3) (some p) = true := by
        rw [reprCtx_congr (f :: ctx3) (some p) (fun j hj => hW j
          (fun he => hsc (he ▸ hj)) (fun he => hpc (he ▸ hj)))
          (by rw [hEdef]; rfl)]
        exact hctxR
      have hpair := (repr_plug_iff E (f :: ctx3) (CTree.node false sub p
        (CTree.node true SL s1 SR))).mpr ⟨by simpa [CTree.rootId] using hctx4, ?_⟩
      · exact ⟨E, heval, ⟨hpair.1, hpair.2,
          (List.Perm.nodup_iff hperm).mpr hnd⟩, hperm⟩
      · rw [reprAt_node_iff, hup]
        refine ⟨by simp [hm_p], by simp [hm_p], by simp [hm_p],
          by simp [hm_p], by simp [hm_p, CTree.rootId], hsubrepr, ?_⟩
        rw [reprAt_node_iff]
        exact ⟨by simp [hm_s], by simp [hm_s], by simp [hm_s],
          by simp [hm_s], by simp [hm_s], hSLrepr, hSRrepr⟩

/-- Case 5 of the removal fixup, left orientation: the red near nephew
`sy` is rotated above the black sibling `s1`, then Case 6 completes with
`sy` as the new sibling and the old sibling `s1` as the (blackened) far
node; the deficiency is resolved and the loop ends. -/
theorem rebalance_case5_left_sim (h : Heap) (ctx2 : List Frame)
    (sub sll slr SR : CTree) (p s1 sy : NodeId) (cp cr : Bool) (k n₀ : Nat)
    (hpraw : (h.mem p).raw = upOf ctx2)
    (hpflag : (h.mem p).rootFlag = (upOf ctx2 == Raw.tree))
    (hpred : (h.mem p).red = cp)
    (hpleft : (h.mem p).left = sub.rootId)
    (hpright : (h.mem p).right = some s1)
    (hsflag : (h.mem s1).rootFlag = false)
    (hsleft : (h.mem s1).left = some sy)
    (hsright : (h.mem s1).right = SR.rootId)
    (hyleft : (h.mem sy).left = sll.rootId)
    (hyright : (h.mem sy).right = slr.rootId)
    (hatsub : reprAt h sub (Raw.node p) = true)
    (hatsll : reprAt h sll (Raw.node sy) = true)
    (hatslr : reprAt h slr (Raw.node sy) = true)
    (hatSR : reprAt h SR (Raw.node s1) = true)
    (hctxR : reprCtx h ctx2 (some p) = true)
    (hsub : Bal sub false k) (hsll : Bal sll false k) (hslr : Bal slr false k)
    (hSR : Bal SR cr k)
    (hctx2T : cp = true → CtxBal false n₀ ctx2 true (k + 1))
    (hctx2F : cp = false → CtxBal false n₀ ctx2 false (k + 2))
    (hnd : (p :: s1 :: sy :: (sub.ids ++ sll.ids ++ slr.ids ++ SR.ids ++
      ctxIds ctx2)).Nodup) :
    ∃ E t', c_rbnode_rebalance_case6_left
        (reparentBlack
          (storeRight (storeRight (storeLeft h s1 slr.rootId) sy (some s1))
            p (some sy))
          slr.rootId s1) p s1 sy = some (E, none) ∧
      reprTree E t' ∧ Bal t' false n₀ ∧
      t'.ids.Perm (p :: s1 :: sy :: (sub.ids ++ sll.ids ++ slr.ids ++ SR.ids ++
        ctxIds ctx2)) := by
  have hndF := hnd
  simp only [List.nodup_cons, List.mem_cons, List.mem_append, List.nodup_append,
    List.disjoint_left] at hndF
  obtain ⟨hp_no, hs_no, hy_no,
    ⟨⟨⟨⟨hndsub, hndsll, hd1⟩, hndslr, hd2⟩, hndSR, hd3⟩, hndc2, hd4⟩⟩ := hndF
  push_neg at hp_no hs_no hy_no
  obtain ⟨hps, hpy, ⟨⟨⟨hpsub, hpsll⟩, hpslr⟩, hpSR⟩, hpc⟩ := hp_no
  obtain ⟨hsy, ⟨⟨⟨hssub, hssll⟩, hsslr⟩, hsSR⟩, hsc⟩ := hs_no
  obtain ⟨⟨⟨⟨hysub, hysll⟩, hyslr⟩, hySR⟩, hyc⟩ := hy_no
  have hsp : s1 ≠ p := hps.symm
  have hyp : sy ≠ p := hpy.symm
  have hys : sy ≠ s1 := hsy.symm
  set h5 := reparentBlack
    (storeRight (storeRight (storeLeft h s1 slr.rootId) sy (some s1))
      p (some sy)) slr.rootId s1 with hh5
  have hW5 : ∀ j, j ≠ s1 → j ≠ sy → j ≠ p → j ∉ slr.ids →
      h5.mem j = h.mem j := by
    intro j h1 h2 h3 h4
    rw [hh5]
    simp [storeLeft_mem, storeRight_mem, reparentBlack_mem_notin h4, h1, h2, h3]
  have hm5_p : h5.mem p = { h.mem p with right := some sy } := by
    rw [hh5]
    simp [storeLeft_mem, storeRight_mem, reparentBlack_mem_notin hpslr,
      hps, hpy]
  have hm5_s1 : h5.mem s1 = { h.mem s1 with left := slr.rootId } := by
    rw [hh5]
    simp [storeLeft_mem, storeRight_mem, reparentBlack_mem_notin hsslr,
      hsy, hsp]
  have hm5_sy : h5.mem sy = { h.mem sy with right := some s1 } := by
    rw [hh5]
    simp [storeLeft_mem, storeRight_mem, reparentBlack_mem_notin hyslr,
      hys, hyp]
  have hat4slr : reprAt (storeRight (storeRight (storeLeft h s1 slr.rootId)
      sy (some s1)) p (some sy)) slr (Raw.node sy) = true := by
    have hmem : ∀ j ∈ slr.ids,
        (storeRight (storeRight (storeLeft h s1 slr.rootId) sy (some s1))
          p (some sy)).mem j = h.mem j := by
      intro j hj
      have h1 : j ≠ s1 := fun he => hsslr (he ▸ hj)
      have h2 : j ≠ sy := fun he => hyslr (he ▸ hj)
      have h3 : j ≠ p := fun he => hpslr (he ▸ hj)
      simp [storeLeft_mem, storeRight_mem, h1, h2, h3]
    rw [reprAt_congr slr (Raw.node sy) hmem]
    exact hatslr
  have hatXL5 : reprAt h5 slr (Raw.node s1) = true := by
    rw [hh5]
    exact reprAt_reparentBlack hat4slr hslr.isRedT (by simp) hndslr
  have hatsub5 : reprAt h5 sub (Raw.node p) = true := by
    rw [reprAt_congr sub (Raw.node p) (fun j hj => hW5 j
      (fun he => hssub (he ▸ hj)) (fun he => hysub (he ▸ hj))
      (fun he => hpsub (he ▸ hj)) (fun hm => hd2 (Or.inl hj) hm))]
    exact hatsub
  have hatY5 : reprAt h5 sll (Raw.node sy) = true := by
    rw [reprAt_congr sll (Raw.node sy) (fun j hj => hW5 j
      (fun he => hssll (he ▸ hj)) (fun he => hysll (he ▸ hj))
      (fun he => hpsll (he ▸ hj)) (fun hm => hd2 (Or.inr hj) hm))]
    exact hatsll
  have hatXR5 : reprAt h5 SR (Raw.node s1) = true := by
    rw [reprAt_congr SR (Raw.node s1) (fun j hj => hW5 j
      (fun he => hsSR (he ▸ hj)) (fun he => hySR (he ▸ hj))
      (fun he => hpSR (he ▸ hj)) (fun hm => hd3 (Or.inr hm) hj))]
    exact hatSR
  have hctxR5 : reprCtx h5 ctx2 (some p) = true := by
    rw [reprCtx_congr ctx2 (some p) (fun j hj => hW5 j
      (fun he => hsc (he ▸ hj)) (fun he => hyc (he ▸ hj))
      (fun he => hpc (he ▸ hj)) (fun hm => hd4 (Or.inl (Or.inr hm)) hj))
      (by rw [hh5]; simp [storeLeft_root, storeRight_root, reparentBlack_root])]
    exact hctxR
  have hnd6 : (p :: sy :: s1 :: (sub.ids ++ sll.ids ++ slr.ids ++ SR.ids ++
      ctxIds ctx2)).Nodup := by
    refine (List.Perm.nodup_iff ?_).mpr hnd
    rw [← Multiset.coe_eq_coe]
    simp only [← Multiset.cons_coe]
    rw [Multiset.cons_swap sy s1]
  obtain ⟨E, heq, hrt, hperm⟩ := rebalance_case6_left_sim h5 ctx2 sub sll slr SR
    p sy s1 cp
    (by simp [hm5_p, hpraw]) (by simp [hm5_p, hpflag]) (by simp [hm5_p, hpred])
    (by simp [hm5_p, hpleft]) (by simp [hm5_p])
    (by simp [hm5_sy, hyleft]) (by simp [hm5_sy])
    (by simp [hm5_s1, hsflag]) (by simp [hm5_s1]) (by simp [hm5_s1, hsright])
    hatsub5 hatY5 hatXL5 hatXR5 hctxR5 hnd6
  refine ⟨E, _, heq, hrt, ?_, ?_⟩
  · cases hcp : cp with
    | true =>
        exact bal_plug (hctx2T hcp) (hcp ▸ Bal.red (Bal.black hsub hsll)
          (Bal.black hslr hSR))
    | false =>
        exact bal_plug (hctx2F hcp) (hcp ▸ Bal.black (Bal.black hsub hsll)
          (Bal.black hslr hSR))
  · refine hperm.trans ?_
    rw [← Multiset.coe_eq_coe]
    simp only [← Multiset.cons_coe]
    rw [Multiset.cons_swap sy s1]

/-- The black-sibling tail of one removal-fixup step, left orientation
(Cases 4, 5, 6): the deficient left subtree of `p` either gets its black
level back (loop ends) or the deficiency moves to `p` itself (black `p`
handed up). -/
theorem rebalance_tail_left_sim (h : Heap) (ctx2 : List Frame)
    (sub SL SR : CTree) (p s1 : NodeId) (cp cl cr : Bool) (k n₀ : Nat)
    (hpraw : (h.mem p).raw = upOf ctx2)
    (hpflag : (h.mem p).rootFlag = (upOf ctx2 == Raw.tree))
    (hpred : (h.mem p).red = cp)
    (hpleft : (h.mem p).left = sub.rootId)
    (hpright : (h.mem p).right = some s1)
    (hsraw : (h.mem s1).raw = Raw.node p)
    (hsflag : (h.mem s1).rootFlag = false)
    (hsleft : (h.mem s1).left = SL.rootId)
    (hsright : (h.mem s1).right = SR.rootId)
    (hatsub : reprAt h sub (Raw.node p) = true)
    (hatSL : reprAt h SL (Raw.node s1) = true)
    (hatSR : reprAt h SR (Raw.node s1) = true)
    (hctxR : reprCtx h ctx2 (some p) = true)
    (hsub : Bal sub false k) (hSL : Bal SL cl k) (hSR : Bal SR cr k)
    (hctx2T : cp = true → CtxBal false n₀ ctx2 true (k + 1))
    (hctx2F : cp = false → CtxBal false n₀ ctx2 false (k + 2))
    (hnd : (p :: s1 :: (sub.ids ++ SL.ids ++ SR.ids ++ ctxIds ctx2)).Nodup) :
    (∃ E t', c_rbnode_rebalance_tail_left h p s1 = some (E, none) ∧
       reprTree E t' ∧ Bal t' false n₀ ∧
       t'.ids.Perm (p :: s1 :: (sub.ids ++ SL.ids ++ SR.ids ++ ctxIds ctx2))) ∨
    (∃ E sub', c_rbnode_rebalance_tail_left h p s1 = some (E, some p) ∧
       cp = false ∧ reprTree E (plug ctx2 sub') ∧ Bal sub' false (k + 1) ∧
       sub'.rootId = some p ∧
       (plug ctx2 sub').ids.Perm
         (p :: s1 :: (sub.ids ++ SL.ids ++ SR.ids ++ ctxIds ctx2))) := by
  have hredctx : cp = true → ctx2 ≠ [] := by
    intro hc hce
    subst hce
    cases hctx2T hc
  cases hSRc : SR with
  | node src srl sx srr =>
      subst hSRc
      rw [reprAt_node_iff] at hatSR
      obtain ⟨hxraw, hxflag, hxred, hxleft, hxright, hatsrl, hatsrr⟩ := hatSR
      cases src with
      | true =>
          left
          obtain ⟨hsrl, hsrr⟩ : Bal srl false k ∧ Bal srr false k := by
            cases hSR with
            | red h1 h2 => exact ⟨h1, h2⟩
          have hxblack : c_rbnode_is_black h sx = false := by
            simp [c_rbnode_is_black, hxred]
          have heval : c_rbnode_rebalance_tail_left h p s1 =
              c_rbnode_rebalance_case6_left h p sx s1 := by
            simp [c_rbnode_rebalance_tail_left, hsright, hxblack, CTree.rootId]
          have hnd6 : (p :: s1 :: sx :: (sub.ids ++ SL.ids ++ srl.ids ++
              srr.ids ++ ctxIds ctx2)).Nodup := by
            refine (List.Perm.nodup_iff ?_).mpr hnd
            rw [← Multiset.coe_eq_coe]
            simp only [CTree.ids, List.cons_append, List.append_assoc,
              ← Multiset.cons_coe, ← Multiset.coe_add, ← Multiset.singleton_add]
            try abel
          obtain ⟨E, heq, hrt, hperm⟩ := rebalance_case6_left_sim h ctx2 sub SL
            srl srr p s1 sx cp hpraw hpflag hpred hpleft hpright hsleft
            (by simpa [CTree.rootId] using hsright)
            (by rw [hxflag]; rfl) hxleft hxright hatsub hatSL hatsrl hatsrr
            hctxR hnd6
          refine ⟨E, _, by rw [heval]; exact heq, hrt, ?_, ?_⟩
          · cases hcp : cp with
            | true =>
                exact bal_plug (hctx2T hcp) (hcp ▸ Bal.red (Bal.black hsub hSL)
                  (Bal.black hsrl hsrr))
            | false =>
                exact bal_plug (hctx2F hcp) (hcp ▸ Bal.black (Bal.black hsub hSL)
                  (Bal.black hsrl hsrr))
          · refine hperm.trans ?_
            rw [← Multiset.coe_eq_coe]
            simp only [CTree.ids, List.cons_append, List.append_assoc,
              ← Multiset.cons_coe, ← Multiset.coe_add, ← Multiset.singleton_add]
            try abel
      | false =>
          cases hSLc : SL with
          | node slc sll sy slr =>
              subst hSLc
              rw [reprAt_node_iff] at hatSL
              obtain ⟨hyraw, hyflag, hyred, hyleft, hyright, hatsll, hatslr⟩ :=
                hatSL
              cases slc with
              | true =>
                  have hxblack : c_rbnode_is_black h sx = true := by
                    simp [c_rbnode_is_black, hxred]
                  left
                  obtain ⟨hsll, hslr⟩ : Bal sll false k ∧ Bal slr false k := by
                    cases hSL with
                    | red h1 h2 => exact ⟨h1, h2⟩
                  have hyblack : c_rbnode_is_black h sy = false := by
                    simp [c_rbnode_is_black, hyred]
                  have heval : c_rbnode_rebalance_tail_left h p s1 =
                      c_rbnode_rebalance_case6_left
                        (reparentBlack
                          (storeRight (storeRight (storeLeft h s1 slr.rootId)
                            sy (some s1)) p (some sy))
                          slr.rootId s1) p s1 sy := by
                    simp [c_rbnode_rebalance_tail_left, hsright, hsleft, CTree.rootId,
                      hxblack, hyblack, hyright]
                  have hnd5 : (p :: s1 :: sy :: (sub.ids ++ sll.ids ++ slr.ids ++
                      (CTree.node false srl sx srr).ids ++ ctxIds ctx2)).Nodup := by
                    refine (List.Perm.nodup_iff ?_).mpr hnd
                    rw [← Multiset.coe_eq_coe]
                    simp only [CTree.ids, List.cons_append, List.append_assoc,
                      ← Multiset.cons_coe, ← Multiset.coe_add,
                      ← Multiset.singleton_add]
                    try abel
                  obtain ⟨E, t', heq, hrt, hbal, hperm⟩ := rebalance_case5_left_sim
                    h ctx2 sub sll slr (CTree.node false srl sx srr) p s1 sy cp cr k n₀
                    hpraw hpflag hpred hpleft hpright hsflag
                    (by simpa [CTree.rootId] using hsleft) hsright hyleft hyright
                    hatsub hatsll hatslr (by rw [reprAt_node_iff]; exact ⟨hxraw, hxflag, hxred, hxleft, hxright, hatsrl, hatsrr⟩) hctxR hsub hsll hslr hSR
                    hctx2T hctx2F hnd5
                  refine ⟨E, t', by rw [heval]; exact heq, hrt, hbal, ?_⟩
                  refine hperm.trans ?_
                  rw [← Multiset.coe_eq_coe]
                  simp only [CTree.ids, List.cons_append, List.append_assoc,
                    ← Multiset.cons_coe, ← Multiset.coe_add, ← Multiset.singleton_add]
                  try abel
              | false =>
                  have hfar : (h.mem s1).right = none ∨
                      c_rbnode_is_black h (((h.mem s1).right).getD 0) = true := Or.inr (by simp [hsright, CTree.rootId, c_rbnode_is_black, hxred])
                  have hnear : (h.mem s1).left = none ∨
                      c_rbnode_is_black h (((h.mem s1).left).getD 0) = true := Or.inr (by simp [hsleft, CTree.rootId, c_rbnode_is_black, hyred])
                  have hSLb : Bal (CTree.node false sll sy slr) false k := (by cases hSL with
                    | black h1 h2 => exact Bal.black h1 h2)
                  have hSRb : Bal (CTree.node false srl sx srr) false k := (by cases hSR with
                    | black h1 h2 => exact Bal.black h1 h2)
                  obtain ⟨E, heval, hrt, hperm⟩ := rebalance_case4_left_sim h ctx2 sub
                    (CTree.node false sll sy slr) (CTree.node false srl sx srr) p s1 cp hpraw hpflag hpred hpleft hpright hsraw hsflag
                    hsleft hsright hatsub (by rw [reprAt_node_iff]; exact ⟨hyraw, hyflag, hyred, hyleft, hyright, hatsll, hatslr⟩) (by rw [reprAt_node_iff]; exact ⟨hxraw, hxflag, hxred, hxleft, hxright, hatsrl, hatsrr⟩) hctxR hfar hnear hredctx hnd
                  cases hcp : cp with
                  | true =>
                      left
                      rw [hcp] at heval
                      simp only [if_true] at heval
                      exact ⟨E, _, heval, hrt,
                        bal_plug_black (hctx2T hcp) (Bal.black hsub (Bal.red hSLb hSRb)), hperm⟩
                  | false =>
                      right
                      rw [hcp] at heval
                      simp only [Bool.false_eq_true, if_false] at heval
                      exact ⟨E, _, heval, rfl, hrt, Bal.black hsub (Bal.red hSLb hSRb),
                        by simp [CTree.rootId], hperm⟩
          | nil =>
              subst hSLc
              have hfar : (h.mem s1).right = none ∨
                  c_rbnode_is_black h (((h.mem s1).right).getD 0) = true := Or.inr (by simp [hsright, CTree.rootId, c_rbnode_is_black, hxred])
              have hnear : (h.mem s1).left = none ∨
                  c_rbnode_is_black h (((h.mem s1).left).getD 0) = true := Or.inl (by simpa [CTree.rootId] using hsleft)
              have hSLb : Bal CTree.nil false k := (by cases hSL with
                | nil => exact Bal.nil)
              have hSRb : Bal (CTree.node false srl sx srr) false k := (by cases hSR with
                | black h1 h2 => exact Bal.black h1 h2)
              obtain ⟨E, heval, hrt, hperm⟩ := rebalance_case4_left_sim h ctx2 sub
                CTree.nil (CTree.node false srl sx srr) p s1 cp hpraw hpflag hpred hpleft hpright hsraw hsflag
                hsleft hsright hatsub rfl (by rw [reprAt_node_iff]; exact ⟨hxraw, hxflag, hxred, hxleft, hxright, hatsrl, hatsrr⟩) hctxR hfar hnear hredctx hnd
              cases hcp : cp with
              | true =>
                  left
                  rw [hcp] at heval
                  simp only [if_true] at heval
                  exact ⟨E, _, heval, hrt,
                    bal_plug_black (hctx2T hcp) (Bal.black hsub (Bal.red hSLb hSRb)), hperm⟩
              | false =>
                  right
                  rw [hcp] at heval
                  simp only [Bool.false_eq_true, if_false] at heval
                  exact ⟨E, _, heval, rfl, hrt, Bal.black hsub (Bal.red hSLb hSRb),
                    by simp [CTree.rootId], hperm⟩
  | nil =>
      subst hSRc
      cases hSLc : SL with
      | node slc sll sy slr =>
          subst hSLc
          rw [reprAt_node_iff] at hatSL
          obtain ⟨hyraw, hyflag, hyred, hyleft, hyright, hatsll, hatslr⟩ := hatSL
          cases slc with
          | true =>
              left
              obtain ⟨hsll, hslr⟩ : Bal sll false k ∧ Bal slr false k := by
                cases hSL with
                | red h1 h2 => exact ⟨h1, h2⟩
              have hyblack : c_rbnode_is_black h sy = false := by
                simp [c_rbnode_is_black, hyred]
              have heval : c_rbnode_rebalance_tail_left h p s1 =
                  c_rbnode_rebalance_case6_left
                    (reparentBlack
                      (storeRight (storeRight (storeLeft h s1 slr.rootId)
                        sy (some s1)) p (some sy))
                      slr.rootId s1) p s1 sy := by
                simp [c_rbnode_rebalance_tail_left, hsright, hsleft, CTree.rootId,
                  CTree.rootId, hyblack, hyright]
              have hnd5 : (p :: s1 :: sy :: (sub.ids ++ sll.ids ++ slr.ids ++
                  CTree.nil.ids ++ ctxIds ctx2)).Nodup := by
                refine (List.Perm.nodup_iff ?_).mpr hnd
                rw [← Multiset.coe_eq_coe]
                simp only [CTree.ids, List.cons_append, List.append_assoc,
                  ← Multiset.cons_coe, ← Multiset.coe_add,
                  ← Multiset.singleton_add]
                try abel
              obtain ⟨E, t', heq, hrt, hbal, hperm⟩ := rebalance_case5_left_sim
                h ctx2 sub sll slr CTree.nil p s1 sy cp cr k n₀
                hpraw hpflag hpred hpleft hpright hsflag
                (by simpa [CTree.rootId] using hsleft) hsright hyleft hyright
                hatsub hatsll hatslr rfl hctxR hsub hsll hslr hSR
                hctx2T hctx2F hnd5
              refine ⟨E, t', by rw [heval]; exact heq, hrt, hbal, ?_⟩
              refine hperm.trans ?_
              rw [← Multiset.coe_eq_coe]
              simp only [CTree.ids, List.cons_append, List.append_assoc,
                ← Multiset.cons_coe, ← Multiset.coe_add, ← Multiset.singleton_add]
              try abel
          | false =>
              have hfar : (h.mem s1).right = none ∨
                  c_rbnode_is_black h (((h.mem s1).right).getD 0) = true := Or.inl (by simpa [CTree.rootId] using hsright)
              have hnear : (h.mem s1).left = none ∨
                  c_rbnode_is_black h (((h.mem s1).left).getD 0) = true := Or.inr (by simp [hsleft, CTree.rootId, c_rbnode_is_black, hyred])
              have hSLb : Bal (CTree.node false sll sy slr) false k := (by cases hSL with
                | black h1 h2 => exact Bal.black h1 h2)
              have hSRb : Bal CTree.nil false k := (by cases hSR with
                | nil => exact Bal.nil)
              obtain ⟨E, heval, hrt, hperm⟩ := rebalance_case4_left_sim h ctx2 sub
                (CTree.node false sll sy slr) CTree.nil p s1 cp hpraw hpflag hpred hpleft hpright hsraw hsflag
                hsleft hsright hatsub (by rw [reprAt_node_iff]; exact ⟨hyraw, hyflag, hyred, hyleft, hyright, hatsll, hatslr⟩) rfl hctxR hfar hnear hredctx hnd
              cases hcp : cp with
              | true =>
                  left
                  rw [hcp] at heval
                  simp only [if_true] at heval
                  exact ⟨E, _, heval, hrt,
                    bal_plug_black (hctx2T hcp) (Bal.black hsub (Bal.red hSLb hSRb)), hperm⟩
              | false =>
                  right
                  rw [hcp] at heval
                  simp only [Bool.false_eq_true, if_false] at heval
                  exact ⟨E, _, heval, rfl, hrt, Bal.black hsub (Bal.red hSLb hSRb),
                    by simp [CTree.rootId], hperm⟩
      | nil =>
          subst hSLc
          have hfar : (h.mem s1).right = none ∨
              c_rbnode_is_black h (((h.mem s1).right).getD 0) = true := Or.inl (by simpa [CTree.rootId] using hsright)
          have hnear : (h.mem s1).left = none ∨
              c_rbnode_is_black h (((h.mem s1).left).getD 0) = true := Or.inl (by simpa [CTree.rootId] using hsleft)
          have hSLb : Bal CTree.nil false k := (by cases hSL with
            | nil => exact Bal.nil)
          have hSRb : Bal CTree.nil false k := (by cases hSR with
            | nil => exact Bal.nil)
          obtain ⟨E, heval, hrt, hperm⟩ := rebalance_case4_left_sim h ctx2 sub
            CTree.nil CTree.nil p s1 cp hpraw hpflag hpred hpleft hpright hsraw hsflag
            hsleft hsright hatsub rfl rfl hctxR hfar hnear hredctx hnd
          cases hcp : cp with
          | true =>
              left
              rw [hcp] at heval
              simp only [if_true] at heval
              exact ⟨E, _, heval, hrt,
                bal_plug_black (hctx2T hcp) (Bal.black hsub (Bal.red hSLb hSRb)), hperm⟩
          | false =>
              right
              rw [hcp] at heval
              simp only [Bool.false_eq_true, if_false] at heval
              exact ⟨E, _, heval, rfl, hrt, Bal.black hsub (Bal.red hSLb hSRb),
                by simp [CTree.rootId], hperm⟩

/-- Case 3 of the removal fixup, left orientation: the red sibling `s0`
is rotated above the black parent `p` and recolored black, `p` turns red;
the deficient slot keeps its position below `p`, now with the black near
nephew `xx` as its new sibling. -/
theorem rebalance_case3_left_sim (h : Heap) (ctx2 : List Frame)
    (sub XL XR SR : CTree) (p s0 xx : NodeId)
    (hpraw : (h.mem p).raw = upOf ctx2)
    (hpflag : (h.mem p).rootFlag = (upOf ctx2 == Raw.tree))
    (hpred : (h.mem p).red = false)
    (hpleft : (h.mem p).left = sub.rootId)
    (hpright : (h.mem p).right = some s0)
    (hs0flag : (h.mem s0).rootFlag = false)
    (hsleft : (h.mem s0).left = some xx)
    (hsright : (h.mem s0).right = SR.rootId)
    (hxxflag : (h.mem xx).rootFlag = false)
    (hxxred : (h.mem xx).red = false)
    (hxxleft : (h.mem xx).left = XL.rootId)
    (hxxright : (h.mem xx).right = XR.rootId)
    (hatsub : reprAt h sub (Raw.node p) = true)
    (hatXL : reprAt h XL (Raw.node xx) = true)
    (hatXR : reprAt h XR (Raw.node xx) = true)
    (hatSR : reprAt h SR (Raw.node s0) = true)
    (hctxR : reprCtx h ctx2 (some p) = true)
    (hnd : (p :: s0 :: xx :: (sub.ids ++ XL.ids ++ XR.ids ++ SR.ids ++
      ctxIds ctx2)).Nodup) :
    ∃ E, c_rbnode_rebalance_case3_left h p s0 = some (E, xx) ∧
      reprTree E (plug ((⟨false, true, p, CTree.node false XL xx XR⟩ : Frame) ::
        (⟨false, false, s0, SR⟩ : Frame) :: ctx2) sub) ∧
      (plug ((⟨false, true, p, CTree.node false XL xx XR⟩ : Frame) ::
        (⟨false, false, s0, SR⟩ : Frame) :: ctx2) sub).ids.Perm
        (p :: s0 :: xx :: (sub.ids ++ XL.ids ++ XR.ids ++ SR.ids ++
          ctxIds ctx2)) := by
  have hndF := hnd
  simp only [List.nodup_cons, List.mem_cons, List.mem_append, List.nodup_append,
    List.disjoint_left] at hndF
  obtain ⟨hp_no, hs_no, hx_no,
    ⟨⟨⟨⟨hndsub, hndXL, hd1⟩, hndXR, hd2⟩, hndSR, hd3⟩, hndc2, hd4⟩⟩ := hndF
  push_neg at hp_no hs_no hx_no
  obtain ⟨hps, hpx, ⟨⟨⟨hpsub, hpXL⟩, hpXR⟩, hpSR⟩, hpc⟩ := hp_no
  obtain ⟨hsx, ⟨⟨⟨hssub, hsXL⟩, hsXR⟩, hsSR⟩, hsc⟩ := hs_no
  obtain ⟨⟨⟨⟨hxsub, hxXL⟩, hxXR⟩, hxSR⟩, hxc⟩ := hx_no
  have hsp : s0 ≠ p := hps.symm
  have hxp : xx ≠ p := hpx.symm
  have hxs : xx ≠ s0 := hsx.symm
  have hperm : (plug ((⟨false, true, p, CTree.node false XL xx XR⟩ : Frame) ::
      (⟨false, false, s0, SR⟩ : Frame) :: ctx2) sub).ids.Perm
      (p :: s0 :: xx :: (sub.ids ++ XL.ids ++ XR.ids ++ SR.ids ++
        ctxIds ctx2)) := by
    refine (plug_ids_perm _ _).trans ?_
    rw [← Multiset.coe_eq_coe]
    simp only [CTree.ids, ctxIds, List.cons_append, List.append_assoc,
      ← Multiset.cons_coe, ← Multiset.coe_add, ← Multiset.singleton_add]
    try abel
  have hndout : (plug ((⟨false, true, p, CTree.node false XL xx XR⟩ : Frame) ::
      (⟨false, false, s0, SR⟩ : Frame) :: ctx2) sub).ids.Nodup :=
    (List.Perm.nodup_iff hperm).mpr hnd
  cases ctx2 with
  | nil =>
      have hup : upOf ([] : List Frame) = Raw.tree := rfl
      rw [hup] at hpraw hpflag
      have hfe : c_rbnode_rebalance_case3_left h p s0 =
          some (storeRoot (c_rbnode_set_parent_and_flags (c_rbnode_set_parent_and_flags (c_rbnode_set_parent_and_flags (c_rbnode_set_parent_and_flags (storeLeft (storeRight (c_rbnode_set_parent_and_flags h p Raw.null false false) p (some xx)) s0 (some p)) xx (Raw.node p) false false) s0 Raw.null false false) p (Raw.node s0) true false) s0 Raw.tree false true) (some s0), xx) := by
        simp [c_rbnode_rebalance_case3_left, c_rbnode_pop_root, c_rbnode_push_root,
          c_rbnode_is_red, c_rbnode_is_root, c_rbnode_swap_child, c_rbnode_parent,
          c_rbnode_raw, Raw.asNode, hpraw, hpflag, hpred, hsleft, rawOf,
          storeLeft_mem, storeRight_mem, setpf_mem, storeRoot_mem,
          hps, hsp, hpx, hxp, hsx, hxs, hxxflag, hs0flag]
      rw [hfe]
      set E := storeRoot (c_rbnode_set_parent_and_flags (c_rbnode_set_parent_and_flags (c_rbnode_set_parent_and_flags (c_rbnode_set_parent_and_flags (storeLeft (storeRight (c_rbnode_set_parent_and_flags h p Raw.null false false) p (some xx)) s0 (some p)) xx (Raw.node p) false false) s0 Raw.null false false) p (Raw.node s0) true false) s0 Raw.tree false true) (some s0) with hEdef
      have hW : ∀ j, j ≠ p → j ≠ s0 → j ≠ xx → E.mem j = h.mem j := by
        intro j h1 h2 h3
        rw [hEdef]
        simp [storeRoot_mem, setpf_mem, storeLeft_mem, storeRight_mem, h1, h2, h3]
      have hm_p : E.mem p = ⟨Raw.node s0, true, false, sub.rootId, some xx⟩ := by
        rw [hEdef]
        simp [storeRoot_mem, setpf_mem, storeLeft_mem, storeRight_mem,
          hps, hpx, hpleft]
      have hm_s : E.mem s0 = ⟨Raw.tree, false, true, some p, SR.rootId⟩ := by
        rw [hEdef]
        simp [storeRoot_mem, setpf_mem, storeLeft_mem, storeRight_mem,
          hsp, hsx, hsright]
      have hm_x : E.mem xx = ⟨Raw.node p, false, false, XL.rootId, XR.rootId⟩ := by
        rw [hEdef]
        simp [storeRoot_mem, setpf_mem, storeLeft_mem, storeRight_mem,
          hxp, hxs, hxxleft, hxxright]
      have hsubrepr : reprAt E sub (Raw.node p) = true := by
        rw [reprAt_congr sub (Raw.node p) (fun j hj => hW j
          (fun he => hpsub (he ▸ hj)) (fun he => hssub (he ▸ hj))
          (fun he => hxsub (he ▸ hj)))]
        exact hatsub
      have hXLrepr : reprAt E XL (Raw.node xx) = true := by
        rw [reprAt_congr XL (Raw.node xx) (fun j hj => hW j
          (fun he => hpXL (he ▸ hj)) (fun he => hsXL (he ▸ hj))
          (fun he => hxXL (he ▸ hj)))]
        exact hatXL
      have hXRrepr : reprAt E XR (Raw.node xx) = true := by
        rw [reprAt_congr XR (Raw.node xx) (fun j hj => hW j
          (fun he => hpXR (he ▸ hj)) (fun he => hsXR (he ▸ hj))
          (fun he => hxXR (he ▸ hj)))]
        exact hatXR
      have hSRrepr : reprAt E SR (Raw.node s0) = true := by
        rw [reprAt_congr SR (Raw.node s0) (fun j hj => hW j
          (fun he => hpSR (he ▸ hj)) (fun he => hsSR (he ▸ hj))
          (fun he => hxSR (he ▸ hj)))]
        exact hatSR
      refine ⟨E, rfl, ⟨?_, ?_, hndout⟩, hperm⟩
      · rw [hEdef]
        simp [plug, storeRoot_root, CTree.rootId]
      · have hpair := (repr_plug_iff E
          ((⟨false, true, p, CTree.node false XL xx XR⟩ : Frame) ::
            (⟨false, false, s0, SR⟩ : Frame) :: []) sub).mpr ⟨?_, ?_⟩
        · exact hpair.2
        · rw [reprCtx_cons_iff]
          refine ⟨by simp [hm_p, upOf], by simp [hm_p, upOf], by simp [hm_p, upOf], ?_, ?_, ?_, ?_⟩
          · simp [hm_p, upOf]
          · simp [hm_p, upOf, CTree.rootId]
          · rw [reprAt_node_iff]
            exact ⟨by simp [hm_x, upOf], by simp [hm_x, upOf], by simp [hm_x, upOf],
              by simp [hm_x, upOf], by simp [hm_x, upOf], hXLrepr, hXRrepr⟩
          · rw [reprCtx_cons_iff]
            refine ⟨by simp [hm_s, upOf], by simp [hm_s, upOf], by simp [hm_s, upOf],
              ?_, ?_, hSRrepr, ?_⟩
            · simp [hm_s, upOf]
            · simp [hm_s, upOf]
            · rw [reprCtx_nil_iff]
              rw [hEdef]
              simp [storeRoot_root]
        · exact hsubrepr
  | cons f3 ctx3 =>
      rw [reprCtx_cons_iff] at hctxR
      obtain ⟨hf3raw, hf3flag, hf3red, hf3left, hf3right, hf3sib, hctxR3⟩ := hctxR
      have hf3mem : f3.id ∈ ctxIds (f3 :: ctx3) := by simp [ctxIds]
      have hf3p : f3.id ≠ p := fun he => hpc (he ▸ hf3mem)
      have hf3s : f3.id ≠ s0 := fun he => hsc (he ▸ hf3mem)
      have hf3x : f3.id ≠ xx := fun he => hxc (he ▸ hf3mem)
      have hpf3 : p ≠ f3.id := hf3p.symm
      have hsf3 : s0 ≠ f3.id := hf3s.symm
      have hxf3 : xx ≠ f3.id := hf3x.symm
      have hpsib : p ∉ f3.sib.ids := fun hm => hpc (by simp [ctxIds, hm])
      have hndctx := hndc2
      simp only [ctxIds, List.nodup_cons] at hndctx
      have hup3 : upOf (f3 :: ctx3) = Raw.node f3.id := rfl
      rw [hup3] at hpraw hpflag
      have hbf : (Raw.node f3.id == Raw.tree) = false := rfl
      cases hf3d : f3.isRight with
      | false =>
          rw [hf3d] at hf3left hf3right
          simp only [Bool.false_eq_true, if_false] at hf3left hf3right
          have hfe : c_rbnode_rebalance_case3_left h p s0 =
              some (c_rbnode_set_parent_and_flags (c_rbnode_set_parent_and_flags (c_rbnode_set_parent_and_flags (storeLeft (storeLeft (storeRight h p (some xx)) s0 (some p)) f3.id (some s0)) xx (Raw.node p) false false) s0 (Raw.node f3.id) false false) p (Raw.node s0) true false, xx) := by
            simp [c_rbnode_rebalance_case3_left, c_rbnode_pop_root,
              c_rbnode_push_root, c_rbnode_is_red, c_rbnode_is_root,
              c_rbnode_swap_child, c_rbnode_parent, c_rbnode_raw, Raw.asNode,
              hpraw, hpflag, hpred, hsleft, rawOf,
              storeLeft_mem, storeRight_mem, setpf_mem, storeRoot_mem,
              hps, hsp, hpx, hxp, hsx, hxs, hxxflag, hs0flag,
              hf3p, hpf3, hf3s, hsf3, hf3x, hxf3, hf3left, upOf, hbf]
          rw [hfe]
          set E := c_rbnode_set_parent_and_flags (c_rbnode_set_parent_and_flags (c_rbnode_set_parent_and_flags (storeLeft (storeLeft (storeRight h p (some xx)) s0 (some p)) f3.id (some s0)) xx (Raw.node p) false false) s0 (Raw.node f3.id) false false) p (Raw.node s0) true false with hEdef
          have hW : ∀ j, j ≠ p → j ≠ s0 → j ≠ xx → j ≠ f3.id →
              E.mem j = h.mem j := by
            intro j h1 h2 h3 h4
            rw [hEdef]
            simp [setpf_mem, storeLeft_mem, storeRight_mem, h1, h2, h3, h4]
          have hm_p : E.mem p = ⟨Raw.node s0, true, false, sub.rootId, some xx⟩ := by
            rw [hEdef]
            simp [setpf_mem, storeLeft_mem, storeRight_mem, hps, hpx, hpf3, hpleft]
          have hm_s : E.mem s0 =
              ⟨Raw.node f3.id, false, false, some p, SR.rootId⟩ := by
            rw [hEdef]
            simp [setpf_mem, storeLeft_mem, storeRight_mem, hsp, hsx, hsf3,
              hsright, hs0flag]
          have hm_x : E.mem xx =
              ⟨Raw.node p, false, false, XL.rootId, XR.rootId⟩ := by
            rw [hEdef]
            simp [setpf_mem, storeLeft_mem, storeRight_mem, hxp, hxs, hxf3,
              hxxleft, hxxright]
          have hm_f3 : E.mem f3.id =
              ⟨upOf ctx3, f3.red, (upOf ctx3 == Raw.tree), some s0, f3.sib.rootId⟩ := by
            rw [hEdef]
            simp only [setpf_mem, if_neg hf3p, if_neg hf3s, if_neg hf3x,
              storeLeft_mem, storeRight_mem, if_pos rfl, if_true,
              eq_self_iff_true]
            cases hd : (h.mem f3.id) with
            | mk raw red rootFlag left right =>
                simp only [NodeData.mk.injEq]
                rw [hd] at hf3raw hf3flag hf3red hf3right
                exact ⟨hf3raw, hf3red, hf3flag, trivial, hf3right⟩
          have hsubrepr : reprAt E sub (Raw.node p) = true := by
            rw [reprAt_congr sub (Raw.node p) (fun j hj => hW j
              (fun he => hpsub (he ▸ hj)) (fun he => hssub (he ▸ hj))
              (fun he => hxsub (he ▸ hj))
              (fun he => hd4 (Or.inl (Or.inl (Or.inl hj))) (he ▸ hf3mem)))]
            exact hatsub
          have hXLrepr : reprAt E XL (Raw.node xx) = true := by
            rw [reprAt_congr XL (Raw.node xx) (fun j hj => hW j
              (fun he => hpXL (he ▸ hj)) (fun he => hsXL (he ▸ hj))
              (fun he => hxXL (he ▸ hj))
              (fun he => hd4 (Or.inl (Or.inl (Or.inr hj))) (he ▸ hf3mem)))]
            exact hatXL
          have hXRrepr : reprAt E XR (Raw.node xx) = true := by
            rw [reprAt_congr XR (Raw.node xx) (fun j hj => hW j
              (fun he => hpXR (he ▸ hj)) (fun he => hsXR (he ▸ hj))
              (fun he => hxXR (he ▸ hj))
              (fun he => hd4 (Or.inl (Or.inr hj)) (he ▸ hf3mem)))]
            exact hatXR
          have hSRrepr : reprAt E SR (Raw.node s0) = true := by
            rw [reprAt_congr SR (Raw.node s0) (fun j hj => hW j
              (fun he => hpSR (he ▸ hj)) (fun he => hsSR (he ▸ hj))
              (fun he => hxSR (he ▸ hj))
              (fun he => hd4 (Or.inr hj) (he ▸ hf3mem)))]
            exact hatSR
          have hsibrepr : reprAt E f3.sib (Raw.node f3.id) = true := by
            rw [reprAt_congr f3.sib (Raw.node f3.id) (fun j hj => hW j
              (fun he => hpc (by simp [ctxIds, he ▸ hj]))
              (fun he => hsc (by simp [ctxIds, he ▸ hj]))
              (fun he => hxc (by simp [ctxIds, he ▸ hj]))
              (fun he => hndctx.1 (List.mem_append.mpr (Or.inl (he ▸ hj)))))]
            exact hf3sib
          have hctxrepr : reprCtx E ctx3 (some f3.id) = true := by
            rw [reprCtx_congr ctx3 (some f3.id) (fun j hj => by
              have hjc : j ∈ ctxIds (f3 :: ctx3) := by simp [ctxIds, hj]
              exact hW j
                (fun he => hpc (he ▸ hjc))
                (fun he => hsc (he ▸ hjc))
                (fun he => hxc (he ▸ hjc))
                (fun he => hndctx.1 (List.mem_append.mpr (Or.inr (he ▸ hj)))))
              (by rw [hEdef]; simp [setpf_root, storeLeft_root, storeRight_root])]
            exact hctxR3
          have hpair := (repr_plug_iff E
            ((⟨false, true, p, CTree.node false XL xx XR⟩ : Frame) ::
              (⟨false, false, s0, SR⟩ : Frame) :: f3 :: ctx3) sub).mpr ⟨?_, ?_⟩
          · exact ⟨E, rfl, ⟨hpair.1, hpair.2, hndout⟩, hperm⟩
          · rw [reprCtx_cons_iff]
            refine ⟨by simp [hm_p, upOf], by simp [hm_p, upOf],
              by simp [hm_p, upOf], by simp [hm_p, upOf],
              by simp [hm_p, upOf, CTree.rootId], ?_, ?_⟩
            · rw [reprAt_node_iff]
              exact ⟨by simp [hm_x, upOf], by simp [hm_x, upOf],
                by simp [hm_x, upOf], by simp [hm_x, upOf],
                by simp [hm_x, upOf], hXLrepr, hXRrepr⟩
            · rw [reprCtx_cons_iff]
              refine ⟨by simp [hm_s, upOf], by simp [hm_s, upOf],
                by simp [hm_s, upOf], by simp [hm_s, upOf],
                by simp [hm_s, upOf], hSRrepr, ?_⟩
              rw [reprCtx_cons_iff]
              refine ⟨by simp [hm_f3], by simp [hm_f3], by simp [hm_f3],
                ?_, ?_, hsibrepr, hctxrepr⟩
              · rw [hf3d]
                simp [hm_f3, CTree.rootId]
              · rw [hf3d]
                simp [hm_f3, CTree.rootId]
          · exact hsubrepr
      | true =>
          rw [hf3d] at hf3left hf3right
          simp only [if_true] at hf3left hf3right
          have hneq : f3.sib.rootId ≠ some p := rootId_ne hpsib
          have hfe : c_rbnode_rebalance_case3_left h p s0 =
              some (c_rbnode_set_parent_and_flags (c_rbnode_set_parent_and_flags (c_rbnode_set_parent_and_flags (storeRight (storeLeft (storeRight h p (some xx)) s0 (some p)) f3.id (some s0)) xx (Raw.node p) false false) s0 (Raw.node f3.id) false false) p (Raw.node s0) true false, xx) := by
            simp [c_rbnode_rebalance_case3_left, c_rbnode_pop_root,
              c_rbnode_push_root, c_rbnode_is_red, c_rbnode_is_root,
              c_rbnode_swap_child, c_rbnode_parent, c_rbnode_raw, Raw.asNode,
              hpraw, hpflag, hpred, hsleft, rawOf,
              storeLeft_mem, storeRight_mem, setpf_mem, storeRoot_mem,
              hps, hsp, hpx, hxp, hsx, hxs, hxxflag, hs0flag,
              hf3p, hpf3, hf3s, hsf3, hf3x, hxf3, hf3left, hneq, upOf, hbf]
          rw [hfe]
          set E := c_rbnode_set_parent_and_flags (c_rbnode_set_parent_and_flags (c_rbnode_set_parent_and_flags (storeRight (storeLeft (storeRight h p (some xx)) s0 (some p)) f3.id (some s0)) xx (Raw.node p) false false) s0 (Raw.node f3.id) false false) p (Raw.node s0) true false with hEdef
          have hW : ∀ j, j ≠ p → j ≠ s0 → j ≠ xx → j ≠ f3.id →
              E.mem j = h.mem j := by
            intro j h1 h2 h3 h4
            rw [hEdef]
            simp [setpf_mem, storeLeft_mem, storeRight_mem, h1, h2, h3, h4]
          have hm_p : E.mem p = ⟨Raw.node s0, true, false, sub.rootId, some xx⟩ := by
            rw [hEdef]
            simp [setpf_mem, storeLeft_mem, storeRight_mem, hps, hpx, hpf3, hpleft]
          have hm_s : E.mem s0 =
              ⟨Raw.node f3.id, false, false, some p, SR.rootId⟩ := by
            rw [hEdef]
            simp [setpf_mem, storeLeft_mem, storeRight_mem, hsp, hsx, hsf3,
              hsright, hs0flag]
          have hm_x : E.mem xx =
              ⟨Raw.node p, false, false, XL.rootId, XR.rootId⟩ := by
            rw [hEdef]
            simp [setpf_mem, storeLeft_mem, storeRight_mem, hxp, hxs, hxf3,
              hxxleft, hxxright]
          have hm_f3 : E.mem f3.id =
              ⟨upOf ctx3, f3.red, (upOf ctx3 == Raw.tree), f3.sib.rootId, some s0⟩ := by
            rw [hEdef]
            simp only [setpf_mem, if_neg hf3p, if_neg hf3s, if_neg hf3x,
              storeLeft_mem, storeRight_mem, if_pos rfl, if_true,
              eq_self_iff_true]
            cases hd : (h.mem f3.id) with
            | mk raw red rootFlag left right =>
                simp only [NodeData.mk.injEq]
                rw [hd] at hf3raw hf3flag hf3red hf3left
                exact ⟨hf3raw, hf3red, hf3flag, hf3left, trivial⟩
          have hsubrepr : reprAt E sub (Raw.node p) = true := by
            rw [reprAt_congr sub (Raw.node p) (fun j hj => hW j
              (fun he => hpsub (he ▸ hj)) (fun he => hssub (he ▸ hj))
              (fun he => hxsub (he ▸ hj))
              (fun he => hd4 (Or.inl (Or.inl (Or.inl hj))) (he ▸ hf3mem)))]
            exact hatsub
          have hXLrepr : reprAt E XL (Raw.node xx) = true := by
            rw [reprAt_congr XL (Raw.node xx) (fun j hj => hW j
              (fun he => hpXL (he ▸ hj)) (fun he => hsXL (he ▸ hj))
              (fun he => hxXL (he ▸ hj))
              (fun he => hd4 (Or.inl (Or.inl (Or.inr hj))) (he ▸ hf3mem)))]
            exact hatXL
          have hXRrepr : reprAt E XR (Raw.node xx) = true := by
            rw [reprAt_congr XR (Raw.node xx) (fun j hj => hW j
              (fun he => hpXR (he ▸ hj)) (fun he => hsXR (he ▸ hj))
              (fun he => hxXR (he ▸ hj))
              (fun he => hd4 (Or.inl (Or.inr hj)) (he ▸ hf3mem)))]
            exact hatXR
          have hSRrepr : reprAt E SR (Raw.node s0) = true := by
            rw [reprAt_congr SR (Raw.node s0) (fun j hj => hW j
              (fun he => hpSR (he ▸ hj)) (fun he => hsSR (he ▸ hj))
              (fun he => hxSR (he ▸ hj))
              (fun he => hd4 (Or.inr hj) (he ▸ hf3mem)))]
            exact hatSR
          have hsibrepr : reprAt E f3.sib (Raw.node f3.id) = true := by
            rw [reprAt_congr f3.sib (Raw.node f3.id) (fun j hj => hW j
              (fun he => hpc (by simp [ctxIds, he ▸ hj]))
              (fun he => hsc (by simp [ctxIds, he ▸ hj]))
              (fun he => hxc (by simp [ctxIds, he ▸ hj]))
              (fun he => hndctx.1 (List.mem_append.mpr (Or.inl (he ▸ hj)))))]
            exact hf3sib
          have hctxrepr : reprCtx E ctx3 (some f3.id) = true := by
            rw [reprCtx_congr ctx3 (some f3.id) (fun j hj => by
              have hjc : j ∈ ctxIds (f3 :: ctx3) := by simp [ctxIds, hj]
              exact hW j
                (fun he => hpc (he ▸ hjc))
                (fun he => hsc (he ▸ hjc))
                (fun he => hxc (he ▸ hjc))
                (fun he => hndctx.1 (List.mem_append.mpr (Or.inr (he ▸ hj)))))
              (by rw [hEdef]; simp [setpf_root, storeLeft_root, storeRight_root])]
            exact hctxR3
          have hpair := (repr_plug_iff E
            ((⟨false, true, p, CTree.node false XL xx XR⟩ : Frame) ::
              (⟨false, false, s0, SR⟩ : Frame) :: f3 :: ctx3) sub).mpr ⟨?_, ?_⟩
          · exact ⟨E, rfl, ⟨hpair.1, hpair.2, hndout⟩, hperm⟩
          · rw [reprCtx_cons_iff]
            refine ⟨by simp [hm_p, upOf], by simp [hm_p, upOf],
              by simp [hm_p, upOf], by simp [hm_p, upOf],
              by simp [hm_p, upOf, CTree.rootId], ?_, ?_⟩
            · rw [reprAt_node_iff]
              exact ⟨by simp [hm_x, upOf], by simp [hm_x, upOf],
                by simp [hm_x, upOf], by simp [hm_x, upOf],
                by simp [hm_x, upOf], hXLrepr, hXRrepr⟩
            · rw [reprCtx_cons_iff]
              refine ⟨by simp [hm_s, upOf], by simp [hm_s, upOf],
                by simp [hm_s, upOf], by simp [hm_s, upOf],
                by simp [hm_s, upOf], hSRrepr, ?_⟩
              rw [reprCtx_cons_iff]
              refine ⟨by simp [hm_f3], by simp [hm_f3], by simp [hm_f3],
                ?_, ?_, hsibrepr, hctxrepr⟩
              · rw [hf3d]
                simp [hm_f3, CTree.rootId]
              · rw [hf3d]
                simp [hm_f3, CTree.rootId]
          · exact hsubrepr

/-- Representation-level interface to the left tail of one removal fixup
step: hypotheses are the stored-tree facts at the frame of `p` with black
sibling `s1`. -/
theorem rebalance_tail2_left (h : Heap) (ctx2 : List Frame) (sub SLn SRn : CTree)
    (p s1 : NodeId) (cp cl cr : Bool) (k n₀ : Nat)
    (hrep : reprTree h (plug ((⟨false, cp, p,
      CTree.node false SLn s1 SRn⟩ : Frame) :: ctx2) sub))
    (hsub : Bal sub false k) (hSLn : Bal SLn cl k) (hSRn : Bal SRn cr k)
    (hctx2T : cp = true → CtxBal false n₀ ctx2 true (k + 1))
    (hctx2F : cp = false → CtxBal false n₀ ctx2 false (k + 2)) :
    (∃ E t', c_rbnode_rebalance_tail_left h p s1 = some (E, none) ∧
       reprTree E t' ∧ Bal t' false n₀ ∧
       t'.ids.Perm (plug ((⟨false, cp, p,
         CTree.node false SLn s1 SRn⟩ : Frame) :: ctx2) sub).ids) ∨
    (∃ E sub', c_rbnode_rebalance_tail_left h p s1 = some (E, some p) ∧
       cp = false ∧ reprTree E (plug ctx2 sub') ∧ Bal sub' false (k + 1) ∧
       sub'.rootId = some p ∧
       (plug ctx2 sub').ids.Perm (plug ((⟨false, cp, p,
         CTree.node false SLn s1 SRn⟩ : Frame) :: ctx2) sub).ids) := by
  obtain ⟨hroot, hatp, hnd⟩ := hrep
  obtain ⟨hctxR, hatsub⟩ := (repr_plug_iff h _ sub).mp ⟨hroot, hatp⟩
  rw [reprCtx_cons_iff] at hctxR
  obtain ⟨hpraw, hpflag, hpred, hpleft, hpright, hfsib, hctxR2⟩ := hctxR
  simp only at hpraw hpflag hpred hpleft hpright hfsib hctxR2
  rw [reprAt_node_iff] at hfsib
  obtain ⟨hsraw, hsflag, hsred, hsleft, hsright, hatSL, hatSR⟩ := hfsib
  have hndflat : (p :: s1 :: (sub.ids ++ SLn.ids ++ SRn.ids ++
      ctxIds ctx2)).Nodup := by
    refine (List.Perm.nodup_iff ?_).mpr hnd
    refine List.Perm.trans ?_ (plug_ids_perm _ _).symm
    rw [← Multiset.coe_eq_coe]
    simp only [CTree.ids, ctxIds, List.cons_append, List.append_assoc,
      ← Multiset.cons_coe, ← Multiset.coe_add, ← Multiset.singleton_add]
    try abel
  have hpm : (p :: s1 :: (sub.ids ++ SLn.ids ++ SRn.ids ++ ctxIds ctx2)).Perm
      (plug ((⟨false, cp, p, CTree.node false SLn s1 SRn⟩ : Frame) ::
        ctx2) sub).ids := by
    refine List.Perm.trans ?_ (plug_ids_perm _ _).symm
    rw [← Multiset.coe_eq_coe]
    simp only [CTree.ids, ctxIds, List.cons_append, List.append_assoc,
      ← Multiset.cons_coe, ← Multiset.coe_add, ← Multiset.singleton_add]
    try abel
  rcases rebalance_tail_left_sim h ctx2 sub SLn SRn p s1 cp cl cr k n₀
    hpraw hpflag hpred (by simpa using hpleft) (by simpa [CTree.rootId] using hpright)
    hsraw (by rw [hsflag]; rfl) hsleft hsright hatsub hatSL hatSR hctxR2
    hsub hSLn hSRn hctx2T hctx2F hndflat with
    ⟨E, t', heq, hrt, hbal, hperm⟩ | ⟨E, sub', heq, hcp, hrt, hbal, hrootid, hperm⟩
  · exact Or.inl ⟨E, t', heq, hrt, hbal, hperm.trans hpm⟩
  · exact Or.inr ⟨E, sub', heq, hcp, hrt, hbal, hrootid, hperm.trans hpm⟩

/-- One step of the removal fixup at a deficient left child slot: the
deficient subtree (one black level short) either regains its level (loop
ends with a balanced stored tree) or the deficiency moves to the black
parent `p`. -/
theorem rebalance_one_left_sim (h : Heap) (ctx2 : List Frame) (sub S : CTree)
    (p : NodeId) (cp c : Bool) (k n₀ : Nat)
    (hrep : reprTree h (plug ((⟨false, cp, p, S⟩ : Frame) :: ctx2) sub))
    (hsub : Bal sub false k)
    (hctx : CtxBal false n₀ ((⟨false, cp, p, S⟩ : Frame) :: ctx2) c (k + 1)) :
    (∃ E t', c_rbnode_rebalance_one h p sub.rootId = some (E, none) ∧
       reprTree E t' ∧ Bal t' false n₀ ∧
       t'.ids.Perm (plug ((⟨false, cp, p, S⟩ : Frame) :: ctx2) sub).ids) ∨
    (∃ E sub', c_rbnode_rebalance_one h p sub.rootId = some (E, some p) ∧
       reprTree E (plug ctx2 sub') ∧ Bal sub' false (k + 1) ∧
       sub'.rootId = some p ∧ CtxBal false n₀ ctx2 false (k + 2) ∧
       (plug ctx2 sub').ids.Perm
         (plug ((⟨false, cp, p, S⟩ : Frame) :: ctx2) sub).ids) := by
  have hrep' := hrep
  obtain ⟨hroot, hatp, hnd⟩ := hrep'
  obtain ⟨hctxR, hatsub⟩ := (repr_plug_iff h _ sub).mp ⟨hroot, hatp⟩
  rw [reprCtx_cons_iff] at hctxR
  obtain ⟨hpraw, hpflag, hpred, hpleft, hpright, hfsib, hctxR2⟩ := hctxR
  simp only at hpraw hpflag hpred hpleft hpright hfsib hctxR2
  cases hctx with
  | red hSbal hctx2 =>
      cases hSs : S with
      | nil => rw [hSs] at hSbal; cases hSbal
      | node cS SL si SR =>
      subst hSs
      have hcS : cS = false := by
        have h1 := hSbal.isRedT
        simpa [CTree.isRedT] using h1
      subst hcS
      obtain ⟨hSL, hSR⟩ : (∃ cl, Bal SL cl k) ∧ (∃ cr, Bal SR cr k) := by
        cases hSbal with
        | black h1 h2 => exact ⟨⟨_, h1⟩, ⟨_, h2⟩⟩
      obtain ⟨cl, hSL⟩ := hSL
      obtain ⟨cr, hSR⟩ := hSR
      rw [reprAt_node_iff] at hfsib
      obtain ⟨hsraw, hsflag, hsred, hsleft, hsright, hatSL, hatSR⟩ := hfsib
      have hsired : c_rbnode_is_red h si = false := by
        simp [c_rbnode_is_red, hsred]
      have heval : c_rbnode_rebalance_one h p sub.rootId =
          c_rbnode_rebalance_tail_left h p si := by
        simp [c_rbnode_rebalance_one, hpleft, hpright, hsired, CTree.rootId]
      rcases rebalance_tail2_left h ctx2 sub SL SR p si true cl cr k n₀ hrep
        hsub hSL hSR (fun _ => hctx2) (fun hc => Bool.noConfusion hc) with
        ⟨E, t', heq, hrt, hbal, hperm⟩ | ⟨E, sub', heq, hcp, hrt, hbal, hri, hperm⟩
      · exact Or.inl ⟨E, t', by rw [heval]; exact heq, hrt, hbal, hperm⟩
      · exact absurd hcp (by decide)
  | black hSbal hctx2 =>
      rename_i cs
      cases hSs : S with
      | nil => rw [hSs] at hSbal; cases hSbal
      | node cS SL si SR =>
      subst hSs
      rw [reprAt_node_iff] at hfsib
      obtain ⟨hsraw, hsflag, hsred, hsleft, hsright, hatSL, hatSR⟩ := hfsib
      cases cS with
      | false =>
          obtain ⟨cl, cr, hSL, hSR⟩ : ∃ cl cr, Bal SL cl k ∧ Bal SR cr k := by
            cases hSbal with
            | black h1 h2 => exact ⟨_, _, h1, h2⟩
          have hsired : c_rbnode_is_red h si = false := by
            simp [c_rbnode_is_red, hsred]
          have heval : c_rbnode_rebalance_one h p sub.rootId =
              c_rbnode_rebalance_tail_left h p si := by
            simp [c_rbnode_rebalance_one, hpleft, hpright, hsired, CTree.rootId]
          rcases rebalance_tail2_left h ctx2 sub SL SR p si false cl cr k n₀ hrep
            hsub hSL hSR (fun hc => Bool.noConfusion hc) (fun _ => hctx2) with
            ⟨E, t', heq, hrt, hbal, hperm⟩ |
            ⟨E, sub', heq, hcp, hrt, hbal, hri, hperm⟩
          · exact Or.inl ⟨E, t', by rw [heval]; exact heq, hrt, hbal, hperm⟩
          · exact Or.inr ⟨E, sub', by rw [heval]; exact heq, hrt, hbal, hri,
              hctx2, hperm⟩
      | true =>
          obtain ⟨hSLb, hSRb⟩ : Bal SL false (k + 1) ∧ Bal SR false (k + 1) := by
            cases hSbal with
            | red h1 h2 => exact ⟨h1, h2⟩
          cases hSLs : SL with
          | nil => rw [hSLs] at hSLb; cases hSLb
          | node cSL XL xx XR =>
          subst hSLs
          obtain ⟨cl, cr, hXL, hXR⟩ : ∃ cl cr, Bal XL cl k ∧ Bal XR cr k := by
            cases hSLb with
            | black h1 h2 => exact ⟨_, _, h1, h2⟩
          have hcSL : cSL = false := by
            have h1 := hSLb.isRedT
            simpa [CTree.isRedT] using h1
          subst hcSL
          rw [reprAt_node_iff] at hatSL
          obtain ⟨hxraw, hxflag, hxred, hxleft, hxright, hatXL, hatXR⟩ := hatSL
          have hsired : c_rbnode_is_red h si = true := by
            simp [c_rbnode_is_red, hsred]
          have hndflat : (p :: si :: xx :: (sub.ids ++ XL.ids ++ XR.ids ++
              SR.ids ++ ctxIds ctx2)).Nodup := by
            refine (List.Perm.nodup_iff ?_).mpr hnd
            refine List.Perm.trans ?_ (plug_ids_perm _ _).symm
            rw [← Multiset.coe_eq_coe]
            simp only [CTree.ids, ctxIds, List.cons_append, List.append_assoc,
              ← Multiset.cons_coe, ← Multiset.coe_add, ← Multiset.singleton_add]
            try abel
          obtain ⟨E, heq3, hrepE, hpermE⟩ := rebalance_case3_left_sim h ctx2
            sub XL XR SR p si xx hpraw hpflag hpred (by simpa using hpleft)
            (by simpa [CTree.rootId] using hpright) (by rw [hsflag]; rfl)
            (by simpa [CTree.rootId] using hsleft) hsright
            (by rw [hxflag]; rfl) hxred hxleft hxright
            hatsub hatXL hatXR hatSR hctxR2 hndflat
          have heval : c_rbnode_rebalance_one h p sub.rootId =
              c_rbnode_rebalance_tail_left E p xx := by
            simp [c_rbnode_rebalance_one, hpleft, hpright, hsired, CTree.rootId,
              heq3]
          have hpm2 : (plug ((⟨false, true, p,
              CTree.node false XL xx XR⟩ : Frame) ::
              (⟨false, false, si, SR⟩ : Frame) :: ctx2) sub).ids.Perm
              (plug ((⟨false, false, p, CTree.node true
                (CTree.node false XL xx XR) si SR⟩ : Frame) :: ctx2) sub).ids := by
            refine hpermE.trans ?_
            refine List.Perm.trans ?_ (plug_ids_perm _ _).symm
            rw [← Multiset.coe_eq_coe]
            simp only [CTree.ids, ctxIds, List.cons_append, List.append_assoc,
              ← Multiset.cons_coe, ← Multiset.coe_add, ← Multiset.singleton_add]
            try abel
          rcases rebalance_tail2_left E (( ⟨false, false, si, SR⟩ : Frame) :: ctx2)
            sub XL XR p xx true cl cr k n₀ hrepE hsub hXL hXR
            (fun _ => CtxBal.black hSRb hctx2) (fun hc => Bool.noConfusion hc) with
            ⟨E2, t', heq, hrt, hbal, hperm⟩ |
            ⟨E2, sub', heq, hcp, hrt, hbal, hri, hperm⟩
          · exact Or.inl ⟨E2, t', by rw [heval]; exact heq, hrt, hbal,
              hperm.trans hpm2⟩
          · exact absurd hcp (by decide)

/-- Case 4 of the removal fixup, right orientation (mirror): with a black
sibling whose children are both black-effective, the sibling is recolored
red; a red parent absorbs the deficiency by turning black (done), a black
parent hands the deficiency one level up. -/
theorem rebalance_case4_right_sim (h : Heap) (ctx2 : List Frame)
    (sub SL SR : CTree) (p s1 : NodeId) (cp : Bool)
    (hpraw : (h.mem p).raw = upOf ctx2)
    (hpflag : (h.mem p).rootFlag = (upOf ctx2 == Raw.tree))
    (hpred : (h.mem p).red = cp)
    (hpleft : (h.mem p).left = some s1)
    (hpright : (h.mem p).right = sub.rootId)
    (hsraw : (h.mem s1).raw = Raw.node p)
    (hsflag : (h.mem s1).rootFlag = false)
    (hsleft : (h.mem s1).left = SL.rootId)
    (hsright : (h.mem s1).right = SR.rootId)
    (hatsub : reprAt h sub (Raw.node p) = true)
    (hatSL : reprAt h SL (Raw.node s1) = true)
    (hatSR : reprAt h SR (Raw.node s1) = true)
    (hctxR : reprCtx h ctx2 (some p) = true)
    (hfar : (h.mem s1).left = none ∨
      c_rbnode_is_black h (((h.mem s1).left).getD 0) = true)
    (hnear : (h.mem s1).right = none ∨
      c_rbnode_is_black h (((h.mem s1).right).getD 0) = true)
    (hredctx : cp = true → ctx2 ≠ [])
    (hnd : (p :: s1 :: (sub.ids ++ SL.ids ++ SR.ids ++ ctxIds ctx2)).Nodup) :
    ∃ E, c_rbnode_rebalance_tail_right h p s1 =
        some (E, if cp then none else some p) ∧
      reprTree E (plug ctx2 (CTree.node false (CTree.node true SL s1 SR) p
        sub)) ∧
      (plug ctx2 (CTree.node false (CTree.node true SL s1 SR) p sub)).ids.Perm
        (p :: s1 :: (sub.ids ++ SL.ids ++ SR.ids ++ ctxIds ctx2)) := by
  have hndF := hnd
  simp only [List.nodup_cons, List.mem_cons, List.mem_append, List.nodup_append,
    List.disjoint_left] at hndF
  obtain ⟨hp_no, hs_no, ⟨⟨hndsub, hndSL, hdis1⟩, hndSR, hdis2⟩,
    hndc2, hdis3⟩ := hndF
  push_neg at hp_no hs_no
  obtain ⟨hps, ⟨⟨hpsub, hpSL⟩, hpSR⟩, hpc⟩ := hp_no
  obtain ⟨⟨⟨hssub, hsSL⟩, hsSR⟩, hsc⟩ := hs_no
  have hsp : s1 ≠ p := hps.symm
  have hperm : (plug ctx2 (CTree.node false (CTree.node true SL s1 SR) p
      sub)).ids.Perm
      (p :: s1 :: (sub.ids ++ SL.ids ++ SR.ids ++ ctxIds ctx2)) := by
    refine (plug_ids_perm _ _).trans ?_
    rw [← Multiset.coe_eq_coe]
    simp only [CTree.ids, ctxIds, List.cons_append, List.append_assoc,
      ← Multiset.cons_coe, ← Multiset.coe_add, ← Multiset.singleton_add]
    try abel
  cases hcp : cp with
  | false =>
      set E := c_rbnode_set_parent_and_flags h s1 (Raw.node p) true false
        with hEdef
      have heval : c_rbnode_rebalance_tail_right h p s1 = some (E, some p) := by
        rw [hEdef]
        simp only [c_rbnode_rebalance_tail_right]
        rw [if_pos hfar, if_pos hnear, hsflag]
        have hpblack : c_rbnode_is_black
            (c_rbnode_set_parent_and_flags h s1 (Raw.node p) true false) p
              = true := by
          simp [c_rbnode_is_black, setpf_mem, hps, hpred, hcp]
        rw [if_pos hpblack]
      have hW : ∀ j, j ≠ s1 → E.mem j = h.mem j := by
        intro j h1
        rw [hEdef]
        simp [setpf_mem, h1]
      have hm_s : E.mem s1 = ⟨Raw.node p, true, false, SL.rootId, SR.rootId⟩ := by
        rw [hEdef]
        simp [setpf_mem, hsleft, hsright]
      have hsubrepr : reprAt E sub (Raw.node p) = true := by
        rw [reprAt_congr sub (Raw.node p) (fun j hj => hW j
          (fun he => hssub (he ▸ hj)))]
        exact hatsub
      have hSLrepr : reprAt E SL (Raw.node s1) = true := by
        rw [reprAt_congr SL (Raw.node s1) (fun j hj => hW j
          (fun he => hsSL (he ▸ hj)))]
        exact hatSL
      have hSRrepr : reprAt E SR (Raw.node s1) = true := by
        rw [reprAt_congr SR (Raw.node s1) (fun j hj => hW j
          (fun he => hsSR (he ▸ hj)))]
        exact hatSR
      have hctx4 : reprCtx E ctx2 (some p) = true := by
        rw [reprCtx_congr ctx2 (some p) (fun j hj => hW j
          (fun he => hsc (he ▸ hj))) (by rw [hEdef]; rfl)]
        exact hctxR
      have hpmem : E.mem p = h.mem p := hW p hps
      have hpair := (repr_plug_iff E ctx2 (CTree.node false (CTree.node true SL s1 SR) p
        sub)).mpr ⟨by simpa [CTree.rootId] using hctx4, ?_⟩
      · exact ⟨E, heval, ⟨hpair.1, hpair.2,
          (List.Perm.nodup_iff hperm).mpr hnd⟩, hperm⟩
      · rw [reprAt_node_iff]
        refine ⟨by rw [hpmem]; exact hpraw, by rw [hpmem]; exact hpflag,
          by rw [hpmem, hpred, hcp], by rw [hpmem, hpleft]; simp [CTree.rootId],
          by rw [hpmem]; exact hpright, ?_, hsubrepr⟩
        rw [reprAt_node_iff]
        exact ⟨by simp [hm_s], by simp [hm_s], by simp [hm_s],
          by simp [hm_s], by simp [hm_s], hSLrepr, hSRrepr⟩
  | true =>
      obtain ⟨f, ctx3, hctxe⟩ : ∃ f ctx3, ctx2 = f :: ctx3 := by
        cases ctx2 with
        | nil => exact absurd rfl (hredctx hcp)
        | cons f ctx3 => exact ⟨f, ctx3, rfl⟩
      subst hctxe
      have hup : upOf (f :: ctx3) = Raw.node f.id := rfl
      rw [hup] at hpraw hpflag
      have hpf : p ≠ f.id := fun he => hpc (he ▸ (by simp [ctxIds] :
        f.id ∈ ctxIds (f :: ctx3)))
      have hsf : s1 ≠ f.id := fun he => hsc (he ▸ (by simp [ctxIds] :
        f.id ∈ ctxIds (f :: ctx3)))
      set E := c_rbnode_set_parent_and_flags
        (c_rbnode_set_parent_and_flags h s1 (Raw.node p) true false)
        p (Raw.node f.id) false false with hEdef
      have heval : c_rbnode_rebalance_tail_right h p s1 = some (E, none) := by
        rw [hEdef]
        simp only [c_rbnode_rebalance_tail_right]
        rw [if_pos hfar, if_pos hnear, hsflag]
        have hpred2 : c_rbnode_is_black
            (c_rbnode_set_parent_and_flags h s1 (Raw.node p) true false) p
              = false := by
          simp [c_rbnode_is_black, setpf_mem, hps, hpred, hcp]
        rw [if_neg (by simp [hpred2])]
        have hbf : (Raw.node f.id == Raw.tree) = false := rfl
        simp [c_rbnode_parent, c_rbnode_raw, c_rbnode_is_root, setpf_mem,
          hps, hpraw, hpflag, Raw.asNode, rawOf, hbf]
      have hW : ∀ j, j ≠ s1 → j ≠ p → E.mem j = h.mem j := by
        intro j h1 h2
        rw [hEdef]
        simp [setpf_mem, h1, h2]
      have hm_s : E.mem s1 = ⟨Raw.node p, true, false, SL.rootId, SR.rootId⟩ := by
        rw [hEdef]
        simp [setpf_mem, hsp, hsleft, hsright]
      have hm_p : E.mem p = ⟨Raw.node f.id, false, false, some s1, sub.rootId⟩ := by
        rw [hEdef]
        simp [setpf_mem, hps, hpleft, hpright]
      have hsubrepr : reprAt E sub (Raw.node p) = true := by
        rw [reprAt_congr sub (Raw.node p) (fun j hj => hW j
          (fun he => hssub (he ▸ hj)) (fun he => hpsub (he ▸ hj)))]
        exact hatsub
      have hSLrepr : reprAt E SL (Raw.node s1) = true := by
        rw [reprAt_congr SL (Raw.node s1) (fun j hj => hW j
          (fun he => hsSL (he ▸ hj)) (fun he => hpSL (he ▸ hj)))]
        exact hatSL
      have hSRrepr : reprAt E SR (Raw.node s1) = true := by
        rw [reprAt_congr SR (Raw.node s1) (fun j hj => hW j
          (fun he => hsSR (he ▸ hj)) (fun he => hpSR (he ▸ hj)))]
        exact hatSR
      have hctx4 : reprCtx E (f :: ctx3) (some p) = true := by
        rw [reprCtx_congr (f :: ctx3) (some p) (fun j hj => hW j
          (fun he => hsc (he ▸ hj)) (fun he => hpc (he ▸ hj)))
          (by rw [hEdef]; rfl)]
        exact hctxR
      have hpair := (repr_plug_iff E (f :: ctx3) (CTree.node false (CTree.node true SL s1 SR) p
        sub)).mpr ⟨by simpa [CTree.rootId] using hctx4, ?_⟩
      · exact ⟨E, heval, ⟨hpair.1, hpair.2,
          (List.Perm.nodup_iff hperm).mpr hnd⟩, hperm⟩
      · rw [reprAt_node_iff, hup]
        refine ⟨by simp [hm_p], by simp [hm_p], by simp [hm_p],
          by simp [hm_p, CTree.rootId], by simp [hm_p], ?_, hsubrepr⟩
        rw [reprAt_node_iff]
        exact ⟨by simp [hm_s], by simp [hm_s], by simp [hm_s],
          by simp [hm_s], by simp [hm_s], hSLrepr, hSRrepr⟩


/-- Case 5 of the removal fixup, right orientation (mirror): the red near
nephew `sy` is rotated above the black sibling `s1`, then Case 6 completes
with `sy` as the new sibling and the old sibling `s1` as the (blackened)
far node; the deficiency is resolved and the loop ends. -/
theorem rebalance_case5_right_sim (h : Heap) (ctx2 : List Frame)
    (sub sll slr SR : CTree) (p s1 sy : NodeId) (cp cr : Bool) (k n₀ : Nat)
    (hpraw : (h.mem p).raw = upOf ctx2)
    (hpflag : (h.mem p).rootFlag = (upOf ctx2 == Raw.tree))
    (hpred : (h.mem p).red = cp)
    (hpleft : (h.mem p).left = some s1)
    (hpright : (h.mem p).right = sub.rootId)
    (hsflag : (h.mem s1).rootFlag = false)
    (hsleft : (h.mem s1).left = SR.rootId)
    (hsright : (h.mem s1).right = some sy)
    (hyleft : (h.mem sy).left = slr.rootId)
    (hyright : (h.mem sy).right = sll.rootId)
    (hatsub : reprAt h sub (Raw.node p) = true)
    (hatsll : reprAt h sll (Raw.node sy) = true)
    (hatslr : reprAt h slr (Raw.node sy) = true)
    (hatSR : reprAt h SR (Raw.node s1) = true)
    (hctxR : reprCtx h ctx2 (some p) = true)
    (hsub : Bal sub false k) (hsll : Bal sll false k) (hslr : Bal slr false k)
    (hSR : Bal SR cr k)
    (hctx2T : cp = true → CtxBal false n₀ ctx2 true (k + 1))
    (hctx2F : cp = false → CtxBal false n₀ ctx2 false (k + 2))
    (hnd : (p :: s1 :: sy :: (sub.ids ++ sll.ids ++ slr.ids ++ SR.ids ++
      ctxIds ctx2)).Nodup) :
    ∃ E t', c_rbnode_rebalance_case6_right
        (reparentBlack
          (storeLeft (storeLeft (storeRight h s1 slr.rootId) sy (some s1))
            p (some sy))
          slr.rootId s1) p s1 sy = some (E, none) ∧
      reprTree E t' ∧ Bal t' false n₀ ∧
      t'.ids.Perm (p :: s1 :: sy :: (sub.ids ++ sll.ids ++ slr.ids ++ SR.ids ++
        ctxIds ctx2)) := by
  have hndF := hnd
  simp only [List.nodup_cons, List.mem_cons, List.mem_append, List.nodup_append,
    List.disjoint_left] at hndF
  obtain ⟨hp_no, hs_no, hy_no,
    ⟨⟨⟨⟨hndsub, hndsll, hd1⟩, hndslr, hd2⟩, hndSR, hd3⟩, hndc2, hd4⟩⟩ := hndF
  push_neg at hp_no hs_no hy_no
  obtain ⟨hps, hpy, ⟨⟨⟨hpsub, hpsll⟩, hpslr⟩, hpSR⟩, hpc⟩ := hp_no
  obtain ⟨hsy, ⟨⟨⟨hssub, hssll⟩, hsslr⟩, hsSR⟩, hsc⟩ := hs_no
  obtain ⟨⟨⟨⟨hysub, hysll⟩, hyslr⟩, hySR⟩, hyc⟩ := hy_no
  have hsp : s1 ≠ p := hps.symm
  have hyp : sy ≠ p := hpy.symm
  have hys : sy ≠ s1 := hsy.symm
  set h5 := reparentBlack
    (storeLeft (storeLeft (storeRight h s1 slr.rootId) sy (some s1))
      p (some sy)) slr.rootId s1 with hh5
  have hW5 : ∀ j, j ≠ s1 → j ≠ sy → j ≠ p → j ∉ slr.ids →
      h5.mem j = h.mem j := by
    intro j h1 h2 h3 h4
    rw [hh5]
    simp [storeLeft_mem, storeRight_mem, reparentBlack_mem_notin h4, h1, h2, h3]
  have hm5_p : h5.mem p = { h.mem p with left := some sy } := by
    rw [hh5]
    simp [storeLeft_mem, storeRight_mem, reparentBlack_mem_notin hpslr,
      hps, hpy]
  have hm5_s1 : h5.mem s1 = { h.mem s1 with right := slr.rootId } := by
    rw [hh5]
    simp [storeLeft_mem, storeRight_mem, reparentBlack_mem_notin hsslr,
      hsy, hsp]
  have hm5_sy : h5.mem sy = { h.mem sy with left := some s1 } := by
    rw [hh5]
    simp [storeLeft_mem, storeRight_mem, reparentBlack_mem_notin hyslr,
      hys, hyp]
  have hat4slr : reprAt (storeLeft (storeLeft (storeRight h s1 slr.rootId)
      sy (some s1)) p (some sy)) slr (Raw.node sy) = true := by
    have hmem : ∀ j ∈ slr.ids,
        (storeLeft (storeLeft (storeRight h s1 slr.rootId) sy (some s1))
          p (some sy)).mem j = h.mem j := by
      intro j hj
      have h1 : j ≠ s1 := fun he => hsslr (he ▸ hj)
      have h2 : j ≠ sy := fun he => hyslr (he ▸ hj)
      have h3 : j ≠ p := fun he => hpslr (he ▸ hj)
      simp [storeLeft_mem, storeRight_mem, h1, h2, h3]
    rw [reprAt_congr slr (Raw.node sy) hmem]
    exact hatslr
  have hatXL5 : reprAt h5 slr (Raw.node s1) = true := by
    rw [hh5]
    exact reprAt_reparentBlack hat4slr hslr.isRedT (by simp) hndslr
  have hatsub5 : reprAt h5 sub (Raw.node p) = true := by
    rw [reprAt_congr sub (Raw.node p) (fun j hj => hW5 j
      (fun he => hssub (he ▸ hj)) (fun he => hysub (he ▸ hj))
      (fun he => hpsub (he ▸ hj)) (fun hm => hd2 (Or.inl hj) hm))]
    exact hatsub
  have hatY5 : reprAt h5 sll (Raw.node sy) = true := by
    rw [reprAt_congr sll (Raw.node sy) (fun j hj => hW5 j
      (fun he => hssll (he ▸ hj)) (fun he => hysll (he ▸ hj))
      (fun he => hpsll (he ▸ hj)) (fun hm => hd2 (Or.inr hj) hm))]
    exact hatsll
  have hatXR5 : reprAt h5 SR (Raw.node s1) = true := by
    rw [reprAt_congr SR (Raw.node s1) (fun j hj => hW5 j
      (fun he => hsSR (he ▸ hj)) (fun he => hySR (he ▸ hj))
      (fun he => hpSR (he ▸ hj)) (fun hm => hd3 (Or.inr hm) hj))]
    exact hatSR
  have hctxR5 : reprCtx h5 ctx2 (some p) = true := by
    rw [reprCtx_congr ctx2 (some p) (fun j hj => hW5 j
      (fun he => hsc (he ▸ hj)) (fun he => hyc (he ▸ hj))
      (fun he => hpc (he ▸ hj)) (fun hm => hd4 (Or.inl (Or.inr hm)) hj))
      (by rw [hh5]; simp [storeLeft_root, storeRight_root, reparentBlack_root])]
    exact hctxR
  have hnd6 : (p :: sy :: s1 :: (sub.ids ++ sll.ids ++ SR.ids ++ slr.ids ++
      ctxIds ctx2)).Nodup := by
    refine (List.Perm.nodup_iff ?_).mpr hnd
    rw [← Multiset.coe_eq_coe]
    simp only [List.cons_append, List.append_assoc, ← Multiset.cons_coe,
      ← Multiset.coe_add, ← Multiset.singleton_add]
    try abel
  obtain ⟨E, heq, hrt, hperm⟩ := rebalance_case6_right_sim h5 ctx2 sub sll SR slr
    p sy s1 cp
    (by simp [hm5_p, hpraw]) (by simp [hm5_p, hpflag]) (by simp [hm5_p, hpred])
    (by simp [hm5_p]) (by simp [hm5_p, hpright])
    (by simp [hm5_sy]) (by simp [hm5_sy, hyright])
    (by simp [hm5_s1, hsflag]) (by simp [hm5_s1, hsleft]) (by simp [hm5_s1])
    hatsub5 hatY5 hatXR5 hatXL5 hctxR5 hnd6
  refine ⟨E, _, heq, hrt, ?_, ?_⟩
  · cases hcp : cp with
    | true =>
        exact bal_plug (hctx2T hcp) (hcp ▸ Bal.red (Bal.black hSR hslr)
          (Bal.black hsll hsub))
    | false =>
        exact bal_plug (hctx2F hcp) (hcp ▸ Bal.black (Bal.black hSR hslr)
          (Bal.black hsll hsub))
  · refine hperm.trans ?_
    rw [← Multiset.coe_eq_coe]
    simp only [List.cons_append, List.append_assoc, ← Multiset.cons_coe,
      ← Multiset.coe_add, ← Multiset.singleton_add]
    try abel


/-- The black-sibling tail of one removal-fixup step, right orientation
(mirror; Cases 4, 5, 6): the deficient right subtree of `p` either gets its black
level back (loop ends) or the deficiency moves to `p` itself (black `p`
handed up). -/
theorem rebalance_tail_right_sim (h : Heap) (ctx2 : List Frame)
    (sub SL SR : CTree) (p s1 : NodeId) (cp cl cr : Bool) (k n₀ : Nat)
    (hpraw : (h.mem p).raw = upOf ctx2)
    (hpflag : (h.mem p).rootFlag = (upOf ctx2 == Raw.tree))
    (hpred : (h.mem p).red = cp)
    (hpleft : (h.mem p).left = some s1)
    (hpright : (h.mem p).right = sub.rootId)
    (hsraw : (h.mem s1).raw = Raw.node p)
    (hsflag : (h.mem s1).rootFlag = false)
    (hsright : (h.mem s1).right = SL.rootId)
    (hsleft : (h.mem s1).left = SR.rootId)
    (hatsub : reprAt h sub (Raw.node p) = true)
    (hatSL : reprAt h SL (Raw.node s1) = true)
    (hatSR : reprAt h SR (Raw.node s1) = true)
    (hctxR : reprCtx h ctx2 (some p) = true)
    (hsub : Bal sub false k) (hSL : Bal SL cl k) (hSR : Bal SR cr k)
    (hctx2T : cp = true → CtxBal false n₀ ctx2 true (k + 1))
    (hctx2F : cp = false → CtxBal false n₀ ctx2 false (k + 2))
    (hnd : (p :: s1 :: (sub.ids ++ SL.ids ++ SR.ids ++ ctxIds ctx2)).Nodup) :
    (∃ E t', c_rbnode_rebalance_tail_right h p s1 = some (E, none) ∧
       reprTree E t' ∧ Bal t' false n₀ ∧
       t'.ids.Perm (p :: s1 :: (sub.ids ++ SL.ids ++ SR.ids ++ ctxIds ctx2))) ∨
    (∃ E sub', c_rbnode_rebalance_tail_right h p s1 = some (E, some p) ∧
       cp = false ∧ reprTree E (plug ctx2 sub') ∧ Bal sub' false (k + 1) ∧
       sub'.rootId = some p ∧
       (plug ctx2 sub').ids.Perm
         (p :: s1 :: (sub.ids ++ SL.ids ++ SR.ids ++ ctxIds ctx2))) := by
  have hredctx : cp = true → ctx2 ≠ [] := by
    intro hc hce
    subst hce
    cases hctx2T hc
  cases hSRc : SR with
  | node src srl sx srr =>
      subst hSRc
      rw [reprAt_node_iff] at hatSR
      obtain ⟨hxraw, hxflag, hxred, hxleft, hxright, hatsrl, hatsrr⟩ := hatSR
      cases src with
      | true =>
          left
          obtain ⟨hsrl, hsrr⟩ : Bal srl false k ∧ Bal srr false k := by
            cases hSR with
            | red h1 h2 => exact ⟨h1, h2⟩
          have hxblack : c_rbnode_is_black h sx = false := by
            simp [c_rbnode_is_black, hxred]
          have heval : c_rbnode_rebalance_tail_right h p s1 =
              c_rbnode_rebalance_case6_right h p sx s1 := by
            simp [c_rbnode_rebalance_tail_right, hsleft, hxblack, CTree.rootId]
          have hnd6 : (p :: s1 :: sx :: (sub.ids ++ SL.ids ++ srl.ids ++
              srr.ids ++ ctxIds ctx2)).Nodup := by
            refine (List.Perm.nodup_iff ?_).mpr hnd
            rw [← Multiset.coe_eq_coe]
            simp only [CTree.ids, List.cons_append, List.append_assoc,
              ← Multiset.cons_coe, ← Multiset.coe_add, ← Multiset.singleton_add]
            try abel
          obtain ⟨E, heq, hrt, hperm⟩ := rebalance_case6_right_sim h ctx2 sub SL
            srl srr p s1 sx cp hpraw hpflag hpred hpleft hpright
            (by simpa [CTree.rootId] using hsleft) hsright
            (by rw [hxflag]; rfl) hxleft hxright hatsub hatSL hatsrl hatsrr
            hctxR hnd6
          refine ⟨E, _, by rw [heval]; exact heq, hrt, ?_, ?_⟩
          · cases hcp : cp with
            | true =>
                exact bal_plug (hctx2T hcp) (hcp ▸ Bal.red (Bal.black hsrl hsrr)
                  (Bal.black hSL hsub))
            | false =>
                exact bal_plug (hctx2F hcp) (hcp ▸ Bal.black (Bal.black hsrl hsrr)
                  (Bal.black hSL hsub))
          · refine hperm.trans ?_
            rw [← Multiset.coe_eq_coe]
            simp only [CTree.ids, List.cons_append, List.append_assoc,
              ← Multiset.cons_coe, ← Multiset.coe_add, ← Multiset.singleton_add]
            try abel
      | false =>
          cases hSLc : SL with
          | node slc sll sy slr =>
              subst hSLc
              rw [reprAt_node_iff] at hatSL
              obtain ⟨hyraw, hyflag, hyred, hyleft, hyright, hatsll, hatslr⟩ :=
                hatSL
              cases slc with
              | true =>
                  have hxblack : c_rbnode_is_black h sx = true := by
                    simp [c_rbnode_is_black, hxred]
                  left
                  obtain ⟨hsll, hslr⟩ : Bal sll false k ∧ Bal slr false k := by
                    cases hSL with
                    | red h1 h2 => exact ⟨h1, h2⟩
                  have hyblack : c_rbnode_is_black h sy = false := by
                    simp [c_rbnode_is_black, hyred]
                  have heval : c_rbnode_rebalance_tail_right h p s1 =
                      c_rbnode_rebalance_case6_right
                        (reparentBlack
                          (storeLeft (storeLeft (storeRight h s1 sll.rootId)
                            sy (some s1)) p (some sy))
                          sll.rootId s1) p s1 sy := by
                    simp [c_rbnode_rebalance_tail_right, hsleft, hsright, CTree.rootId,
                      hxblack, hyblack, hyleft]
                  have hnd5 : (p :: s1 :: sy :: (sub.ids ++ slr.ids ++ sll.ids ++
                      (CTree.node false srl sx srr).ids ++ ctxIds ctx2)).Nodup := by
                    refine (List.Perm.nodup_iff ?_).mpr hnd
                    rw [← Multiset.coe_eq_coe]
                    simp only [CTree.ids, List.cons_append, List.append_assoc,
                      ← Multiset.cons_coe, ← Multiset.coe_add,
                      ← Multiset.singleton_add]
                    try abel
                  obtain ⟨E, t', heq, hrt, hbal, hperm⟩ := rebalance_case5_right_sim
                    h ctx2 sub slr sll (CTree.node false srl sx srr) p s1 sy cp cr k n₀
                    hpraw hpflag hpred hpleft hpright hsflag
                    hsleft (by simpa [CTree.rootId] using hsright) hyleft hyright
                    hatsub hatslr hatsll (by rw [reprAt_node_iff]; exact ⟨hxraw, hxflag, hxred, hxleft, hxright, hatsrl, hatsrr⟩) hctxR hsub hslr hsll hSR
                    hctx2T hctx2F hnd5
                  refine ⟨E, t', by rw [heval]; exact heq, hrt, hbal, ?_⟩
                  refine hperm.trans ?_
                  rw [← Multiset.coe_eq_coe]
                  simp only [CTree.ids, List.cons_append, List.append_assoc,
                    ← Multiset.cons_coe, ← Multiset.coe_add, ← Multiset.singleton_add]
                  try abel
              | false =>
                  have hfar : (h.mem s1).left = none ∨
                      c_rbnode_is_black h (((h.mem s1).left).getD 0) = true := Or.inr (by simp [hsleft, CTree.rootId, c_rbnode_is_black, hxred])
                  have hnear : (h.mem s1).right = none ∨
                      c_rbnode_is_black h (((h.mem s1).right).getD 0) = true := Or.inr (by simp [hsright, CTree.rootId, c_rbnode_is_black, hyred])
                  have hSLb : Bal (CTree.node false sll sy slr) false k := (by cases hSL with
                    | black h1 h2 => exact Bal.black h1 h2)
                  have hSRb : Bal (CTree.node false srl sx srr) false k := (by cases hSR with
                    | black h1 h2 => exact Bal.black h1 h2)
                  have hnd4 : (p :: s1 :: (sub.ids ++ (CTree.node false srl sx srr).ids ++ (CTree.node false sll sy slr).ids ++
                      ctxIds ctx2)).Nodup := by
                    refine (List.Perm.nodup_iff ?_).mpr hnd
                    rw [← Multiset.coe_eq_coe]
                    simp only [CTree.ids, List.cons_append, List.append_assoc,
                      ← Multiset.cons_coe, ← Multiset.coe_add, ← Multiset.singleton_add]
                    try abel
                  have hpm4 : (p :: s1 :: (sub.ids ++ (CTree.node false srl sx srr).ids ++ (CTree.node false sll sy slr).ids ++
                      ctxIds ctx2)).Perm (p :: s1 :: (sub.ids ++ (CTree.node false sll sy slr).ids ++ (CTree.node false srl sx srr).ids ++
                      ctxIds ctx2)) := by
                    rw [← Multiset.coe_eq_coe]
                    simp only [CTree.ids, List.cons_append, List.append_assoc,
                      ← Multiset.cons_coe, ← Multiset.coe_add, ← Multiset.singleton_add]
                    try abel
                  obtain ⟨E, heval, hrt, hperm⟩ := rebalance_case4_right_sim h ctx2 sub
                    (CTree.node false srl sx srr) (CTree.node false sll sy slr) p s1 cp hpraw hpflag hpred hpleft hpright hsraw hsflag
                    hsleft hsright hatsub (by rw [reprAt_node_iff]; exact ⟨hxraw, hxflag, hxred, hxleft, hxright, hatsrl, hatsrr⟩) (by rw [reprAt_node_iff]; exact ⟨hyraw, hyflag, hyred, hyleft, hyright, hatsll, hatslr⟩) hctxR hfar hnear hredctx hnd4
                  cases hcp : cp with
                  | true =>
                      left
                      rw [hcp] at heval
                      simp only [if_true] at heval
                      exact ⟨E, _, heval, hrt,
                        bal_plug_black (hctx2T hcp) (Bal.black (Bal.red hSRb hSLb) hsub), hperm.trans hpm4⟩
                  | false =>
                      right
                      rw [hcp] at heval
                      simp only [Bool.false_eq_true, if_false] at heval
                      exact ⟨E, _, heval, rfl, hrt, Bal.black (Bal.red hSRb hSLb) hsub,
                        by simp [CTree.rootId], hperm.trans hpm4⟩
          | nil =>
              subst hSLc
              have hfar : (h.mem s1).left = none ∨
                  c_rbnode_is_black h (((h.mem s1).left).getD 0) = true := Or.inr (by simp [hsleft, CTree.rootId, c_rbnode_is_black, hxred])
              have hnear : (h.mem s1).right = none ∨
                  c_rbnode_is_black h (((h.mem s1).right).getD 0) = true := Or.inl (by simpa [CTree.rootId] using hsright)
              have hSLb : Bal CTree.nil false k := (by cases hSL with
                | nil => exact Bal.nil)
              have hSRb : Bal (CTree.node false srl sx srr) false k := (by cases hSR with
                | black h1 h2 => exact Bal.black h1 h2)
              have hnd4 : (p :: s1 :: (sub.ids ++ (CTree.node false srl sx srr).ids ++ CTree.nil.ids ++
                  ctxIds ctx2)).Nodup := by
                refine (List.Perm.nodup_iff ?_).mpr hnd
                rw [← Multiset.coe_eq_coe]
                simp only [CTree.ids, List.cons_append, List.append_assoc,
                  ← Multiset.cons_coe, ← Multiset.coe_add, ← Multiset.singleton_add]
                try abel
              have hpm4 : (p :: s1 :: (sub.ids ++ (CTree.node false srl sx srr).ids ++ CTree.nil.ids ++
                  ctxIds ctx2)).Perm (p :: s1 :: (sub.ids ++ CTree.nil.ids ++ (CTree.node false srl sx srr).ids ++
                  ctxIds ctx2)) := by
                rw [← Multiset.coe_eq_coe]
                simp only [CTree.ids, List.cons_append, List.append_assoc,
                  ← Multiset.cons_coe, ← Multiset.coe_add, ← Multiset.singleton_add]
                try abel
              obtain ⟨E, heval, hrt, hperm⟩ := rebalance_case4_right_sim h ctx2 sub
                (CTree.node false srl sx srr) CTree.nil p s1 cp hpraw hpflag hpred hpleft hpright hsraw hsflag
                hsleft hsright hatsub (by rw [reprAt_node_iff]; exact ⟨hxraw, hxflag, hxred, hxleft, hxright, hatsrl, hatsrr⟩) rfl hctxR hfar hnear hredctx hnd4
              cases hcp : cp with
              | true =>
                  left
                  rw [hcp] at heval
                  simp only [if_true] at heval
                  exact ⟨E, _, heval, hrt,
                    bal_plug_black (hctx2T hcp) (Bal.black (Bal.red hSRb hSLb) hsub), hperm.trans hpm4⟩
              | false =>
                  right
                  rw [hcp] at heval
                  simp only [Bool.false_eq_true, if_false] at heval
                  exact ⟨E, _, heval, rfl, hrt, Bal.black (Bal.red hSRb hSLb) hsub,
                    by simp [CTree.rootId], hperm.trans hpm4⟩
  | nil =>
      subst hSRc
      cases hSLc : SL with
      | node slc sll sy slr =>
          subst hSLc
          rw [reprAt_node_iff] at hatSL
          obtain ⟨hyraw, hyflag, hyred, hyleft, hyright, hatsll, hatslr⟩ := hatSL
          cases slc with
          | true =>
              left
              obtain ⟨hsll, hslr⟩ : Bal sll false k ∧ Bal slr false k := by
                cases hSL with
                | red h1 h2 => exact ⟨h1, h2⟩
              have hyblack : c_rbnode_is_black h sy = false := by
                simp [c_rbnode_is_black, hyred]
              have heval : c_rbnode_rebalance_tail_right h p s1 =
                  c_rbnode_rebalance_case6_right
                    (reparentBlack
                      (storeLeft (storeLeft (storeRight h s1 sll.rootId)
                        sy (some s1)) p (some sy))
                      sll.rootId s1) p s1 sy := by
                simp [c_rbnode_rebalance_tail_right, hsleft, hsright, CTree.rootId,
                  CTree.rootId, hyblack, hyleft]
              have hnd5 : (p :: s1 :: sy :: (sub.ids ++ slr.ids ++ sll.ids ++
                  CTree.nil.ids ++ ctxIds ctx2)).Nodup := by
                refine (List.Perm.nodup_iff ?_).mpr hnd
                rw [← Multiset.coe_eq_coe]
                simp only [CTree.ids, List.cons_append, List.append_assoc,
                  ← Multiset.cons_coe, ← Multiset.coe_add,
                  ← Multiset.singleton_add]
                try abel
              obtain ⟨E, t', heq, hrt, hbal, hperm⟩ := rebalance_case5_right_sim
                h ctx2 sub slr sll CTree.nil p s1 sy cp cr k n₀
                hpraw hpflag hpred hpleft hpright hsflag
                hsleft (by simpa [CTree.rootId] using hsright) hyleft hyright
                hatsub hatslr hatsll rfl hctxR hsub hslr hsll hSR
                hctx2T hctx2F hnd5
              refine ⟨E, t', by rw [heval]; exact heq, hrt, hbal, ?_⟩
              refine hperm.trans ?_
              rw [← Multiset.coe_eq_coe]
              simp only [CTree.ids, List.cons_append, List.append_assoc,
                ← Multiset.cons_coe, ← Multiset.coe_add, ← Multiset.singleton_add]
              try abel
          | false =>
              have hfar : (h.mem s1).left = none ∨
                  c_rbnode_is_black h (((h.mem s1).left).getD 0) = true := Or.inl (by simpa [CTree.rootId] using hsleft)
              have hnear : (h.mem s1).right = none ∨
                  c_rbnode_is_black h (((h.mem s1).right).getD 0) = true := Or.inr (by simp [hsright, CTree.rootId, c_rbnode_is_black, hyred])
              have hSLb : Bal (CTree.node false sll sy slr) false k := (by cases hSL with
                | black h1 h2 => exact Bal.black h1 h2)
              have hSRb : Bal CTree.nil false k := (by cases hSR with
                | nil => exact Bal.nil)
              have hnd4 : (p :: s1 :: (sub.ids ++ CTree.nil.ids ++ (CTree.node false sll sy slr).ids ++
                  ctxIds ctx2)).Nodup := by
                refine (List.Perm.nodup_iff ?_).mpr hnd
                rw [← Multiset.coe_eq_coe]
                simp only [CTree.ids, List.cons_append, List.append_assoc,
                  ← Multiset.cons_coe, ← Multiset.coe_add, ← Multiset.singleton_add]
                try abel
              have hpm4 : (p :: s1 :: (sub.ids ++ CTree.nil.ids ++ (CTree.node false sll sy slr).ids ++
                  ctxIds ctx2)).Perm (p :: s1 :: (sub.ids ++ (CTree.node false sll sy slr).ids ++ CTree.nil.ids ++
                  ctxIds ctx2)) := by
                rw [← Multiset.coe_eq_coe]
                simp only [CTree.ids, List.cons_append, List.append_assoc,
                  ← Multiset.cons_coe, ← Multiset.coe_add, ← Multiset.singleton_add]
                try abel
              obtain ⟨E, heval, hrt, hperm⟩ := rebalance_case4_right_sim h ctx2 sub
                CTree.nil (CTree.node false sll sy slr) p s1 cp hpraw hpflag hpred hpleft hpright hsraw hsflag
                hsleft hsright hatsub rfl (by rw [reprAt_node_iff]; exact ⟨hyraw, hyflag, hyred, hyleft, hyright, hatsll, hatslr⟩) hctxR hfar hnear hredctx hnd4
              cases hcp : cp with
              | true =>
                  left
                  rw [hcp] at heval
                  simp only [if_true] at heval
                  exact ⟨E, _, heval, hrt,
                    bal_plug_black (hctx2T hcp) (Bal.black (Bal.red hSRb hSLb) hsub), hperm.trans hpm4⟩
              | false =>
                  right
                  rw [hcp] at heval
                  simp only [Bool.false_eq_true, if_false] at heval
                  exact ⟨E, _, heval, rfl, hrt, Bal.black (Bal.red hSRb hSLb) hsub,
                    by simp [CTree.rootId], hperm.trans hpm4⟩
      | nil =>
          subst hSLc
          have hfar : (h.mem s1).left = none ∨
              c_rbnode_is_black h (((h.mem s1).left).getD 0) = true := Or.inl (by simpa [CTree.rootId] using hsleft)
          have hnear : (h.mem s1).right = none ∨
              c_rbnode_is_black h (((h.mem s1).right).getD 0) = true := Or.inl (by simpa [CTree.rootId] using hsright)
          have hSLb : Bal CTree.nil false k := (by cases hSL with
            | nil => exact Bal.nil)
          have hSRb : Bal CTree.nil false k := (by cases hSR with
            | nil => exact Bal.nil)
          have hnd4 : (p :: s1 :: (sub.ids ++ CTree.nil.ids ++ CTree.nil.ids ++
              ctxIds ctx2)).Nodup := hnd
          have hpm4 : (p :: s1 :: (sub.ids ++ CTree.nil.ids ++ CTree.nil.ids ++
              ctxIds ctx2)).Perm (p :: s1 :: (sub.ids ++ CTree.nil.ids ++ CTree.nil.ids ++
              ctxIds ctx2)) := List.Perm.refl _
          obtain ⟨E, heval, hrt, hperm⟩ := rebalance_case4_right_sim h ctx2 sub
            CTree.nil CTree.nil p s1 cp hpraw hpflag hpred hpleft hpright hsraw hsflag
            hsleft hsright hatsub rfl rfl hctxR hfar hnear hredctx hnd4
          cases hcp : cp with
          | true =>
              left
              rw [hcp] at heval
              simp only [if_true] at heval
              exact ⟨E, _, heval, hrt,
                bal_plug_black (hctx2T hcp) (Bal.black (Bal.red hSRb hSLb) hsub), hperm.trans hpm4⟩
          | false =>
              right
              rw [hcp] at heval
              simp only [Bool.false_eq_true, if_false] at heval
              exact ⟨E, _, heval, rfl, hrt, Bal.black (Bal.red hSRb hSLb) hsub,
                by simp [CTree.rootId], hperm.trans hpm4⟩


/-- Case 3 of the removal fixup, right orientation (mirror): the red
sibling `s0` is rotated above the black parent `p` and recolored black,
`p` turns red; the deficient slot keeps its position below `p`, now with
the black near nephew `xx` as its new sibling. -/
theorem rebalance_case3_right_sim (h : Heap) (ctx2 : List Frame)
    (sub XL XR SR : CTree) (p s0 xx : NodeId)
    (hpraw : (h.mem p).raw = upOf ctx2)
    (hpflag : (h.mem p).rootFlag = (upOf ctx2 == Raw.tree))
    (hpred : (h.mem p).red = false)
    (hpleft : (h.mem p).left = some s0)
    (hpright : (h.mem p).right = sub.rootId)
    (hs0flag : (h.mem s0).rootFlag = false)
    (hsleft : (h.mem s0).left = SR.rootId)
    (hsright : (h.mem s0).right = some xx)
    (hxxflag : (h.mem xx).rootFlag = false)
    (hxxred : (h.mem xx).red = false)
    (hxxleft : (h.mem xx).left = XL.rootId)
    (hxxright : (h.mem xx).right = XR.rootId)
    (hatsub : reprAt h sub (Raw.node p) = true)
    (hatXL : reprAt h XL (Raw.node xx) = true)
    (hatXR : reprAt h XR (Raw.node xx) = true)
    (hatSR : reprAt h SR (Raw.node s0) = true)
    (hctxR : reprCtx h ctx2 (some p) = true)
    (hnd : (p :: s0 :: xx :: (sub.ids ++ XL.ids ++ XR.ids ++ SR.ids ++
      ctxIds ctx2)).Nodup) :
    ∃ E, c_rbnode_rebalance_case3_right h p s0 = some (E, xx) ∧
      reprTree E (plug ((⟨true, true, p, CTree.node false XL xx XR⟩ : Frame) ::
        (⟨true, false, s0, SR⟩ : Frame) :: ctx2) sub) ∧
      (plug ((⟨true, true, p, CTree.node false XL xx XR⟩ : Frame) ::
        (⟨true, false, s0, SR⟩ : Frame) :: ctx2) sub).ids.Perm
        (p :: s0 :: xx :: (sub.ids ++ XL.ids ++ XR.ids ++ SR.ids ++
          ctxIds ctx2)) := by
  have hndF := hnd
  simp only [List.nodup_cons, List.mem_cons, List.mem_append, List.nodup_append,
    List.disjoint_left] at hndF
  obtain ⟨hp_no, hs_no, hx_no,
    ⟨⟨⟨⟨hndsub, hndXL, hd1⟩, hndXR, hd2⟩, hndSR, hd3⟩, hndc2, hd4⟩⟩ := hndF
  push_neg at hp_no hs_no hx_no
  obtain ⟨hps, hpx, ⟨⟨⟨hpsub, hpXL⟩, hpXR⟩, hpSR⟩, hpc⟩ := hp_no
  obtain ⟨hsx, ⟨⟨⟨hssub, hsXL⟩, hsXR⟩, hsSR⟩, hsc⟩ := hs_no
  obtain ⟨⟨⟨⟨hxsub, hxXL⟩, hxXR⟩, hxSR⟩, hxc⟩ := hx_no
  have hsp : s0 ≠ p := hps.symm
  have hxp : xx ≠ p := hpx.symm
  have hxs : xx ≠ s0 := hsx.symm
  have hperm : (plug ((⟨true, true, p, CTree.node false XL xx XR⟩ : Frame) ::
      (⟨true, false, s0, SR⟩ : Frame) :: ctx2) sub).ids.Perm
      (p :: s0 :: xx :: (sub.ids ++ XL.ids ++ XR.ids ++ SR.ids ++
        ctxIds ctx2)) := by
    refine (plug_ids_perm _ _).trans ?_
    rw [← Multiset.coe_eq_coe]
    simp only [CTree.ids, ctxIds, List.cons_append, List.append_assoc,
      ← Multiset.cons_coe, ← Multiset.coe_add, ← Multiset.singleton_add]
    try abel
  have hndout : (plug ((⟨true, true, p, CTree.node false XL xx XR⟩ : Frame) ::
      (⟨true, false, s0, SR⟩ : Frame) :: ctx2) sub).ids.Nodup :=
    (List.Perm.nodup_iff hperm).mpr hnd
  cases ctx2 with
  | nil =>
      have hup : upOf ([] : List Frame) = Raw.tree := rfl
      rw [hup] at hpraw hpflag
      have hfe : c_rbnode_rebalance_case3_right h p s0 =
          some (storeRoot (c_rbnode_set_parent_and_flags (c_rbnode_set_parent_and_flags (c_rbnode_set_parent_and_flags (c_rbnode_set_parent_and_flags (storeRight (storeLeft (c_rbnode_set_parent_and_flags h p Raw.null false false) p (some xx)) s0 (some p)) xx (Raw.node p) false false) s0 Raw.null false false) p (Raw.node s0) true false) s0 Raw.tree false true) (some s0), xx) := by
        simp [c_rbnode_rebalance_case3_right, c_rbnode_pop_root, c_rbnode_push_root,
          c_rbnode_is_red, c_rbnode_is_root, c_rbnode_swap_child, c_rbnode_parent,
          c_rbnode_raw, Raw.asNode, hpraw, hpflag, hpred, hsright, rawOf,
          storeLeft_mem, storeRight_mem, setpf_mem, storeRoot_mem,
          hps, hsp, hpx, hxp, hsx, hxs, hxxflag, hs0flag]
      rw [hfe]
      set E := storeRoot (c_rbnode_set_parent_and_flags (c_rbnode_set_parent_and_flags (c_rbnode_set_parent_and_flags (c_rbnode_set_parent_and_flags (storeRight (storeLeft (c_rbnode_set_parent_and_flags h p Raw.null false false) p (some xx)) s0 (some p)) xx (Raw.node p) false false) s0 Raw.null false false) p (Raw.node s0) true false) s0 Raw.tree false true) (some s0) with hEdef
      have hW : ∀ j, j ≠ p → j ≠ s0 → j ≠ xx → E.mem j = h.mem j := by
        intro j h1 h2 h3
        rw [hEdef]
        simp [storeRoot_mem, setpf_mem, storeLeft_mem, storeRight_mem, h1, h2, h3]
      have hm_p : E.mem p = ⟨Raw.node s0, true, false, some xx, sub.rootId⟩ := by
        rw [hEdef]
        simp [storeRoot_mem, setpf_mem, storeLeft_mem, storeRight_mem,
          hps, hpx, hpright]
      have hm_s : E.mem s0 = ⟨Raw.tree, false, true, SR.rootId, some p⟩ := by
        rw [hEdef]
        simp [storeRoot_mem, setpf_mem, storeLeft_mem, storeRight_mem,
          hsp, hsx, hsleft]
      have hm_x : E.mem xx = ⟨Raw.node p, false, false, XL.rootId, XR.rootId⟩ := by
        rw [hEdef]
        simp [storeRoot_mem, setpf_mem, storeLeft_mem, storeRight_mem,
          hxp, hxs, hxxleft, hxxright]
      have hsubrepr : reprAt E sub (Raw.node p) = true := by
        rw [reprAt_congr sub (Raw.node p) (fun j hj => hW j
          (fun he => hpsub (he ▸ hj)) (fun he => hssub (he ▸ hj))
          (fun he => hxsub (he ▸ hj)))]
        exact hatsub
      have hXLrepr : reprAt E XL (Raw.node xx) = true := by
        rw [reprAt_congr XL (Raw.node xx) (fun j hj => hW j
          (fun he => hpXL (he ▸ hj)) (fun he => hsXL (he ▸ hj))
          (fun he => hxXL (he ▸ hj)))]
        exact hatXL
      have hXRrepr : reprAt E XR (Raw.node xx) = true := by
        rw [reprAt_congr XR (Raw.node xx) (fun j hj => hW j
          (fun he => hpXR (he ▸ hj)) (fun he => hsXR (he ▸ hj))
          (fun he => hxXR (he ▸ hj)))]
        exact hatXR
      have hSRrepr : reprAt E SR (Raw.node s0) = true := by
        rw [reprAt_congr SR (Raw.node s0) (fun j hj => hW j
          (fun he => hpSR (he ▸ hj)) (fun he => hsSR (he ▸ hj))
          (fun he => hxSR (he ▸ hj)))]
        exact hatSR
      refine ⟨E, rfl, ⟨?_, ?_, hndout⟩, hperm⟩
      · rw [hEdef]
        simp [plug, storeRoot_root, CTree.rootId]
      · have hpair := (repr_plug_iff E
          ((⟨true, true, p, CTree.node false XL xx XR⟩ : Frame) ::
            (⟨true, false, s0, SR⟩ : Frame) :: []) sub).mpr ⟨?_, ?_⟩
        · exact hpair.2
        · rw [reprCtx_cons_iff]
          refine ⟨by simp [hm_p, upOf], by simp [hm_p, upOf], by simp [hm_p, upOf], ?_, ?_, ?_, ?_⟩
          · simp [hm_p, upOf, CTree.rootId]
          · simp [hm_p, upOf, CTree.rootId]
          · rw [reprAt_node_iff]
            exact ⟨by simp [hm_x, upOf], by simp [hm_x, upOf], by simp [hm_x, upOf],
              by simp [hm_x, upOf], by simp [hm_x, upOf], hXLrepr, hXRrepr⟩
          · rw [reprCtx_cons_iff]
            refine ⟨by simp [hm_s, upOf], by simp [hm_s, upOf], by simp [hm_s, upOf],
              ?_, ?_, hSRrepr, ?_⟩
            · simp [hm_s, upOf]
            · simp [hm_s, upOf]
            · rw [reprCtx_nil_iff]
              rw [hEdef]
              simp [storeRoot_root]
        · exact hsubrepr
  | cons f3 ctx3 =>
      rw [reprCtx_cons_iff] at hctxR
      obtain ⟨hf3raw, hf3flag, hf3red, hf3left, hf3right, hf3sib, hctxR3⟩ := hctxR
      have hf3mem : f3.id ∈ ctxIds (f3 :: ctx3) := by simp [ctxIds]
      have hf3p : f3.id ≠ p := fun he => hpc (he ▸ hf3mem)
      have hf3s : f3.id ≠ s0 := fun he => hsc (he ▸ hf3mem)
      have hf3x : f3.id ≠ xx := fun he => hxc (he ▸ hf3mem)
      have hpf3 : p ≠ f3.id := hf3p.symm
      have hsf3 : s0 ≠ f3.id := hf3s.symm
      have hxf3 : xx ≠ f3.id := hf3x.symm
      have hpsib : p ∉ f3.sib.ids := fun hm => hpc (by simp [ctxIds, hm])
      have hndctx := hndc2
      simp only [ctxIds, List.nodup_cons] at hndctx
      have hup3 : upOf (f3 :: ctx3) = Raw.node f3.id := rfl
      rw [hup3] at hpraw hpflag
      have hbf : (Raw.node f3.id == Raw.tree) = false := rfl
      cases hf3d : f3.isRight with
      | false =>
          rw [hf3d] at hf3left hf3right
          simp only [Bool.false_eq_true, if_false] at hf3left hf3right
          have hfe : c_rbnode_rebalance_case3_right h p s0 =
              some (c_rbnode_set_parent_and_flags (c_rbnode_set_parent_and_flags (c_rbnode_set_parent_and_flags (storeLeft (storeRight (storeLeft h p (some xx)) s0 (some p)) f3.id (some s0)) xx (Raw.node p) false false) s0 (Raw.node f3.id) false false) p (Raw.node s0) true false, xx) := by
            simp [c_rbnode_rebalance_case3_right, c_rbnode_pop_root,
              c_rbnode_push_root, c_rbnode_is_red, c_rbnode_is_root,
              c_rbnode_swap_child, c_rbnode_parent, c_rbnode_raw, Raw.asNode,
              hpraw, hpflag, hpred, hsright, rawOf,
              storeLeft_mem, storeRight_mem, setpf_mem, storeRoot_mem,
              hps, hsp, hpx, hxp, hsx, hxs, hxxflag, hs0flag,
              hf3p, hpf3, hf3s, hsf3, hf3x, hxf3, hf3left, upOf, hbf]
          rw [hfe]
          set E := c_rbnode_set_parent_and_flags (c_rbnode_set_parent_and_flags (c_rbnode_set_parent_and_flags (storeLeft (storeRight (storeLeft h p (some xx)) s0 (some p)) f3.id (some s0)) xx (Raw.node p) false false) s0 (Raw.node f3.id) false false) p (Raw.node s0) true false with hEdef
          have hW : ∀ j, j ≠ p → j ≠ s0 → j ≠ xx → j ≠ f3.id →
              E.mem j = h.mem j := by
            intro j h1 h2 h3 h4
            rw [hEdef]
            simp [setpf_mem, storeLeft_mem, storeRight_mem, h1, h2, h3, h4]
          have hm_p : E.mem p = ⟨Raw.node s0, true, false, some xx, sub.rootId⟩ := by
            rw [hEdef]
            simp [setpf_mem, storeLeft_mem, storeRight_mem, hps, hpx, hpf3, hpright]
          have hm_s : E.mem s0 =
              ⟨Raw.node f3.id, false, false, SR.rootId, some p⟩ := by
            rw [hEdef]
            simp [setpf_mem, storeLeft_mem, storeRight_mem, hsp, hsx, hsf3,
              hsleft, hs0flag]
          have hm_x : E.mem xx =
              ⟨Raw.node p, false, false, XL.rootId, XR.rootId⟩ := by
            rw [hEdef]
            simp [setpf_mem, storeLeft_mem, storeRight_mem, hxp, hxs, hxf3,
              hxxleft, hxxright]
          have hm_f3 : E.mem f3.id =
              ⟨upOf ctx3, f3.red, (upOf ctx3 == Raw.tree), some s0, f3.sib.rootId⟩ := by
            rw [hEdef]
            simp only [setpf_mem, if_neg hf3p, if_neg hf3s, if_neg hf3x,
              storeLeft_mem, storeRight_mem, if_pos rfl, if_true,
              eq_self_iff_true]
            cases hd : (h.mem f3.id) with
            | mk raw red rootFlag left right =>
                simp only [NodeData.mk.injEq]
                rw [hd] at hf3raw hf3flag hf3red hf3right
                exact ⟨hf3raw, hf3red, hf3flag, trivial, hf3right⟩
          have hsubrepr : reprAt E sub (Raw.node p) = true := by
            rw [reprAt_congr sub (Raw.node p) (fun j hj => hW j
              (fun he => hpsub (he ▸ hj)) (fun he => hssub (he ▸ hj))
              (fun he => hxsub (he ▸ hj))
              (fun he => hd4 (Or.inl (Or.inl (Or.inl hj))) (he ▸ hf3mem)))]
            exact hatsub
          have hXLrepr : reprAt E XL (Raw.node xx) = true := by
            rw [reprAt_congr XL (Raw.node xx) (fun j hj => hW j
              (fun he => hpXL (he ▸ hj)) (fun he => hsXL (he ▸ hj))
              (fun he => hxXL (he ▸ hj))
              (fun he => hd4 (Or.inl (Or.inl (Or.inr hj))) (he ▸ hf3mem)))]
            exact hatXL
          have hXRrepr : reprAt E XR (Raw.node xx) = true := by
            rw [reprAt_congr XR (Raw.node xx) (fun j hj => hW j
              (fun he => hpXR (he ▸ hj)) (fun he => hsXR (he ▸ hj))
              (fun he => hxXR (he ▸ hj))
              (fun he => hd4 (Or.inl (Or.inr hj)) (he ▸ hf3mem)))]
            exact hatXR
          have hSRrepr : reprAt E SR (Raw.node s0) = true := by
            rw [reprAt_congr SR (Raw.node s0) (fun j hj => hW j
              (fun he => hpSR (he ▸ hj)) (fun he => hsSR (he ▸ hj))
              (fun he => hxSR (he ▸ hj))
              (fun he => hd4 (Or.inr hj) (he ▸ hf3mem)))]
            exact hatSR
          have hsibrepr : reprAt E f3.sib (Raw.node f3.id) = true := by
            rw [reprAt_congr f3.sib (Raw.node f3.id) (fun j hj => hW j
              (fun he => hpc (by simp [ctxIds, he ▸ hj]))
              (fun he => hsc (by simp [ctxIds, he ▸ hj]))
              (fun he => hxc (by simp [ctxIds, he ▸ hj]))
              (fun he => hndctx.1 (List.mem_append.mpr (Or.inl (he ▸ hj)))))]
            exact hf3sib
          have hctxrepr : reprCtx E ctx3 (some f3.id) = true := by
            rw [reprCtx_congr ctx3 (some f3.id) (fun j hj => by
              have hjc : j ∈ ctxIds (f3 :: ctx3) := by simp [ctxIds, hj]
              exact hW j
                (fun he => hpc (he ▸ hjc))
                (fun he => hsc (he ▸ hjc))
                (fun he => hxc (he ▸ hjc))
                (fun he => hndctx.1 (List.mem_append.mpr (Or.inr (he ▸ hj)))))
              (by rw [hEdef]; simp [setpf_root, storeLeft_root, storeRight_root])]
            exact hctxR3
          have hpair := (repr_plug_iff E
            ((⟨true, true, p, CTree.node false XL xx XR⟩ : Frame) ::
              (⟨true, false, s0, SR⟩ : Frame) :: f3 :: ctx3) sub).mpr ⟨?_, ?_⟩
          · exact ⟨E, rfl, ⟨hpair.1, hpair.2, hndout⟩, hperm⟩
          · rw [reprCtx_cons_iff]
            refine ⟨by simp [hm_p, upOf], by simp [hm_p, upOf],
              by simp [hm_p, upOf], by simp [hm_p, upOf, CTree.rootId],
              by simp [hm_p, upOf, CTree.rootId], ?_, ?_⟩
            · rw [reprAt_node_iff]
              exact ⟨by simp [hm_x, upOf], by simp [hm_x, upOf],
                by simp [hm_x, upOf], by simp [hm_x, upOf],
                by simp [hm_x, upOf], hXLrepr, hXRrepr⟩
            · rw [reprCtx_cons_iff]
              refine ⟨by simp [hm_s, upOf], by simp [hm_s, upOf],
                by simp [hm_s, upOf], by simp [hm_s, upOf],
                by simp [hm_s, upOf], hSRrepr, ?_⟩
              rw [reprCtx_cons_iff]
              refine ⟨by simp [hm_f3], by simp [hm_f3], by simp [hm_f3],
                ?_, ?_, hsibrepr, hctxrepr⟩
              · rw [hf3d]
                simp [hm_f3, CTree.rootId]
              · rw [hf3d]
                simp [hm_f3, CTree.rootId]
          · exact hsubrepr
      | true =>
          rw [hf3d] at hf3left hf3right
          simp only [if_true] at hf3left hf3right
          have hneq : f3.sib.rootId ≠ some p := rootId_ne hpsib
          have hfe : c_rbnode_rebalance_case3_right h p s0 =
              some (c_rbnode_set_parent_and_flags (c_rbnode_set_parent_and_flags (c_rbnode_set_parent_and_flags (storeRight (storeRight (storeLeft h p (some xx)) s0 (some p)) f3.id (some s0)) xx (Raw.node p) false false) s0 (Raw.node f3.id) false false) p (Raw.node s0) true false, xx) := by
            simp [c_rbnode_rebalance_case3_right, c_rbnode_pop_root,
              c_rbnode_push_root, c_rbnode_is_red, c_rbnode_is_root,
              c_rbnode_swap_child, c_rbnode_parent, c_rbnode_raw, Raw.asNode,
              hpraw, hpflag, hpred, hsright, rawOf,
              storeLeft_mem, storeRight_mem, setpf_mem, storeRoot_mem,
              hps, hsp, hpx, hxp, hsx, hxs, hxxflag, hs0flag,
              hf3p, hpf3, hf3s, hsf3, hf3x, hxf3, hf3left, hneq, upOf, hbf]
          rw [hfe]
          set E := c_rbnode_set_parent_and_flags (c_rbnode_set_parent_and_flags (c_rbnode_set_parent_and_flags (storeRight (storeRight (storeLeft h p (some xx)) s0 (some p)) f3.id (some s0)) xx (Raw.node p) false false) s0 (Raw.node f3.id) false false) p (Raw.node s0) true false with hEdef
          have hW : ∀ j, j ≠ p → j ≠ s0 → j ≠ xx → j ≠ f3.id →
              E.mem j = h.mem j := by
            intro j h1 h2 h3 h4
            rw [hEdef]
            simp [setpf_mem, storeLeft_mem, storeRight_mem, h1, h2, h3, h4]
          have hm_p : E.mem p = ⟨Raw.node s0, true, false, some xx, sub.rootId⟩ := by
            rw [hEdef]
            simp [setpf_mem, storeLeft_mem, storeRight_mem, hps, hpx, hpf3, hpright]
          have hm_s : E.mem s0 =
              ⟨Raw.node f3.id, false, false, SR.rootId, some p⟩ := by
            rw [hEdef]
            simp [setpf_mem, storeLeft_mem, storeRight_mem, hsp, hsx, hsf3,
              hsleft, hs0flag]
          have hm_x : E.mem xx =
              ⟨Raw.node p, false, false, XL.rootId, XR.rootId⟩ := by
            rw [hEdef]
            simp [setpf_mem, storeLeft_mem, storeRight_mem, hxp, hxs, hxf3,
              hxxleft, hxxright]
          have hm_f3 : E.mem f3.id =
              ⟨upOf ctx3, f3.red, (upOf ctx3 == Raw.tree), f3.sib.rootId, some s0⟩ := by
            rw [hEdef]
            simp only [setpf_mem, if_neg hf3p, if_neg hf3s, if_neg hf3x,
              storeLeft_mem, storeRight_mem, if_pos rfl, if_true,
              eq_self_iff_true]
            cases hd : (h.mem f3.id) with
            | mk raw red rootFlag left right =>
                simp only [NodeData.mk.injEq]
                rw [hd] at hf3raw hf3flag hf3red hf3left
                exact ⟨hf3raw, hf3red, hf3flag, hf3left, trivial⟩
          have hsubrepr : reprAt E sub (Raw.node p) = true := by
            rw [reprAt_congr sub (Raw.node p) (fun j hj => hW j
              (fun he => hpsub (he ▸ hj)) (fun he => hssub (he ▸ hj))
              (fun he => hxsub (he ▸ hj))
              (fun he => hd4 (Or.inl (Or.inl (Or.inl hj))) (he ▸ hf3mem)))]
            exact hatsub
          have hXLrepr : reprAt E XL (Raw.node xx) = true := by
            rw [reprAt_congr XL (Raw.node xx) (fun j hj => hW j
              (fun he => hpXL (he ▸ hj)) (fun he => hsXL (he ▸ hj))
              (fun he => hxXL (he ▸ hj))
              (fun he => hd4 (Or.inl (Or.inl (Or.inr hj))) (he ▸ hf3mem)))]
            exact hatXL
          have hXRrepr : reprAt E XR (Raw.node xx) = true := by
            rw [reprAt_congr XR (Raw.node xx) (fun j hj => hW j
              (fun he => hpXR (he ▸ hj)) (fun he => hsXR (he ▸ hj))
              (fun he => hxXR (he ▸ hj))
              (fun he => hd4 (Or.inl (Or.inr hj)) (he ▸ hf3mem)))]
            exact hatXR
          have hSRrepr : reprAt E SR (Raw.node s0) = true := by
            rw [reprAt_congr SR (Raw.node s0) (fun j hj => hW j
              (fun he => hpSR (he ▸ hj)) (fun he => hsSR (he ▸ hj))
              (fun he => hxSR (he ▸ hj))
              (fun he => hd4 (Or.inr hj) (he ▸ hf3mem)))]
            exact hatSR
          have hsibrepr : reprAt E f3.sib (Raw.node f3.id) = true := by
            rw [reprAt_congr f3.sib (Raw.node f3.id) (fun j hj => hW j
              (fun he => hpc (by simp [ctxIds, he ▸ hj]))
              (fun he => hsc (by simp [ctxIds, he ▸ hj]))
              (fun he => hxc (by simp [ctxIds, he ▸ hj]))
              (fun he => hndctx.1 (List.mem_append.mpr (Or.inl (he ▸ hj)))))]
            exact hf3sib
          have hctxrepr : reprCtx E ctx3 (some f3.id) = true := by
            rw [reprCtx_congr ctx3 (some f3.id) (fun j hj => by
              have hjc : j ∈ ctxIds (f3 :: ctx3) := by simp [ctxIds, hj]
              exact hW j
                (fun he => hpc (he ▸ hjc))
                (fun he => hsc (he ▸ hjc))
                (fun he => hxc (he ▸ hjc))
                (fun he => hndctx.1 (List.mem_append.mpr (Or.inr (he ▸ hj)))))
              (by rw [hEdef]; simp [setpf_root, storeLeft_root, storeRight_root])]
            exact hctxR3
          have hpair := (repr_plug_iff E
            ((⟨true, true, p, CTree.node false XL xx XR⟩ : Frame) ::
              (⟨true, false, s0, SR⟩ : Frame) :: f3 :: ctx3) sub).mpr ⟨?_, ?_⟩
          · exact ⟨E, rfl, ⟨hpair.1, hpair.2, hndout⟩, hperm⟩
          · rw [reprCtx_cons_iff]
            refine ⟨by simp [hm_p, upOf], by simp [hm_p, upOf],
              by simp [hm_p, upOf], by simp [hm_p, upOf, CTree.rootId],
              by simp [hm_p, upOf, CTree.rootId], ?_, ?_⟩
            · rw [reprAt_node_iff]
              exact ⟨by simp [hm_x, upOf], by simp [hm_x, upOf],
                by simp [hm_x, upOf], by simp [hm_x, upOf],
                by simp [hm_x, upOf], hXLrepr, hXRrepr⟩
            · rw [reprCtx_cons_iff]
              refine ⟨by simp [hm_s, upOf], by simp [hm_s, upOf],
                by simp [hm_s, upOf], by simp [hm_s, upOf],
                by simp [hm_s, upOf], hSRrepr, ?_⟩
              rw [reprCtx_cons_iff]
              refine ⟨by simp [hm_f3], by simp [hm_f3], by simp [hm_f3],
                ?_, ?_, hsibrepr, hctxrepr⟩
              · rw [hf3d]
                simp [hm_f3, CTree.rootId]
              · rw [hf3d]
                simp [hm_f3, CTree.rootId]
          · exact hsubrepr


/-- Representation-level interface to the right tail of one removal fixup
step: hypotheses are the stored-tree facts at the frame of `p` with black
sibling `s1`. -/
theorem rebalance_tail2_right (h : Heap) (ctx2 : List Frame) (sub SLn SRn : CTree)
    (p s1 : NodeId) (cp cl cr : Bool) (k n₀ : Nat)
    (hrep : reprTree h (plug ((⟨true, cp, p,
      CTree.node false SLn s1 SRn⟩ : Frame) :: ctx2) sub))
    (hsub : Bal sub false k) (hSLn : Bal SLn cl k) (hSRn : Bal SRn cr k)
    (hctx2T : cp = true → CtxBal false n₀ ctx2 true (k + 1))
    (hctx2F : cp = false → CtxBal false n₀ ctx2 false (k + 2)) :
    (∃ E t', c_rbnode_rebalance_tail_right h p s1 = some (E, none) ∧
       reprTree E t' ∧ Bal t' false n₀ ∧
       t'.ids.Perm (plug ((⟨true, cp, p,
         CTree.node false SLn s1 SRn⟩ : Frame) :: ctx2) sub).ids) ∨
    (∃ E sub', c_rbnode_rebalance_tail_right h p s1 = some (E, some p) ∧
       cp = false ∧ reprTree E (plug ctx2 sub') ∧ Bal sub' false (k + 1) ∧
       sub'.rootId = some p ∧
       (plug ctx2 sub').ids.Perm (plug ((⟨true, cp, p,
         CTree.node false SLn s1 SRn⟩ : Frame) :: ctx2) sub).ids) := by
  obtain ⟨hroot, hatp, hnd⟩ := hrep
  obtain ⟨hctxR, hatsub⟩ := (repr_plug_iff h _ sub).mp ⟨hroot, hatp⟩
  rw [reprCtx_cons_iff] at hctxR
  obtain ⟨hpraw, hpflag, hpred, hpleft, hpright, hfsib, hctxR2⟩ := hctxR
  simp only at hpraw hpflag hpred hpleft hpright hfsib hctxR2
  rw [reprAt_node_iff] at hfsib
  obtain ⟨hsraw, hsflag, hsred, hsleft, hsright, hatSL, hatSR⟩ := hfsib
  have hndflat : (p :: s1 :: (sub.ids ++ SRn.ids ++ SLn.ids ++
      ctxIds ctx2)).Nodup := by
    refine (List.Perm.nodup_iff ?_).mpr hnd
    refine List.Perm.trans ?_ (plug_ids_perm _ _).symm
    rw [← Multiset.coe_eq_coe]
    simp only [CTree.ids, ctxIds, List.cons_append, List.append_assoc,
      ← Multiset.cons_coe, ← Multiset.coe_add, ← Multiset.singleton_add]
    try abel
  have hpm : (p :: s1 :: (sub.ids ++ SRn.ids ++ SLn.ids ++ ctxIds ctx2)).Perm
      (plug ((⟨true, cp, p, CTree.node false SLn s1 SRn⟩ : Frame) ::
        ctx2) sub).ids := by
    refine List.Perm.trans ?_ (plug_ids_perm _ _).symm
    rw [← Multiset.coe_eq_coe]
    simp only [CTree.ids, ctxIds, List.cons_append, List.append_assoc,
      ← Multiset.cons_coe, ← Multiset.coe_add, ← Multiset.singleton_add]
    try abel
  rcases rebalance_tail_right_sim h ctx2 sub SRn SLn p s1 cp cr cl k n₀
    hpraw hpflag hpred (by simpa [CTree.rootId] using hpleft) (by simpa using hpright)
    hsraw (by rw [hsflag]; rfl) hsright hsleft hatsub hatSR hatSL hctxR2
    hsub hSRn hSLn hctx2T hctx2F hndflat with
    ⟨E, t', heq, hrt, hbal, hperm⟩ | ⟨E, sub', heq, hcp, hrt, hbal, hrootid, hperm⟩
  · exact Or.inl ⟨E, t', heq, hrt, hbal, hperm.trans hpm⟩
  · exact Or.inr ⟨E, sub', heq, hcp, hrt, hbal, hrootid, hperm.trans hpm⟩


/-- One step of the removal fixup at a deficient right child slot (mirror): the
deficient subtree (one black level short) either regains its level (loop
ends with a balanced stored tree) or the deficiency moves to the black
parent `p`. -/
theorem rebalance_one_right_sim (h : Heap) (ctx2 : List Frame) (sub S : CTree)
    (p : NodeId) (cp c : Bool) (k n₀ : Nat)
    (hrep : reprTree h (plug ((⟨true, cp, p, S⟩ : Frame) :: ctx2) sub))
    (hsub : Bal sub false k)
    (hctx : CtxBal false n₀ ((⟨true, cp, p, S⟩ : Frame) :: ctx2) c (k + 1)) :
    (∃ E t', c_rbnode_rebalance_one h p sub.rootId = some (E, none) ∧
       reprTree E t' ∧ Bal t' false n₀ ∧
       t'.ids.Perm (plug ((⟨true, cp, p, S⟩ : Frame) :: ctx2) sub).ids) ∨
    (∃ E sub', c_rbnode_rebalance_one h p sub.rootId = some (E, some p) ∧
       reprTree E (plug ctx2 sub') ∧ Bal sub' false (k + 1) ∧
       sub'.rootId = some p ∧ CtxBal false n₀ ctx2 false (k + 2) ∧
       (plug ctx2 sub').ids.Perm
         (plug ((⟨true, cp, p, S⟩ : Frame) :: ctx2) sub).ids) := by
  have hrep' := hrep
  obtain ⟨hroot, hatp, hnd⟩ := hrep'
  obtain ⟨hctxR, hatsub⟩ := (repr_plug_iff h _ sub).mp ⟨hroot, hatp⟩
  rw [reprCtx_cons_iff] at hctxR
  obtain ⟨hpraw, hpflag, hpred, hpleft, hpright, hfsib, hctxR2⟩ := hctxR
  simp only at hpraw hpflag hpred hpleft hpright hfsib hctxR2
  cases hctx with
  | red hSbal hctx2 =>
      cases hSs : S with
      | nil => rw [hSs] at hSbal; cases hSbal
      | node cS SL si SR =>
      subst hSs
      have hcS : cS = false := by
        have h1 := hSbal.isRedT
        simpa [CTree.isRedT] using h1
      subst hcS
      obtain ⟨hSL, hSR⟩ : (∃ cl, Bal SL cl k) ∧ (∃ cr, Bal SR cr k) := by
        cases hSbal with
        | black h1 h2 => exact ⟨⟨_, h1⟩, ⟨_, h2⟩⟩
      obtain ⟨cl, hSL⟩ := hSL
      obtain ⟨cr, hSR⟩ := hSR
      rw [reprAt_node_iff] at hfsib
      obtain ⟨hsraw, hsflag, hsred, hsleft, hsright, hatSL, hatSR⟩ := hfsib
      have hsired : c_rbnode_is_red h si = false := by
        simp [c_rbnode_is_red, hsred]
      have hsin : si ∉ sub.ids := by
        have h2 := (List.Perm.nodup_iff (plug_ids_perm _ _)).mp hnd
        rw [List.nodup_append] at h2
        intro hmem
        exact h2.2.2 hmem (by simp [ctxIds, CTree.ids])
      have hne : sub.rootId ≠ some si := rootId_ne hsin
      have heval : c_rbnode_rebalance_one h p sub.rootId =
          c_rbnode_rebalance_tail_right h p si := by
        simp [c_rbnode_rebalance_one, hpleft, hpright, hsired, CTree.rootId, hne]
        intro hc
        exact absurd hc hne
      rcases rebalance_tail2_right h ctx2 sub SL SR p si true cl cr k n₀ hrep
        hsub hSL hSR (fun _ => hctx2) (fun hc => Bool.noConfusion hc) with
        ⟨E, t', heq, hrt, hbal, hperm⟩ | ⟨E, sub', heq, hcp, hrt, hbal, hri, hperm⟩
      · exact Or.inl ⟨E, t', by rw [heval]; exact heq, hrt, hbal, hperm⟩
      · exact absurd hcp (by decide)
  | black hSbal hctx2 =>
      rename_i cs
      cases hSs : S with
      | nil => rw [hSs] at hSbal; cases hSbal
      | node cS SL si SR =>
      subst hSs
      rw [reprAt_node_iff] at hfsib
      obtain ⟨hsraw, hsflag, hsred, hsleft, hsright, hatSL, hatSR⟩ := hfsib
      cases cS with
      | false =>
          obtain ⟨cl, cr, hSL, hSR⟩ : ∃ cl cr, Bal SL cl k ∧ Bal SR cr k := by
            cases hSbal with
            | black h1 h2 => exact ⟨_, _, h1, h2⟩
          have hsired : c_rbnode_is_red h si = false := by
            simp [c_rbnode_is_red, hsred]
          have hsin : si ∉ sub.ids := by
            have h2 := (List.Perm.nodup_iff (plug_ids_perm _ _)).mp hnd
            rw [List.nodup_append] at h2
            intro hmem
            exact h2.2.2 hmem (by simp [ctxIds, CTree.ids])
          have hne : sub.rootId ≠ some si := rootId_ne hsin
          have heval : c_rbnode_rebalance_one h p sub.rootId =
              c_rbnode_rebalance_tail_right h p si := by
            simp [c_rbnode_rebalance_one, hpleft, hpright, hsired, CTree.rootId, hne]
            intro hc
            exact absurd hc hne
          rcases rebalance_tail2_right h ctx2 sub SL SR p si false cl cr k n₀ hrep
            hsub hSL hSR (fun hc => Bool.noConfusion hc) (fun _ => hctx2) with
            ⟨E, t', heq, hrt, hbal, hperm⟩ |
            ⟨E, sub', heq, hcp, hrt, hbal, hri, hperm⟩
          · exact Or.inl ⟨E, t', by rw [heval]; exact heq, hrt, hbal, hperm⟩
          · exact Or.inr ⟨E, sub', by rw [heval]; exact heq, hrt, hbal, hri,
              hctx2, hperm⟩
      | true =>
          obtain ⟨hSLb, hSRb⟩ : Bal SL false (k + 1) ∧ Bal SR false (k + 1) := by
            cases hSbal with
            | red h1 h2 => exact ⟨h1, h2⟩
          cases hSRs : SR with
          | nil => rw [hSRs] at hSRb; cases hSRb
          | node cSR XL xx XR =>
          subst hSRs
          obtain ⟨cl, cr, hXL, hXR⟩ : ∃ cl cr, Bal XL cl k ∧ Bal XR cr k := by
            cases hSRb with
            | black h1 h2 => exact ⟨_, _, h1, h2⟩
          have hcSR : cSR = false := by
            have h1 := hSRb.isRedT
            simpa [CTree.isRedT] using h1
          subst hcSR
          rw [reprAt_node_iff] at hatSR
          obtain ⟨hxraw, hxflag, hxred, hxleft, hxright, hatXL, hatXR⟩ := hatSR
          have hsired : c_rbnode_is_red h si = true := by
            simp [c_rbnode_is_red, hsred]
          have hsin : si ∉ sub.ids := by
            have h2 := (List.Perm.nodup_iff (plug_ids_perm _ _)).mp hnd
            rw [List.nodup_append] at h2
            intro hmem
            exact h2.2.2 hmem (by simp [ctxIds, CTree.ids])
          have hne : sub.rootId ≠ some si := rootId_ne hsin
          have hndflat : (p :: si :: xx :: (sub.ids ++ XL.ids ++ XR.ids ++
              SL.ids ++ ctxIds ctx2)).Nodup := by
            refine (List.Perm.nodup_iff ?_).mpr hnd
            refine List.Perm.trans ?_ (plug_ids_perm _ _).symm
            rw [← Multiset.coe_eq_coe]
            simp only [CTree.ids, ctxIds, List.cons_append, List.append_assoc,
              ← Multiset.cons_coe, ← Multiset.coe_add, ← Multiset.singleton_add]
            try abel
          obtain ⟨E, heq3, hrepE, hpermE⟩ := rebalance_case3_right_sim h ctx2
            sub XL XR SL p si xx hpraw hpflag hpred
            (by simpa [CTree.rootId] using hpleft) (by simpa using hpright)
            (by rw [hsflag]; rfl)
            hsleft (by simpa [CTree.rootId] using hsright)
            (by rw [hxflag]; rfl) hxred hxleft hxright
            hatsub hatXL hatXR hatSL hctxR2 hndflat
          have heval : c_rbnode_rebalance_one h p sub.rootId =
              c_rbnode_rebalance_tail_right E p xx := by
            simp [c_rbnode_rebalance_one, hpleft, hpright, hsired, CTree.rootId,
              heq3, hne]
            intro hc
            exact absurd hc hne
          have hpm2 : (plug ((⟨true, true, p,
              CTree.node false XL xx XR⟩ : Frame) ::
              (⟨true, false, si, SL⟩ : Frame) :: ctx2) sub).ids.Perm
              (plug ((⟨true, false, p, CTree.node true
                SL si (CTree.node false XL xx XR)⟩ : Frame) :: ctx2) sub).ids := by
            refine hpermE.trans ?_
            refine List.Perm.trans ?_ (plug_ids_perm _ _).symm
            rw [← Multiset.coe_eq_coe]
            simp only [CTree.ids, ctxIds, List.cons_append, List.append_assoc,
              ← Multiset.cons_coe, ← Multiset.coe_add, ← Multiset.singleton_add]
            try abel
          rcases rebalance_tail2_right E (( ⟨true, false, si, SL⟩ : Frame) :: ctx2)
            sub XL XR p xx true cl cr k n₀ hrepE hsub hXL hXR
            (fun _ => CtxBal.black hSLb hctx2) (fun hc => Bool.noConfusion hc) with
            ⟨E2, t', heq, hrt, hbal, hperm⟩ |
            ⟨E2, sub', heq, hcp, hrt, hbal, hri, hperm⟩
          · exact Or.inl ⟨E2, t', by rw [heval]; exact heq, hrt, hbal,
              hperm.trans hpm2⟩
          · exact absurd hcp (by decide)


/-- One step of the removal fixup at a deficient child slot, either
orientation: dispatch on the frame side. -/
theorem rebalance_one_sim (h : Heap) (f : Frame) (ctx2 : List Frame)
    (sub : CTree) (c : Bool) (k n₀ : Nat)
    (hrep : reprTree h (plug (f :: ctx2) sub))
    (hsub : Bal sub false k)
    (hctx : CtxBal false n₀ (f :: ctx2) c (k + 1)) :
    (∃ E t', c_rbnode_rebalance_one h f.id sub.rootId = some (E, none) ∧
       reprTree E t' ∧ Bal t' false n₀ ∧
       t'.ids.Perm (plug (f :: ctx2) sub).ids) ∨
    (∃ E sub', c_rbnode_rebalance_one h f.id sub.rootId =
         some (E, some f.id) ∧
       reprTree E (plug ctx2 sub') ∧ Bal sub' false (k + 1) ∧
       sub'.rootId = some f.id ∧ CtxBal false n₀ ctx2 false (k + 2) ∧
       (plug ctx2 sub').ids.Perm (plug (f :: ctx2) sub).ids) := by
  obtain ⟨fr, fred, fid, fsib⟩ := f
  cases fr with
  | false =>
      exact rebalance_one_left_sim h ctx2 sub fsib fid fred c k n₀ hrep
        hsub hctx
  | true =>
      exact rebalance_one_right_sim h ctx2 sub fsib fid fred c k n₀ hrep
        hsub hctx

/-- The removal-fixup loop `c_rbnode_rebalance` walks the deficiency up
the context, one frame per iteration, and ends with a balanced stored
tree holding the same nodes. -/
theorem rebalanceGo_sim (fuel : Nat) :
    ∀ (h : Heap) (f : Frame) (ctx : List Frame) (sub : CTree) (c : Bool)
      (k n₀ : Nat),
      reprTree h (plug (f :: ctx) sub) →
      Bal sub false k →
      CtxBal false n₀ (f :: ctx) c (k + 1) →
      ctx.length < fuel →
      ∃ h' t' m, rebalanceGo fuel h f.id sub.rootId = some h' ∧
        reprTree h' t' ∧ Bal t' false m ∧
        t'.ids.Perm (plug (f :: ctx) sub).ids := by
  induction fuel with
  | zero =>
      intro h f ctx sub c k n₀ _ _ _ hlen
      exact absurd hlen (Nat.not_lt_zero _)
  | succ n ih =>
      intro h f ctx sub c k n₀ hrep hsub hctx hlen
      rcases rebalance_one_sim h f ctx sub c k n₀ hrep hsub hctx with
        ⟨E, t', heq, hrt, hbal, hperm⟩ |
        ⟨E, sub', heq, hrt, hbal, hri, hctx2, hperm⟩
      · refine ⟨E, t', n₀, ?_, hrt, hbal, hperm⟩
        simp [rebalanceGo, heq]
      · have hrt' := hrt
        obtain ⟨hroot, hatp, hnd⟩ := hrt'
        obtain ⟨hctxR, hats⟩ := (repr_plug_iff E ctx sub').mp ⟨hroot, hatp⟩
        cases hsubc : sub' with
        | nil => rw [hsubc] at hri; exact Option.noConfusion hri
        | node sc sl si sr =>
            subst hsubc
            have hsi : si = f.id := by
              simpa [CTree.rootId] using hri
            subst hsi
            rw [reprAt_node_iff] at hats
            obtain ⟨hraw, hflag, _, _, _, _, _⟩ := hats
            have hpar : c_rbnode_parent E f.id = ctx.head?.map Frame.id :=
              parent_eq_of_upOf hraw hflag
            cases ctx with
            | nil =>
                refine ⟨E, _, k + 1, ?_, hrt, hbal, hperm⟩
                simp only [rebalanceGo, heq, hpar, List.head?_nil,
                  Option.map_none']
            | cons f2 ctx3 =>
                rw [List.head?_cons, Option.map_some'] at hpar
                have hcb : CtxBal false n₀ (f2 :: ctx3) false ((k + 1) + 1) :=
                  hctx2
                obtain ⟨h', t', m, heq2, hrt2, hbal2, hperm2⟩ :=
                  ih E f2 ctx3 (CTree.node sc sl f.id sr) false (k + 1) n₀
                    hrt hbal hcb (Nat.lt_of_succ_lt_succ hlen)
                refine ⟨h', t', m, ?_, hrt2, hbal2, hperm2.trans hperm⟩
                have hri2 : (CTree.node sc sl f.id sr).rootId = some f.id := by
                  simp [CTree.rootId]
                simp only [rebalanceGo, heq, hpar]
                rw [← hri2]
                exact heq2

/-- A tree balanced at a positive black height is nonempty. -/
theorem Bal_ne_nil {t : CTree} {c : Bool} {k : Nat} (hb : Bal t c (k + 1)) :
    t ≠ CTree.nil := by
  intro he
  subst he
  cases hb

/-- C10: under the removal-fixup precondition (the deficient subtree is
exactly one black level short of what its slot expects, in an otherwise
well-formed stored tree), the sibling recorded in the innermost frame
always exists, a red sibling has both children present, and one fixup
step never hits the NULL-dereference branch of `c_rbnode_rebalance_one`
(the unguarded recolorings of the sibling and of the red sibling's near
child in Case 3 are safe). -/
theorem C10_rebalance_sibling_safe (h : Heap) (f : Frame) (ctx2 : List Frame)
    (sub : CTree) (c : Bool) (k n₀ : Nat)
    (hrep : reprTree h (plug (f :: ctx2) sub))
    (hsub : Bal sub false k)
    (hctx : CtxBal false n₀ (f :: ctx2) c (k + 1)) :
    f.sib ≠ CTree.nil ∧
    (∀ sl si sr, f.sib = CTree.node true sl si sr →
      sl ≠ CTree.nil ∧ sr ≠ CTree.nil) ∧
    c_rbnode_rebalance_one h f.id sub.rootId ≠ none := by
  have hsib : ∃ cs, Bal f.sib cs (k + 1) := by
    cases hctx with
    | red hs _ => exact ⟨false, hs⟩
    | black hs _ => exact ⟨_, hs⟩
  obtain ⟨cs, hs⟩ := hsib
  refine ⟨Bal_ne_nil hs, ?_, ?_⟩
  · intro sl si sr hse
    rw [hse] at hs
    cases hs with
    | red h1 h2 => exact ⟨Bal_ne_nil h1, Bal_ne_nil h2⟩
  · rcases rebalance_one_sim h f ctx2 sub c k n₀ hrep hsub hctx with
      ⟨E, t', heq, _, _, _⟩ | ⟨E, sub', heq, _, _, _, _, _⟩
    · rw [heq]
      exact fun hc => Option.noConfusion hc
    · rw [heq]
      exact fun hc => Option.noConfusion hc

/-- Heap storing the two-node black tree `node false nil 0 (node false
nil 1 nil)` whose left slot is one black level short, the generic state
entering the removal fixup. -/
def hDefic : Heap :=
  { mem := fun j =>
      if j = 0 then ⟨Raw.tree, false, true, none, some 1⟩
      else if j = 1 then ⟨Raw.node 0, false, false, none, none⟩
      else ⟨Raw.null, false, false, none, none⟩,
    root := some 0 }

theorem C10_rebalance_sibling_safe_witness :
    (⟨false, false, 0, CTree.node false CTree.nil 1 CTree.nil⟩ : Frame).sib ≠
      CTree.nil ∧
    (∀ sl si sr,
      (⟨false, false, 0, CTree.node false CTree.nil 1 CTree.nil⟩ : Frame).sib =
        CTree.node true sl si sr → sl ≠ CTree.nil ∧ sr ≠ CTree.nil) ∧
    c_rbnode_rebalance_one hDefic
      (⟨false, false, 0, CTree.node false CTree.nil 1 CTree.nil⟩ : Frame).id
      CTree.nil.rootId ≠ none :=
  C10_rebalance_sibling_safe hDefic
    ⟨false, false, 0, CTree.node false CTree.nil 1 CTree.nil⟩ [] CTree.nil
    false 0 2 ⟨rfl, by decide, by decide⟩ Bal.nil
    (CtxBal.black (Bal.black Bal.nil Bal.nil) CtxBal.root)

/-- Abstract left-deepest node of a tree (post-order first element). -/
def CTree.ldeep : CTree → Option NodeId
  | CTree.nil => none
  | CTree.node _ l i r =>
      match CTree.ldeep l with
      | some d => some d
      | none =>
          match CTree.ldeep r with
          | some d => some d
          | none => some i

theorem CTree.mem_ids_root {c : Bool} {l r : CTree} {i : NodeId} :
    i ∈ (CTree.node c l i r).ids := by simp [CTree.ids]

theorem CTree.mem_ids_left {c : Bool} {l r : CTree} {i d : NodeId}
    (hd : d ∈ l.ids) : d ∈ (CTree.node c l i r).ids := by
  simp [CTree.ids, hd]

theorem CTree.mem_ids_right {c : Bool} {l r : CTree} {i d : NodeId}
    (hd : d ∈ r.ids) : d ∈ (CTree.node c l i r).ids := by
  simp [CTree.ids, hd]

theorem CTree.ids_length_node {c : Bool} {l r : CTree} {i : NodeId} :
    (CTree.node c l i r).ids.length = l.ids.length + r.ids.length + 1 := by
  simp only [CTree.ids, List.length_cons, List.length_append]

theorem nodup_node_parts {c : Bool} {l r : CTree} {i : NodeId}
    (hnd : (CTree.node c l i r).ids.Nodup) :
    i ∉ l.ids ∧ i ∉ r.ids ∧ l.ids.Nodup ∧ r.ids.Nodup := by
  have h0 : (CTree.node c l i r).ids = i :: (l.ids ++ r.ids) := rfl
  rw [h0] at hnd
  simp only [List.nodup_cons, List.mem_append, List.nodup_append] at hnd
  push_neg at hnd
  exact ⟨hnd.1.1, hnd.1.2, hnd.2.1, hnd.2.2.1⟩

theorem CTree.ldeep_node {c : Bool} {l r : CTree} {i d : NodeId}
    (hd : l.ldeep = some d) : (CTree.node c l i r).ldeep = some d := by
  simp [CTree.ldeep, hd]

theorem CTree.ldeep_node_right {c : Bool} {l r : CTree} {i d : NodeId}
    (hl : l.ldeep = none) (hd : r.ldeep = some d) :
    (CTree.node c l i r).ldeep = some d := by
  simp [CTree.ldeep, hl, hd]

/-- On a stored subtree, `c_rbnode_leftdeepest` reaches the abstract
left-deepest node, a childless node, and the `prev_postorder` climb from
there walks back up to the subtree root in as many steps. -/
theorem ldeep_spec (h : Heap) :
    ∀ (R : CTree) (q : NodeId),
      reprAt h R (Raw.node q) = true →
      R.ids.Nodup →
      R ≠ CTree.nil →
      ∃ d k qd rr, R.rootId = some rr ∧ R.ldeep = some d ∧ d ∈ R.ids ∧
        (h.mem d).left = none ∧ (h.mem d).right = none ∧
        (h.mem d).raw = Raw.node qd ∧ (h.mem d).rootFlag = false ∧
        (qd = q ∨ (qd ∈ R.ids ∧ qd ≠ d)) ∧
        k < R.ids.length ∧
        (∀ fuel, R.ids.length ≤ fuel → leftdeepestGo h fuel rr = some d) ∧
        (∀ fuel, prevPostGo h (fuel + k) d = prevPostGo h fuel rr) := by
  intro R
  induction R with
  | nil =>
      intro q _ _ hne
      exact absurd rfl hne
  | node c0 L rr R0 ihl ihr =>
      intro q hat hnd _
      rw [reprAt_node_iff] at hat
      obtain ⟨hraw, hflag, hred, hleft, hright, hatL, hatR⟩ := hat
      obtain ⟨hndrrL, hndrrR, hndL, hndR⟩ := nodup_node_parts hnd
      cases hL0 : L with
      | node cl la li lr =>
          subst hL0
          obtain ⟨d, k, qd, li2, hli2, hld, hdmem, hdl, hdr, hdraw, hdflag,
            hqd, hk, hgo, hclimb⟩ := ihl rr hatL hndL (by simp)
          have hli2' : li = li2 := by
            simpa [CTree.rootId] using hli2
          subst hli2'
          have hliraw : (h.mem li).raw = Raw.node rr := by
            rw [reprAt_node_iff] at hatL
            exact hatL.1
          refine ⟨d, k + 1, qd, rr, rfl, CTree.ldeep_node hld,
            CTree.mem_ids_left hdmem, hdl,
            hdr, hdraw, hdflag, ?_, ?_, ?_, ?_⟩
          · rcases hqd with hq | ⟨hqm, hqne⟩
            · subst hq
              exact Or.inr ⟨CTree.mem_ids_root,
                fun he2 => hndrrL (by rw [he2]; exact hdmem)⟩
            · exact Or.inr ⟨CTree.mem_ids_left hqm, hqne⟩
          · simp only [CTree.ids_length_node] at hk ⊢
            omega
          · intro fuel hfuel
            cases fuel with
            | zero =>
                simp only [CTree.ids_length_node, Nat.le_zero] at hfuel
                omega
            | succ f =>
                have hlen : (CTree.node cl la li lr).ids.length ≤ f := by
                  simp only [CTree.ids_length_node] at hfuel ⊢
                  omega
                simp only [leftdeepestGo, hleft, CTree.rootId]
                exact hgo f hlen
          · intro fuel
            have harith : fuel + (k + 1) = (fuel + 1) + k := by omega
            rw [harith, hclimb (fuel + 1)]
            simp [prevPostGo, c_rbnode_parent, c_rbnode_is_root, c_rbnode_raw,
              hliraw, Raw.asNode, hleft, CTree.rootId,
              (reprAt_node_iff.mp hatL).2.1]
      | nil =>
          subst hL0
          cases hR0 : R0 with
          | node cr ra ri rb =>
              subst hR0
              obtain ⟨d, k, qd, ri2, hri2, hld, hdmem, hdl, hdr, hdraw, hdflag,
                hqd, hk, hgo, hclimb⟩ := ihr rr hatR hndR (by simp)
              have hri2' : ri = ri2 := by
                simpa [CTree.rootId] using hri2
              subst hri2'
              have hriraw : (h.mem ri).raw = Raw.node rr := by
                rw [reprAt_node_iff] at hatR
                exact hatR.1
              refine ⟨d, k + 1, qd, rr, rfl, CTree.ldeep_node_right rfl hld,
                CTree.mem_ids_right hdmem,
                hdl, hdr, hdraw, hdflag, ?_, ?_, ?_, ?_⟩
              · rcases hqd with hq | ⟨hqm, hqne⟩
                · subst hq
                  exact Or.inr ⟨CTree.mem_ids_root,
                    fun he2 => hndrrR (by rw [he2]; exact hdmem)⟩
                · exact Or.inr ⟨CTree.mem_ids_right hqm, hqne⟩
              · simp only [CTree.ids_length_node] at hk ⊢
                omega
              · intro fuel hfuel
                cases fuel with
                | zero =>
                    simp only [CTree.ids_length_node, Nat.le_zero] at hfuel
                    omega
                | succ f =>
                    have hlen : (CTree.node cr ra ri rb).ids.length ≤ f := by
                      simp only [CTree.ids_length_node] at hfuel ⊢
                      omega
                    have h1 : (h.mem rr).left = none := by
                      simpa [CTree.rootId] using hleft
                    simp only [leftdeepestGo, h1, hright, CTree.rootId]
                    exact hgo f hlen
              · intro fuel
                have harith : fuel + (k + 1) = (fuel + 1) + k := by omega
                have h1 : (h.mem rr).left = none := by
                  simpa [CTree.rootId] using hleft
                rw [harith, hclimb (fuel + 1)]
                simp [prevPostGo, c_rbnode_parent, c_rbnode_is_root,
                  c_rbnode_raw, hriraw, Raw.asNode, h1,
                  (reprAt_node_iff.mp hatR).2.1]
          | nil =>
              subst hR0
              refine ⟨rr, 0, q, rr, rfl, by simp [CTree.ldeep],
                by simp [CTree.ids], ?_, ?_, hraw, ?_, Or.inl rfl,
                by simp [CTree.ids], ?_, ?_⟩
              · simpa [CTree.rootId] using hleft
              · simpa [CTree.rootId] using hright
              · simpa using hflag
              · intro fuel hfuel
                cases fuel with
                | zero => simp [CTree.ids] at hfuel
                | succ f =>
                    have h1 : (h.mem rr).left = none := by
                      simpa [CTree.rootId] using hleft
                    have h2 : (h.mem rr).right = none := by
                      simpa [CTree.rootId] using hright
                    simp [leftdeepestGo, h1, h2]
              · intro fuel
                rfl

/-- A stored node whose upward word is the parent word of some context
slot, and which does not collide with the context, is linked. -/
theorem is_linked_of_upOf {h : Heap} {x : NodeId} {ctx : List Frame}
    (hraw : (h.mem x).raw = upOf ctx) (hx : x ∉ ctxIds ctx) :
    c_rbnode_is_linked h (some x) = true := by
  cases ctx with
  | nil => simp [c_rbnode_is_linked, c_rbnode_raw, hraw, upOf]
  | cons f2 ctx4 =>
      have hne : f2.id ≠ x := fun he => hx (by simp [ctxIds, he])
      simp [c_rbnode_is_linked, c_rbnode_raw, hraw, upOf, hne]

/-- C5: postorder duality.  For every node `i` stored in a well-formed
tree whose `next_postorder` is a node `j` (not empty), `prev_postorder`
of `j` is `i` again, given enough fuel for the traversal loops. -/
theorem C5_postorder_duality (h : Heap) (t : CTree) (i j : NodeId)
    (fuel : Nat) (hrep : reprTree h t) (hmem : i ∈ t.ids)
    (hfuel : t.ids.length + 1 ≤ fuel)
    (hnext : c_rbnode_next_postorder h fuel (some i) = some (some j)) :
    c_rbnode_prev_postorder h fuel (some j) = some (some i) := by
  obtain ⟨ctx, c, L, R, rfl⟩ := exists_ctx_of_mem_ids hmem
  obtain ⟨hroot, hatp, hnd⟩ := hrep
  obtain ⟨hctxR, hats⟩ := (repr_plug_iff h ctx _).mp ⟨hroot, hatp⟩
  rw [reprAt_node_iff] at hats
  obtain ⟨hiraw, hiflag, hired, hileft, hiright, hatL, hatR⟩ := hats
  have hndflat := (List.Perm.nodup_iff (plug_ids_perm _ _)).mp hnd
  rw [List.nodup_append] at hndflat
  obtain ⟨hndsub, hndctx, hdisj⟩ := hndflat
  have hinotctx : i ∉ ctxIds ctx := hdisj CTree.mem_ids_root
  have hlinked : c_rbnode_is_linked h (some i) = true :=
    is_linked_of_upOf hiraw hinotctx
  have hpar := parent_eq_of_upOf hiraw hiflag
  cases ctx with
  | nil =>
      rw [List.head?_nil, Option.map_none'] at hpar
      rw [c_rbnode_next_postorder] at hnext
      simp [hlinked, hpar] at hnext
  | cons f ctx3 =>
      obtain ⟨fIsR, fRed, fId, fSib⟩ := f
      rw [List.head?_cons, Option.map_some'] at hpar
      rw [reprCtx_cons_iff] at hctxR
      obtain ⟨hpraw, hpflag, hpred, hpleft, hpright, hfsib, hctxR3⟩ := hctxR
      simp only at hpraw hpflag hpred hpleft hpright hfsib hctxR3 hpar
      simp only [ctxIds, List.nodup_cons, List.mem_append] at hndctx
      push_neg at hndctx
      obtain ⟨⟨hfsibne, hfctx3⟩, hndrest⟩ := hndctx
      rw [List.nodup_append] at hndrest
      obtain ⟨hndsib, hndctx3, hdis2⟩ := hndrest
      have hinotsib : i ∉ fSib.ids := fun hm =>
        hinotctx (by simp [ctxIds, hm])
      have hlen := (plug_ids_perm
        ((⟨fIsR, fRed, fId, fSib⟩ : Frame) :: ctx3)
        (CTree.node c L i R)).length_eq
      simp only [List.length_append, ctxIds, List.length_cons] at hlen
      have hlinkedp : c_rbnode_is_linked h (some fId) = true :=
        is_linked_of_upOf hpraw hfctx3
      cases hfr : fIsR with
      | false =>
          rw [hfr] at hpleft hpright
          simp only [Bool.false_eq_true, if_false, CTree.rootId]
            at hpleft hpright
          cases hsibc : fSib with
          | node cs sl si0 sr =>
              subst hsibc
              obtain ⟨d, k, qd, rr, hrrid, hld, hdmem, hdl, hdr, hdraw,
                hdflag, hqd, hk, hgo, hclimb⟩ :=
                ldeep_spec h (CTree.node cs sl si0 sr) fId hfsib hndsib
                  (by simp)
              have hrr : si0 = rr := by
                simpa [CTree.rootId] using hrrid
              subst hrr
              have hsibfuel : (CTree.node cs sl si0 sr).ids.length ≤ fuel := by
                omega
              have hnexteval : c_rbnode_next_postorder h fuel (some i) =
                  (leftdeepestGo h fuel si0).map some := by
                rw [c_rbnode_next_postorder]
                simp [hlinked, hpar, hpright, hrrid, hpleft,
                  c_rbnode_leftdeepest]
              rw [hnexteval, hgo fuel hsibfuel] at hnext
              simp only [Option.map_some', Option.some.injEq] at hnext
              subst hnext
              have hlinkd : c_rbnode_is_linked h (some d) = true := by
                have hqdne : qd ≠ d := by
                  rcases hqd with hq | ⟨_, hqne⟩
                  · subst hq
                    exact fun he => hfsibne (he ▸ hdmem)
                  · exact hqne
                simp [c_rbnode_is_linked, c_rbnode_raw, hdraw, hqdne]
              rw [c_rbnode_prev_postorder]
              simp only [hlinkd, Bool.not_true, Bool.false_eq_true, if_false,
                hdr, hdl]
              have hfk : fuel = (fuel - k) + k := by omega
              rw [hfk, hclimb (fuel - k)]
              obtain ⟨f0, hf0⟩ : ∃ f0, fuel - k = f0 + 1 :=
                ⟨fuel - k - 1, by omega⟩
              rw [hf0]
              have hroots := reprAt_node_iff.mp hfsib
              have hine2 : i ≠ si0 := by
                intro he
                exact hinotsib (he ▸ CTree.mem_ids_root)
              simp [prevPostGo, c_rbnode_parent, c_rbnode_is_root,
                c_rbnode_raw, hroots.1, hroots.2.1, Raw.asNode, hpleft,
                hine2.symm]
              intro he
              exact absurd he hine2
          | nil =>
              subst hsibc
              simp only [CTree.rootId] at hpright
              rw [c_rbnode_next_postorder] at hnext
              simp only [hlinked, Bool.not_true, Bool.false_eq_true, if_false,
                hpar, hpright, Option.some.injEq] at hnext
              subst hnext
              rw [c_rbnode_prev_postorder]
              simp [hlinkedp, hpright, hpleft]
      | true =>
          rw [hfr] at hpleft hpright
          simp only [if_true, CTree.rootId] at hpleft hpright
          have hne : fSib.rootId ≠ some i := rootId_ne hinotsib
          rw [c_rbnode_next_postorder] at hnext
          simp only [hlinked, Bool.not_true, Bool.false_eq_true, if_false,
            hpar, hpright, hpleft, Option.some.injEq] at hnext
          rw [if_neg (fun he => hne he.symm)] at hnext
          simp only [Option.some.injEq] at hnext
          subst hnext
          rw [c_rbnode_prev_postorder]
          simp [hlinkedp, hpright]

/-- Two-node tree for the postorder-duality witness: black root `0` with
a red left child `1`. -/
def hTwoC5 : Heap :=
  { mem := fun j =>
      if j = 0 then ⟨Raw.tree, false, true, some 1, none⟩
      else if j = 1 then ⟨Raw.node 0, true, false, none, none⟩
      else ⟨Raw.null, false, false, none, none⟩,
    root := some 0 }

theorem C5_postorder_duality_witness :
    c_rbnode_prev_postorder hTwoC5 3 (some 0) = some (some 1) :=
  C5_postorder_duality hTwoC5
    (CTree.node false (CTree.node true CTree.nil 1 CTree.nil) 0 CTree.nil)
    1 0 3 ⟨rfl, by decide, by decide⟩ (by decide) (by decide) (by decide)
